import Mathlib

/-!
The njs virtual machine: property protocol.

A shallow embedding of the property operations of `njs/njs_vm.c`
(`njs_property_query`, `njs_array_property_query`, `njs_object_property_query`,
`njs_function_private_copy`, `njs_vmcode_property_get/set/in/delete`,
`njs_vmcode_property_each_start/each`) together with the part of the data
model they act on.

Conventions of the embedding.

* Pointers to heap records (`njs_object_t *`, `njs_array_t *`,
  `njs_function_t *`) are addresses, natural numbers indexing `vm.heap`.
  The address of `vm->prototypes[i]` is `i`.
* An operation returns `Option (njs_ret_t × njs_vm_t)`.  The result `none`
  stands for an execution on which the C code has no defined result: a read
  through a pointer that addresses no record of the expected kind, a call
  through a value payload that is not a getter, or a prototype walk that
  never ends.
* Code that is not part of `njs_vm.c` but is called from it (value
  conversions, native getters, the callbacks of external objects) is collected
  in `njs_host_t` and passed as a parameter.
-/

namespace Njs

/-! ## Return codes -/

/-- The C type `njs_ret_t`, a signed machine integer. -/
abbrev njs_ret_t := Int

/-- The constant `NXT_OK` of `nxt_stub.h`. -/
def NXT_OK : njs_ret_t := 0
/-- The constant `NXT_ERROR` of `nxt_stub.h`. -/
def NXT_ERROR : njs_ret_t := -1
/-- The constant `NXT_AGAIN` of `nxt_stub.h`. -/
def NXT_AGAIN : njs_ret_t := -2
/-- The constant `NXT_DECLINED` of `nxt_stub.h`. -/
def NXT_DECLINED : njs_ret_t := -3
/-- The constant `NXT_DONE` of `nxt_stub.h`. -/
def NXT_DONE : njs_ret_t := -4

/-- The constant `NJS_PRIMITIVE_VALUE` (`#define NJS_PRIMITIVE_VALUE 1`). -/
def NJS_PRIMITIVE_VALUE : njs_ret_t := 1
/-- The constant `NJS_STRING_VALUE` (`#define NJS_STRING_VALUE 2`). -/
def NJS_STRING_VALUE : njs_ret_t := 2
/-- The constant `NJS_ARRAY_VALUE` (`#define NJS_ARRAY_VALUE 3`). -/
def NJS_ARRAY_VALUE : njs_ret_t := 3
/-- The constant `NJS_EXTERNAL_VALUE` (`#define NJS_EXTERNAL_VALUE 4`). -/
def NJS_EXTERNAL_VALUE : njs_ret_t := 4

/-- The trap code `NJS_TRAP_PROPERTY` of `njs_vm.h`; it is the lowest trap code
(`NJS_TRAP_LAST`, the first row of `njs_vm_traps`). -/
def NJS_TRAP_PROPERTY : njs_ret_t := -9

/-- The constant `NJS_PROPERTY_QUERY_GET` (`#define NJS_PROPERTY_QUERY_GET 0`). -/
def NJS_PROPERTY_QUERY_GET : Nat := 0
/-- The constant `NJS_PROPERTY_QUERY_IN` (`#define NJS_PROPERTY_QUERY_IN 1`). -/
def NJS_PROPERTY_QUERY_IN : Nat := 1
/-- The constant `NJS_PROPERTY_QUERY_SET` (`#define NJS_PROPERTY_QUERY_SET 2`). -/
def NJS_PROPERTY_QUERY_SET : Nat := 2
/-- The constant `NJS_PROPERTY_QUERY_DELETE` (`#define NJS_PROPERTY_QUERY_DELETE 3`). -/
def NJS_PROPERTY_QUERY_DELETE : Nat := 3

/-- The byte sizes of the instruction layouts that the property operations
return as their bytecode advance (`sizeof(njs_vmcode_prop_get_t)` and so on).
The structures are declared in `njs_vm.h`; their sizes are parameters here. -/
structure njs_vmcode_sizes where
  prop_get : Int
  prop_set : Int
  addr3 : Int
  prop_each : Int
  deriving DecidableEq, Repr

/-! ## Values -/

/-- A C `double`: not-a-number, the two infinities, or a finite number, which
is kept exactly as a rational. -/
inductive njs_double where
  | nan
  | inf (negative : Bool)
  | fin (q : ℚ)
  deriving DecidableEq, Repr

/-- The C cast `(int) num` as compiled for the targets named in the source
(AMD64, ARM): truncation toward zero when the result fits in 32 bits; a value
out of range, an infinity or a NaN gives `INT_MIN` (the C standard leaves these
undefined). -/
def njs_double_to_int : njs_double → Int
  | .fin q =>
    let t := Int.tdiv q.num q.den
    if -2147483648 ≤ t ∧ t < 2147483648 then t else -2147483648
  | _ => -2147483648

/-- The comparison `(double) index == num`. -/
def njs_double_eq_int (num : njs_double) (index : Int) : Bool :=
  decide (num = .fin (Rat.ofInt index))

/-- Modelled from the spec: the value tags of `njs_value_type_t` (`njs_vm.h`),
as listed in the data model: Null, Undefined, Boolean, Number, String, Object,
Array, Function, RegExp, NativeFunction, External, Invalid. -/
inductive njs_value_type_t where
  | NJS_NULL
  | NJS_VOID
  | NJS_BOOLEAN
  | NJS_NUMBER
  | NJS_STRING
  | NJS_NATIVE
  | NJS_EXTERNAL
  | NJS_INVALID
  | NJS_OBJECT
  | NJS_ARRAY
  | NJS_FUNCTION
  | NJS_REGEXP
  deriving DecidableEq, Repr

open njs_value_type_t

/-- A string payload: its bytes (`start`, `size` bytes long) and its length in
code points.  The short (inline) and the long (pointer) layout hold the same
three things. -/
structure njs_string_t where
  start : List Nat
  length : Nat
  deriving DecidableEq, Repr

/-- The payload union `data.u` of a value, with the string layouts. -/
inductive njs_value_data where
  | number (n : njs_double)
  | string (s : njs_string_t)
  | object (p : Nat)
  | external (e : Nat)
  | getter (g : Nat)
  | data (d : Nat)
  deriving DecidableEq, Repr

/-- The value cell `njs_value_t`: tag, truth bit and payload. -/
structure njs_value_t where
  type : njs_value_type_t
  truth : Bool
  u : njs_value_data
  deriving DecidableEq, Repr

/-- The constant `njs_value(NJS_NULL, 0, 0.0)`. -/
def njs_value_null : njs_value_t := ⟨NJS_NULL, false, .number (.fin 0)⟩
/-- The constant `njs_value(NJS_VOID, 0, NJS_NAN)`. -/
def njs_value_void : njs_value_t := ⟨NJS_VOID, false, .number .nan⟩
/-- The constant `njs_value(NJS_BOOLEAN, 0, 0.0)`. -/
def njs_value_false : njs_value_t := ⟨NJS_BOOLEAN, false, .number (.fin 0)⟩
/-- The constant `njs_value(NJS_BOOLEAN, 1, 1.0)`. -/
def njs_value_true : njs_value_t := ⟨NJS_BOOLEAN, true, .number (.fin 1)⟩

/-- The initialiser `njs_string("...")` for a text of one-byte characters. -/
def njs_string (s : String) : njs_value_t :=
  ⟨NJS_STRING, !s.data.isEmpty, .string ⟨s.data.map Char.toNat, s.data.length⟩⟩

/-- The constant `njs_exception_type_error`, the string TypeError. -/
def njs_exception_type_error : njs_value_t := njs_string "TypeError"

/-- Modelled from the spec: the macro `njs_is_null_or_void_or_boolean` of
`njs_vm.h`. -/
def njs_is_null_or_void_or_boolean (v : njs_value_t) : Bool :=
  match v.type with
  | NJS_NULL | NJS_VOID | NJS_BOOLEAN => true
  | _ => false

/-- Modelled from the spec: the macro `njs_is_primitive` of `njs_vm.h`; the
primitive tags are Null, Undefined, Boolean, Number and String. -/
def njs_is_primitive (v : njs_value_t) : Bool :=
  match v.type with
  | NJS_NULL | NJS_VOID | NJS_BOOLEAN | NJS_NUMBER | NJS_STRING => true
  | _ => false

/-- Modelled from the spec: the macro `njs_is_object` of `njs_vm.h`; the tags
with a heap record are Object, Array, Function and RegExp. -/
def njs_is_object (v : njs_value_t) : Bool :=
  match v.type with
  | NJS_OBJECT | NJS_ARRAY | NJS_FUNCTION | NJS_REGEXP => true
  | _ => false

/-- The macro `njs_is_string`. -/
def njs_is_string (v : njs_value_t) : Bool := decide (v.type = NJS_STRING)
/-- The macro `njs_is_array`. -/
def njs_is_array (v : njs_value_t) : Bool := decide (v.type = NJS_ARRAY)
/-- The macro `njs_is_external`. -/
def njs_is_external (v : njs_value_t) : Bool := decide (v.type = NJS_EXTERNAL)
/-- The macro `njs_is_valid`. -/
def njs_is_valid (v : njs_value_t) : Bool := decide (v.type ≠ NJS_INVALID)

/-- The macro `njs_set_invalid`: only the tag is written. -/
def njs_set_invalid (v : njs_value_t) : njs_value_t := { v with type := NJS_INVALID }

/-- Modelled from the spec: the macro `njs_is_number_true` of `njs_number.h`, the truth bit
of a number: false for zero and for NaN. -/
def njs_is_number_true : njs_double → Bool
  | .nan => false
  | .inf _ => true
  | .fin q => decide (q ≠ 0)

/-- The function `njs_number_set` of `njs_vm.c` for a double: number, tag and truth bit are
written. -/
def njs_number_set_double (num : njs_double) : njs_value_t :=
  ⟨NJS_NUMBER, njs_is_number_true num, .number num⟩

/-- The function `njs_number_set` of `njs_vm.c` applied to an unsigned integer, the index `n`
of `njs_vmcode_property_each`, which C converts to the double of the same value. -/
def njs_number_set (n : Nat) : njs_value_t := njs_number_set_double (.fin (Rat.ofInt n))

/-! ## Property records and tables -/

/-- The kinds of a property record. -/
inductive njs_object_property_type_t where
  | NJS_PROPERTY
  | NJS_NATIVE_GETTER
  | NJS_METHOD
  | NJS_WHITEOUT
  deriving DecidableEq, Repr

open njs_object_property_type_t

/-- The property record `njs_object_prop_t`. -/
structure njs_object_prop_t where
  name : njs_value_t
  value : njs_value_t
  type : njs_object_property_type_t
  enumerable : Bool
  writable : Bool
  configurable : Bool
  deriving DecidableEq, Repr

/-- The bytes of a string value (`key.data`, `key.len`), as
`njs_property_query` reads them from the short or the long layout. -/
def njs_string_bytes (v : njs_value_t) : List Nat :=
  match v.u with
  | .string s => s.start
  | _ => []

/-- Modelled from the spec: the leveled hash `nxt_lvlhsh_t` (`nxt_lvlhsh.c` is
not part of the sources), a finite map from a name to a property record.  The
records are kept in a list; the record of a name is the first one that carries
it. -/
abbrev nxt_lvlhsh_t := List njs_object_prop_t

/-- Modelled from the spec: `nxt_lvlhsh_find` with `njs_object_hash_proto`,
which compares the key with the bytes of the record's name. -/
def nxt_lvlhsh_find (h : nxt_lvlhsh_t) (key : List Nat) : Option njs_object_prop_t :=
  h.find? (fun p => decide (njs_string_bytes p.name = key))

/-- Modelled from the spec: `nxt_lvlhsh_delete`; no record of the name is left
in the table. -/
def nxt_lvlhsh_delete (h : nxt_lvlhsh_t) (key : List Nat) : nxt_lvlhsh_t :=
  h.filter (fun p => !decide (njs_string_bytes p.name = key))

/-- The hash storage after the record that `lhq.value` points to has been
written through the pointer: the first record of the name is replaced. -/
def nxt_lvlhsh_store (key : List Nat) (f : njs_object_prop_t → njs_object_prop_t) :
    nxt_lvlhsh_t → nxt_lvlhsh_t
  | [] => []
  | p :: h =>
    if njs_string_bytes p.name = key then f p :: h
    else p :: nxt_lvlhsh_store key f h

/-! ## Heap records -/

/-- The record `njs_object_t`: own table, shared table and prototype link
(`none` is `NULL`). -/
structure njs_object_t where
  hash : nxt_lvlhsh_t
  shared_hash : nxt_lvlhsh_t
  __proto__ : Option Nat
  deriving DecidableEq, Repr

/-- The record `njs_array_t`: the object header, the number of slots `size`,
the logical `length`, and the slots `start[0 .. size)`. -/
structure njs_array_t where
  object : njs_object_t
  size : Nat
  length : Nat
  start : List njs_value_t
  deriving DecidableEq, Repr

/-- The record `njs_function_t`: the object header and the function
descriptor. -/
structure njs_function_t where
  object : njs_object_t
  native : Bool
  args_offset : Nat
  u : Nat
  deriving DecidableEq, Repr

/-- A heap record; every kind starts with an `njs_object_t` header, which is
what `value->data.u.object` reads. -/
inductive njs_heap_cell where
  | object (o : njs_object_t)
  | array (a : njs_array_t)
  | function (f : njs_function_t)
  | regexp (o : njs_object_t) (pattern : Nat)
  deriving DecidableEq, Repr

/-- The `njs_object_t` header of a heap record. -/
def njs_heap_cell.header : njs_heap_cell → njs_object_t
  | .object o => o
  | .array a => a.object
  | .function f => f.object
  | .regexp o _ => o

/-- A heap record with its header replaced. -/
def njs_heap_cell.set_header (o : njs_object_t) : njs_heap_cell → njs_heap_cell
  | .object _ => .object o
  | .array a => .array { a with object := o }
  | .function f => .function { f with object := o }
  | .regexp _ r => .regexp o r

/-- The descriptor `njs_extern_t` of an external object, without its sub-table
and callbacks, which the host interprets. -/
structure njs_extern_t where
  type : Nat
  value : njs_value_t
  data : Nat
  object : Nat
  each_start : Bool
  each : Bool
  deriving DecidableEq, Repr

/-- The flag bit `NJS_EXTERN_OBJECT` of `njs_extern_t.type`. -/
def NJS_EXTERN_OBJECT : Nat := 0x100
/-- The type `NJS_EXTERN_CASELESS_OBJECT` of a case-insensitive external. -/
def NJS_EXTERN_CASELESS_OBJECT : Nat := 0x101

/-- The iterator `njs_property_each_t`: the array index (an `int32_t`) and the
position `lhe` in the own table. -/
structure njs_property_each_t where
  index : Int
  lhe : Nat
  deriving DecidableEq, Repr

/-- The part of `njs_vm_t` that the property operations read and write.
`mem_cache_pool` lists the outcomes of the coming pool allocations (`true`:
the allocation succeeds); an empty list is an exhausted pool.  `each` holds the
iterators allocated by `njs_vmcode_property_each_start` (`none`: freed). -/
structure njs_vm_t where
  retval : njs_value_t
  exception : Option njs_value_t
  heap : List njs_heap_cell
  externals : List njs_extern_t
  each : List (Option njs_property_each_t)
  mem_cache_pool : List Bool
  deriving DecidableEq, Repr

/-- The index `NJS_PROTOTYPE_OBJECT` into `vm->prototypes`. -/
def NJS_PROTOTYPE_OBJECT : Nat := 0
/-- The index `NJS_PROTOTYPE_ARRAY` into `vm->prototypes`. -/
def NJS_PROTOTYPE_ARRAY : Nat := 1
/-- The index `NJS_PROTOTYPE_BOOLEAN` into `vm->prototypes`. -/
def NJS_PROTOTYPE_BOOLEAN : Nat := 2
/-- The index `NJS_PROTOTYPE_NUMBER` into `vm->prototypes`. -/
def NJS_PROTOTYPE_NUMBER : Nat := 3
/-- The index `NJS_PROTOTYPE_STRING` into `vm->prototypes`. -/
def NJS_PROTOTYPE_STRING : Nat := 4
/-- The index `NJS_PROTOTYPE_FUNCTION` into `vm->prototypes`. -/
def NJS_PROTOTYPE_FUNCTION : Nat := 5
/-- The index `NJS_PROTOTYPE_REGEXP` into `vm->prototypes`. -/
def NJS_PROTOTYPE_REGEXP : Nat := 6

/-- Modelled from the spec: the macro `njs_primitive_prototype_index` of
`njs_vm.h`, the prototype of a primitive tag. -/
def njs_primitive_prototype_index : njs_value_type_t → Nat
  | NJS_BOOLEAN => NJS_PROTOTYPE_BOOLEAN
  | NJS_NUMBER => NJS_PROTOTYPE_NUMBER
  | _ => NJS_PROTOTYPE_STRING

/-- The `njs_object_t` header at an address. -/
def njs_object_at (heap : List njs_heap_cell) (p : Nat) : Option njs_object_t :=
  (heap[p]?).map njs_heap_cell.header

/-- The `njs_array_t` record at an address. -/
def njs_array_at (heap : List njs_heap_cell) (p : Nat) : Option njs_array_t :=
  match heap[p]? with
  | some (.array a) => some a
  | _ => none

/-- The `njs_function_t` record at an address. -/
def njs_function_at (heap : List njs_heap_cell) (p : Nat) : Option njs_function_t :=
  match heap[p]? with
  | some (.function f) => some f
  | _ => none

/-- The heap after the header at an address has been written. -/
def njs_heap_set_header (heap : List njs_heap_cell) (p : Nat) (o : njs_object_t) :
    List njs_heap_cell :=
  match heap[p]? with
  | some c => heap.set p (c.set_header o)
  | none => heap

/-- The allocator `nxt_mem_cache_alloc`: the outcome of the next pool allocation and the
pool afterwards. -/
def nxt_mem_cache_alloc (pool : List Bool) : Bool × List Bool :=
  match pool with
  | [] => (false, [])
  | b :: rest => (b, rest)

/-- The conversion `(uint32_t) i` of a signed integer. -/
def njs_uint32 (i : Int) : Nat := (i % 4294967296).toNat

/-- The value of an `int32_t` variable after a result `i` is stored in it
(two's complement wrap-around). -/
def njs_int32 (i : Int) : Int := (i + 2147483648) % 4294967296 - 2147483648

/-! ## The property query -/

/-- The pointer `lhq.value` left by a query: `NULL`, a property record (the
record of the queried name in the own or the shared table of an object), an
array slot, or an external descriptor. -/
inductive njs_lhq_value where
  | null
  | prop (object : Nat) (shared : Bool)
  | slot (array : Nat) (index : Nat)
  | ext (e : Nat)
  deriving DecidableEq, Repr

/-- The structure `njs_property_query_t`; `lhq_key`, `lhq_key_hash` and
`lhq_value` are the fields `lhq.key`, `lhq.key_hash` and `lhq.value`. -/
structure njs_property_query_t where
  lhq_key : List Nat
  lhq_key_hash : Nat
  lhq_value : njs_lhq_value
  value : njs_value_t
  prototype : Nat
  query : Nat
  shared : Bool
  deriving DecidableEq, Repr

/-- The query structure as the property operations set it up: only `query` is
initialised. -/
def njs_property_query_init (query : Nat) : njs_property_query_t :=
  ⟨[], 0, .null, njs_value_void, 0, query, false⟩

/-- The argument `data` handed to the callbacks of an external object: the
word `ext->data` or the address of the key `&pq.lhq.key`. -/
inductive njs_extern_data where
  | word (d : Nat)
  | key (k : List Nat)
  deriving DecidableEq, Repr

/-- The code outside `njs_vm.c` that the property operations call.
`njs_value_to_string` gives the string of a primitive value, or `none` when it
returns `NXT_ERROR`; `getter g` is the native getter at the code address `g`;
`njs_extern_hash_find e` is `nxt_lvlhsh_find` on the sub-table of the external
descriptor at address `e`. -/
structure njs_host_t where
  njs_value_to_number : njs_value_t → njs_double
  njs_value_to_string : njs_value_t → Option njs_value_t
  njs_string_slice : njs_value_t → Int → njs_value_t
  nxt_djb_hash : List Nat → Nat
  nxt_djb_hash_lowcase : List Nat → Nat
  getter : Nat → njs_vm_t → njs_value_t → njs_ret_t × njs_vm_t
  njs_extern_hash_find : Nat → Nat → List Nat → Option Nat
  njs_value_to_ext_string : njs_value_t → njs_ret_t × List Nat
  ext_get : njs_extern_t → njs_vm_t → njs_extern_data → njs_ret_t × njs_vm_t
  ext_set : njs_extern_t → njs_vm_t → njs_extern_data → List Nat → njs_ret_t × njs_vm_t
  ext_find : njs_extern_t → njs_vm_t → njs_extern_data → Bool → njs_ret_t × njs_vm_t
  ext_each_start : njs_extern_t → njs_vm_t → njs_ret_t × njs_vm_t
  ext_each : njs_extern_t → njs_vm_t → njs_value_t → njs_ret_t × njs_vm_t

/-- The property record that a pointer `prop (object, shared)` addresses for
a key. -/
def njs_prop_at (heap : List njs_heap_cell) (key : List Nat) (object : Nat) (shared : Bool) :
    Option njs_object_prop_t :=
  match njs_object_at heap object with
  | none => none
  | some o => nxt_lvlhsh_find (if shared then o.shared_hash else o.hash) key

/-- The value that a pointer `slot (array, index)` addresses. -/
def njs_slot_at (heap : List njs_heap_cell) (array index : Nat) : Option njs_value_t :=
  match njs_array_at heap array with
  | none => none
  | some a => a.start[index]?

/-- The heap after a store through a pointer `slot (array, index)`. -/
def njs_slot_store (heap : List njs_heap_cell) (array index : Nat) (v : njs_value_t) :
    Option (List njs_heap_cell) :=
  match njs_array_at heap array with
  | none => none
  | some a =>
    if index < a.start.length then
      some (heap.set array (.array { a with start := a.start.set index v }))
    else none

/-- Modelled from the spec: `njs_array_realloc` (`njs_array.c` is not part of
the sources) for `prepend = 0`: the slots are reallocated with a size grown
past the requested index, the used slots are kept and the new ones are Invalid.
The result is `none` when the pool allocation fails. -/
def njs_array_realloc (pool : List Bool) (array : njs_array_t) (index : Nat) :
    Option njs_array_t × List Bool :=
  match nxt_mem_cache_alloc pool with
  | (false, pool1) => (none, pool1)
  | (true, pool1) =>
    let size := 2 * (index + 1)
    (some { array with
            size := size,
            start := array.start.take array.size ++
              List.replicate (size - array.size) (njs_set_invalid njs_value_void) }, pool1)

/-- The function `njs_array_property_query`. -/
def njs_array_property_query (vm : njs_vm_t) (pq : njs_property_query_t)
    (object : njs_value_t) (index : Int) :
    Option (njs_ret_t × njs_vm_t × njs_property_query_t) :=
  match object.u with
  | .object p =>
    match njs_array_at vm.heap p with
    | none => none
    | some array =>
      if njs_uint32 index ≥ array.length then
        if pq.query ≠ NJS_PROPERTY_QUERY_SET then
          some (NXT_DECLINED, vm, pq)
        else if njs_uint32 index ≥ array.size then
          match njs_array_realloc vm.mem_cache_pool array (njs_uint32 index) with
          | (none, pool) => some (NXT_ERROR, { vm with mem_cache_pool := pool }, pq)
          | (some array1, pool) =>
            some (NJS_ARRAY_VALUE,
              { vm with
                mem_cache_pool := pool,
                heap := vm.heap.set p (.array { array1 with length := njs_uint32 (index + 1) }) },
              { pq with lhq_value := .slot p (njs_uint32 index) })
        else
          some (NJS_ARRAY_VALUE,
            { vm with heap := vm.heap.set p (.array { array with length := njs_uint32 (index + 1) }) },
            { pq with lhq_value := .slot p (njs_uint32 index) })
      else
        some (NJS_ARRAY_VALUE, vm, { pq with lhq_value := .slot p (njs_uint32 index) })
  | _ => none

/-- The outcome of one turn of the loop of `njs_object_property_query`: the
function returns (`done`), or control reaches the label `next` with the code
of the last lookup in `ret`. -/
inductive njs_walk_t where
  | done (ret : njs_ret_t) (pq : njs_property_query_t)
  | next (ret : njs_ret_t) (pq : njs_property_query_t)
  deriving DecidableEq, Repr

/-- The body of the loop of `njs_object_property_query` for the object `obj`
at address `object`, up to the label `next`. -/
def njs_object_property_query_turn (obj : njs_object_t) (pq : njs_property_query_t)
    (object : Nat) : njs_walk_t :=
  let pq := { pq with prototype := object }
  match nxt_lvlhsh_find obj.hash pq.lhq_key with
  | some prop =>
    let pq := { pq with lhq_value := .prop object false }
    if prop.type ≠ NJS_WHITEOUT then
      .done NXT_OK { pq with shared := false }
    else
      .next NXT_OK pq
  | none =>
    if pq.query > NJS_PROPERTY_QUERY_IN then
      .done NXT_DECLINED pq
    else
      match nxt_lvlhsh_find obj.shared_hash pq.lhq_key with
      | some prop =>
        let pq := { pq with lhq_value := .prop object true, shared := true }
        if pq.query = NJS_PROPERTY_QUERY_IN ∧ prop.type = NJS_WHITEOUT then
          .done NXT_DECLINED pq
        else
          .done NXT_OK pq
      | none =>
        if pq.query > NJS_PROPERTY_QUERY_IN then
          .done NXT_DECLINED pq
        else
          .next NXT_DECLINED pq

/-- The loop of `njs_object_property_query`, entered at the object at address
`object`, and the code after it; every turn of the loop takes one unit of
`fuel`. -/
def njs_object_property_query_loop (heap : List njs_heap_cell) (value : njs_value_t) :
    Nat → njs_property_query_t → Nat → Option (njs_ret_t × njs_property_query_t)
  | 0, _, _ => none
  | fuel + 1, pq, object =>
    match njs_object_at heap object with
    | none => none
    | some obj =>
      match njs_object_property_query_turn obj pq object with
      | .done ret pq => some (ret, pq)
      | .next ret pq =>
        match obj.__proto__ with
        | some proto => njs_object_property_query_loop heap value fuel pq proto
        | none =>
          if njs_is_string value then some (NJS_STRING_VALUE, pq) else some (ret, pq)

/-- The function `njs_object_property_query`.  A walk that has taken as many
turns as the heap has records without leaving has entered a cycle of the
prototype links and never ends; the result is then `none`. -/
def njs_object_property_query (vm : njs_vm_t) (pq : njs_property_query_t)
    (value : njs_value_t) (object : Nat) : Option (njs_ret_t × njs_property_query_t) :=
  njs_object_property_query_loop vm.heap value vm.heap.length pq object

/-- The part of `njs_property_query` after the `switch`: the name is converted
to a string, the key is hashed, and the query goes on to the external or the
object path (`obj = none` is `obj == NULL`). -/
def njs_property_query_key (host : njs_host_t) (vm : njs_vm_t) (pq : njs_property_query_t)
    (object property : njs_value_t) (hash : List Nat → Nat) (obj : Option Nat) :
    Option (njs_ret_t × njs_vm_t × njs_property_query_t) :=
  if njs_is_primitive property then
    match host.njs_value_to_string property with
    | some name =>
      let pq := { pq with value := name,
                          lhq_key := njs_string_bytes name,
                          lhq_key_hash := hash (njs_string_bytes name) }
      match obj with
      | none => some (NJS_EXTERNAL_VALUE, vm, pq)
      | some o =>
        (njs_object_property_query vm pq object o).map (fun r => (r.1, vm, r.2))
    | none => some (NXT_ERROR, vm, pq)
  else
    some (NJS_TRAP_PROPERTY, vm, pq)

/-- The pointer `object->data.u.object` of a value whose payload is a heap
address. -/
def njs_value_object (v : njs_value_t) : Option Nat :=
  match v.u with
  | .object p => some p
  | _ => none

/-- The function `njs_property_query`. -/
def njs_property_query (host : njs_host_t) (vm : njs_vm_t) (pq : njs_property_query_t)
    (object property : njs_value_t) : Option (njs_ret_t × njs_vm_t × njs_property_query_t) :=
  let generic : Option (njs_ret_t × njs_vm_t × njs_property_query_t) :=
    match njs_value_object object with
    | none => none
    | some p => njs_property_query_key host vm pq object property host.nxt_djb_hash (some p)
  match object.type with
  | NJS_BOOLEAN | NJS_NUMBER =>
    if pq.query ≠ NJS_PROPERTY_QUERY_GET then
      some (NJS_PRIMITIVE_VALUE, vm, pq)
    else
      njs_property_query_key host vm pq object property host.nxt_djb_hash
        (some (njs_primitive_prototype_index object.type))
  | NJS_STRING =>
    if pq.query = NJS_PROPERTY_QUERY_DELETE then
      some (NXT_DECLINED, vm, pq)
    else
      njs_property_query_key host vm pq object property host.nxt_djb_hash
        (some NJS_PROTOTYPE_STRING)
  | NJS_ARRAY =>
    if !njs_is_null_or_void_or_boolean property then
      if njs_is_primitive property then
        let num := host.njs_value_to_number property
        let index := njs_double_to_int num
        if 0 ≤ index ∧ njs_double_eq_int num index then
          njs_array_property_query vm pq object index
        else
          generic
      else
        some (NJS_TRAP_PROPERTY, vm, pq)
    else
      generic
  | NJS_OBJECT | NJS_FUNCTION | NJS_REGEXP => generic
  | NJS_NATIVE =>
    njs_property_query_key host vm pq object property host.nxt_djb_hash
      (some NJS_PROTOTYPE_FUNCTION)
  | NJS_EXTERNAL =>
    match object.u with
    | .external e =>
      match vm.externals[e]? with
      | none => none
      | some ext =>
        njs_property_query_key host vm pq object property
          (if ext.type = NJS_EXTERN_CASELESS_OBJECT then host.nxt_djb_hash_lowcase
           else host.nxt_djb_hash) none
    | _ => none
  | _ =>
    some (NXT_ERROR, { vm with exception := some njs_exception_type_error }, pq)

/-! ## Property get, set, in and delete -/

/-- The property record that `pq.lhq.value` points to. -/
def njs_lhq_prop (heap : List njs_heap_cell) (pq : njs_property_query_t) :
    Option njs_object_prop_t :=
  match pq.lhq_value with
  | .prop o sh => njs_prop_at heap pq.lhq_key o sh
  | _ => none

/-- The heap after a store through a pointer to the property record of `key`
in the own or the shared table of the object at address `object`. -/
def njs_prop_store (heap : List njs_heap_cell) (key : List Nat) (object : Nat) (shared : Bool)
    (f : njs_object_prop_t → njs_object_prop_t) : List njs_heap_cell :=
  match njs_object_at heap object with
  | none => heap
  | some o =>
    njs_heap_set_header heap object
      (if shared then { o with shared_hash := nxt_lvlhsh_store key f o.shared_hash }
       else { o with hash := nxt_lvlhsh_store key f o.hash })

/-- Modelled from the spec: `njs_object_prop_alloc` (`njs_object.c` is not part
of the sources): a new record of kind Property for the name, with the value
undefined and every attribute set, so that the property can be enumerated,
written and deleted. -/
def njs_object_prop_alloc (name : njs_value_t) : njs_object_prop_t :=
  ⟨name, njs_value_void, NJS_PROPERTY, true, true, true⟩

/-- Modelled from the spec: `nxt_lvlhsh_insert` with `replace = 0`: a name that
is in the table already is declined, otherwise the record is added; the
insertion may allocate, so it takes one allocation outcome from the pool and
fails with `NXT_ERROR` when that allocation fails. -/
def nxt_lvlhsh_insert (pool : List Bool) (h : nxt_lvlhsh_t) (key : List Nat)
    (prop : njs_object_prop_t) : njs_ret_t × nxt_lvlhsh_t × List Bool :=
  match nxt_lvlhsh_find h key with
  | some _ => (NXT_DECLINED, h, pool)
  | none =>
    match nxt_mem_cache_alloc pool with
    | (false, pool1) => (NXT_ERROR, h, pool1)
    | (true, pool1) => (NXT_OK, h ++ [prop], pool1)

/-- The function `njs_function_private_copy`: the property record and the
function descriptor are cloned, the clone of the function gets the function
prototype, and the cloned record is inserted into the own table of
`pq->prototype`. -/
def njs_function_private_copy (vm : njs_vm_t) (pq : njs_property_query_t) :
    Option (njs_ret_t × njs_vm_t × njs_property_query_t) :=
  match nxt_mem_cache_alloc vm.mem_cache_pool with
  | (false, pool1) => some (NXT_ERROR, { vm with mem_cache_pool := pool1 }, pq)
  | (true, pool1) =>
    match njs_lhq_prop vm.heap pq with
    | none => none
    | some shared =>
      match nxt_mem_cache_alloc pool1 with
      | (false, pool2) => some (NXT_ERROR, { vm with mem_cache_pool := pool2 }, pq)
      | (true, pool2) =>
        match njs_value_object shared.value with
        | none => none
        | some fp =>
          match njs_function_at vm.heap fp with
          | none => none
          | some f =>
            let func : njs_function_t :=
              { f with object := { f.object with __proto__ := some NJS_PROTOTYPE_FUNCTION } }
            let prop : njs_object_prop_t :=
              { shared with value := { shared.value with u := .object vm.heap.length } }
            let heap1 := vm.heap ++ [.function func]
            match njs_object_at heap1 pq.prototype with
            | none => none
            | some o =>
              match nxt_lvlhsh_insert pool2 o.hash pq.lhq_key prop with
              | (ret, hash1, pool3) =>
                some (ret,
                  { vm with
                    mem_cache_pool := pool3,
                    heap := njs_heap_set_header heap1 pq.prototype { o with hash := hash1 } },
                  { pq with lhq_value := .prop pq.prototype false })

/-- The external descriptor of the receiver and, when the key is found in its
sub-table, the descriptor found (`nxt_lvlhsh_find(&ext->hash, &pq.lhq)`). -/
def njs_extern_lookup (host : njs_host_t) (vm : njs_vm_t) (object : njs_value_t)
    (pq : njs_property_query_t) : Option (njs_extern_t × Option njs_extern_t) :=
  match object.u with
  | .external e =>
    match vm.externals[e]? with
    | none => none
    | some ext =>
      match host.njs_extern_hash_find e pq.lhq_key_hash pq.lhq_key with
      | none => some (ext, none)
      | some e1 =>
        match vm.externals[e1]? with
        | none => none
        | some ext1 => some (ext, some ext1)
  | _ => none

/-- The function `njs_vmcode_property_get`. -/
def njs_vmcode_property_get (host : njs_host_t) (sz : njs_vmcode_sizes) (vm : njs_vm_t)
    (object property : njs_value_t) : Option (njs_ret_t × njs_vm_t) :=
  match njs_property_query host vm (njs_property_query_init NJS_PROPERTY_QUERY_GET)
      object property with
  | none => none
  | some (ret, vm, pq) =>
    if ret = NXT_OK then
      match njs_lhq_prop vm.heap pq with
      | none => none
      | some prop =>
        match prop.type with
        | NJS_METHOD =>
          if pq.shared then
            match njs_function_private_copy vm pq with
            | none => none
            | some (ret, vm, pq) =>
              if ret ≠ NXT_OK then some (ret, vm)
              else
                match njs_lhq_prop vm.heap pq with
                | none => none
                | some prop => some (sz.prop_get, { vm with retval := prop.value })
          else
            some (sz.prop_get, { vm with retval := prop.value })
        | NJS_PROPERTY => some (sz.prop_get, { vm with retval := prop.value })
        | NJS_NATIVE_GETTER =>
          match prop.value.u with
          | .getter g =>
            let (ret, vm) := host.getter g vm object
            if ret = NXT_OK then some (sz.prop_get, vm) else some (ret, vm)
          | _ => none
        | NJS_WHITEOUT => some (NXT_ERROR, vm)
    else if ret = NXT_DECLINED ∨ ret = NJS_PRIMITIVE_VALUE then
      some (sz.prop_get, { vm with retval := njs_value_void })
    else if ret = NJS_STRING_VALUE then
      let num := host.njs_value_to_number property
      let index := njs_double_to_int num
      if 0 ≤ index ∧ njs_double_eq_int num index then
        let vm := { vm with retval := host.njs_string_slice object index }
        if vm.retval.truth then some (sz.prop_get, vm)
        else some (sz.prop_get, { vm with retval := njs_value_void })
      else
        some (sz.prop_get, { vm with retval := njs_value_void })
    else if ret = NJS_ARRAY_VALUE then
      match pq.lhq_value with
      | .slot a i =>
        match njs_slot_at vm.heap a i with
        | none => none
        | some val =>
          some (sz.prop_get,
            { vm with retval := if njs_is_valid val then val else njs_value_void })
      | _ => none
    else if ret = NJS_EXTERNAL_VALUE then
      match njs_extern_lookup host vm object pq with
      | none => none
      | some (ext, found) =>
        match found with
        | some ext1 =>
          if ext1.type &&& NJS_EXTERN_OBJECT ≠ 0 then
            some (sz.prop_get, { vm with retval := ext1.value })
          else
            let (ret, vm) := host.ext_get ext1 { vm with retval := njs_value_void }
              (.word ext1.data)
            if ret ≠ NXT_OK then some (ret, vm) else some (sz.prop_get, vm)
        | none =>
          let (ret, vm) := host.ext_get ext { vm with retval := njs_value_void }
            (.key pq.lhq_key)
          if ret ≠ NXT_OK then some (ret, vm) else some (sz.prop_get, vm)
    else
      some (ret, vm)

/-- The function `njs_vmcode_property_set`; `value` is the operand
`njs_vmcode_operand(vm, code->value)` of the instruction. -/
def njs_vmcode_property_set (host : njs_host_t) (sz : njs_vmcode_sizes) (vm : njs_vm_t)
    (object property value : njs_value_t) : Option (njs_ret_t × njs_vm_t) :=
  match njs_property_query host vm (njs_property_query_init NJS_PROPERTY_QUERY_SET)
      object property with
  | none => none
  | some (ret, vm, pq) =>
    if ret = NXT_OK then
      match pq.lhq_value with
      | .prop o sh =>
        match njs_prop_at vm.heap pq.lhq_key o sh with
        | none => none
        | some _ =>
          some (sz.prop_set,
            { vm with heap := njs_prop_store vm.heap pq.lhq_key o sh
                                (fun prop => { prop with value := value }) })
      | _ => none
    else if ret = NXT_DECLINED then
      match nxt_mem_cache_alloc vm.mem_cache_pool with
      | (false, pool1) => some (NXT_ERROR, { vm with mem_cache_pool := pool1 })
      | (true, pool1) =>
        let prop := njs_object_prop_alloc pq.value
        match njs_value_object object with
        | none => none
        | some p =>
          match njs_object_at vm.heap p with
          | none => none
          | some o =>
            match nxt_lvlhsh_insert pool1 o.hash pq.lhq_key prop with
            | (ret, hash1, pool2) =>
              let vm := { vm with mem_cache_pool := pool2,
                                  heap := njs_heap_set_header vm.heap p { o with hash := hash1 } }
              if ret ≠ NXT_OK then some (ret, vm)
              else
                some (sz.prop_set,
                  { vm with heap := njs_prop_store vm.heap pq.lhq_key p false
                                      (fun prop => { prop with value := value }) })
    else if ret = NJS_PRIMITIVE_VALUE ∨ ret = NJS_STRING_VALUE then
      some (sz.prop_set, vm)
    else if ret = NJS_ARRAY_VALUE then
      match pq.lhq_value with
      | .slot a i =>
        match njs_slot_store vm.heap a i value with
        | none => none
        | some heap1 => some (sz.prop_set, { vm with heap := heap1 })
      | _ => none
    else if ret = NJS_EXTERNAL_VALUE then
      match njs_extern_lookup host vm object pq with
      | none => none
      | some (ext, found) =>
        let ext1 := match found with
          | some ext1 => ext1
          | none => ext
        let data := match found with
          | some ext1 => njs_extern_data.word ext1.data
          | none => njs_extern_data.key pq.lhq_key
        let (ret, s) := host.njs_value_to_ext_string value
        if ret ≠ NXT_OK then some (ret, vm)
        else
          let (ret, vm) := host.ext_set ext1 vm data s
          if ret ≠ NXT_OK then some (ret, vm) else some (sz.prop_set, vm)
    else
      some (ret, vm)

/-- The function `njs_vmcode_property_in`. -/
def njs_vmcode_property_in (host : njs_host_t) (sz : njs_vmcode_sizes) (vm : njs_vm_t)
    (object property : njs_value_t) : Option (njs_ret_t × njs_vm_t) :=
  match njs_property_query host vm (njs_property_query_init NJS_PROPERTY_QUERY_IN)
      object property with
  | none => none
  | some (ret, vm, pq) =>
    if ret = NXT_OK then
      some (sz.addr3, { vm with retval := njs_value_true })
    else if ret = NXT_DECLINED then
      some (sz.addr3, { vm with retval := njs_value_false })
    else if ret = NJS_PRIMITIVE_VALUE ∨ ret = NJS_STRING_VALUE then
      some (NXT_ERROR, { vm with exception := some njs_exception_type_error })
    else if ret = NJS_ARRAY_VALUE then
      match pq.lhq_value with
      | .slot a i =>
        match njs_slot_at vm.heap a i with
        | none => none
        | some val =>
          some (sz.addr3,
            { vm with retval := if njs_is_valid val then njs_value_true else njs_value_false })
      | _ => none
    else if ret = NJS_EXTERNAL_VALUE then
      match njs_extern_lookup host vm object pq with
      | none => none
      | some (ext, found) =>
        match found with
        | some ext1 =>
          if ext1.type &&& NJS_EXTERN_OBJECT ≠ 0 then
            some (sz.addr3, { vm with retval := njs_value_true })
          else
            let (ret, vm) := host.ext_find ext1 vm (.word ext1.data) false
            if ret = NXT_ERROR then some (ret, vm)
            else some (sz.addr3,
              { vm with retval := if ret = NXT_OK then njs_value_true else njs_value_false })
        | none =>
          let (ret, vm) := host.ext_find ext vm (.key pq.lhq_key) false
          if ret = NXT_ERROR then some (ret, vm)
          else some (sz.addr3,
            { vm with retval := if ret = NXT_OK then njs_value_true else njs_value_false })
    else
      some (ret, vm)

/-- The function `njs_vmcode_property_delete`.  The call `njs_release(vm,
property)` changes only the retain count of a string record, which is not part
of this state. -/
def njs_vmcode_property_delete (host : njs_host_t) (sz : njs_vmcode_sizes) (vm : njs_vm_t)
    (object property : njs_value_t) : Option (njs_ret_t × njs_vm_t) :=
  match njs_property_query host vm (njs_property_query_init NJS_PROPERTY_QUERY_DELETE)
      object property with
  | none => none
  | some (ret, vm, pq) =>
    if ret = NXT_OK then
      match njs_lhq_prop vm.heap pq with
      | none => none
      | some prop =>
        if prop.configurable then
          match njs_value_object object with
          | none => none
          | some p =>
            match njs_object_at vm.heap p with
            | none => none
            | some o =>
              some (sz.addr3,
                { vm with
                  heap := njs_heap_set_header vm.heap p
                            { o with hash := nxt_lvlhsh_delete o.hash pq.lhq_key },
                  retval := njs_value_true })
        else
          some (sz.addr3, { vm with retval := njs_value_false })
    else if ret = NXT_DECLINED ∨ ret = NJS_PRIMITIVE_VALUE ∨ ret = NJS_STRING_VALUE then
      some (sz.addr3, { vm with retval := njs_value_false })
    else if ret = NJS_ARRAY_VALUE then
      match pq.lhq_value with
      | .slot a i =>
        match njs_slot_at vm.heap a i with
        | none => none
        | some val =>
          match njs_slot_store vm.heap a i (njs_set_invalid val) with
          | none => none
          | some heap1 => some (sz.addr3, { vm with heap := heap1, retval := njs_value_true })
      | _ => none
    else if ret = NJS_EXTERNAL_VALUE then
      match njs_extern_lookup host vm object pq with
      | none => none
      | some (ext, found) =>
        match found with
        | some ext1 =>
          if ext1.type &&& NJS_EXTERN_OBJECT ≠ 0 then
            some (sz.addr3, { vm with retval := njs_value_false })
          else
            let (ret, vm) := host.ext_find ext1 vm (.word ext1.data) true
            if ret = NXT_ERROR then some (ret, vm)
            else some (sz.addr3,
              { vm with retval := if ret = NXT_OK then njs_value_true else njs_value_false })
        | none =>
          let (ret, vm) := host.ext_find ext vm (.key pq.lhq_key) true
          if ret = NXT_ERROR then some (ret, vm)
          else some (sz.addr3,
            { vm with retval := if ret = NXT_OK then njs_value_true else njs_value_false })
    else
      some (ret, vm)

/-! ## Property enumeration -/

/-- The function `njs_vmcode_property_each_start`; `offset` is the field
`code->offset` of the instruction. -/
def njs_vmcode_property_each_start (host : njs_host_t) (vm : njs_vm_t) (offset : Int)
    (object : njs_value_t) : Option (njs_ret_t × njs_vm_t) :=
  if njs_is_object object then
    match nxt_mem_cache_alloc vm.mem_cache_pool with
    | (false, pool1) => some (NXT_ERROR, { vm with mem_cache_pool := pool1 })
    | (true, pool1) =>
      let pe := vm.each.length
      let vm := { vm with mem_cache_pool := pool1,
                          retval := { vm.retval with u := .data pe } }
      if njs_is_array object then
        match njs_value_object object with
        | none => none
        | some p =>
          match njs_array_at vm.heap p with
          | none => none
          | some array =>
            some (offset,
              { vm with each := vm.each ++ [some ⟨if array.size ≠ 0 then 0 else -1, 0⟩] })
      else
        some (offset, { vm with each := vm.each ++ [some ⟨-1, 0⟩] })
  else if njs_is_external object then
    match object.u with
    | .external e =>
      match vm.externals[e]? with
      | none => none
      | some ext =>
        if ext.each_start then
          let (ret, vm) := host.ext_each_start ext vm
          if ret ≠ NXT_OK then some (ret, vm) else some (offset, vm)
        else
          some (offset, vm)
    | _ => none
  else
    some (offset, vm)

/-- The `while` loop of `njs_vmcode_property_each` over the slots of an array:
the result is the index left in `pe->index` and the index `n` of the valid slot
found, if any.  Every turn takes one unit of `fuel`. -/
def njs_vmcode_property_each_loop (array : njs_array_t) : Nat → Int → Option (Int × Option Nat)
  | 0, _ => none
  | fuel + 1, index =>
    if njs_uint32 index < array.size then
      let n := njs_uint32 index
      match array.start[n]? with
      | none => none
      | some v =>
        if njs_is_valid v then some (njs_int32 (index + 1), some n)
        else njs_vmcode_property_each_loop array fuel (njs_int32 (index + 1))
    else
      some (index, none)

/-- Modelled from the spec: `nxt_lvlhsh_each`, which hands out the records of a
table one at a time; the position `lhe` counts the records handed out. -/
def nxt_lvlhsh_each (h : nxt_lvlhsh_t) (lhe : Nat) : Option njs_object_prop_t × Nat :=
  match h[lhe]? with
  | some prop => (some prop, lhe + 1)
  | none => (none, lhe)

/-- The function `njs_vmcode_property_each`; `offset` is the field
`code->offset` of the instruction and `each` the iterator value. -/
def njs_vmcode_property_each (host : njs_host_t) (sz : njs_vmcode_sizes) (vm : njs_vm_t)
    (offset : Int) (object each : njs_value_t) : Option (njs_ret_t × njs_vm_t) :=
  if njs_is_object object then
    match each.u with
    | .data d =>
      match vm.each[d]? with
      | some (some pe) =>
        match njs_value_object object with
        | none => none
        | some p =>
          let hash_part (index : Int) : Option (njs_ret_t × njs_vm_t) :=
            match njs_object_at vm.heap p with
            | none => none
            | some o =>
              match nxt_lvlhsh_each o.hash pe.lhe with
              | (some prop, lhe) =>
                some (offset, { vm with each := vm.each.set d (some ⟨index, lhe⟩),
                                        retval := prop.name })
              | (none, _) =>
                some (sz.prop_each, { vm with each := vm.each.set d none,
                                              retval := njs_value_void })
          if 0 ≤ pe.index then
            match njs_array_at vm.heap p with
            | none => none
            | some array =>
              match njs_vmcode_property_each_loop array (array.size + 1) pe.index with
              | none => none
              | some (index, some n) =>
                some (offset, { vm with each := vm.each.set d (some ⟨index, pe.lhe⟩),
                                        retval := njs_number_set n })
              | some (_, none) => hash_part (-1)
          else
            hash_part pe.index
      | _ => none
    | _ => none
  else if njs_is_external object then
    match object.u with
    | .external e =>
      match vm.externals[e]? with
      | none => none
      | some ext =>
        if ext.each then
          let (ret, vm) := host.ext_each ext vm each
          if ret = NXT_OK then some (offset, vm)
          else if ret = NXT_ERROR then some (ret, vm)
          else some (sz.prop_each, vm)
        else
          some (sz.prop_each, vm)
    | _ => none
  else
    some (sz.prop_each, vm)

/-! ## Auxiliary definitions of the statements -/

/-- The receivers and names for which `njs_property_query` takes the object path -/
def njs_object_path (host : njs_host_t) (object property : njs_value_t) : Prop :=
  object.type = NJS_OBJECT ∨ object.type = NJS_FUNCTION ∨ object.type = NJS_REGEXP ∨
  (object.type = NJS_ARRAY ∧
    (njs_is_null_or_void_or_boolean property = true ∨
     ¬ (0 ≤ njs_double_to_int (host.njs_value_to_number property) ∧
        njs_double_eq_int (host.njs_value_to_number property)
          (njs_double_to_int (host.njs_value_to_number property)) = true)))

instance (host : njs_host_t) (object property : njs_value_t) :
    Decidable (njs_object_path host object property) := by
  unfold njs_object_path; infer_instance

/-- The query structure with which the object path enters the walk -/
def njs_property_query_named (host : njs_host_t) (pq : njs_property_query_t) (name : njs_value_t) :
    njs_property_query_t :=
  { pq with value := name, lhq_key := njs_string_bytes name,
            lhq_key_hash := host.nxt_djb_hash (njs_string_bytes name) }

/-! ### tables -/

/-- The return code carried by the outcome of a turn. -/
def njs_walk_t.ret : njs_walk_t → njs_ret_t
  | .done ret _ => ret
  | .next ret _ => ret

/-- The query structure carried by the outcome of a turn. -/
def njs_walk_t.pq : njs_walk_t → njs_property_query_t
  | .done _ pq => pq
  | .next _ pq => pq

/-- No object on the prototype chain that starts at `start` has a record of the key, in its own
or in its shared table, and the chain ends with `NULL` after at most `n` objects. -/
def njs_chain_lacks (heap : List njs_heap_cell) (key : List Nat) : Nat → Option Nat → Bool
  | _, none => true
  | 0, some _ => false
  | n + 1, some q =>
    match njs_object_at heap q with
    | none => false
    | some o =>
      (nxt_lvlhsh_find o.hash key).isNone && (nxt_lvlhsh_find o.shared_hash key).isNone &&
        njs_chain_lacks heap key n o.__proto__

/-- The successive results of `njs_vmcode_property_each` for one iterator: the instruction is
executed again as long as it returns the loop offset, and each time `vm.retval` holds the next
property; the run ends when the instruction returns the fall-through advance.  `fuel` bounds
the number of executions. -/
def njs_property_each_run (host : njs_host_t) (sz : njs_vmcode_sizes) (offset : Int)
    (object each : njs_value_t) : Nat → njs_vm_t → Option (List njs_value_t × njs_vm_t)
  | 0, _ => none
  | fuel + 1, vm =>
    match njs_vmcode_property_each host sz vm offset object each with
    | none => none
    | some (ret, vm1) =>
      if ret = sz.prop_each then some ([], vm1)
      else if ret = offset then
        match njs_property_each_run host sz offset object each fuel vm1 with
        | none => none
        | some (vs, vm2) => some (vm1.retval :: vs, vm2)
      else none

/-- The slot `j` of an array exists and holds a valid value. -/
def njs_array_slot_valid (a : njs_array_t) (j : Nat) : Bool :=
  match a.start[j]? with
  | some v => njs_is_valid v
  | none => false

/-- A host for the examples: a number converts to itself, a string to itself as a name, nothing
else converts to a string; the other callbacks do nothing. -/
def njs_example_host : njs_host_t where
  njs_value_to_number := fun v =>
    match v.u with
    | .number n => n
    | _ => .nan
  njs_value_to_string := fun v => if v.type = NJS_STRING then some v else none
  njs_string_slice := fun _ _ => njs_string ""
  nxt_djb_hash := fun _ => 0
  nxt_djb_hash_lowcase := fun _ => 0
  getter := fun _ vm _ => (NXT_OK, vm)
  njs_extern_hash_find := fun _ _ _ => none
  njs_value_to_ext_string := fun _ => (NXT_OK, [])
  ext_get := fun _ vm _ => (NXT_OK, vm)
  ext_set := fun _ vm _ _ => (NXT_OK, vm)
  ext_find := fun _ vm _ _ => (NXT_DECLINED, vm)
  ext_each_start := fun _ vm => (NXT_OK, vm)
  ext_each := fun _ vm _ => (NXT_DONE, vm)

/-- Instruction sizes for the examples. -/
def njs_example_sizes : njs_vmcode_sizes := ⟨40, 40, 40, 48⟩

/-- The Number value of an integer. -/
def njs_example_number (n : Int) : njs_value_t :=
  ⟨NJS_NUMBER, decide (n ≠ 0), .number (.fin (Rat.ofInt n))⟩

/-- The Object value for the heap record at an address. -/
def njs_example_object (p : Nat) : njs_value_t := ⟨NJS_OBJECT, true, .object p⟩

/-- The Array value for the heap record at an address. -/
def njs_example_array (p : Nat) : njs_value_t := ⟨NJS_ARRAY, true, .object p⟩

/-- A data property record with every attribute set. -/
def njs_example_prop (s : String) (v : njs_value_t) : njs_object_prop_t :=
  ⟨njs_string s, v, NJS_PROPERTY, true, true, true⟩

/-- A state with the given heap and allocation outcomes. -/
def njs_example_vm (heap : List njs_heap_cell) (pool : List Bool) : njs_vm_t :=
  ⟨njs_value_void, none, heap, [], [], pool⟩

/-- The heap of the object `{x: 1}` (address 1) whose prototype (address 0) is empty. -/
def njs_example_heap_x : List njs_heap_cell :=
  [.object ⟨[], [], none⟩, .object ⟨[njs_example_prop "x" (njs_example_number 1)], [], some 0⟩]

/-- The heap of an object (address 1) with a whiteout for `x` whose prototype (address 0) has the
property `x = 1`. -/
def njs_example_heap_whiteout : List njs_heap_cell :=
  [.object ⟨[njs_example_prop "x" (njs_example_number 1)], [], none⟩,
   .object ⟨[⟨njs_string "x", njs_value_void, NJS_WHITEOUT, false, false, false⟩], [], some 0⟩]

/-- The heap of an object (address 0) without prototype with a whiteout for `x`. -/
def njs_example_heap_whiteout_end : List njs_heap_cell :=
  [.object ⟨[⟨njs_string "x", njs_value_void, NJS_WHITEOUT, false, false, false⟩], [], none⟩]

/-- The heap of an empty object (address 1) whose prototype (address 0) has the method `m`, the
function at address 2, in its shared table. -/
def njs_example_heap_method : List njs_heap_cell :=
  [.object ⟨[], [⟨njs_string "m", ⟨NJS_FUNCTION, true, .object 2⟩, NJS_METHOD, false, true, true⟩],
     none⟩,
   .object ⟨[], [], some 0⟩,
   .function ⟨⟨[], [], none⟩, true, 0, 7⟩]

/-- The heap of an object (address 1) with a whiteout for `x`, with `x = 1` in its own shared
table, whose prototype (address 0) is empty. -/
def njs_example_heap_shadow : List njs_heap_cell :=
  [.object ⟨[], [], none⟩,
   .object ⟨[⟨njs_string "x", njs_value_void, NJS_WHITEOUT, false, false, false⟩],
     [njs_example_prop "x" (njs_example_number 1)], some 0⟩]

/-- The heap of an object (address 0) without prototype whose own table has a native getter
record for `x`. -/
def njs_example_heap_getter : List njs_heap_cell :=
  [.object ⟨[⟨njs_string "x", ⟨NJS_INVALID, true, .getter 0⟩, NJS_NATIVE_GETTER, false, false,
     false⟩], [], none⟩]

/-- The heap of an empty object (address 1) whose prototype (address 0) has the property
`x = 1`. -/
def njs_example_heap_inherit : List njs_heap_cell :=
  [.object ⟨[njs_example_prop "x" (njs_example_number 1)], [], none⟩, .object ⟨[], [], some 0⟩]

/-- The array `[10, 20, 30]` after `a[5] = 99`, with eight slots. -/
def njs_example_array_holes : njs_array_t :=
  ⟨⟨[], [], none⟩, 8, 6,
    [njs_example_number 10, njs_example_number 20, njs_example_number 30,
     njs_set_invalid njs_value_void, njs_set_invalid njs_value_void,
     njs_example_number 99, njs_set_invalid njs_value_void,
     njs_set_invalid njs_value_void]⟩

/-- The array `[10, 20, 30]` with eight slots. -/
def njs_example_array_3 : njs_array_t :=
  ⟨⟨[], [], none⟩, 8, 3,
    [njs_example_number 10, njs_example_number 20, njs_example_number 30,
     njs_set_invalid njs_value_void, njs_set_invalid njs_value_void,
     njs_set_invalid njs_value_void, njs_set_invalid njs_value_void,
     njs_set_invalid njs_value_void]⟩

/-- The heap of the array `[10, 20, 30]` with eight slots (address 0). -/
def njs_example_heap_array : List njs_heap_cell := [.array njs_example_array_3]

/-- The trap code `NJS_TRAP_STRINGS`.  The trap codes are declared in `njs_vm.h`; the
interpreter takes `ret - NJS_TRAP_LAST` as the row of `njs_vm_traps`, whose rows are, in
order, the traps PROPERTY, STRINGS, INCDEC, NUMBERS and NUMBER. -/
def NJS_TRAP_STRINGS : njs_ret_t := NJS_TRAP_PROPERTY + 1

/-- The trap code `NJS_TRAP_INCDEC`, the third row of `njs_vm_traps`. -/
def NJS_TRAP_INCDEC : njs_ret_t := NJS_TRAP_PROPERTY + 2

/-- The trap code `NJS_TRAP_NUMBERS`, the fourth row of `njs_vm_traps`. -/
def NJS_TRAP_NUMBERS : njs_ret_t := NJS_TRAP_PROPERTY + 3

/-- The trap code `NJS_TRAP_NUMBER`, the fifth row of `njs_vm_traps`. -/
def NJS_TRAP_NUMBER : njs_ret_t := NJS_TRAP_PROPERTY + 4

/-- The constant `NJS_TRAP_LAST`, the lowest trap code. -/
def NJS_TRAP_LAST : njs_ret_t := NJS_TRAP_PROPERTY

/-- Modelled from the spec: the macro `njs_is_numeric` of `njs_vm.h`; the numeric tags are
Number and, through their mirrored numeric payload, Null, Undefined and Boolean. -/
def njs_is_numeric (v : njs_value_t) : Bool :=
  match v.type with
  | NJS_NULL | NJS_VOID | NJS_BOOLEAN | NJS_NUMBER => true
  | _ => false

/-- Modelled from the spec: the macro `njs_is_null_or_void` of `njs_vm.h`. -/
def njs_is_null_or_void (v : njs_value_t) : Bool :=
  match v.type with
  | NJS_NULL | NJS_VOID => true
  | _ => false

/-- The macro `njs_is_true`: the truth bit of a value. -/
def njs_is_true (v : njs_value_t) : Bool := v.truth

/-- The payload matches the tag: a numeric tag has the member `data.u.number` and a String
tag has a string payload.  The operations read the payload by the tag. -/
def njs_value_wf (v : njs_value_t) : Bool :=
  match v.type, v.u with
  | NJS_NULL, .number _ => true
  | NJS_VOID, .number _ => true
  | NJS_BOOLEAN, .number _ => true
  | NJS_NUMBER, .number _ => true
  | NJS_NULL, _ => false
  | NJS_VOID, _ => false
  | NJS_BOOLEAN, _ => false
  | NJS_NUMBER, _ => false
  | NJS_STRING, .string _ => true
  | NJS_STRING, _ => false
  | _, _ => true

/-- The macro `njs_is_nan` (`isnan`). -/
def njs_is_nan : njs_double → Bool
  | .nan => true
  | _ => false

/-- The C comparison `a == b` of two doubles. -/
def njs_double_eq : njs_double → njs_double → Bool
  | .fin p, .fin q => decide (p = q)
  | .inf s, .inf t => decide (s = t)
  | _, _ => false

/-- The C comparison `a < b` of two doubles. -/
def njs_double_lt : njs_double → njs_double → Bool
  | .fin p, .fin q => decide (p < q)
  | .fin _, .inf t => !t
  | .inf s, .fin _ => s
  | .inf s, .inf t => s && !t
  | _, _ => false

/-- Truncation toward zero of a rational. -/
def njs_trunc (q : ℚ) : Int := Int.tdiv q.num q.den

/-- The C library function `fmod`: for finite `x` and finite non-zero `y` the exact
remainder `x - trunc(x / y) * y`, `x` for an infinite `y`, and NaN otherwise. -/
def njs_fmod : njs_double → njs_double → njs_double
  | .fin p, .fin q => if q = 0 then .nan else .fin (p - (njs_trunc (p / q) : ℚ) * q)
  | .fin p, .inf _ => .fin p
  | _, _ => .nan

/-- The C cast `(int64_t) num` as compiled for the targets named in the source: truncation
toward zero when the result fits in 64 bits; a value out of range, an infinity or a NaN gives
`0x8000000000000000`, as the comment in `njs_integer_value` says. -/
def njs_double_to_int64 : njs_double → Int
  | .fin q =>
    let t := njs_trunc q
    if -9223372036854775808 ≤ t ∧ t < 9223372036854775808 then t else -9223372036854775808
  | _ => -9223372036854775808

/-- The function `njs_integer_value`; the result is a `uint32_t`. -/
def njs_integer_value (num : njs_double) : Nat :=
  let i64 : Int :=
    if njs_double_lt num (.fin 0) || njs_double_lt (.fin 9007199254740992) num then
      njs_double_to_int64 (njs_fmod num (.fin 4294967296))
    else
      njs_double_to_int64 num
  njs_uint32 i64

/-- The function `njs_number_set` applied to an integer expression, which C converts to the
double of the same value. -/
def njs_number_set_int (n : Int) : njs_value_t := njs_number_set_double (.fin (Rat.ofInt n))

/-- The functions that the operations call and that are not part of `njs_vm.c`: the
arithmetic of the machine on doubles, which rounds, and the string and number helpers of
`njs_string.c` and `njs_number.c`.  The function `njs_number_to_string` returns its code, the
state and the String. -/
structure njs_lib_t where
  double_add : njs_double → njs_double → njs_double
  double_sub : njs_double → njs_double → njs_double
  double_mul : njs_double → njs_double → njs_double
  double_div : njs_double → njs_double → njs_double
  njs_string_eq : njs_value_t → njs_value_t → Bool
  njs_string_cmp : njs_value_t → njs_value_t → Int
  njs_number_to_string : njs_vm_t → njs_value_t → njs_ret_t × njs_vm_t × njs_value_t
  njs_string_to_number : njs_value_t → njs_double

/-- The structure `njs_string_prop_t`: bytes, size in bytes and length in code points. -/
structure njs_string_prop_t where
  start : List Nat
  size : Nat
  length : Nat
  deriving DecidableEq, Repr

/-- Modelled from the spec: `njs_string_prop` (`njs_string.c` is not part of the sources),
which reads bytes, size and length of a String from the short or the long layout. -/
def njs_string_prop (v : njs_value_t) : Option njs_string_prop_t :=
  match v.u with
  | .string s => some ⟨s.start, s.start.length, s.length⟩
  | _ => none

/-- The constant `NJS_STRING_SHORT`: a String of up to 14 bytes is stored inline. -/
def NJS_STRING_SHORT : Nat := 14

/-- Modelled from the spec: `njs_string_alloc` (`njs_string.c` is not part of the sources):
the value becomes a String of `size` bytes and `length` code points, with its truth bit
computed from the size; a String of up to 14 bytes is stored inline and a longer one takes a
long-string record from the pool.  The bytes are written by the caller through the returned
pointer, so they are a parameter here.  The result is `none` when the pool allocation
fails. -/
def njs_string_alloc (pool : List Bool) (bytes : List Nat) (length : Nat) :
    Option njs_value_t × List Bool :=
  let value : njs_value_t := ⟨NJS_STRING, decide (bytes.length ≠ 0), .string ⟨bytes, length⟩⟩
  if bytes.length ≤ NJS_STRING_SHORT then (some value, pool)
  else
    match nxt_mem_cache_alloc pool with
    | (true, pool1) => (some value, pool1)
    | (false, pool1) => (none, pool1)

/-- The function `njs_vmcode_addition`.  The two `memcpy` calls write the bytes of the first
String and then those of the second through the pointer that `njs_string_alloc` returns;
`njs_string_offset_map_init` fills the offset index behind the bytes, which is not part of
the value. -/
def njs_vmcode_addition (lib : njs_lib_t) (sz : njs_vmcode_sizes) (vm : njs_vm_t)
    (val1 val2 : njs_value_t) : Option (njs_ret_t × njs_vm_t) :=
  if njs_is_numeric val1 && njs_is_numeric val2 then
    match val1.u, val2.u with
    | .number a, .number b =>
      some (sz.addr3, { vm with retval := njs_number_set_double (lib.double_add a b) })
    | _, _ => none
  else if njs_is_string val1 && njs_is_string val2 then
    match njs_string_prop val1, njs_string_prop val2 with
    | some string1, some string2 =>
      let length :=
        if (string1.length ≠ 0 ∨ string1.size = 0) ∧ (string2.length ≠ 0 ∨ string2.size = 0)
        then string1.length + string2.length
        else 0
      match njs_string_alloc vm.mem_cache_pool (string1.start ++ string2.start) length with
      | (none, pool) => some (NXT_ERROR, { vm with mem_cache_pool := pool })
      | (some value, pool) => some (sz.addr3, { vm with mem_cache_pool := pool, retval := value })
    | _, _ => none
  else
    some (NJS_TRAP_STRINGS, vm)

/-- The common shape of the arithmetic operations on two numbers: the operation `f` on the
two number payloads when both operands are numeric, and `NJS_TRAP_NUMBERS` otherwise. -/
def njs_vmcode_numbers (sz : njs_vmcode_sizes) (vm : njs_vm_t) (val1 val2 : njs_value_t)
    (f : njs_double → njs_double → njs_value_t) : Option (njs_ret_t × njs_vm_t) :=
  if njs_is_numeric val1 && njs_is_numeric val2 then
    match val1.u, val2.u with
    | .number a, .number b => some (sz.addr3, { vm with retval := f a b })
    | _, _ => none
  else
    some (NJS_TRAP_NUMBERS, vm)

/-- The function `njs_vmcode_substraction`. -/
def njs_vmcode_substraction (lib : njs_lib_t) (sz : njs_vmcode_sizes) (vm : njs_vm_t)
    (val1 val2 : njs_value_t) : Option (njs_ret_t × njs_vm_t) :=
  njs_vmcode_numbers sz vm val1 val2 (fun a b => njs_number_set_double (lib.double_sub a b))

/-- The function `njs_vmcode_multiplication`. -/
def njs_vmcode_multiplication (lib : njs_lib_t) (sz : njs_vmcode_sizes) (vm : njs_vm_t)
    (val1 val2 : njs_value_t) : Option (njs_ret_t × njs_vm_t) :=
  njs_vmcode_numbers sz vm val1 val2 (fun a b => njs_number_set_double (lib.double_mul a b))

/-- The function `njs_vmcode_division`. -/
def njs_vmcode_division (lib : njs_lib_t) (sz : njs_vmcode_sizes) (vm : njs_vm_t)
    (val1 val2 : njs_value_t) : Option (njs_ret_t × njs_vm_t) :=
  njs_vmcode_numbers sz vm val1 val2 (fun a b => njs_number_set_double (lib.double_div a b))

/-- The function `njs_vmcode_remainder`. -/
def njs_vmcode_remainder (sz : njs_vmcode_sizes) (vm : njs_vm_t)
    (val1 val2 : njs_value_t) : Option (njs_ret_t × njs_vm_t) :=
  njs_vmcode_numbers sz vm val1 val2 (fun a b => njs_number_set_double (njs_fmod a b))

/-- The function `njs_vmcode_left_shift`: `num1` is an `int32_t`, `num2` a `uint32_t`, and
the shifted value is an `int`. -/
def njs_vmcode_left_shift (sz : njs_vmcode_sizes) (vm : njs_vm_t)
    (val1 val2 : njs_value_t) : Option (njs_ret_t × njs_vm_t) :=
  njs_vmcode_numbers sz vm val1 val2 (fun a b =>
    let num1 : Int := njs_int32 (njs_integer_value a)
    let num2 : Nat := njs_integer_value b
    njs_number_set_int (njs_int32 (num1 * 2 ^ (num2 % 32))))

/-- The function `njs_vmcode_right_shift`: the shift of the `int32_t` keeps the sign. -/
def njs_vmcode_right_shift (sz : njs_vmcode_sizes) (vm : njs_vm_t)
    (val1 val2 : njs_value_t) : Option (njs_ret_t × njs_vm_t) :=
  njs_vmcode_numbers sz vm val1 val2 (fun a b =>
    let num1 : Int := njs_int32 (njs_integer_value a)
    let num2 : Nat := njs_integer_value b
    njs_number_set_int (num1 / 2 ^ (num2 % 32)))

/-- The function `njs_vmcode_unsigned_right_shift`: `num1` is a `uint32_t` and `num2` an
`int32_t`. -/
def njs_vmcode_unsigned_right_shift (sz : njs_vmcode_sizes) (vm : njs_vm_t)
    (val1 val2 : njs_value_t) : Option (njs_ret_t × njs_vm_t) :=
  njs_vmcode_numbers sz vm val1 val2 (fun a b =>
    let num1 : Nat := njs_integer_value a
    let num2 : Int := njs_int32 (njs_integer_value b)
    njs_number_set_int ((num1 / 2 ^ (num2 % 32).toNat : Nat) : Int))

/-- The function `njs_vmcode_bitwise_and`; the two `int32_t` operands have the bits of the
`uint32_t` results of `njs_integer_value`. -/
def njs_vmcode_bitwise_and (sz : njs_vmcode_sizes) (vm : njs_vm_t)
    (val1 val2 : njs_value_t) : Option (njs_ret_t × njs_vm_t) :=
  njs_vmcode_numbers sz vm val1 val2 (fun a b =>
    njs_number_set_int (njs_int32 ((njs_integer_value a &&& njs_integer_value b : Nat) : Int)))

/-- The function `njs_vmcode_bitwise_xor`. -/
def njs_vmcode_bitwise_xor (sz : njs_vmcode_sizes) (vm : njs_vm_t)
    (val1 val2 : njs_value_t) : Option (njs_ret_t × njs_vm_t) :=
  njs_vmcode_numbers sz vm val1 val2 (fun a b =>
    njs_number_set_int (njs_int32 ((njs_integer_value a ^^^ njs_integer_value b : Nat) : Int)))

/-- The function `njs_vmcode_bitwise_or`. -/
def njs_vmcode_bitwise_or (sz : njs_vmcode_sizes) (vm : njs_vm_t)
    (val1 val2 : njs_value_t) : Option (njs_ret_t × njs_vm_t) :=
  njs_vmcode_numbers sz vm val1 val2 (fun a b =>
    njs_number_set_int (njs_int32 ((njs_integer_value a ||| njs_integer_value b : Nat) : Int)))

/-- The function `njs_values_equal`; the result is `none` when a numeric tag has no number
payload.  The last comparison is that of the pointers `data.u.object`, the payloads of the
two values. -/
def njs_values_equal (lib : njs_lib_t) (val1 val2 : njs_value_t) : Option njs_ret_t :=
  if njs_is_null_or_void val1 then
    some (if njs_is_null_or_void val2 then 1 else 0)
  else if njs_is_numeric val1 && njs_is_numeric val2 then
    match val1.u, val2.u with
    | .number a, .number b => some (if njs_double_eq a b then 1 else 0)
    | _, _ => none
  else if val1.type = val2.type then
    if njs_is_string val1 then
      some (if lib.njs_string_eq val1 val2 then 1 else 0)
    else
      some (if val1.u = val2.u then 1 else 0)
  else
    some NJS_TRAP_NUMBERS

/-- The function `njs_vmcode_equal`. -/
def njs_vmcode_equal (lib : njs_lib_t) (sz : njs_vmcode_sizes) (vm : njs_vm_t)
    (val1 val2 : njs_value_t) : Option (njs_ret_t × njs_vm_t) :=
  match njs_values_equal lib val1 val2 with
  | none => none
  | some ret =>
    if ret ≥ 0 then
      some (sz.addr3, { vm with retval := if ret ≠ 0 then njs_value_true else njs_value_false })
    else
      some (ret, vm)

/-- The function `njs_vmcode_not_equal`. -/
def njs_vmcode_not_equal (lib : njs_lib_t) (sz : njs_vmcode_sizes) (vm : njs_vm_t)
    (val1 val2 : njs_value_t) : Option (njs_ret_t × njs_vm_t) :=
  match njs_values_equal lib val1 val2 with
  | none => none
  | some ret =>
    if ret ≥ 0 then
      some (sz.addr3, { vm with retval := if ret = 0 then njs_value_true else njs_value_false })
    else
      some (ret, vm)

/-- The function `njs_values_compare`: 1 if `val1` is less than `val2`, 0 if it is greater
or equal, -1 if the values are not comparable, or a trap code. -/
def njs_values_compare (lib : njs_lib_t) (val1 val2 : njs_value_t) : Option njs_ret_t :=
  if njs_is_numeric val1 || njs_is_numeric val2 then
    if njs_is_numeric val1 && njs_is_numeric val2 then
      match val1.u, val2.u with
      | .number a, .number b =>
        if njs_is_nan a || njs_is_nan b then some (-1)
        else some (if njs_double_lt a b then 1 else 0)
      | _, _ => none
    else
      some NJS_TRAP_NUMBERS
  else if njs_is_string val1 && njs_is_string val2 then
    some (if lib.njs_string_cmp val1 val2 < 0 then 1 else 0)
  else
    some NJS_TRAP_STRINGS

/-- The function `njs_vmcode_less`. -/
def njs_vmcode_less (lib : njs_lib_t) (sz : njs_vmcode_sizes) (vm : njs_vm_t)
    (val1 val2 : njs_value_t) : Option (njs_ret_t × njs_vm_t) :=
  match njs_values_compare lib val1 val2 with
  | none => none
  | some ret =>
    if ret ≥ -1 then
      some (sz.addr3, { vm with retval := if ret > 0 then njs_value_true else njs_value_false })
    else
      some (ret, vm)

/-- The function `njs_vmcode_greater`. -/
def njs_vmcode_greater (lib : njs_lib_t) (sz : njs_vmcode_sizes) (vm : njs_vm_t)
    (val1 val2 : njs_value_t) : Option (njs_ret_t × njs_vm_t) :=
  njs_vmcode_less lib sz vm val2 val1

/-- The function `njs_vmcode_greater_or_equal`. -/
def njs_vmcode_greater_or_equal (lib : njs_lib_t) (sz : njs_vmcode_sizes) (vm : njs_vm_t)
    (val1 val2 : njs_value_t) : Option (njs_ret_t × njs_vm_t) :=
  match njs_values_compare lib val1 val2 with
  | none => none
  | some ret =>
    if ret ≥ -1 then
      some (sz.addr3, { vm with retval := if ret = 0 then njs_value_true else njs_value_false })
    else
      some (ret, vm)

/-- The function `njs_vmcode_less_or_equal`. -/
def njs_vmcode_less_or_equal (lib : njs_lib_t) (sz : njs_vmcode_sizes) (vm : njs_vm_t)
    (val1 val2 : njs_value_t) : Option (njs_ret_t × njs_vm_t) :=
  njs_vmcode_greater_or_equal lib sz vm val2 val1

/-- The function `njs_values_strict_equal`; the result is `none` when the payload does not
match a numeric or String tag.  Both String layouts hold size, length and bytes, and a short
and a long String differ in the size field, so the two branches of the source compare the
same three things.  The last comparison is that of the pointers `data.u.object`. -/
def njs_values_strict_equal (val1 val2 : njs_value_t) : Option Bool :=
  if val1.type ≠ val2.type then
    some false
  else if njs_is_numeric val1 then
    match val1.u, val2.u with
    | .number a, .number b => some (njs_double_eq a b)
    | _, _ => none
  else if njs_is_string val1 then
    match val1.u, val2.u with
    | .string s1, .string s2 =>
      if s1.start.length ≠ s2.start.length then some false
      else if s1.length ≠ s2.length then some false
      else some (decide (s1.start = s2.start))
    | _, _ => none
  else
    some (decide (val1.u = val2.u))

/-- The function `njs_vmcode_strict_equal`. -/
def njs_vmcode_strict_equal (sz : njs_vmcode_sizes) (vm : njs_vm_t)
    (val1 val2 : njs_value_t) : Option (njs_ret_t × njs_vm_t) :=
  match njs_values_strict_equal val1 val2 with
  | none => none
  | some eq =>
    some (sz.addr3, { vm with retval := if eq then njs_value_true else njs_value_false })

/-- The function `njs_vmcode_strict_not_equal`. -/
def njs_vmcode_strict_not_equal (sz : njs_vmcode_sizes) (vm : njs_vm_t)
    (val1 val2 : njs_value_t) : Option (njs_ret_t × njs_vm_t) :=
  match njs_values_strict_equal val1 val2 with
  | none => none
  | some eq =>
    some (sz.addr3, { vm with retval := if eq then njs_value_false else njs_value_true })

/-- A sequence of Strings concatenated left to right: every `njs_vmcode_addition` takes the
result of the one before, which the interpreter has copied from `vm.retval`, as its first
operand.  The result is the final String, or `none` in its place when an addition did not
return the advance of the instruction. -/
def njs_string_concat_run (lib : njs_lib_t) (sz : njs_vmcode_sizes) :
    njs_vm_t → njs_value_t → List njs_value_t → Option (Option njs_value_t × njs_vm_t)
  | vm, acc, [] => some (some acc, vm)
  | vm, acc, val :: rest =>
    match njs_vmcode_addition lib sz vm acc val with
    | none => none
    | some (ret, vm1) =>
      if ret = sz.addr3 then njs_string_concat_run lib sz vm1 vm1.retval rest
      else some (none, vm1)

/-- The length field of a String value. -/
def njs_string_length (v : njs_value_t) : Nat :=
  match v.u with
  | .string s => s.length
  | _ => 0

/-- The length of a String is known: its length field is not zero or its size is zero. -/
def njs_string_length_known (v : njs_value_t) : Bool :=
  decide (njs_string_length v ≠ 0 ∨ (njs_string_bytes v).length = 0)

/-- The next `k` pool allocations succeed. -/
def njs_pool_ready (k : Nat) (pool : List Bool) : Prop :=
  ∃ n rest, k ≤ n ∧ pool = List.replicate n true ++ rest

/-- The part of a native frame (`njs_native_frame_t`) that the trap operations use: the
counter `reentrant`, the flag `trap_reference`, and the three value slots of
`njs_native_data(frame)`. -/
structure njs_native_frame_t where
  reentrant : Nat
  trap_reference : Bool
  values : List njs_value_t
  deriving DecidableEq, Repr

/-- The functions of `njs_function.c` that the trap operations call and the constant
`NJS_PASS` of `njs_vm.h`, none of which is part of the sources.
`njs_function_frame_alloc` returns the new frame, or `none` when the allocation fails;
`njs_function_apply` takes the function value and the value of `param.object`, and returns
its code with the state, in which `vm.retval` is the result of a call that returned
`NXT_OK`. -/
structure njs_function_lib_t where
  NJS_PASS : njs_ret_t
  njs_function_frame_alloc : njs_vm_t → Option njs_native_frame_t × njs_vm_t
  njs_function_apply : njs_vm_t → njs_value_t → njs_value_t → njs_ret_t × njs_vm_t

/-- Modelled from the spec: `njs_object_property` (`njs_object.c` is not part of the
sources), the lookup of a name on an object and its prototype chain: for each node the own
table is consulted first, then the shared table.  The result is `some none` for `NULL` and
`none` when the chain addresses no record or does not end within `fuel` nodes. -/
def njs_object_property (heap : List njs_heap_cell) (key : List Nat) :
    Nat → Option Nat → Option (Option njs_object_prop_t)
  | _, none => some none
  | 0, some _ => none
  | fuel + 1, some p =>
    match njs_object_at heap p with
    | none => none
    | some o =>
      match nxt_lvlhsh_find o.hash key with
      | some prop => some (some prop)
      | none =>
        match nxt_lvlhsh_find o.shared_hash key with
        | some prop => some (some prop)
        | none => njs_object_property heap key fuel o.__proto__

/-- The table `names` of `njs_primitive_value`: `valueOf` and `toString`. -/
def njs_primitive_value_names : List (List Nat) :=
  ["valueOf".data.map Char.toNat, "toString".data.map Char.toNat]

/-- The way the `for ( ;; )` loop of `njs_primitive_value` is left: by `return ret`, or by
`break` with `retval` pointing at `vm->retval`.  `calls` lists, in the order of the calls, the
indices into `names` of the methods that were passed to `njs_function_apply`; it is an
observation of the run and not a part of the state. -/
inductive njs_primitive_loop_t where
  | ret (ret : njs_ret_t) (vm : njs_vm_t) (frame : njs_native_frame_t) (calls : List Nat)
  | brk (vm : njs_vm_t) (frame : njs_native_frame_t) (calls : List Nat)

/-- The `for ( ;; )` loop of `njs_primitive_value` for the operand `value`; every turn takes
one unit of `fuel`. -/
def njs_primitive_value_loop (lib : njs_function_lib_t) (value : njs_value_t) :
    Nat → njs_vm_t → njs_native_frame_t → Nat → List Nat → Option njs_primitive_loop_t
  | 0, _, _, _, _ => none
  | fuel + 1, vm, frame, hint, calls =>
    let vm := { vm with exception := some njs_exception_type_error }
    if njs_is_object value && decide (frame.reentrant < 2) then
      let hint := hint ^^^ frame.reentrant
      let frame := { frame with reentrant := frame.reentrant + 1 }
      match njs_primitive_value_names[hint]?, njs_value_object value with
      | some name, some p =>
        match njs_object_property vm.heap name vm.heap.length (some p) with
        | none => none
        | some none => some (.ret NXT_ERROR vm frame calls)
        | some (some prop) =>
          match lib.njs_function_apply vm prop.value value with
          | (ret, vm) =>
            if ret = NXT_OK then
              if njs_is_primitive vm.retval then some (.brk vm frame (calls ++ [hint]))
              else njs_primitive_value_loop lib value fuel vm frame hint (calls ++ [hint])
            else if ret = lib.NJS_PASS then some (.ret 0 vm frame (calls ++ [hint]))
            else some (.ret ret vm frame (calls ++ [hint]))
      | _, _ => none
    else
      some (.ret NXT_ERROR vm frame calls)

/-- The function `njs_primitive_value`; `k` is the slot of `njs_native_data(vm->frame)` that
`value` points to.  The loop is left after at most three turns.  The last component of the
result is the list `calls` of the loop. -/
def njs_primitive_value (lib : njs_function_lib_t) (vm : njs_vm_t)
    (frame : njs_native_frame_t) (k : Nat) (hint : Nat) :
    Option (njs_ret_t × njs_vm_t × njs_native_frame_t × List Nat) :=
  match frame.values[k]?, frame.values[0]? with
  | some value, some retval =>
    if !njs_is_primitive value then
      if !njs_is_valid retval then
        match njs_primitive_value_loop lib value 3 vm frame hint [] with
        | none => none
        | some (.ret ret vm frame calls) => some (ret, vm, frame, calls)
        | some (.brk vm frame calls) =>
          some (1, { vm with retval := njs_set_invalid vm.retval },
            { frame with values := frame.values.set k vm.retval, reentrant := 0 }, calls)
      else
        some (1, vm,
          { frame with
            values := (frame.values.set k retval).set 0 (njs_set_invalid retval),
            reentrant := 0 }, [])
    else
      some (1, vm, { frame with reentrant := 0 }, [])
  | _, _ => none

/-- The constant `njs_string_null`. -/
def njs_string_null : njs_value_t := njs_string "null"

/-- The constant `njs_string_void`. -/
def njs_string_void : njs_value_t := njs_string "undefined"

/-- The constant `njs_string_true`. -/
def njs_string_true : njs_value_t := njs_string "true"

/-- The constant `njs_string_false`. -/
def njs_string_false : njs_value_t := njs_string "false"

/-- The function `njs_vmcode_number_primitive`; `narg` is the operand of the instruction and
`addr1` is `sizeof(njs_vmcode_1addr_t)`. -/
def njs_vmcode_number_primitive (lib : njs_lib_t) (flib : njs_function_lib_t) (addr1 : Int)
    (vm : njs_vm_t) (frame : njs_native_frame_t) (narg : Nat) :
    Option (njs_ret_t × njs_vm_t × njs_native_frame_t × List Nat) :=
  match njs_primitive_value flib vm frame (narg + 1) 0 with
  | none => none
  | some (ret, vm, frame, calls) =>
    if ret > 0 then
      match frame.values[narg + 1]? with
      | none => none
      | some value =>
        if !njs_is_numeric value then
          let num := if njs_is_string value then lib.njs_string_to_number value else .nan
          some (addr1, vm,
            { frame with values := frame.values.set (narg + 1) (njs_number_set_double num) },
            calls)
        else
          some (addr1, vm, frame, calls)
    else
      some (ret, vm, frame, calls)

/-- The function `njs_vmcode_string_primitive`. -/
def njs_vmcode_string_primitive (lib : njs_lib_t) (flib : njs_function_lib_t) (addr1 : Int)
    (vm : njs_vm_t) (frame : njs_native_frame_t) (narg : Nat) :
    Option (njs_ret_t × njs_vm_t × njs_native_frame_t × List Nat) :=
  match njs_primitive_value flib vm frame (narg + 1) 1 with
  | none => none
  | some (ret, vm, frame, calls) =>
    if ret > 0 then
      match frame.values[narg + 1]? with
      | none => none
      | some value =>
        if !njs_is_string value then
          match value.type with
          | NJS_NULL =>
            some (addr1, vm,
              { frame with values := frame.values.set (narg + 1) njs_string_null }, calls)
          | NJS_VOID =>
            some (addr1, vm,
              { frame with values := frame.values.set (narg + 1) njs_string_void }, calls)
          | NJS_BOOLEAN =>
            let string := if njs_is_true value then njs_string_true else njs_string_false
            some (addr1, vm,
              { frame with values := frame.values.set (narg + 1) string }, calls)
          | NJS_NUMBER =>
            match lib.njs_number_to_string vm value with
            | (ret, vm, string) =>
              if ret = NXT_OK then
                some (addr1, vm,
                  { frame with values := frame.values.set (narg + 1) string }, calls)
              else
                some (NXT_ERROR, vm, frame, calls)
          | _ => some (NXT_ERROR, vm, frame, calls)
        else
          some (addr1, vm, frame, calls)
    else
      some (ret, vm, frame, calls)

/-- The instructions of the trap micro-programs: the operation and its operand `index`. -/
inductive njs_trap_code_t where
  | number_primitive (index : Nat)
  | string_primitive (index : Nat)
  | restart
  deriving DecidableEq, Repr

/-- The micro-program `njs_trap_strings`. -/
def njs_trap_strings : List njs_trap_code_t :=
  [.string_primitive 0, .string_primitive 1, .restart]

/-- The micro-program `njs_trap_numbers`. -/
def njs_trap_numbers : List njs_trap_code_t :=
  [.number_primitive 0, .number_primitive 1, .restart]

/-- The micro-program `njs_trap_number`. -/
def njs_trap_number : List njs_trap_code_t :=
  [.number_primitive 0, .restart]

/-- The table `njs_vm_traps`: for each trap the micro-program from the instruction that
`code` points to, and `reference_value`. -/
def njs_vm_traps : List (List njs_trap_code_t × Bool) :=
  [(njs_trap_strings.drop 1, false),
   (njs_trap_strings, false),
   (njs_trap_numbers.drop 1, true),
   (njs_trap_numbers, false),
   (njs_trap_number, false)]

/-- The function `njs_vm_trap`.  On success the result holds the new frame and the
micro-program that `vm->current` points to.  With `reference_value` the slot 1 holds the
pointer `value1`, which is kept here as the value it points to. -/
def njs_vm_trap (flib : njs_function_lib_t) (vm : njs_vm_t) (trap : Nat)
    (value1 value2 : njs_value_t) :
    Option (njs_ret_t × njs_vm_t × Option (njs_native_frame_t × List njs_trap_code_t)) :=
  match flib.njs_function_frame_alloc vm with
  | (none, vm) => some (NXT_ERROR, vm, none)
  | (some frame, vm) =>
    match njs_vm_traps[trap]? with
    | none => none
    | some (code, reference_value) =>
      let value0 := njs_set_invalid (frame.values.getD 0 njs_value_void)
      some (NXT_OK, vm,
        some ({ frame with trap_reference := reference_value,
                           values := [value0, value1, value2] }, code))

/-- The function `njs_vmcode_restart`: the operation `op` of the instruction at
`frame->u.restart` is executed again on the slots 1 and 2. -/
def njs_vmcode_restart (op : njs_vm_t → njs_value_t → njs_value_t → Option (njs_ret_t × njs_vm_t))
    (vm : njs_vm_t) (frame : njs_native_frame_t) : Option (njs_ret_t × njs_vm_t) :=
  match frame.values[1]?, frame.values[2]? with
  | some value1, some value2 => op vm value1 value2
  | _, _ => none

/-- The loop of `njs_vmcode_interpreter` on a trap micro-program: an instruction that returns
its size is followed by the next one, and the run ends with the code of `njs_vmcode_restart`
or with the first other code (an error, a suspension, or 0 for a call of a scripted method,
whose code is not part of this model).  The last component lists the methods called. -/
def njs_vmcode_interpreter_code (lib : njs_lib_t) (flib : njs_function_lib_t) (addr1 : Int)
    (op : njs_vm_t → njs_value_t → njs_value_t → Option (njs_ret_t × njs_vm_t)) :
    List njs_trap_code_t → njs_vm_t → njs_native_frame_t → List Nat →
    Option (njs_ret_t × njs_vm_t × List Nat)
  | [], _, _, _ => none
  | .restart :: _, vm, frame, calls =>
    match njs_vmcode_restart op vm frame with
    | none => none
    | some (ret, vm) => some (ret, vm, calls)
  | .number_primitive index :: rest, vm, frame, calls =>
    match njs_vmcode_number_primitive lib flib addr1 vm frame index with
    | none => none
    | some (ret, vm, frame, c) =>
      if ret = addr1 then njs_vmcode_interpreter_code lib flib addr1 op rest vm frame (calls ++ c)
      else some (ret, vm, calls ++ c)
  | .string_primitive index :: rest, vm, frame, calls =>
    match njs_vmcode_string_primitive lib flib addr1 vm frame index with
    | none => none
    | some (ret, vm, frame, c) =>
      if ret = addr1 then njs_vmcode_interpreter_code lib flib addr1 op rest vm frame (calls ++ c)
      else some (ret, vm, calls ++ c)

/-- The part of `njs_vmcode_interpreter` that serves the code `ret` of the operation `op`
when it is a trap: `njs_vm_trap`, the micro-program, and the restart of the operation. -/
def njs_vmcode_interpreter_trap (lib : njs_lib_t) (flib : njs_function_lib_t) (addr1 : Int)
    (op : njs_vm_t → njs_value_t → njs_value_t → Option (njs_ret_t × njs_vm_t))
    (vm : njs_vm_t) (ret : njs_ret_t) (value1 value2 : njs_value_t) :
    Option (njs_ret_t × njs_vm_t × List Nat) :=
  let value2 := if ret = NJS_TRAP_NUMBER then value1 else value2
  if ret = NJS_TRAP_NUMBER ∨ ret = NJS_TRAP_NUMBERS ∨ ret = NJS_TRAP_STRINGS ∨
      ret = NJS_TRAP_INCDEC ∨ ret = NJS_TRAP_PROPERTY then
    match njs_vm_trap flib vm (ret - NJS_TRAP_LAST).toNat value1 value2 with
    | none => none
    | some (_, vm, none) => some (NXT_ERROR, vm, [])
    | some (_, vm, some (frame, code)) =>
      njs_vmcode_interpreter_code lib flib addr1 op code vm frame []
  else
    some (ret, vm, [])

/-- A library for the examples: the arithmetic is exact on finite numbers, a number from 0 to
9 converts to its digit, and Strings are compared by their bytes. -/
def njs_example_lib : njs_lib_t where
  double_add := fun a b =>
    match a, b with
    | .fin p, .fin q => .fin (p + q)
    | _, _ => .nan
  double_sub := fun a b =>
    match a, b with
    | .fin p, .fin q => .fin (p - q)
    | _, _ => .nan
  double_mul := fun a b =>
    match a, b with
    | .fin p, .fin q => .fin (p * q)
    | _, _ => .nan
  double_div := fun _ _ => .nan
  njs_string_eq := fun a b => decide (njs_string_bytes a = njs_string_bytes b)
  njs_string_cmp := fun a b => if njs_string_bytes a = njs_string_bytes b then 0 else 1
  njs_number_to_string := fun vm v =>
    match v.u with
    | .number (.fin q) =>
      if q.den = 1 ∧ 0 ≤ q.num ∧ q.num ≤ 9 then
        (NXT_OK, vm, ⟨NJS_STRING, true, .string ⟨[48 + q.num.toNat], 1⟩⟩)
      else (NXT_ERROR, vm, v)
    | _ => (NXT_ERROR, vm, v)
  njs_string_to_number := fun _ => .nan

/-- The functions for the examples: a frame is always allocated; the native function at
address 2 returns the String `[object Object]`, and the function at address 3 is a scripted
one, for which `njs_function_apply` returns `NJS_PASS`. -/
def njs_example_function_lib : njs_function_lib_t where
  NJS_PASS := -10
  njs_function_frame_alloc := fun vm => (some ⟨0, false, [njs_value_void, njs_value_void,
    njs_value_void]⟩, vm)
  njs_function_apply := fun vm function _ =>
    match function.u with
    | .object 2 => (NXT_OK, { vm with retval := njs_string "[object Object]" })
    | .object 3 => (-10, vm)
    | _ => (NXT_ERROR, vm)

/-- The heap of the object `{ valueOf: function() { return 7 } }` (address 1): its prototype
(address 0) has the native method `toString` (address 2) in its shared table, and `valueOf`
is the scripted function at address 3. -/
def njs_example_heap_value_of : List njs_heap_cell :=
  [.object ⟨[], [⟨njs_string "toString", ⟨NJS_FUNCTION, true, .object 2⟩, NJS_METHOD, false,
      true, true⟩], none⟩,
   .object ⟨[njs_example_prop "valueOf" ⟨NJS_FUNCTION, true, .object 3⟩], [], some 0⟩,
   .function ⟨⟨[], [], none⟩, true, 0, 1⟩,
   .function ⟨⟨[], [], none⟩, false, 0, 2⟩]

/-- The String `α`: two bytes, one code point. -/
def njs_example_string_alpha : njs_value_t := ⟨NJS_STRING, true, .string ⟨[206, 177], 1⟩⟩

/-- A String of one byte whose length is not known. -/
def njs_example_string_unknown : njs_value_t := ⟨NJS_STRING, true, .string ⟨[255], 0⟩⟩

/-- The list `calls` of an outcome of the loop. -/
def njs_primitive_loop_t.calls : njs_primitive_loop_t → List Nat
  | .ret _ _ _ calls => calls
  | .brk _ _ calls => calls

/-- The function `njs_vmcode_increment`.  The third component of the result is the value
that `*reference` holds after the call; `njs_release` changes no field of the model. -/
def njs_vmcode_increment (lib : njs_lib_t) (sz : njs_vmcode_sizes) (vm : njs_vm_t)
    (reference value : njs_value_t) : Option (njs_ret_t × njs_vm_t × njs_value_t) :=
  if njs_is_numeric value then
    match value.u with
    | .number n =>
      let num := lib.double_add n (.fin 1)
      let reference1 := njs_number_set_double num
      some (sz.addr3, { vm with retval := reference1 }, reference1)
    | _ => none
  else
    some (NJS_TRAP_INCDEC, vm, reference)

/-- The function `njs_vmcode_decrement`. -/
def njs_vmcode_decrement (lib : njs_lib_t) (sz : njs_vmcode_sizes) (vm : njs_vm_t)
    (reference value : njs_value_t) : Option (njs_ret_t × njs_vm_t × njs_value_t) :=
  if njs_is_numeric value then
    match value.u with
    | .number n =>
      let num := lib.double_sub n (.fin 1)
      let reference1 := njs_number_set_double num
      some (sz.addr3, { vm with retval := reference1 }, reference1)
    | _ => none
  else
    some (NJS_TRAP_INCDEC, vm, reference)

/-- The function `njs_vmcode_post_increment`. -/
def njs_vmcode_post_increment (lib : njs_lib_t) (sz : njs_vmcode_sizes) (vm : njs_vm_t)
    (reference value : njs_value_t) : Option (njs_ret_t × njs_vm_t × njs_value_t) :=
  if njs_is_numeric value then
    match value.u with
    | .number num =>
      let reference1 := njs_number_set_double (lib.double_add num (.fin 1))
      some (sz.addr3, { vm with retval := njs_number_set_double num }, reference1)
    | _ => none
  else
    some (NJS_TRAP_INCDEC, vm, reference)

/-- The function `njs_vmcode_post_decrement`. -/
def njs_vmcode_post_decrement (lib : njs_lib_t) (sz : njs_vmcode_sizes) (vm : njs_vm_t)
    (reference value : njs_value_t) : Option (njs_ret_t × njs_vm_t × njs_value_t) :=
  if njs_is_numeric value then
    match value.u with
    | .number num =>
      let reference1 := njs_number_set_double (lib.double_sub num (.fin 1))
      some (sz.addr3, { vm with retval := njs_number_set_double num }, reference1)
    | _ => none
  else
    some (NJS_TRAP_INCDEC, vm, reference)

/-- The constant `njs_string_boolean`. -/
def njs_string_boolean : njs_value_t := njs_string "boolean"

/-- The constant `njs_string_number`. -/
def njs_string_number : njs_value_t := njs_string "number"

/-- The constant `njs_string_string`. -/
def njs_string_string : njs_value_t := njs_string "string"

/-- The constant `njs_string_object`. -/
def njs_string_object : njs_value_t := njs_string "object"

/-- The constant `njs_string_function`. -/
def njs_string_function : njs_value_t := njs_string "function"

/-- The table `types` of `njs_vmcode_typeof`, in the order of the source. -/
def njs_vmcode_typeof_types : List njs_value_t :=
  [njs_string_object, njs_string_void, njs_string_boolean, njs_string_number,
   njs_string_string, njs_string_void, njs_string_void, njs_string_void,
   njs_string_object, njs_string_object, njs_string_object, njs_string_object,
   njs_string_object, njs_string_function, njs_string_object]

/-- The function `njs_vmcode_typeof`.  The numbers of the tags (the enumeration
`njs_value_type_t` of `njs_vm.h`) are the parameter `code` and `addr2` is
`sizeof(njs_vmcode_2addr_t)`; a tag whose number is past the end of the table reads outside
of it, which gives `none`. -/
def njs_vmcode_typeof (code : njs_value_type_t → Nat) (addr2 : Int) (vm : njs_vm_t)
    (value : njs_value_t) : Option (njs_ret_t × njs_vm_t) :=
  match njs_vmcode_typeof_types[code value.type]? with
  | some type => some (addr2, { vm with retval := type })
  | none => none

/-- A numbering of the tags for the examples: the scalar tags from 0, the tag Invalid at 7,
Object and Array at 8 and 9, Function at 13 and RegExp at 14. -/
def njs_example_type_code : njs_value_type_t → Nat
  | NJS_NULL => 0
  | NJS_VOID => 1
  | NJS_BOOLEAN => 2
  | NJS_NUMBER => 3
  | NJS_STRING => 4
  | NJS_NATIVE => 5
  | NJS_EXTERNAL => 6
  | NJS_INVALID => 7
  | NJS_OBJECT => 8
  | NJS_ARRAY => 9
  | NJS_FUNCTION => 13
  | NJS_REGEXP => 14

/-- The structure `njs_exception_t`, the head of the handler list of a frame: the member
`catch` (`none` is `NULL`) and the entries saved behind the pointer `next`, each given by its
catch address, from the most recently saved one; the empty list is `next == NULL`. -/
structure njs_exception_t where
  next : List (Option Int)
  catch_ : Option Int
  deriving DecidableEq, Repr

/-- The members of a frame (`njs_frame_t` with its part `native`) that the interpreter and
the frame operations read.  The link `native.previous` is the order of the list of frames in
the state. -/
structure njs_frame_t where
  exception : njs_exception_t
  arguments : Nat
  retval : Int
  return_address : Int
  prev_arguments : Nat
  prev_local : Nat
  first : Bool
  skip : Bool
  ctor : Bool
  deriving DecidableEq, Repr

/-- The array `vm->scopes`: the base addresses of the four scopes. -/
structure njs_scopes_t where
  NJS_SCOPE_GLOBAL : Nat
  NJS_SCOPE_CALLEE_ARGUMENTS : Nat
  NJS_SCOPE_ARGUMENTS : Nat
  NJS_SCOPE_LOCAL : Nat
  deriving DecidableEq, Repr

/-- The state of the machine that the interpreter and the frame operations work on: the
fields of the earlier model in `vm`, the code pointer `vm->current`, the chain of frames from
`vm->frame` outwards (the empty list is `NULL`), the scope bases, and the value slots that
the operand pointers address. -/
structure njs_vm_state_t where
  vm : njs_vm_t
  current : Int
  frame : List njs_frame_t
  scopes : njs_scopes_t
  values : List njs_value_t
  deriving DecidableEq, Repr

/-- The constant `NJS_PASS`, the decoding macro `njs_vmcode_operand` and the sizes of the
instruction records, which `njs_vm.h` declares, and the function `njs_vm_trap`, which starts
the micro-program of a trap.  An operand word is kept as the signed number that the cast
`(njs_ret_t)` reads. -/
structure njs_vmcode_host_t where
  NJS_PASS : njs_ret_t
  njs_vmcode_operand : njs_scopes_t → Int → Nat
  try_start_size : Nat
  catch_size : Nat
  finally_size : Nat
  njs_vm_trap : njs_vm_state_t → Int → Option Nat → Int → Option (njs_ret_t × njs_vm_state_t)

/-- The function `njs_vmcode_jump`. -/
def njs_vmcode_jump (s : njs_vm_state_t) (offset : Int) : Option (njs_ret_t × njs_vm_state_t) :=
  some (offset, s)

/-- The function `njs_vmcode_stop`. -/
def njs_vmcode_stop (host : njs_vmcode_host_t) (s : njs_vm_state_t) (retval : Int) :
    Option (njs_ret_t × njs_vm_state_t) :=
  match s.values[host.njs_vmcode_operand s.scopes retval]? with
  | none => none
  | some value => some (NXT_DONE, { s with vm := { s.vm with retval := value } })

/-- The function `njs_vmcode_try_start`.  A failed allocation of the entry gives
`NXT_ERROR`. -/
def njs_vmcode_try_start (host : njs_vmcode_host_t) (s : njs_vm_state_t) (value : Nat)
    (offset : Int) : Option (njs_ret_t × njs_vm_state_t) :=
  match s.frame with
  | [] => none
  | frame :: previous =>
    let saved : Bool × List Bool × njs_exception_t :=
      if frame.exception.catch_.isSome then
        match nxt_mem_cache_alloc s.vm.mem_cache_pool with
        | (false, pool) => (false, pool, frame.exception)
        | (true, pool) =>
          (true, pool,
            { frame.exception with next := frame.exception.catch_ :: frame.exception.next })
      else
        (true, s.vm.mem_cache_pool, frame.exception)
    match saved with
    | (false, pool, _) => some (NXT_ERROR, { s with vm := { s.vm with mem_cache_pool := pool } })
    | (true, pool, exception) =>
      match s.values[value]? with
      | none => none
      | some v =>
        some ((host.try_start_size : Int),
          { s with vm := { s.vm with mem_cache_pool := pool },
                   frame := { frame with exception :=
                     { exception with catch_ := some (s.current + offset) } } :: previous,
                   values := s.values.set value (njs_set_invalid v) })

/-- The function `njs_vmcode_try_end`. -/
def njs_vmcode_try_end (s : njs_vm_state_t) (offset : Int) :
    Option (njs_ret_t × njs_vm_state_t) :=
  match s.frame with
  | [] => none
  | frame :: previous =>
    let exception : njs_exception_t :=
      match frame.exception.next with
      | [] => { frame.exception with catch_ := none }
      | e :: next => ⟨next, e⟩
    some (offset, { s with frame := { frame with exception := exception } :: previous })

/-- The function `njs_vmcode_throw`. -/
def njs_vmcode_throw (host : njs_vmcode_host_t) (s : njs_vm_state_t) (retval : Int) :
    Option (njs_ret_t × njs_vm_state_t) :=
  match s.values[host.njs_vmcode_operand s.scopes retval]? with
  | none => none
  | some value => some (NXT_ERROR, { s with vm := { s.vm with retval := value } })

/-- The function `njs_vmcode_catch`. -/
def njs_vmcode_catch (host : njs_vmcode_host_t) (s : njs_vm_state_t) (exception : Nat)
    (offset : Int) : Option (njs_ret_t × njs_vm_state_t) :=
  if exception < s.values.length then
    let s1 := { s with values := s.values.set exception s.vm.retval }
    if offset = (host.catch_size : Int) then njs_vmcode_try_end s1 offset
    else
      match s1.frame with
      | [] => none
      | frame :: previous =>
        some ((host.catch_size : Int),
          { s1 with frame := { frame with exception :=
              { frame.exception with catch_ := some (s1.current + offset) } } :: previous })
  else none

/-- The function `njs_vmcode_finally`. -/
def njs_vmcode_finally (host : njs_vmcode_host_t) (s : njs_vm_state_t) (retval : Int) :
    Option (njs_ret_t × njs_vm_state_t) :=
  match s.values[host.njs_vmcode_operand s.scopes retval]? with
  | none => none
  | some value =>
    if !njs_is_valid value then some ((host.finally_size : Int), s)
    else some (NXT_ERROR, { s with vm := { s.vm with retval := value } })

/-- The function `njs_vmcode_return` with `njs_function_frame_free`, which returns 0.  The
pointer `previous` is dereferenced, so a frame without a caller gives `none`; the two calls
of `njs_release` and the release of the frame memory change no field of the model. -/
def njs_vmcode_return (host : njs_vmcode_host_t) (s : njs_vm_state_t) (retval : Int) :
    Option (njs_ret_t × njs_vm_state_t) :=
  let value := host.njs_vmcode_operand s.scopes retval
  match s.frame with
  | [] => none
  | frame :: chain =>
    let value : Option Nat :=
      if frame.ctor then
        match s.values[value]? with
        | none => none
        | some v => if njs_is_object v then some value else some s.scopes.NJS_SCOPE_ARGUMENTS
      else some value
    match value, chain with
    | none, _ => none
    | _, [] => none
    | some value, previous :: rest =>
      let chain1 := if previous.skip then rest else chain
      match chain1 with
      | [] => none
      | previous1 :: _ =>
        let scopes : njs_scopes_t :=
          { s.scopes with NJS_SCOPE_CALLEE_ARGUMENTS := previous1.arguments,
                          NJS_SCOPE_LOCAL := frame.prev_local,
                          NJS_SCOPE_ARGUMENTS := frame.prev_arguments }
        let retval1 := host.njs_vmcode_operand scopes frame.retval
        match s.values[value]? with
        | none => none
        | some v =>
          if retval1 < s.values.length then
            some (0, { s with frame := chain1, scopes := scopes,
                              values := s.values.set retval1 v,
                              current := frame.return_address })
          else none

/-- The member `code.operands` of an instruction. -/
inductive njs_vmcode_operands_t where
  | NJS_VMCODE_NO_OPERAND
  | NJS_VMCODE_1OPERAND
  | NJS_VMCODE_2OPERANDS
  | NJS_VMCODE_3OPERANDS
  deriving DecidableEq, Repr

/-- The structure `njs_vmcode_generic_t`, an instruction: the operation, which takes the
state and the two pointers `value1` (`none` is `NULL`) and `value2`, the members
`code.operands` and `code.retval`, and the three operand words. -/
structure njs_vmcode_generic_t where
  operation : njs_vm_state_t → Option Nat → Int → Option (njs_ret_t × njs_vm_state_t)
  operands : njs_vmcode_operands_t
  retval : Bool
  operand1 : Int
  operand2 : Int
  operand3 : Int

/-- One round of the inner loop of `njs_vmcode_interpreter`: it goes on with the next
instruction, or it is left by `break` with the code, the state and the two pointers. -/
inductive njs_vmcode_round_t where
  | next (s : njs_vm_state_t)
  | leave (ret : njs_ret_t) (s : njs_vm_state_t) (value1 : Option Nat) (value2 : Int)
  deriving DecidableEq, Repr

/-- The pointer `value2` that the interpreter passes to the operation of an instruction: the
decoded third operand of an instruction of three operands, and the first operand word as it
is otherwise. -/
def njs_vmcode_interpreter_value2 (host : njs_vmcode_host_t) (s : njs_vm_state_t)
    (vmcode : njs_vmcode_generic_t) : Int :=
  match vmcode.operands with
  | .NJS_VMCODE_3OPERANDS => (host.njs_vmcode_operand s.scopes vmcode.operand3 : Nat)
  | _ => vmcode.operand1

/-- The pointer `value1` that the interpreter passes to the operation of an instruction: the
decoded second operand of an instruction of two or three operands, and `NULL` otherwise. -/
def njs_vmcode_interpreter_value1 (host : njs_vmcode_host_t) (s : njs_vm_state_t)
    (vmcode : njs_vmcode_generic_t) : Option Nat :=
  match vmcode.operands with
  | .NJS_VMCODE_3OPERANDS => some (host.njs_vmcode_operand s.scopes vmcode.operand2)
  | .NJS_VMCODE_2OPERANDS => some (host.njs_vmcode_operand s.scopes vmcode.operand2)
  | _ => none

/-- The body of the inner loop of `njs_vmcode_interpreter`.  The code memory gives the
instruction at an address. -/
def njs_vmcode_interpreter_round (host : njs_vmcode_host_t)
    (code : Int → Option njs_vmcode_generic_t) (s : njs_vm_state_t) :
    Option njs_vmcode_round_t :=
  match code s.current with
  | none => none
  | some vmcode =>
    let value2 := njs_vmcode_interpreter_value2 host s vmcode
    let value1 := njs_vmcode_interpreter_value1 host s vmcode
    match vmcode.operation s value1 value2 with
    | none => none
    | some (ret, s1) =>
      if ret < 0 ∧ host.NJS_PASS ≤ ret then some (.leave ret s1 value1 value2)
      else
        let s2 := { s1 with current := s1.current + ret }
        if vmcode.retval then
          let retval := host.njs_vmcode_operand s2.scopes vmcode.operand1
          if retval < s2.values.length then
            some (.next { s2 with values := s2.values.set retval s2.vm.retval })
          else none
        else some (.next s2)

/-- The loop of `njs_vmcode_interpreter` that serves `NXT_ERROR`: the catch address of the
first frame of the chain that has one, with the chain and the scope bases then, or `none`
for the address when the last frame is reached without one.  An empty chain is a `NULL`
frame pointer, which gives `none`. -/
def njs_vmcode_interpreter_unwind :
    List njs_frame_t → njs_scopes_t → Option (Option Int × List njs_frame_t × njs_scopes_t)
  | [], _ => none
  | frame :: chain, scopes =>
    match frame.exception.catch_ with
    | some c => some (some c, frame :: chain, scopes)
    | none =>
      match chain with
      | [] => some (none, [frame], scopes)
      | previous :: _ =>
        njs_vmcode_interpreter_unwind chain
          { scopes with NJS_SCOPE_CALLEE_ARGUMENTS := previous.arguments,
                        NJS_SCOPE_LOCAL := frame.prev_local,
                        NJS_SCOPE_ARGUMENTS := frame.prev_arguments }

/-- What the outer loop of `njs_vmcode_interpreter` does after a round: it goes on at
`again`, or the function returns a code. -/
inductive njs_vmcode_outcome_t where
  | again (s : njs_vm_state_t)
  | returned (ret : njs_ret_t) (s : njs_vm_state_t)
  deriving DecidableEq, Repr

/-- The part of `njs_vmcode_interpreter` behind the inner loop: the traps, the error and the
return of the other codes. -/
def njs_vmcode_interpreter_leave (host : njs_vmcode_host_t) (ret : njs_ret_t)
    (s : njs_vm_state_t) (value1 : Option Nat) (value2 : Int) : Option njs_vmcode_outcome_t :=
  let value2 : Int :=
    if ret = NJS_TRAP_NUMBER then
      match value1 with
      | some a => (a : Int)
      | none => 0
    else value2
  let served : Option (Bool × njs_ret_t × njs_vm_state_t) :=
    if ret = NJS_TRAP_NUMBER ∨ ret = NJS_TRAP_NUMBERS ∨ ret = NJS_TRAP_STRINGS ∨
        ret = NJS_TRAP_INCDEC ∨ ret = NJS_TRAP_PROPERTY then
      match host.njs_vm_trap s (ret - NJS_TRAP_LAST) value1 value2 with
      | none => none
      | some (r, s1) => if r = NXT_OK then some (true, r, s1) else some (false, NXT_ERROR, s1)
    else some (false, ret, s)
  match served with
  | none => none
  | some (true, _, s1) => some (.again s1)
  | some (false, ret, s1) =>
    if ret = NXT_ERROR then
      match njs_vmcode_interpreter_unwind s1.frame s1.scopes with
      | none => none
      | some (some c, frame, scopes) =>
        some (.again { s1 with current := c, frame := frame, scopes := scopes })
      | some (none, frame, scopes) =>
        some (.returned ret { s1 with frame := frame, scopes := scopes })
    else some (.returned ret s1)

/-- One pass of the outer loop of `njs_vmcode_interpreter`: a round of the inner loop and,
when it is left, the part behind it. -/
def njs_vmcode_interpreter_step (host : njs_vmcode_host_t)
    (code : Int → Option njs_vmcode_generic_t) (s : njs_vm_state_t) :
    Option njs_vmcode_outcome_t :=
  match njs_vmcode_interpreter_round host code s with
  | none => none
  | some (.next s1) => some (.again s1)
  | some (.leave ret s1 value1 value2) => njs_vmcode_interpreter_leave host ret s1 value1 value2

/-- The first `n` instructions of a run of `njs_vmcode_interpreter`: the state after them, or
the code that the function returned within them. -/
def njs_vmcode_interpreter_steps (host : njs_vmcode_host_t)
    (code : Int → Option njs_vmcode_generic_t) :
    Nat → njs_vm_state_t → Option njs_vmcode_outcome_t
  | 0, s => some (.again s)
  | n + 1, s =>
    match njs_vmcode_interpreter_step host code s with
    | none => none
    | some (.again s1) => njs_vmcode_interpreter_steps host code n s1
    | some (.returned ret s1) => some (.returned ret s1)

/-- The function `njs_vmcode_interpreter`, with a bound on the number of instructions: `none`
when the function has not returned within the bound, or on undefined behaviour. -/
def njs_vmcode_interpreter (host : njs_vmcode_host_t)
    (code : Int → Option njs_vmcode_generic_t) (fuel : Nat) (s : njs_vm_state_t) :
    Option (njs_ret_t × njs_vm_state_t) :=
  match njs_vmcode_interpreter_steps host code fuel s with
  | some (.returned ret s1) => some (ret, s1)
  | _ => none

/-- The instruction of `njs_vmcode_jump`: the interpreter passes the first operand word, the
offset, in `value2`. -/
def njs_code_jump (offset : Int) : njs_vmcode_generic_t :=
  ⟨fun s _ value2 => njs_vmcode_jump s value2, .NJS_VMCODE_1OPERAND, false, offset, 0, 0⟩

/-- The instruction of `njs_vmcode_throw` with the index of the thrown value. -/
def njs_code_throw (host : njs_vmcode_host_t) (retval : Int) : njs_vmcode_generic_t :=
  ⟨fun s _ value2 => njs_vmcode_throw host s value2, .NJS_VMCODE_1OPERAND, false, retval, 0, 0⟩

/-- The instruction of `njs_vmcode_stop` with the index of the result. -/
def njs_code_stop (host : njs_vmcode_host_t) (retval : Int) : njs_vmcode_generic_t :=
  ⟨fun s _ value2 => njs_vmcode_stop host s value2, .NJS_VMCODE_1OPERAND, false, retval, 0, 0⟩

/-- The instruction of `njs_vmcode_return` with the index of the returned value. -/
def njs_code_return (host : njs_vmcode_host_t) (retval : Int) : njs_vmcode_generic_t :=
  ⟨fun s _ value2 => njs_vmcode_return host s value2, .NJS_VMCODE_1OPERAND, false, retval, 0, 0⟩

/-- The instruction of `njs_vmcode_finally` with the index of the tracking variable. -/
def njs_code_finally (host : njs_vmcode_host_t) (retval : Int) : njs_vmcode_generic_t :=
  ⟨fun s _ value2 => njs_vmcode_finally host s value2, .NJS_VMCODE_1OPERAND, false, retval, 0, 0⟩

/-- The instruction of `njs_vmcode_try_end` with its offset. -/
def njs_code_try_end (offset : Int) : njs_vmcode_generic_t :=
  ⟨fun s _ value2 => njs_vmcode_try_end s value2, .NJS_VMCODE_1OPERAND, false, offset, 0, 0⟩

/-- The instruction of `njs_vmcode_try_start`: the offset is the first operand word and the
index of the tracking variable the second, which the interpreter decodes into `value1`. -/
def njs_code_try_start (host : njs_vmcode_host_t) (value offset : Int) : njs_vmcode_generic_t :=
  ⟨fun s value1 value2 =>
      match value1 with
      | some a => njs_vmcode_try_start host s a value2
      | none => none,
    .NJS_VMCODE_2OPERANDS, false, offset, value, 0⟩

/-- The instruction of `njs_vmcode_catch`: the offset is the first operand word and the index
of the exception variable the second. -/
def njs_code_catch (host : njs_vmcode_host_t) (exception offset : Int) : njs_vmcode_generic_t :=
  ⟨fun s value1 value2 =>
      match value1 with
      | some a => njs_vmcode_catch host s a value2
      | none => none,
    .NJS_VMCODE_2OPERANDS, false, offset, exception, 0⟩

/-- A decoding of operand indices for the examples: the two low bits select the scope and
the rest is the slot in it. -/
def njs_example_operand (scopes : njs_scopes_t) (index : Int) : Nat :=
  let base :=
    match index.toNat % 4 with
    | 0 => scopes.NJS_SCOPE_GLOBAL
    | 1 => scopes.NJS_SCOPE_CALLEE_ARGUMENTS
    | 2 => scopes.NJS_SCOPE_ARGUMENTS
    | _ => scopes.NJS_SCOPE_LOCAL
  base + index.toNat / 4

/-- The constants for the examples: `NJS_PASS` is -10, the instruction records of
`njs_vmcode_try_start` and `njs_vmcode_catch` take 24 bytes and that of `njs_vmcode_finally`
16, and no trap is served. -/
def njs_example_vmcode_host : njs_vmcode_host_t :=
  ⟨-10, njs_example_operand, 24, 24, 16, fun _ _ _ _ => none⟩

/-- Scope bases for the examples: four slots for each scope. -/
def njs_example_scopes : njs_scopes_t := ⟨0, 4, 8, 12⟩

/-- A frame for the examples with the handler list `exception`; it returns to the address
100 and stores its result in the slot 1 of the scope Local. -/
def njs_example_frame (exception : njs_exception_t) : njs_frame_t :=
  ⟨exception, 4, 7, 100, 8, 12, false, false, false⟩

/-- A state for the examples: sixteen slots holding the numbers 0 to 15, the code pointer
`current` and the chain `frame`. -/
def njs_example_state (current : Int) (frame : List njs_frame_t) : njs_vm_state_t :=
  ⟨njs_example_vm [] [true, true, true], current, frame, njs_example_scopes,
    (List.range 16).map (fun i => njs_example_number i)⟩

/-- A code memory for the examples: a jump back by 32 bytes at the address 64 and a throw of
the slot 0 of the scope Local at the address 32. -/
def njs_example_code_jump (address : Int) : Option njs_vmcode_generic_t :=
  if address = 64 then some (njs_code_jump (-32))
  else if address = 32 then some (njs_code_throw njs_example_vmcode_host 3)
  else none

/-- The scope bases after the frames `discarded` (from `vm->frame` outwards) have been
discarded and `frame` has become the current one: the bases Local and Arguments are those
saved in the last discarded frame and the base CalleeArguments is the arguments base of
`frame`; without a discarded frame the bases stay. -/
def njs_unwind_scopes (discarded : List njs_frame_t) (frame : njs_frame_t)
    (scopes : njs_scopes_t) : njs_scopes_t :=
  match discarded.getLast? with
  | none => scopes
  | some last =>
    { scopes with NJS_SCOPE_CALLEE_ARGUMENTS := frame.arguments,
                  NJS_SCOPE_LOCAL := last.prev_local,
                  NJS_SCOPE_ARGUMENTS := last.prev_arguments }

/-- The invariant of a handler list on the list of its catch addresses, the head first: an
entry without a catch address is the last one. -/
def njs_exception_list_inv : List (Option Int) → Bool
  | [] => true
  | c :: rest => (c.isSome || rest.isEmpty) && njs_exception_list_inv rest

/-- The invariant of a handler list: in the head and in every saved entry, `catch == NULL`
implies `next == NULL`. -/
def njs_exception_inv (e : njs_exception_t) : Bool :=
  njs_exception_list_inv (e.catch_ :: e.next)

/-- The handler list that has the catch address `c` in front of the list `e`: the head of `e`
is saved when it has a catch address. -/
def njs_exception_start (c : Int) (e : njs_exception_t) : njs_exception_t :=
  if e.catch_.isSome then ⟨e.catch_ :: e.next, some c⟩ else ⟨e.next, some c⟩

/-- The handler list `e` without its head: the most recently saved entry becomes the head,
and a list without a saved entry loses its catch address. -/
def njs_exception_end (e : njs_exception_t) : njs_exception_t :=
  match e.next with
  | [] => { e with catch_ := none }
  | x :: next => ⟨next, x⟩

/-- The handler list `e` below the open `try` blocks with the catch addresses `stack`, the
innermost first. -/
def njs_exception_push : List Int → njs_exception_t → njs_exception_t
  | [], e => e
  | c :: stack, e => njs_exception_start c (njs_exception_push stack e)

/-- The two operations that open and close a `try` block, as a run of a program meets them:
`njs_vmcode_try_start` with the address of its instruction and its two operands, and
`njs_vmcode_try_end` with its offset. -/
inductive njs_try_op_t where
  | try_start (current : Int) (value : Nat) (offset : Int)
  | try_end (offset : Int)
  deriving DecidableEq, Repr

/-- The run of a sequence of the two operations from a state; the other instructions between
them leave the handler list as it is.  The result is `none` when an operation is undefined
or `njs_vmcode_try_start` fails with `NXT_ERROR`. -/
def njs_try_run (host : njs_vmcode_host_t) : List njs_try_op_t → njs_vm_state_t →
    Option njs_vm_state_t
  | [], s => some s
  | .try_start current value offset :: rest, s =>
    match njs_vmcode_try_start host { s with current := current } value offset with
    | none => none
    | some (ret, s1) => if ret = NXT_ERROR then none else njs_try_run host rest s1
  | .try_end offset :: rest, s =>
    match njs_vmcode_try_end s offset with
    | none => none
    | some (_, s1) => njs_try_run host rest s1

/-- The catch addresses of the `try` blocks that are open after a sequence of the two
operations, the innermost first, from those open before it; `none` when a block is closed
that is not open. -/
def njs_try_open : List njs_try_op_t → List Int → Option (List Int)
  | [], stack => some stack
  | .try_start current _ offset :: rest, stack => njs_try_open rest ((current + offset) :: stack)
  | .try_end _ :: _, [] => none
  | .try_end _ :: rest, _ :: stack => njs_try_open rest stack

/-- The number of `njs_vmcode_try_start` operations in a sequence. -/
def njs_try_starts : List njs_try_op_t → Nat
  | [] => 0
  | .try_start _ _ _ :: rest => njs_try_starts rest + 1
  | .try_end _ :: rest => njs_try_starts rest

/-- The tracking variables of the `njs_vmcode_try_start` operations of a sequence are slots
of the state. -/
def njs_try_values_ok (n : Nat) : List njs_try_op_t → Bool
  | [] => true
  | .try_start _ value _ :: rest => decide (value < n) && njs_try_values_ok n rest
  | .try_end _ :: rest => njs_try_values_ok n rest

/-- The code of `try { try { throw v } finally { } } catch (e) { }` followed by a stop with
`e`, for the examples: the variables `v`, `e`, the tracking variable of the outer block and
that of the inner block are the slots 0, 1, 2 and 3 of the scope Local. -/
def njs_example_code_finally (address : Int) : Option njs_vmcode_generic_t :=
  if address = 0 then some (njs_code_try_start njs_example_vmcode_host 11 104)
  else if address = 24 then some (njs_code_try_start njs_example_vmcode_host 15 32)
  else if address = 48 then some (njs_code_throw njs_example_vmcode_host 3)
  else if address = 56 then some (njs_code_catch njs_example_vmcode_host 15 24)
  else if address = 80 then some (njs_code_finally njs_example_vmcode_host 15)
  else if address = 96 then some (njs_code_try_end 32)
  else if address = 104 then some (njs_code_catch njs_example_vmcode_host 7 24)
  else if address = 128 then some (njs_code_stop njs_example_vmcode_host 7)
  else none

/-- The scope bases after the return from `frame` to `caller`: the bases Local and Arguments
are those saved in `frame`, the base CalleeArguments is the arguments base of `caller`, and
the base Global stays. -/
def njs_return_scopes (scopes : njs_scopes_t) (frame caller : njs_frame_t) : njs_scopes_t :=
  { scopes with NJS_SCOPE_CALLEE_ARGUMENTS := caller.arguments,
                NJS_SCOPE_LOCAL := frame.prev_local,
                NJS_SCOPE_ARGUMENTS := frame.prev_arguments }

/-- The function `njs_value_retain`, as the count `string->retain` of the record behind
`value->data.u.string` after the call.  The layout of a String value and the record are
declared in `njs_vm.h` and `njs_string.h`: `external0` is the byte `value->data.external0`,
`retain` the count before the call, and `bits` the width of the unsigned field `retain`
(16 in the data model of the specification).  A value that is not a String, or one with the
sentinel `0xff`, has no record that is touched; the count given is then returned as it is. -/
def njs_value_retain (bits : Nat) (value : njs_value_t) (external0 retain : Nat) : Nat :=
  if value.type = NJS_STRING then
    if external0 ≠ 0xff then
      if retain ≠ 0xffff then (retain + 1) % 2 ^ bits else retain
    else retain
  else retain

/-- The function `njs_value_release`, as the count `string->retain` after the call; the code
that frees the record is disabled (`#if 0`).  The decrement of an unsigned field of `bits`
bits wraps around. -/
def njs_value_release (bits : Nat) (value : njs_value_t) (external0 retain : Nat) : Nat :=
  if value.type = NJS_STRING then
    if external0 ≠ 0xff then
      if retain ≠ 0xffff then (retain + 2 ^ bits - 1) % 2 ^ bits else retain
    else retain
  else retain

/-- A sequence of calls of `njs_value_retain` (`true`) and `njs_value_release` (`false`) on
one value, from the count `retain`. -/
def njs_value_retain_run (bits : Nat) (value : njs_value_t) (external0 : Nat) :
    List Bool → Nat → Nat
  | [], retain => retain
  | true :: calls, retain =>
    njs_value_retain_run bits value external0 calls (njs_value_retain bits value external0 retain)
  | false :: calls, retain =>
    njs_value_retain_run bits value external0 calls
      (njs_value_release bits value external0 retain)

/-- A String of 20 bytes for the examples, which has the long layout. -/
def njs_example_long_string : njs_value_t := njs_string "abcdefghijklmnopqrst"

/-- The constant `njs_value(NJS_NUMBER, 0, 0.0)`. -/
def njs_value_zero : njs_value_t := ⟨NJS_NUMBER, false, .number (.fin 0)⟩

/-- The constants of the enumeration `njs_regexp_flags_t`, which `njs_regexp.h` declares; that
header is not part of the sources, so the constants are parameters. -/
structure njs_regexp_flags_consts where
  NJS_REGEXP_INVALID_FLAG : Int
  NJS_REGEXP_NO_FLAGS : Nat
  NJS_REGEXP_GLOBAL : Nat
  NJS_REGEXP_IGNORE_CASE : Nat
  NJS_REGEXP_MULTILINE : Nat
  deriving DecidableEq, Repr

/-- The loop of `njs_regexp_flags` with the code behind it, on the bytes from `p` up to `end`:
the value returned and the value left in `*start`. -/
def njs_regexp_flags_loop (c : njs_regexp_flags_consts) : List Nat → Nat → Nat → Int × Nat
  | [], p, flags => ((flags : Int), p)
  | b :: rest, p, flags =>
    let flag : Option Nat :=
      if b = 103 then some c.NJS_REGEXP_GLOBAL
      else if b = 105 then some c.NJS_REGEXP_IGNORE_CASE
      else if b = 109 then some c.NJS_REGEXP_MULTILINE
      else none
    match flag with
    | none =>
      if 97 ≤ b ∧ b ≤ 122 then (c.NJS_REGEXP_INVALID_FLAG, p + 1)
      else ((flags : Int), p)
    | some flag =>
      if flags &&& flag ≠ 0 then (c.NJS_REGEXP_INVALID_FLAG, p + 1)
      else njs_regexp_flags_loop c rest (p + 1) (flags ||| flag)

/-- The function `njs_regexp_flags`: `text` holds the bytes of the buffer up to `end` and
`start` is the index `*start` into it; the result is the value returned and the index left in
`*start`.  The bytes are 103 for `g`, 105 for `i`, 109 for `m`, and 97 to 122 for `a` to
`z`. -/
def njs_regexp_flags (c : njs_regexp_flags_consts) (text : List Nat) (start : Nat) :
    Int × Nat :=
  njs_regexp_flags_loop c (text.drop start) start c.NJS_REGEXP_NO_FLAGS

/-- The outcome of the flags check of `njs_regexp_constructor`: the syntax error, or the flags
passed on to `njs_regexp_create`. -/
inductive njs_regexp_constructor_flags_t where
  | syntax_error
  | flags (re_flags : Int)
  deriving DecidableEq, Repr

/-- The part of `njs_regexp_constructor` that checks a flags argument that is defined, after
its conversion to the string `string`. -/
def njs_regexp_constructor_flags (c : njs_regexp_flags_consts) (string : List Nat) :
    njs_regexp_constructor_flags_t :=
  match njs_regexp_flags c string 0 with
  | (re_flags, start) =>
    if re_flags < 0 ∨ start - 0 ≠ string.length then .syntax_error
    else .flags re_flags

/-- The constants of `njs_regexp_flags_t` are what the function needs: the invalid code is
negative, no flags is 0, and the three flags are non-zero and share no bit. -/
def njs_regexp_flags_consts_ok (c : njs_regexp_flags_consts) : Prop :=
  c.NJS_REGEXP_INVALID_FLAG < 0 ∧ c.NJS_REGEXP_NO_FLAGS = 0 ∧
  c.NJS_REGEXP_GLOBAL ≠ 0 ∧ c.NJS_REGEXP_IGNORE_CASE ≠ 0 ∧ c.NJS_REGEXP_MULTILINE ≠ 0 ∧
  c.NJS_REGEXP_GLOBAL &&& c.NJS_REGEXP_IGNORE_CASE = 0 ∧
  c.NJS_REGEXP_GLOBAL &&& c.NJS_REGEXP_MULTILINE = 0 ∧
  c.NJS_REGEXP_IGNORE_CASE &&& c.NJS_REGEXP_MULTILINE = 0

instance (c : njs_regexp_flags_consts) : Decidable (njs_regexp_flags_consts_ok c) := by
  unfold njs_regexp_flags_consts_ok
  infer_instance

/-- The union of the flags of the letters `g`, `i` and `m` that occur in a list of bytes. -/
def njs_regexp_flags_union (c : njs_regexp_flags_consts) (letters : List Nat) : Nat :=
  (if 103 ∈ letters then c.NJS_REGEXP_GLOBAL else 0) |||
  (if 105 ∈ letters then c.NJS_REGEXP_IGNORE_CASE else 0) |||
  (if 109 ∈ letters then c.NJS_REGEXP_MULTILINE else 0)

/-- The bytes of a text from the index `start` up to the first byte outside `a` to `z`. -/
def njs_regexp_flags_letters (text : List Nat) (start : Nat) : List Nat :=
  (text.drop start).takeWhile (fun b => decide (97 ≤ b ∧ b ≤ 122))

/-- A list of bytes that holds only the letters `g`, `i` and `m`, each at most once. -/
def njs_regexp_flags_valid (letters : List Nat) : Prop :=
  (∀ b ∈ letters, b = 103 ∨ b = 105 ∨ b = 109) ∧ letters.Nodup

/-- The constants for the examples: -1 for the invalid code and 1, 2 and 4 for the flags. -/
def njs_example_regexp_flags_consts : njs_regexp_flags_consts := ⟨-1, 0, 1, 2, 4⟩

/-- The first loop of `njs_regexp_escape`, which counts: `text` holds the bytes from
`text->start` up to `end`, `p` is an index into it, and the result is the pair of `brackets`
and `zeros` at the end of the loop.  A byte is read with `text[p]?`, so that a read at or
behind `end` gives `none`; `fuel` bounds the number of rounds.  The bytes are 91 for `[`,
93 for `]` and 92 for the backslash. -/
def njs_regexp_escape_count (text : List Nat) : Nat → Nat → Bool → Nat → Nat → Option (Nat × Nat)
  | 0, _, _, _, _ => none
  | fuel + 1, p, in_, brackets, zeros =>
    if p < text.length then
      match text[p]? with
      | none => none
      | some b =>
        if b = 91 then njs_regexp_escape_count text fuel (p + 1) true brackets zeros
        else if b = 93 then
          njs_regexp_escape_count text fuel (p + 1) false
            (if in_ then brackets else brackets + 1) zeros
        else if b = 92 then
          if p + 1 = text.length then
            njs_regexp_escape_count text fuel (p + 1 + 1) in_ brackets zeros
          else
            match text[p + 1]? with
            | none => none
            | some b2 =>
              if b2 ≠ 0 then njs_regexp_escape_count text fuel (p + 1 + 1) in_ brackets zeros
              else njs_regexp_escape_count text fuel (p + 1 + 1) in_ brackets (zeros + 1)
        else if b = 0 then njs_regexp_escape_count text fuel (p + 1) in_ brackets (zeros + 1)
        else njs_regexp_escape_count text fuel (p + 1) in_ brackets zeros
    else some (brackets, zeros)

/-- A write of bytes at `dst` into the buffer allocated with `cap` bytes: `dst` is the list of
the bytes written so far, so that its length is `dst - text->start`; a write behind the
allocation gives `none`. -/
def njs_regexp_escape_put (cap : Nat) (dst : List Nat) (bytes : List Nat) :
    Option (List Nat) :=
  if dst.length + bytes.length ≤ cap then some (dst ++ bytes) else none

/-- The second loop of `njs_regexp_escape`, which copies into the buffer of `cap` bytes; the
result is the list of the bytes written up to `dst` at the label `done`.  The six bytes of
`\u0000` are 92, 117, 48, 48, 48, 48. -/
def njs_regexp_escape_copy (text : List Nat) (cap : Nat) :
    Nat → Nat → Bool → List Nat → Option (List Nat)
  | 0, _, _, _ => none
  | fuel + 1, p, in_, dst =>
    if p < text.length then
      match text[p]? with
      | none => none
      | some b =>
        if b = 91 then
          match njs_regexp_escape_put cap dst [b] with
          | none => none
          | some dst => njs_regexp_escape_copy text cap fuel (p + 1) true dst
        else if b = 93 then
          match (if in_ then some dst else njs_regexp_escape_put cap dst [92]) with
          | none => none
          | some dst =>
            match njs_regexp_escape_put cap dst [b] with
            | none => none
            | some dst => njs_regexp_escape_copy text cap fuel (p + 1) false dst
        else if b = 92 then
          match njs_regexp_escape_put cap dst [b] with
          | none => none
          | some dst =>
            if p + 1 = text.length then some dst
            else
              match text[p + 1]? with
              | none => none
              | some b2 =>
                if b2 ≠ 0 then
                  match njs_regexp_escape_put cap dst [b2] with
                  | none => none
                  | some dst => njs_regexp_escape_copy text cap fuel (p + 1 + 1) in_ dst
                else
                  match njs_regexp_escape_put cap dst [92, 117, 48, 48, 48, 48] with
                  | none => none
                  | some dst => njs_regexp_escape_copy text cap fuel (p + 1 + 1) in_ dst
        else if b = 0 then
          match njs_regexp_escape_put cap dst [92, 117, 48, 48, 48, 48] with
          | none => none
          | some dst => njs_regexp_escape_copy text cap fuel (p + 1) in_ dst
        else
          match njs_regexp_escape_put cap dst [b] with
          | none => none
          | some dst => njs_regexp_escape_copy text cap fuel (p + 1) in_ dst
    else some dst

/-- The two codes that `njs_regexp_escape` returns. -/
inductive njs_regexp_escape_ret_t where
  | NJS_OK
  | NJS_ERROR
  deriving DecidableEq, Repr

/-- What `text->start` points to after `njs_regexp_escape`: the buffer of the input still, the
buffer that `njs_mp_alloc` gave, with the bytes written into it, or `NULL`. -/
inductive njs_regexp_escape_start_t where
  | input
  | allocated (bytes : List Nat)
  | null
  deriving DecidableEq, Repr

/-- The outcome of `njs_regexp_escape`: the value returned, the size asked of `njs_mp_alloc`
if it is called, whether `njs_memory_error` is called, and `text->start` and `text->length`
afterwards. -/
structure njs_regexp_escape_t where
  ret : njs_regexp_escape_ret_t
  alloc : Option Nat
  memory_error : Bool
  start : njs_regexp_escape_start_t
  length : Nat
  deriving DecidableEq, Repr

/-- The function `njs_regexp_escape` on a text whose bytes are `text`: `bits` is the width of
`size_t`, `njs_mp_alloc` tells whether the allocation succeeds, and `fuel` bounds the rounds
of each loop.  The result is `none` when a loop reads behind `end`, writes behind the
allocation or runs out of fuel. -/
def njs_regexp_escape (bits : Nat) (njs_mp_alloc : Bool) (fuel : Nat) (text : List Nat) :
    Option njs_regexp_escape_t :=
  match njs_regexp_escape_count text fuel 0 false 0 0 with
  | none => none
  | some (brackets, zeros) =>
    if brackets = 0 ∧ zeros = 0 then some ⟨.NJS_OK, none, false, .input, text.length⟩
    else
      let length := (text.length + brackets + (zeros * 6) % 2 ^ bits) % 2 ^ bits
      if njs_mp_alloc = false then some ⟨.NJS_ERROR, some length, true, .null, length⟩
      else
        match njs_regexp_escape_copy text length fuel 0 false [] with
        | none => none
        | some dst => some ⟨.NJS_OK, some length, false, .allocated dst, dst.length⟩

/-- The bytes of the text after `njs_regexp_escape`: those of the input when `text->start` is
unchanged, else those written into the allocation. -/
def njs_regexp_escape_bytes (text : List Nat) (r : njs_regexp_escape_t) : Option (List Nat) :=
  match r.start with
  | .input => some (text.take r.length)
  | .allocated bytes => some (bytes.take r.length)
  | .null => none

/-- The text that the escaping is to give, by the words of its description: a `]` that
closes no bracket class (`in_` tells whether a class is open) and is escaped by no backslash
gets a backslash before it, a zero byte becomes the six bytes of `\u0000`, bare or behind a
backslash, and every other byte is copied. -/
def njs_regexp_escape_text : Bool → List Nat → List Nat
  | _, [] => []
  | in_, b :: rest =>
    if b = 91 then b :: njs_regexp_escape_text true rest
    else if b = 93 then
      (if in_ then [93] else [92, 93]) ++ njs_regexp_escape_text false rest
    else if b = 92 then
      match rest with
      | [] => [92]
      | b2 :: rest2 =>
        if b2 = 0 then 92 :: 92 :: 117 :: 48 :: 48 :: 48 :: 48 :: njs_regexp_escape_text in_ rest2
        else 92 :: b2 :: njs_regexp_escape_text in_ rest2
    else if b = 0 then 92 :: 117 :: 48 :: 48 :: 48 :: 48 :: njs_regexp_escape_text in_ rest
    else b :: njs_regexp_escape_text in_ rest

/-- The number of the lone brackets of a text: the bytes `]` that close no bracket class and
are escaped by no backslash. -/
def njs_regexp_lone_brackets : Bool → List Nat → Nat
  | _, [] => 0
  | in_, b :: rest =>
    if b = 91 then njs_regexp_lone_brackets true rest
    else if b = 93 then (if in_ then 0 else 1) + njs_regexp_lone_brackets false rest
    else if b = 92 then
      match rest with
      | [] => 0
      | _ :: rest2 => njs_regexp_lone_brackets in_ rest2
    else njs_regexp_lone_brackets in_ rest

/-- The heap of the prototypes `vm->prototypes[0]` to `vm->prototypes[4]`, all empty but the
String prototype (address 4), whose own table has the property `x = 1` and whose prototype is
the Object prototype (address 0). -/
def njs_example_heap_string_prototype : List njs_heap_cell :=
  [.object ⟨[], [], none⟩, .object ⟨[], [], some 0⟩, .object ⟨[], [], some 0⟩,
   .object ⟨[], [], some 0⟩,
   .object ⟨[njs_example_prop "x" (njs_example_number 1)], [], some 0⟩]

/-- The heap `njs_example_heap_string_prototype` with `x = 7` in the String prototype. -/
def njs_example_heap_string_prototype_set : List njs_heap_cell :=
  [.object ⟨[], [], none⟩, .object ⟨[], [], some 0⟩, .object ⟨[], [], some 0⟩,
   .object ⟨[], [], some 0⟩,
   .object ⟨[njs_example_prop "x" (njs_example_number 7)], [], some 0⟩]

/-- The members of the frame of a trap (`njs_native_frame_t`) that `njs_vmcode_restart` reads
beside those of `njs_frame_t`: the saved code pointer `u.restart`, the flag `trap_reference`,
and the address `data` of the three value slots `njs_native_data(frame)` among the value
slots of the state. -/
structure njs_trap_frame_t where
  restart : Int
  trap_reference : Bool
  data : Nat
  deriving DecidableEq, Repr

/-- The function `njs_vmcode_restart` on the state of the interpreter.  The head of the chain
`s.frame` is the frame of the trap, with `trap` for its other members; `code` is the code
memory.  With `trap_reference` the slot 1 holds a pointer, the payload `data` with the
address it points to.  The release of the frame memory changes no field of the model. -/
def njs_vmcode_restart_state (host : njs_vmcode_host_t)
    (code : Int → Option njs_vmcode_generic_t) (s : njs_vm_state_t)
    (trap : njs_trap_frame_t) : Option (njs_ret_t × njs_vm_state_t) :=
  match s.frame with
  | _ :: previous :: chain =>
    let s := { s with frame := previous :: chain,
                      scopes := { s.scopes with
                        NJS_SCOPE_CALLEE_ARGUMENTS := previous.arguments },
                      current := trap.restart }
    match code trap.restart with
    | none => none
    | some vmcode =>
      let value1 : Option Nat :=
        if trap.trap_reference then
          match s.values[trap.data + 1]? with
          | some v =>
            match v.u with
            | .data d => some d
            | _ => none
          | none => none
        else some (trap.data + 1)
      match value1 with
      | none => none
      | some value1 =>
        match vmcode.operation s (some value1) ((trap.data + 2 : Nat) : Int) with
        | none => none
        | some (ret, s) =>
          let retval := host.njs_vmcode_operand s.scopes vmcode.operand1
          if retval < s.values.length then
            some (ret, { s with values := s.values.set retval s.vm.retval })
          else none
  | _ => none

/-- The instruction of `njs_vmcode_property_set`, of three operands and without a result:
the first operand word is the index `code->value` of the value, the second that of the
object and the third that of the property name. -/
def njs_code_property_set (nhost : njs_host_t) (sz : njs_vmcode_sizes)
    (host : njs_vmcode_host_t) (value object property : Int) : njs_vmcode_generic_t :=
  ⟨fun s value1 value2 =>
      match value1 with
      | none => none
      | some a =>
        match s.values[a]?, s.values[value2.toNat]?,
            s.values[host.njs_vmcode_operand s.scopes value]? with
        | some o, some p, some v =>
          match njs_vmcode_property_set nhost sz s.vm o p v with
          | none => none
          | some (ret, vm) => some (ret, { s with vm := vm })
        | _, _, _ => none,
    .NJS_VMCODE_3OPERANDS, false, value, object, property⟩

/-- A code memory for the examples: at the address 64 the property set `o[k] = v` with `v` in
the slot 1 of the scope Global, `o` in the slot 2 and `k` in the slot 3. -/
def njs_example_code_property_set (address : Int) : Option njs_vmcode_generic_t :=
  if address = 64 then
    some (njs_code_property_set njs_example_host njs_example_sizes njs_example_vmcode_host
      4 8 12)
  else none

/-- The state for the example of a restart, when the micro-program of the trap Property has
run for the instruction at the address 64: the heap has one empty object, the slot 1 holds
the number 1, the slots 13 to 15 are those of the frame of the trap, with the object in the
slot 14 and the name `k`, the result of the conversion, in the slot 15 and in `vm.retval`;
the code pointer is at the instruction of the restart, at the address 1000. -/
def njs_example_state_restart : njs_vm_state_t :=
  ⟨{ njs_example_vm [.object ⟨[], [], none⟩] [true, true, true] with retval := njs_string "k" },
    1000,
    [njs_example_frame ⟨[], none⟩, njs_example_frame ⟨[], none⟩],
    njs_example_scopes,
    (((List.range 16).map (fun i => njs_example_number i)).set 13
        (njs_set_invalid (njs_example_number 13))).set 14 (njs_example_object 0)
      |>.set 15 (njs_string "k")⟩

/-- The negation of a C `double`, which is exact. -/
def njs_double_neg : njs_double → njs_double
  | .nan => .nan
  | .inf negative => .inf (!negative)
  | .fin q => .fin (-q)

/-- The function `njs_vmcode_unary_plus`; `addr2` is `sizeof(njs_vmcode_2addr_t)`. -/
def njs_vmcode_unary_plus (addr2 : Int) (vm : njs_vm_t) (value _invld : njs_value_t) :
    Option (njs_ret_t × njs_vm_t) :=
  if njs_is_numeric value then
    match value.u with
    | .number n => some (addr2, { vm with retval := njs_number_set_double n })
    | _ => none
  else
    some (NJS_TRAP_NUMBER, vm)

/-- The function `njs_vmcode_unary_negation`. -/
def njs_vmcode_unary_negation (addr2 : Int) (vm : njs_vm_t) (value _invld : njs_value_t) :
    Option (njs_ret_t × njs_vm_t) :=
  if njs_is_numeric value then
    match value.u with
    | .number n => some (addr2, { vm with retval := njs_number_set_double (njs_double_neg n) })
    | _ => none
  else
    some (NJS_TRAP_NUMBER, vm)

/-- The function `njs_vmcode_bitwise_not`: `num` is an `int32_t` with the bits of the result
of `njs_integer_value`, and `~num` is `-num - 1`. -/
def njs_vmcode_bitwise_not (addr2 : Int) (vm : njs_vm_t) (value _invld : njs_value_t) :
    Option (njs_ret_t × njs_vm_t) :=
  if njs_is_numeric value then
    match value.u with
    | .number n =>
      let num : Int := njs_int32 (njs_integer_value n)
      some (addr2, { vm with retval := njs_number_set_int (-num - 1) })
    | _ => none
  else
    some (NJS_TRAP_NUMBER, vm)

/-- The codes that the `switch` behind the inner loop of `njs_vmcode_interpreter` serves with
`njs_vm_trap`: the five trap codes. -/
def njs_is_trap (ret : njs_ret_t) : Bool :=
  decide (ret = NJS_TRAP_NUMBER ∨ ret = NJS_TRAP_NUMBERS ∨ ret = NJS_TRAP_STRINGS ∨
    ret = NJS_TRAP_INCDEC ∨ ret = NJS_TRAP_PROPERTY)

/-- The callbacks of the host that the property operations call return no trap code. -/
def njs_host_no_trap (host : njs_host_t) : Prop :=
  (∀ g vm v, njs_is_trap (host.getter g vm v).1 = false) ∧
  (∀ v, njs_is_trap (host.njs_value_to_ext_string v).1 = false) ∧
  (∀ e vm d, njs_is_trap (host.ext_get e vm d).1 = false) ∧
  (∀ e vm d s, njs_is_trap (host.ext_set e vm d s).1 = false) ∧
  (∀ e vm d b, njs_is_trap (host.ext_find e vm d b).1 = false)

/-- The sizes of the instruction records are sizes: none is negative. -/
def njs_sizes_ok (sz : njs_vmcode_sizes) (addr1 addr2 : Int) : Prop :=
  0 ≤ sz.prop_get ∧ 0 ≤ sz.prop_set ∧ 0 ≤ sz.addr3 ∧ 0 ≤ sz.prop_each ∧ 0 < addr1 ∧ 0 ≤ addr2

instance (sz : njs_vmcode_sizes) (addr1 addr2 : Int) : Decidable (njs_sizes_ok sz addr1 addr2) := by
  unfold njs_sizes_ok
  infer_instance

/-- The operations of `njs_vm.c` that return `NJS_TRAP_NUMBERS`: the arithmetic, shift and
bitwise operations of two operands, the two equality operations through `njs_values_equal`
and the four comparisons through `njs_values_compare`. -/
def njs_trap_numbers_operations (lib : njs_lib_t) (sz : njs_vmcode_sizes) :
    List (njs_vm_t → njs_value_t → njs_value_t → Option (njs_ret_t × njs_vm_t)) :=
  [njs_vmcode_substraction lib sz, njs_vmcode_multiplication lib sz,
   njs_vmcode_division lib sz, njs_vmcode_remainder sz, njs_vmcode_left_shift sz,
   njs_vmcode_right_shift sz, njs_vmcode_unsigned_right_shift sz, njs_vmcode_bitwise_and sz,
   njs_vmcode_bitwise_xor sz, njs_vmcode_bitwise_or sz, njs_vmcode_equal lib sz,
   njs_vmcode_not_equal lib sz, njs_vmcode_less lib sz, njs_vmcode_greater lib sz,
   njs_vmcode_greater_or_equal lib sz, njs_vmcode_less_or_equal lib sz]

/-- The operations of `njs_vm.c` that return `NJS_TRAP_STRINGS`: the addition and the four
comparisons through `njs_values_compare`. -/
def njs_trap_strings_operations (lib : njs_lib_t) (sz : njs_vmcode_sizes) :
    List (njs_vm_t → njs_value_t → njs_value_t → Option (njs_ret_t × njs_vm_t)) :=
  [njs_vmcode_addition lib sz, njs_vmcode_less lib sz, njs_vmcode_greater lib sz,
   njs_vmcode_greater_or_equal lib sz, njs_vmcode_less_or_equal lib sz]

/-- The operations of `njs_vm.c` that return `NJS_TRAP_NUMBER`. -/
def njs_trap_number_operations (addr2 : Int) :
    List (njs_vm_t → njs_value_t → njs_value_t → Option (njs_ret_t × njs_vm_t)) :=
  [njs_vmcode_unary_plus addr2, njs_vmcode_unary_negation addr2, njs_vmcode_bitwise_not addr2]

/-- The operations of `njs_vm.c` that return `NJS_TRAP_INCDEC`, with the code and the state of
their results. -/
def njs_trap_incdec_operations (lib : njs_lib_t) (sz : njs_vmcode_sizes) :
    List (njs_vm_t → njs_value_t → njs_value_t → Option (njs_ret_t × njs_vm_t)) :=
  [fun vm reference value =>
     (njs_vmcode_increment lib sz vm reference value).map (fun r => (r.1, r.2.1)),
   fun vm reference value =>
     (njs_vmcode_decrement lib sz vm reference value).map (fun r => (r.1, r.2.1)),
   fun vm reference value =>
     (njs_vmcode_post_increment lib sz vm reference value).map (fun r => (r.1, r.2.1)),
   fun vm reference value =>
     (njs_vmcode_post_decrement lib sz vm reference value).map (fun r => (r.1, r.2.1))]

/-- The operations of `njs_vm.c` that return `NJS_TRAP_PROPERTY`, the code that
`njs_property_query` gives them; `value` is the operand of the property set. -/
def njs_trap_property_operations (host : njs_host_t) (sz : njs_vmcode_sizes)
    (value : njs_value_t) :
    List (njs_vm_t → njs_value_t → njs_value_t → Option (njs_ret_t × njs_vm_t)) :=
  [njs_vmcode_property_get host sz,
   fun vm object property => njs_vmcode_property_set host sz vm object property value,
   njs_vmcode_property_in host sz, njs_vmcode_property_delete host sz]

/-! ## Lemmas and theorems -/

theorem nxt_lvlhsh_find_delete (h : nxt_lvlhsh_t) (key : List Nat) :
    nxt_lvlhsh_find (nxt_lvlhsh_delete h key) key = none := by
  unfold nxt_lvlhsh_find nxt_lvlhsh_delete
  induction h with
  | nil => rfl
  | cons a t ih =>
    by_cases hk : njs_string_bytes a.name = key
    · simp [List.filter, hk, ih]
    · simp [List.filter, hk, List.find?, ih]

theorem nxt_lvlhsh_find_name {h : nxt_lvlhsh_t} {key : List Nat} {r : njs_object_prop_t}
    (hr : nxt_lvlhsh_find h key = some r) : njs_string_bytes r.name = key := by
  unfold nxt_lvlhsh_find at hr
  have := List.find?_some hr
  simpa using this

theorem nxt_lvlhsh_find_append {h : nxt_lvlhsh_t} {key : List Nat} (prop : njs_object_prop_t)
    (hn : nxt_lvlhsh_find h key = none) (hk : njs_string_bytes prop.name = key) :
    nxt_lvlhsh_find (h ++ [prop]) key = some prop := by
  unfold nxt_lvlhsh_find at *
  simp [List.find?_append, hn, hk]

theorem nxt_lvlhsh_find_store (h : nxt_lvlhsh_t) (key : List Nat)
    (f : njs_object_prop_t → njs_object_prop_t) (hf : ∀ r, (f r).name = r.name) :
    nxt_lvlhsh_find (nxt_lvlhsh_store key f h) key = (nxt_lvlhsh_find h key).map f := by
  unfold nxt_lvlhsh_find
  induction h with
  | nil => rfl
  | cons a t ih =>
    by_cases hk : njs_string_bytes a.name = key
    · simp [nxt_lvlhsh_store, hk, List.find?, hf]
    · simp [nxt_lvlhsh_store, hk, List.find?, ih]

/-! ### heap -/

theorem njs_object_at_length {heap : List njs_heap_cell} {p : Nat} {o : njs_object_t}
    (h : njs_object_at heap p = some o) : p < heap.length := by
  unfold njs_object_at at h
  cases hg : heap[p]? with
  | none => simp [hg] at h
  | some c => exact (List.getElem?_eq_some_iff.mp hg).1

theorem njs_heap_cell_header_set (c : njs_heap_cell) (o : njs_object_t) :
    (c.set_header o).header = o := by
  cases c <;> rfl

theorem njs_heap_cell_set_header_self (c : njs_heap_cell) : c.set_header c.header = c := by
  cases c <;> rfl

theorem njs_heap_set_header_length (heap : List njs_heap_cell) (p : Nat) (o : njs_object_t) :
    (njs_heap_set_header heap p o).length = heap.length := by
  unfold njs_heap_set_header
  cases heap[p]? <;> simp

theorem njs_object_at_set_header_same {heap : List njs_heap_cell} {p : Nat} {o : njs_object_t}
    (o1 : njs_object_t) (h : njs_object_at heap p = some o) :
    njs_object_at (njs_heap_set_header heap p o1) p = some o1 := by
  have hlt := njs_object_at_length h
  unfold njs_object_at njs_heap_set_header
  cases hg : heap[p]? with
  | none => simp [njs_object_at, hg] at h
  | some c => simp [hlt, njs_heap_cell_header_set]

theorem njs_object_at_set_header_other (heap : List njs_heap_cell) {p q : Nat}
    (o1 : njs_object_t) (hq : q ≠ p) :
    njs_object_at (njs_heap_set_header heap p o1) q = njs_object_at heap q := by
  unfold njs_object_at njs_heap_set_header
  cases hg : heap[p]? with
  | none => rfl
  | some c => simp [List.getElem?_set, Ne.symm hq]

theorem njs_heap_set_header_self {heap : List njs_heap_cell} {p : Nat} {o : njs_object_t}
    (h : njs_object_at heap p = some o) : njs_heap_set_header heap p o = heap := by
  unfold njs_heap_set_header
  unfold njs_object_at at h
  cases hg : heap[p]? with
  | none => rfl
  | some c =>
    simp [hg] at h
    subst h
    simp only [njs_heap_cell_set_header_self]
    apply List.ext_getElem?
    intro j
    rw [List.getElem?_set]
    by_cases hj : p = j
    · subst hj
      have hlt := (List.getElem?_eq_some_iff.mp hg).1
      simp [hlt, hg]
    · simp [hj]


/-! ### the walk -/

theorem njs_object_property_query_loop_own (heap : List njs_heap_cell) (value : njs_value_t)
    (fuel : Nat) (pq : njs_property_query_t) (p : Nat) (o : njs_object_t) (r : njs_object_prop_t)
    (ho : njs_object_at heap p = some o)
    (hr : nxt_lvlhsh_find o.hash pq.lhq_key = some r) (hw : r.type ≠ NJS_WHITEOUT) :
    njs_object_property_query_loop heap value (fuel + 1) pq p =
      some (NXT_OK, { pq with prototype := p, lhq_value := .prop p false, shared := false }) := by
  simp [njs_object_property_query_loop, njs_object_property_query_turn, ho, hr, hw]

theorem njs_object_property_query_loop_miss (heap : List njs_heap_cell) (value : njs_value_t)
    (fuel : Nat) (pq : njs_property_query_t) (p : Nat) (o : njs_object_t)
    (ho : njs_object_at heap p = some o)
    (hr : nxt_lvlhsh_find o.hash pq.lhq_key = none) (hq : pq.query > NJS_PROPERTY_QUERY_IN) :
    njs_object_property_query_loop heap value (fuel + 1) pq p =
      some (NXT_DECLINED, { pq with prototype := p }) := by
  simp [njs_object_property_query_loop, njs_object_property_query_turn, ho, hr, hq]

theorem njs_property_query_object_path (host : njs_host_t) (vm : njs_vm_t)
    (pq : njs_property_query_t) (object property name : njs_value_t) (p : Nat)
    (hpath : njs_object_path host object property)
    (hp : object.u = .object p)
    (hprim : njs_is_primitive property = true)
    (hname : host.njs_value_to_string property = some name) :
    njs_property_query host vm pq object property =
      (njs_object_property_query vm (njs_property_query_named host pq name) object p).map
        (fun r => (r.1, vm, r.2)) := by
  have hgen : (match njs_value_object object with
      | none => none
      | some p => njs_property_query_key host vm pq object property host.nxt_djb_hash (some p)) =
      (njs_object_property_query vm (njs_property_query_named host pq name) object p).map
        (fun r => (r.1, vm, r.2)) := by
    simp [njs_value_object, hp, njs_property_query_key, hprim, hname, njs_property_query_named]
  unfold njs_property_query
  rcases hpath with h | h | h | ⟨h, h2⟩
  · simp only [h]; exact hgen
  · simp only [h]; exact hgen
  · simp only [h]; exact hgen
  · simp only [h]
    rcases h2 with h2 | h2
    · simp only [h2]; simpa using hgen
    · cases hb : njs_is_null_or_void_or_boolean property
      · simp only [hprim, Bool.not_false, if_true, if_neg h2]; exact hgen
      · simpa using hgen

/-- Claim C7: for a receiver of tag Null or Undefined and any property operand,
`njs_property_query` with any query structure, and `njs_vmcode_property_get`,
`njs_vmcode_property_set`, `njs_vmcode_property_in` and `njs_vmcode_property_delete`, return
`NXT_ERROR` on the state that differs from the given one in `vm.exception` only, which is the
TypeError constant. -/
theorem njs_property_null_or_void_type_error (host : njs_host_t) (sz : njs_vmcode_sizes)
    (vm : njs_vm_t) (pq : njs_property_query_t) (object property value : njs_value_t)
    (h : object.type = NJS_NULL ∨ object.type = NJS_VOID) :
    njs_property_query host vm pq object property =
        some (NXT_ERROR, { vm with exception := some njs_exception_type_error }, pq) ∧
    njs_vmcode_property_get host sz vm object property =
        some (NXT_ERROR, { vm with exception := some njs_exception_type_error }) ∧
    njs_vmcode_property_set host sz vm object property value =
        some (NXT_ERROR, { vm with exception := some njs_exception_type_error }) ∧
    njs_vmcode_property_in host sz vm object property =
        some (NXT_ERROR, { vm with exception := some njs_exception_type_error }) ∧
    njs_vmcode_property_delete host sz vm object property =
        some (NXT_ERROR, { vm with exception := some njs_exception_type_error }) := by
  have hq : ∀ pq, njs_property_query host vm pq object property =
      some (NXT_ERROR, { vm with exception := some njs_exception_type_error }, pq) := by
    intro pq
    unfold njs_property_query
    rcases h with h | h <;> simp [h]
  refine ⟨hq pq, ?_, ?_, ?_, ?_⟩
  · simp [njs_vmcode_property_get, hq, NXT_ERROR, NXT_OK, NXT_DECLINED, NJS_PRIMITIVE_VALUE,
      NJS_STRING_VALUE, NJS_ARRAY_VALUE, NJS_EXTERNAL_VALUE]
  · simp [njs_vmcode_property_set, hq, NXT_ERROR, NXT_OK, NXT_DECLINED, NJS_PRIMITIVE_VALUE,
      NJS_STRING_VALUE, NJS_ARRAY_VALUE, NJS_EXTERNAL_VALUE]
  · simp [njs_vmcode_property_in, hq, NXT_ERROR, NXT_OK, NXT_DECLINED, NJS_PRIMITIVE_VALUE,
      NJS_STRING_VALUE, NJS_ARRAY_VALUE, NJS_EXTERNAL_VALUE]
  · simp [njs_vmcode_property_delete, hq, NXT_ERROR, NXT_OK, NXT_DECLINED, NJS_PRIMITIVE_VALUE,
      NJS_STRING_VALUE, NJS_ARRAY_VALUE, NJS_EXTERNAL_VALUE]

theorem nxt_lvlhsh_store_append {h : nxt_lvlhsh_t} {key : List Nat} (prop : njs_object_prop_t)
    (f : njs_object_prop_t → njs_object_prop_t)
    (hn : nxt_lvlhsh_find h key = none) (hk : njs_string_bytes prop.name = key) :
    nxt_lvlhsh_store key f (h ++ [prop]) = h ++ [f prop] := by
  unfold nxt_lvlhsh_find at hn
  induction h with
  | nil => simp [nxt_lvlhsh_store, hk]
  | cons a t ih =>
    have ha : njs_string_bytes a.name ≠ key := by
      intro hcon
      simp [List.find?, hcon] at hn
    have ht : List.find? (fun p => decide (njs_string_bytes p.name = key)) t = none := by
      simpa [List.find?, ha] using hn
    simp [nxt_lvlhsh_store, ha, ih ht]

theorem njs_heap_set_header_twice {heap : List njs_heap_cell} {p : Nat} (o1 o2 : njs_object_t) :
    njs_heap_set_header (njs_heap_set_header heap p o1) p o2 = njs_heap_set_header heap p o2 := by
  unfold njs_heap_set_header
  cases hg : heap[p]? with
  | none => simp [hg]
  | some c =>
    have hlt := (List.getElem?_eq_some_iff.mp hg).1
    simp [hlt]
    cases c <;> rfl

theorem njs_heap_set_header_getElem_other (heap : List njs_heap_cell) {p q : Nat}
    (o1 : njs_object_t) (hq : q ≠ p) :
    (njs_heap_set_header heap p o1)[q]? = heap[q]? := by
  unfold njs_heap_set_header
  cases hg : heap[p]? with
  | none => rfl
  | some c => simp [List.getElem?_set, Ne.symm hq]

/-- The object walk of a SET or DELETE query at a receiver whose own table has no record of the
name declines at once. -/
theorem njs_object_property_query_miss (vm : njs_vm_t) (value : njs_value_t)
    (pq : njs_property_query_t) (p : Nat) (o : njs_object_t)
    (ho : njs_object_at vm.heap p = some o)
    (hr : nxt_lvlhsh_find o.hash pq.lhq_key = none) (hq : pq.query > NJS_PROPERTY_QUERY_IN) :
    njs_object_property_query vm pq value p = some (NXT_DECLINED, { pq with prototype := p }) := by
  have hlt := njs_object_at_length ho
  unfold njs_object_property_query
  obtain ⟨n, hn⟩ : ∃ n, vm.heap.length = n + 1 := ⟨vm.heap.length - 1, by omega⟩
  rw [hn]
  exact njs_object_property_query_loop_miss vm.heap value n pq p o ho hr hq

theorem njs_object_property_query_own (vm : njs_vm_t) (value : njs_value_t)
    (pq : njs_property_query_t) (p : Nat) (o : njs_object_t) (r : njs_object_prop_t)
    (ho : njs_object_at vm.heap p = some o)
    (hr : nxt_lvlhsh_find o.hash pq.lhq_key = some r) (hw : r.type ≠ NJS_WHITEOUT) :
    njs_object_property_query vm pq value p =
      some (NXT_OK, { pq with prototype := p, lhq_value := .prop p false, shared := false }) := by
  have hlt := njs_object_at_length ho
  unfold njs_object_property_query
  obtain ⟨n, hn⟩ : ∃ n, vm.heap.length = n + 1 := ⟨vm.heap.length - 1, by omega⟩
  rw [hn]
  exact njs_object_property_query_loop_own vm.heap value n pq p o r ho hr hw

/-- Deleting a name whose own record is found: the record goes and the result is `true` when
the record is configurable, and nothing but the result `false` happens when it is not. -/
theorem njs_vmcode_property_delete_found (host : njs_host_t) (sz : njs_vmcode_sizes) (vm : njs_vm_t)
    (object property name : njs_value_t) (p : Nat) (o : njs_object_t) (r : njs_object_prop_t)
    (hpath : njs_object_path host object property)
    (hp : object.u = .object p)
    (hprim : njs_is_primitive property = true)
    (hname : host.njs_value_to_string property = some name)
    (ho : njs_object_at vm.heap p = some o)
    (hr : nxt_lvlhsh_find o.hash (njs_string_bytes name) = some r)
    (hw : r.type ≠ NJS_WHITEOUT) :
    (r.configurable = true →
      njs_vmcode_property_delete host sz vm object property =
        some (sz.addr3,
          { vm with
            heap := njs_heap_set_header vm.heap p
              { o with hash := nxt_lvlhsh_delete o.hash (njs_string_bytes name) },
            retval := njs_value_true }) ∧
      nxt_lvlhsh_find (nxt_lvlhsh_delete o.hash (njs_string_bytes name))
        (njs_string_bytes name) = none) ∧
    (r.configurable = false →
      njs_vmcode_property_delete host sz vm object property =
        some (sz.addr3, { vm with retval := njs_value_false })) := by
  have hq := njs_property_query_object_path host vm
    (njs_property_query_init NJS_PROPERTY_QUERY_DELETE) object property name p hpath hp hprim hname
  rw [njs_object_property_query_own vm object _ p o r ho (by simpa [njs_property_query_named] using hr) hw] at hq
  constructor
  · intro hc
    refine ⟨?_, nxt_lvlhsh_find_delete _ _⟩
    unfold njs_vmcode_property_delete
    rw [hq]
    simp [njs_lhq_prop, njs_prop_at, ho, njs_property_query_named, hr, hc, njs_value_object, hp]
  · intro hc
    unfold njs_vmcode_property_delete
    rw [hq]
    simp [njs_lhq_prop, njs_prop_at, ho, njs_property_query_named, hr, hc]

/-- Deleting a name that the own table of the receiver lacks: the query declines and the
result is `false`. -/
theorem njs_vmcode_property_delete_declined (host : njs_host_t) (sz : njs_vmcode_sizes) (vm : njs_vm_t)
    (object property name : njs_value_t) (p : Nat) (o : njs_object_t)
    (hpath : njs_object_path host object property)
    (hp : object.u = .object p)
    (hprim : njs_is_primitive property = true)
    (hname : host.njs_value_to_string property = some name)
    (ho : njs_object_at vm.heap p = some o)
    (hr : nxt_lvlhsh_find o.hash (njs_string_bytes name) = none) :
    njs_vmcode_property_delete host sz vm object property =
      some (sz.addr3, { vm with retval := njs_value_false }) := by
  have hq := njs_property_query_object_path host vm
    (njs_property_query_init NJS_PROPERTY_QUERY_DELETE) object property name p hpath hp hprim hname
  rw [njs_object_property_query_miss vm object _ p o ho
    (by simpa [njs_property_query_named] using hr)
    (by simp [njs_property_query_named, njs_property_query_init, NJS_PROPERTY_QUERY_DELETE,
      NJS_PROPERTY_QUERY_IN])] at hq
  unfold njs_vmcode_property_delete
  rw [hq]
  simp [NXT_DECLINED, NXT_OK]

/-- Claim C3: for an object whose own table holds a record for the name,
`njs_vmcode_property_delete` removes the record from the own table and sets `vm.retval` to
`true` when the record is configurable, and when it is not configurable it changes nothing but
`vm.retval`, which it sets to `false`. -/
theorem njs_property_delete_own (host : njs_host_t) (sz : njs_vmcode_sizes) (vm : njs_vm_t)
    (object property name : njs_value_t) (p : Nat) (o : njs_object_t) (r : njs_object_prop_t)
    (hpath : njs_object_path host object property)
    (hp : object.u = .object p)
    (hprim : njs_is_primitive property = true)
    (hname : host.njs_value_to_string property = some name)
    (ho : njs_object_at vm.heap p = some o)
    (hr : nxt_lvlhsh_find o.hash (njs_string_bytes name) = some r)
    (hw : r.type ≠ NJS_WHITEOUT) :
    (r.configurable = true →
      njs_vmcode_property_delete host sz vm object property =
        some (sz.addr3,
          { vm with
            heap := njs_heap_set_header vm.heap p
              { o with hash := nxt_lvlhsh_delete o.hash (njs_string_bytes name) },
            retval := njs_value_true }) ∧
      nxt_lvlhsh_find (nxt_lvlhsh_delete o.hash (njs_string_bytes name))
        (njs_string_bytes name) = none) ∧
    (r.configurable = false →
      njs_vmcode_property_delete host sz vm object property =
        some (sz.addr3, { vm with retval := njs_value_false })) :=
  njs_vmcode_property_delete_found host sz vm object property name p o r hpath hp hprim hname
    ho hr hw

/-- Claim C10 (amended): for an object whose own table has no record of the name,
`njs_vmcode_property_delete` returns normally, sets `vm.retval` to `false` and changes nothing
else. -/
theorem njs_property_delete_absent (host : njs_host_t) (sz : njs_vmcode_sizes) (vm : njs_vm_t)
    (object property name : njs_value_t) (p : Nat) (o : njs_object_t)
    (hpath : njs_object_path host object property)
    (hp : object.u = .object p)
    (hprim : njs_is_primitive property = true)
    (hname : host.njs_value_to_string property = some name)
    (ho : njs_object_at vm.heap p = some o)
    (hr : nxt_lvlhsh_find o.hash (njs_string_bytes name) = none) :
    njs_vmcode_property_delete host sz vm object property =
      some (sz.addr3, { vm with retval := njs_value_false }) :=
  njs_vmcode_property_delete_declined host sz vm object property name p o hpath hp hprim hname
    ho hr

/-- Claim C5: for a receiver of tag Object, Function or RegExp whose own table has no record of
the name, whatever its prototype chain holds: `njs_vmcode_property_set` changes no cell of the
heap but the receiver, whose shared table and prototype link it keeps and whose own table it
keeps or extends by the record `name = value`; when the two allocations succeed it returns
normally with exactly that record added; and `njs_vmcode_property_delete` changes nothing but
`vm.retval`, which it sets to `false`. -/
theorem njs_property_set_delete_stop_at_receiver (host : njs_host_t) (sz : njs_vmcode_sizes)
    (vm : njs_vm_t) (object property value name : njs_value_t) (p : Nat) (o : njs_object_t)
    (ht : object.type = NJS_OBJECT ∨ object.type = NJS_FUNCTION ∨ object.type = NJS_REGEXP)
    (hp : object.u = .object p)
    (hprim : njs_is_primitive property = true)
    (hname : host.njs_value_to_string property = some name)
    (ho : njs_object_at vm.heap p = some o)
    (hr : nxt_lvlhsh_find o.hash (njs_string_bytes name) = none) :
    (∃ ret vm1 o1, njs_vmcode_property_set host sz vm object property value = some (ret, vm1) ∧
      (∀ q, q ≠ p → vm1.heap[q]? = vm.heap[q]?) ∧
      njs_object_at vm1.heap p = some o1 ∧
      o1.shared_hash = o.shared_hash ∧ o1.__proto__ = o.__proto__ ∧
      (o1.hash = o.hash ∨
        o1.hash = o.hash ++ [⟨name, value, NJS_PROPERTY, true, true, true⟩])) ∧
    (∀ rest, vm.mem_cache_pool = true :: true :: rest →
      njs_vmcode_property_set host sz vm object property value =
        some (sz.prop_set,
          { vm with
            mem_cache_pool := rest,
            heap := njs_heap_set_header vm.heap p
              { o with hash := o.hash ++ [⟨name, value, NJS_PROPERTY, true, true, true⟩] } })) ∧
    njs_vmcode_property_delete host sz vm object property =
      some (sz.addr3, { vm with retval := njs_value_false }) := by
  have hpath : njs_object_path host object property := by
    rcases ht with h | h | h
    · exact Or.inl h
    · exact Or.inr (Or.inl h)
    · exact Or.inr (Or.inr (Or.inl h))
  have hq := njs_property_query_object_path host vm
    (njs_property_query_init NJS_PROPERTY_QUERY_SET) object property name p hpath hp hprim hname
  rw [njs_object_property_query_miss vm object _ p o ho
    (by simpa [njs_property_query_named] using hr)
    (by simp [njs_property_query_named, njs_property_query_init, NJS_PROPERTY_QUERY_SET,
      NJS_PROPERTY_QUERY_IN])] at hq
  have hnm : njs_string_bytes (njs_object_prop_alloc name).name = njs_string_bytes name := rfl
  have hset : ∀ rest, vm.mem_cache_pool = true :: true :: rest →
      njs_vmcode_property_set host sz vm object property value =
        some (sz.prop_set,
          { vm with
            mem_cache_pool := rest,
            heap := njs_heap_set_header vm.heap p
              { o with hash := o.hash ++ [⟨name, value, NJS_PROPERTY, true, true, true⟩] } }) := by
    intro rest hpool
    unfold njs_vmcode_property_set
    rw [hq]
    simp [NXT_DECLINED, NXT_OK, hpool, nxt_mem_cache_alloc, njs_value_object, hp, ho,
      nxt_lvlhsh_insert, njs_property_query_named, hr, njs_prop_store,
      njs_object_at_set_header_same _ ho, njs_heap_set_header_twice, njs_object_prop_alloc]
    rw [nxt_lvlhsh_store_append ⟨name, njs_value_void, NJS_PROPERTY, true, true, true⟩ _ hr rfl]
  refine ⟨?_, hset, njs_vmcode_property_delete_declined host sz vm object property name p o hpath hp hprim
    hname ho hr⟩
  -- every pool
  rcases hpool : vm.mem_cache_pool with _ | ⟨b1, _ | ⟨b2, rest⟩⟩
  · refine ⟨NXT_ERROR, { vm with mem_cache_pool := [] }, o, ?_, fun _ _ => rfl, ho, rfl, rfl,
      Or.inl rfl⟩
    unfold njs_vmcode_property_set
    rw [hq]
    simp [NXT_DECLINED, NXT_OK, hpool, nxt_mem_cache_alloc]
  · cases b1
    · refine ⟨NXT_ERROR, { vm with mem_cache_pool := [] }, o, ?_, fun _ _ => rfl, ho, rfl, rfl,
        Or.inl rfl⟩
      unfold njs_vmcode_property_set
      rw [hq]
      simp [NXT_DECLINED, NXT_OK, hpool, nxt_mem_cache_alloc]
    · refine ⟨NXT_ERROR, { vm with mem_cache_pool := [] }, o, ?_, fun _ _ => rfl, ho, rfl, rfl,
        Or.inl rfl⟩
      unfold njs_vmcode_property_set
      rw [hq]
      simp [NXT_DECLINED, NXT_OK, NXT_ERROR, hpool, nxt_mem_cache_alloc, njs_value_object, hp, ho,
        nxt_lvlhsh_insert, njs_property_query_named, hr, njs_heap_set_header_self ho]
  · cases b1
    · refine ⟨NXT_ERROR, { vm with mem_cache_pool := b2 :: rest }, o, ?_, fun _ _ => rfl, ho, rfl,
        rfl, Or.inl rfl⟩
      unfold njs_vmcode_property_set
      rw [hq]
      simp [NXT_DECLINED, NXT_OK, hpool, nxt_mem_cache_alloc]
    · cases b2
      · refine ⟨NXT_ERROR, { vm with mem_cache_pool := rest }, o, ?_, fun _ _ => rfl, ho, rfl,
          rfl, Or.inl rfl⟩
        unfold njs_vmcode_property_set
        rw [hq]
        simp [NXT_DECLINED, NXT_OK, NXT_ERROR, hpool, nxt_mem_cache_alloc, njs_value_object, hp,
          ho, nxt_lvlhsh_insert, njs_property_query_named, hr, njs_heap_set_header_self ho]
      · refine ⟨_, _, _, hset rest hpool, ?_, njs_object_at_set_header_same _ ho, rfl, rfl,
          Or.inr rfl⟩
        intro q hqp
        exact njs_heap_set_header_getElem_other _ _ hqp

theorem njs_object_property_query_turn_keeps (obj : njs_object_t) (pq : njs_property_query_t)
    (q : Nat) :
    ((njs_object_property_query_turn obj pq q).ret = NXT_OK ∨
      (njs_object_property_query_turn obj pq q).ret = NXT_DECLINED) ∧
    (njs_object_property_query_turn obj pq q).pq.lhq_key = pq.lhq_key ∧
    (njs_object_property_query_turn obj pq q).pq.lhq_key_hash = pq.lhq_key_hash ∧
    (njs_object_property_query_turn obj pq q).pq.value = pq.value ∧
    (njs_object_property_query_turn obj pq q).pq.query = pq.query ∧
    (njs_object_property_query_turn obj pq q).pq.prototype = q := by
  unfold njs_object_property_query_turn
  cases h1 : nxt_lvlhsh_find obj.hash pq.lhq_key with
  | some r =>
    by_cases hw : r.type = NJS_WHITEOUT <;> simp [h1, hw, njs_walk_t.ret, njs_walk_t.pq]
  | none =>
    by_cases hq : pq.query > NJS_PROPERTY_QUERY_IN
    · simp [h1, hq, njs_walk_t.ret, njs_walk_t.pq]
    · cases h2 : nxt_lvlhsh_find obj.shared_hash pq.lhq_key with
      | some r =>
        by_cases hw : pq.query = NJS_PROPERTY_QUERY_IN ∧ r.type = NJS_WHITEOUT <;>
          simp [h1, h2, hq, hw, njs_walk_t.ret, njs_walk_t.pq]
      | none => simp [h1, h2, hq, njs_walk_t.ret, njs_walk_t.pq]

/-- The walk keeps the key, the name, the purpose of the query; for a receiver that is not a
string it ends with `NXT_OK` or `NXT_DECLINED`. -/
theorem njs_object_property_query_loop_keeps (heap : List njs_heap_cell) (value : njs_value_t)
    (hv : njs_is_string value = false) :
    ∀ (fuel : Nat) (pq : njs_property_query_t) (q : Nat) (ret : njs_ret_t)
      (pq1 : njs_property_query_t),
      njs_object_property_query_loop heap value fuel pq q = some (ret, pq1) →
      (ret = NXT_OK ∨ ret = NXT_DECLINED) ∧ pq1.lhq_key = pq.lhq_key ∧
        pq1.lhq_key_hash = pq.lhq_key_hash ∧ pq1.value = pq.value ∧ pq1.query = pq.query := by
  intro fuel
  induction fuel with
  | zero => intro pq q ret pq1 h; simp [njs_object_property_query_loop] at h
  | succ n ih =>
    intro pq q ret pq1 h
    simp only [njs_object_property_query_loop] at h
    cases ho : njs_object_at heap q with
    | none => simp [ho] at h
    | some obj =>
      have hk := njs_object_property_query_turn_keeps obj pq q
      cases ht : njs_object_property_query_turn obj pq q with
      | done ret2 pq2 =>
        simp only [ho, ht] at h
        simp only [ht, njs_walk_t.ret, njs_walk_t.pq] at hk
        simp only [Option.some.injEq, Prod.mk.injEq] at h
        obtain ⟨rfl, rfl⟩ := h
        exact ⟨hk.1, hk.2.1, hk.2.2.1, hk.2.2.2.1, hk.2.2.2.2.1⟩
      | next ret2 pq2 =>
        simp only [ho, ht] at h
        simp only [ht, njs_walk_t.ret, njs_walk_t.pq] at hk
        cases hp : obj.__proto__ with
        | none =>
          simp only [hp, hv, Bool.false_eq_true, if_false, Option.some.injEq,
            Prod.mk.injEq] at h
          obtain ⟨rfl, rfl⟩ := h
          exact ⟨hk.1, hk.2.1, hk.2.2.1, hk.2.2.2.1, hk.2.2.2.2.1⟩
        | some proto =>
          simp only [hp] at h
          have := ih pq2 proto ret pq1 h
          exact ⟨this.1, this.2.1.trans hk.2.1, this.2.2.1.trans hk.2.2.1,
            this.2.2.2.1.trans hk.2.2.2.1, this.2.2.2.2.trans hk.2.2.2.2.1⟩

/-! ### stores through a record pointer -/

theorem njs_object_at_prop_store (heap : List njs_heap_cell) (key : List Nat) (a : Nat)
    (sh : Bool) (f : njs_object_prop_t → njs_object_prop_t) (q : Nat) :
    njs_object_at (njs_prop_store heap key a sh f) q =
      (njs_object_at heap q).map (fun o =>
        if q = a then
          (if sh then { o with shared_hash := nxt_lvlhsh_store key f o.shared_hash }
           else { o with hash := nxt_lvlhsh_store key f o.hash })
        else o) := by
  unfold njs_prop_store
  cases ha : njs_object_at heap a with
  | none =>
    by_cases hqa : q = a
    · subst hqa; simp [ha]
    · simp [hqa]
  | some o =>
    by_cases hqa : q = a
    · subst hqa
      simp [njs_object_at_set_header_same _ ha, ha]
    · simp [njs_object_at_set_header_other _ _ hqa, hqa]

theorem nxt_lvlhsh_find_store_type (h : nxt_lvlhsh_t) (key : List Nat)
    (f : njs_object_prop_t → njs_object_prop_t) (hfn : ∀ r, (f r).name = r.name) :
    nxt_lvlhsh_find (nxt_lvlhsh_store key f h) key = (nxt_lvlhsh_find h key).map f :=
  nxt_lvlhsh_find_store h key f hfn

/-- A store through a record pointer that keeps the name and the kind of the record does not
change the outcome of a turn for that name. -/
theorem njs_object_property_query_turn_store (o : njs_object_t) (key : List Nat)
    (f : njs_object_prop_t → njs_object_prop_t)
    (hfn : ∀ r, (f r).name = r.name) (hft : ∀ r, (f r).type = r.type)
    (pq : njs_property_query_t) (q : Nat) (hk : pq.lhq_key = key) :
    njs_object_property_query_turn { o with hash := nxt_lvlhsh_store key f o.hash } pq q =
      njs_object_property_query_turn o pq q ∧
    njs_object_property_query_turn
        { o with shared_hash := nxt_lvlhsh_store key f o.shared_hash } pq q =
      njs_object_property_query_turn o pq q := by
  subst hk
  unfold njs_object_property_query_turn
  simp only [nxt_lvlhsh_find_store _ _ f hfn]
  constructor
  · cases h1 : nxt_lvlhsh_find o.hash pq.lhq_key with
    | some r => simp [h1, hft]
    | none => simp [h1]
  · cases h1 : nxt_lvlhsh_find o.hash pq.lhq_key with
    | some r => simp [h1]
    | none =>
      cases h2 : nxt_lvlhsh_find o.shared_hash pq.lhq_key with
      | some r => simp [h1, h2, hft]
      | none => simp [h1, h2]

theorem njs_object_property_query_loop_store (heap : List njs_heap_cell) (value : njs_value_t)
    (key : List Nat) (a : Nat) (sh : Bool) (f : njs_object_prop_t → njs_object_prop_t)
    (hfn : ∀ r, (f r).name = r.name) (hft : ∀ r, (f r).type = r.type) :
    ∀ (fuel : Nat) (pq : njs_property_query_t) (q : Nat), pq.lhq_key = key →
      njs_object_property_query_loop (njs_prop_store heap key a sh f) value fuel pq q =
        njs_object_property_query_loop heap value fuel pq q := by
  intro fuel
  induction fuel with
  | zero => intro pq q _; rfl
  | succ n ih =>
    intro pq q hk
    simp only [njs_object_property_query_loop, njs_object_at_prop_store]
    cases ho : njs_object_at heap q with
    | none => rfl
    | some obj =>
      have hts := njs_object_property_query_turn_store obj key f hfn hft pq q hk
      have hkeep := njs_object_property_query_turn_keeps obj pq q
      simp only [Option.map_some']
      by_cases hqa : q = a
      · subst hqa
        cases sh
        · simp only [if_true, Bool.false_eq_true, if_false]
          rw [hts.1]
          cases ht : njs_object_property_query_turn obj pq q with
          | done r1 p1 => rfl
          | next r1 p1 =>
            simp only
            cases obj.__proto__ with
            | none => rfl
            | some proto =>
              simp only
              apply ih
              rw [ht] at hkeep
              exact hkeep.2.1.trans hk
        · simp only [if_true]
          rw [hts.2]
          cases ht : njs_object_property_query_turn obj pq q with
          | done r1 p1 => rfl
          | next r1 p1 =>
            simp only
            cases obj.__proto__ with
            | none => rfl
            | some proto =>
              simp only
              apply ih
              rw [ht] at hkeep
              exact hkeep.2.1.trans hk
      · simp only [hqa, if_false]
        cases ht : njs_object_property_query_turn obj pq q with
        | done r1 p1 => rfl
        | next r1 p1 =>
          simp only
          cases obj.__proto__ with
          | none => rfl
          | some proto =>
            simp only
            apply ih
            rw [ht] at hkeep
            exact hkeep.2.1.trans hk

theorem njs_prop_store_length (heap : List njs_heap_cell) (key : List Nat) (a : Nat)
    (sh : Bool) (f : njs_object_prop_t → njs_object_prop_t) :
    (njs_prop_store heap key a sh f).length = heap.length := by
  unfold njs_prop_store
  cases njs_object_at heap a with
  | none => rfl
  | some o => simp [njs_heap_set_header_length]

/-- A SET or DELETE walk that ends with `NXT_OK` ends at an own record; when that record is not
a whiteout, the walk of any query for the same name ends at the same record. -/
theorem njs_object_property_query_loop_found (heap : List njs_heap_cell) (value : njs_value_t)
    (hv : njs_is_string value = false) :
    ∀ (fuel : Nat) (pqS : njs_property_query_t) (q : Nat) (pqS1 : njs_property_query_t),
      pqS.query > NJS_PROPERTY_QUERY_IN →
      njs_object_property_query_loop heap value fuel pqS q = some (NXT_OK, pqS1) →
      ∃ a, pqS1.lhq_value = .prop a false ∧
        ∀ (pqG : njs_property_query_t) (r : njs_object_prop_t), pqG.lhq_key = pqS.lhq_key →
          njs_prop_at heap pqS.lhq_key a false = some r → r.type ≠ NJS_WHITEOUT →
          njs_object_property_query_loop heap value fuel pqG q =
            some (NXT_OK, { pqG with prototype := a, lhq_value := .prop a false,
                                     shared := false }) := by
  intro fuel
  induction fuel with
  | zero => intro pqS q pqS1 _ h; simp [njs_object_property_query_loop] at h
  | succ n ih =>
    intro pqS q pqS1 hqS h
    simp only [njs_object_property_query_loop] at h ⊢
    cases ho : njs_object_at heap q with
    | none => simp [ho] at h
    | some obj =>
      simp only [ho] at h ⊢
      cases h1 : nxt_lvlhsh_find obj.hash pqS.lhq_key with
      | none =>
        simp [njs_object_property_query_turn, h1, hqS, NXT_DECLINED, NXT_OK] at h
      | some r0 =>
        by_cases hw : r0.type = NJS_WHITEOUT
        · -- goto next
          have htS : njs_object_property_query_turn obj pqS q =
              .next NXT_OK { pqS with prototype := q, lhq_value := .prop q false } := by
            simp [njs_object_property_query_turn, h1, hw]
          have htG : ∀ pqG : njs_property_query_t, pqG.lhq_key = pqS.lhq_key →
              njs_object_property_query_turn obj pqG q =
              .next NXT_OK { pqG with prototype := q, lhq_value := .prop q false } := by
            intro pqG hkey
            simp [njs_object_property_query_turn, hkey, h1, hw]
          simp only [htS] at h
          cases hp : obj.__proto__ with
          | none =>
            simp only [hp, hv, Bool.false_eq_true, if_false, Option.some.injEq,
              Prod.mk.injEq, true_and] at h
            subst h
            refine ⟨q, rfl, ?_⟩
            intro pqG r hkey hr hnw
            simp [njs_prop_at, ho, h1] at hr
            subst hr
            exact absurd hw hnw
          | some proto =>
            simp only [hp] at h
            obtain ⟨a, ha, hG⟩ := ih _ proto pqS1 (by simpa using hqS) h
            refine ⟨a, ha, ?_⟩
            intro pqG r hkey hr hnw
            simp only [htG pqG hkey]
            have := hG { pqG with prototype := q, lhq_value := .prop q false } r
              (by simpa using hkey) (by simpa using hr) hnw
            simpa using this
        · have htS : njs_object_property_query_turn obj pqS q =
              .done NXT_OK { pqS with prototype := q, lhq_value := .prop q false,
                                      shared := false } := by
            simp [njs_object_property_query_turn, h1, hw]
          simp only [htS, Option.some.injEq, Prod.mk.injEq, true_and] at h
          subst h
          refine ⟨q, rfl, ?_⟩
          intro pqG r hkey _ _
          have htG : njs_object_property_query_turn obj pqG q =
              .done NXT_OK { pqG with prototype := q, lhq_value := .prop q false,
                                      shared := false } := by
            simp [njs_object_property_query_turn, hkey, h1, hw]
          simp only [htG]

theorem njs_vmcode_property_in_found (host : njs_host_t) (sz : njs_vmcode_sizes) (vm : njs_vm_t)
    (object property : njs_value_t) (pq : njs_property_query_t)
    (hq : njs_property_query host vm (njs_property_query_init NJS_PROPERTY_QUERY_IN) object
      property = some (NXT_OK, vm, pq)) :
    njs_vmcode_property_in host sz vm object property =
      some (sz.addr3, { vm with retval := njs_value_true }) := by
  unfold njs_vmcode_property_in
  rw [hq]
  simp

theorem njs_vmcode_property_get_found (host : njs_host_t) (sz : njs_vmcode_sizes) (vm : njs_vm_t)
    (object property : njs_value_t) (pq : njs_property_query_t) (r : njs_object_prop_t)
    (hq : njs_property_query host vm (njs_property_query_init NJS_PROPERTY_QUERY_GET) object
      property = some (NXT_OK, vm, pq))
    (hr : njs_lhq_prop vm.heap pq = some r)
    (ht : r.type = NJS_PROPERTY ∨ (r.type = NJS_METHOD ∧ pq.shared = false)) :
    njs_vmcode_property_get host sz vm object property =
      some (sz.prop_get, { vm with retval := r.value }) := by
  unfold njs_vmcode_property_get
  rw [hq]
  rcases ht with ht | ⟨ht, hs⟩
  · simp [hr, ht]
  · simp [hr, ht, hs]

theorem njs_prop_at_prop_store (heap : List njs_heap_cell) (key : List Nat) (a : Nat)
    (f : njs_object_prop_t → njs_object_prop_t) (hfn : ∀ r, (f r).name = r.name) :
    njs_prop_at (njs_prop_store heap key a false f) key a false =
      (njs_prop_at heap key a false).map f := by
  unfold njs_prop_at
  rw [njs_object_at_prop_store]
  cases njs_object_at heap a with
  | none => rfl
  | some o => simp [nxt_lvlhsh_find_store _ _ f hfn]

/-- Claim C1 (amended): for a receiver of tag Object and a property operand, when
`njs_vmcode_property_set` with value `value` returns normally (the advance `sz.prop_set`) and the
record that the SET query resolves to, if there is one, is a Property or a Method record, then on
the resulting state `njs_vmcode_property_in` sets `vm.retval` to `true` and
`njs_vmcode_property_get` sets `vm.retval` to `value`, the value written, and both leave the rest
of the state as it is. -/
theorem njs_property_set_then_in_get (host : njs_host_t) (sz : njs_vmcode_sizes)
    (vm vm1 : njs_vm_t) (object property value : njs_value_t)
    (ht : object.type = NJS_OBJECT)
    (hsz : 0 ≤ sz.prop_set)
    (hset : njs_vmcode_property_set host sz vm object property value = some (sz.prop_set, vm1))
    (hdata : ∀ pq r,
      njs_property_query host vm (njs_property_query_init NJS_PROPERTY_QUERY_SET) object
        property = some (NXT_OK, vm, pq) →
      njs_lhq_prop vm.heap pq = some r → r.type = NJS_PROPERTY ∨ r.type = NJS_METHOD) :
    njs_vmcode_property_in host sz vm1 object property =
      some (sz.addr3, { vm1 with retval := njs_value_true }) ∧
    njs_vmcode_property_get host sz vm1 object property =
      some (sz.prop_get, { vm1 with retval := value }) := by
  have hv : njs_is_string object = false := by simp [njs_is_string, ht]
  -- the receiver addresses a heap record
  cases hu : njs_value_object object with
  | none =>
    simp [njs_vmcode_property_set, njs_property_query, ht, hu] at hset
  | some p =>
    have hp : object.u = .object p := by
      unfold njs_value_object at hu
      cases hx : object.u <;> simp [hx] at hu
      subst hu; rfl
    have hpath : njs_object_path host object property := Or.inl ht
    cases hprim : njs_is_primitive property with
    | false =>
      simp [njs_vmcode_property_set, njs_property_query, ht, hu, njs_property_query_key, hprim,
        NJS_TRAP_PROPERTY, NXT_OK, NXT_DECLINED, NJS_PRIMITIVE_VALUE, NJS_STRING_VALUE,
        NJS_ARRAY_VALUE, NJS_EXTERNAL_VALUE] at hset
      obtain ⟨h1, _⟩ := hset
      have h2 : (-9 : Int) = sz.prop_set := h1
      omega
    | true =>
      cases hname : host.njs_value_to_string property with
      | none =>
        simp [njs_vmcode_property_set, njs_property_query, ht, hu, njs_property_query_key, hprim,
          hname, NXT_ERROR, NXT_OK, NXT_DECLINED, NJS_PRIMITIVE_VALUE, NJS_STRING_VALUE,
          NJS_ARRAY_VALUE, NJS_EXTERNAL_VALUE] at hset
        obtain ⟨h1, _⟩ := hset
        have h2 : (-1 : Int) = sz.prop_set := h1
        omega
      | some name =>
        have hqS := njs_property_query_object_path host vm
          (njs_property_query_init NJS_PROPERTY_QUERY_SET) object property name p hpath hp
          hprim hname
        have hqI := njs_property_query_object_path host vm1
          (njs_property_query_init NJS_PROPERTY_QUERY_IN) object property name p hpath hp
          hprim hname
        have hqG := njs_property_query_object_path host vm1
          (njs_property_query_init NJS_PROPERTY_QUERY_GET) object property name p hpath hp
          hprim hname
        cases hw : njs_object_property_query vm
            (njs_property_query_named host (njs_property_query_init NJS_PROPERTY_QUERY_SET) name)
            object p with
        | none =>
          rw [hw] at hqS
          simp [njs_vmcode_property_set, hqS] at hset
        | some res =>
          obtain ⟨ret, pq1⟩ := res
          rw [hw] at hqS
          simp only [Option.map_some'] at hqS
          have hkeep := njs_object_property_query_loop_keeps vm.heap object hv _ _ _ _ _ hw
          have hkey : pq1.lhq_key = njs_string_bytes name := by
            simpa [njs_property_query_named] using hkeep.2.1
          have hval : pq1.value = name := by
            simpa [njs_property_query_named] using hkeep.2.2.2.1
          rcases hkeep.1 with hret | hret
          · -- an existing record receives the value
            subst hret
            obtain ⟨a, ha, hfound⟩ := njs_object_property_query_loop_found vm.heap object hv _ _
              _ _ (by simp [njs_property_query_named, njs_property_query_init,
                NJS_PROPERTY_QUERY_SET, NJS_PROPERTY_QUERY_IN]) hw
            unfold njs_vmcode_property_set at hset
            rw [hqS] at hset
            simp only [if_true, ha, hkey] at hset
            cases hr : njs_prop_at vm.heap (njs_string_bytes name) a false with
            | none => simp [hr] at hset
            | some r =>
              simp only [hr, Option.some.injEq, Prod.mk.injEq, true_and] at hset
              have hrt := hdata pq1 r hqS (by simp [njs_lhq_prop, ha, hkey, hr])
              have hnw : r.type ≠ NJS_WHITEOUT := by
                rcases hrt with h | h <;> simp [h]
              have hheap : vm1.heap = njs_prop_store vm.heap (njs_string_bytes name) a false
                  (fun prop => { prop with value := value }) := by
                rw [← hset]
              have hwalk : ∀ pqG : njs_property_query_t, pqG.lhq_key = njs_string_bytes name →
                  njs_object_property_query vm1 pqG object p =
                    some (NXT_OK, { pqG with prototype := a, lhq_value := .prop a false,
                                             shared := false }) := by
                intro pqG hk
                unfold njs_object_property_query
                rw [hheap, njs_prop_store_length,
                  njs_object_property_query_loop_store vm.heap object (njs_string_bytes name) a
                    false (fun prop => { prop with value := value }) (fun _ => rfl)
                    (fun _ => rfl) _ _ _ hk]
                exact hfound pqG r (by simpa [njs_property_query_named] using hk)
                  (by simpa [njs_property_query_named] using hr) hnw
              have hrec : njs_prop_at vm1.heap (njs_string_bytes name) a false =
                  some { r with value := value } := by
                rw [hheap, njs_prop_at_prop_store vm.heap (njs_string_bytes name) a
                  (fun prop => { prop with value := value }) (fun _ => rfl), hr]
                rfl
              rw [hwalk _ rfl] at hqI hqG
              simp only [Option.map_some'] at hqI hqG
              refine ⟨njs_vmcode_property_in_found host sz vm1 object property _ hqI, ?_⟩
              have := njs_vmcode_property_get_found host sz vm1 object property _
                { r with value := value } hqG
                (by simp [njs_lhq_prop, njs_property_query_named, hrec])
                (by rcases hrt with h | h
                    · exact Or.inl h
                    · exact Or.inr ⟨h, rfl⟩)
              exact this
          · -- a new record is inserted
            subst hret
            unfold njs_vmcode_property_set at hset
            rw [hqS] at hset
            simp only [NXT_DECLINED, NXT_OK, hu, hkey, hval,
              show ¬ ((-3 : njs_ret_t) = 0) by decide, if_false, if_true] at hset
            cases hpool : nxt_mem_cache_alloc vm.mem_cache_pool with
            | mk b pool1 =>
            cases b with
            | false =>
              simp only [hpool, Option.some.injEq, Prod.mk.injEq, NXT_ERROR] at hset
              have h2 : (-1 : Int) = sz.prop_set := hset.1
              omega
            | true =>
              simp only [hpool] at hset
              cases ho : njs_object_at vm.heap p with
              | none => simp [ho] at hset
              | some o =>
                simp only [ho] at hset
                cases hf : nxt_lvlhsh_find o.hash (njs_string_bytes name) with
                | some r0 =>
                  simp only [nxt_lvlhsh_insert, hf, NXT_DECLINED, ne_eq,
                    show ¬ ((-3 : njs_ret_t) = 0) by decide, not_false_eq_true, if_true,
                    Option.some.injEq, Prod.mk.injEq] at hset
                  have h2 : (-3 : Int) = sz.prop_set := hset.1
                  omega
                | none =>
                  cases hpool2 : nxt_mem_cache_alloc pool1 with
                  | mk b2 pool2 =>
                  cases b2 with
                  | false =>
                    simp only [nxt_lvlhsh_insert, hf, hpool2, NXT_ERROR, ne_eq,
                      show ¬ ((-1 : njs_ret_t) = 0) by decide, not_false_eq_true, if_true,
                      Option.some.injEq, Prod.mk.injEq] at hset
                    have h2 : (-1 : Int) = sz.prop_set := hset.1
                    omega
                  | true =>
                    simp only [nxt_lvlhsh_insert, hf, hpool2, NXT_OK, ne_eq, not_true_eq_false,
                      if_false, Option.some.injEq, Prod.mk.injEq, true_and, njs_prop_store,
                      njs_object_at_set_header_same _ ho, njs_heap_set_header_twice,
                      Bool.false_eq_true, njs_object_prop_alloc] at hset
                    rw [nxt_lvlhsh_store_append
                      ⟨name, njs_value_void, NJS_PROPERTY, true, true, true⟩ _ hf rfl] at hset
                    have hheap : vm1.heap = njs_heap_set_header vm.heap p
                        { o with hash := o.hash ++
                            [⟨name, value, NJS_PROPERTY, true, true, true⟩] } := by
                      rw [← hset]
                    have ho1 : njs_object_at vm1.heap p = some
                        { o with hash := o.hash ++
                            [⟨name, value, NJS_PROPERTY, true, true, true⟩] } := by
                      rw [hheap]; exact njs_object_at_set_header_same _ ho
                    have hf1 : nxt_lvlhsh_find
                        (o.hash ++ [⟨name, value, NJS_PROPERTY, true, true, true⟩])
                        (njs_string_bytes name) =
                        some ⟨name, value, NJS_PROPERTY, true, true, true⟩ :=
                      nxt_lvlhsh_find_append _ hf rfl
                    have hwalk : ∀ pqG : njs_property_query_t,
                        pqG.lhq_key = njs_string_bytes name →
                        njs_object_property_query vm1 pqG object p =
                          some (NXT_OK, { pqG with prototype := p, lhq_value := .prop p false,
                                                   shared := false }) := by
                      intro pqG hk
                      exact njs_object_property_query_own vm1 object pqG p _ _ ho1
                        (by rw [hk]; exact hf1) (by simp)
                    rw [hwalk _ rfl] at hqI hqG
                    simp only [Option.map_some'] at hqI hqG
                    refine ⟨njs_vmcode_property_in_found host sz vm1 object property _ hqI, ?_⟩
                    exact njs_vmcode_property_get_found host sz vm1 object property _
                      ⟨name, value, NJS_PROPERTY, true, true, true⟩ hqG
                      (by simp [njs_lhq_prop, njs_property_query_named, njs_prop_at, ho1, hf1])
                      (Or.inl rfl)

/-- More fuel does not change the result of a walk that ends. -/
theorem njs_object_property_query_loop_mono (heap : List njs_heap_cell) (value : njs_value_t) :
    ∀ (n m : Nat) (pq : njs_property_query_t) (q : Nat) (res : njs_ret_t × njs_property_query_t),
      n ≤ m → njs_object_property_query_loop heap value n pq q = some res →
      njs_object_property_query_loop heap value m pq q = some res := by
  intro n
  induction n with
  | zero => intro m pq q res _ h; simp [njs_object_property_query_loop] at h
  | succ n ih =>
    intro m pq q res hnm h
    obtain ⟨m1, rfl⟩ : ∃ m1, m = m1 + 1 := ⟨m - 1, by omega⟩
    simp only [njs_object_property_query_loop] at h ⊢
    cases ho : njs_object_at heap q with
    | none => simp [ho] at h
    | some obj =>
      simp only [ho] at h ⊢
      cases ht : njs_object_property_query_turn obj pq q with
      | done r1 p1 => simpa [ht] using h
      | next r1 p1 =>
        simp only [ht] at h ⊢
        cases hp : obj.__proto__ with
        | none => simpa [hp] using h
        | some proto =>
          simp only [hp] at h ⊢
          exact ih m1 _ _ _ (by omega) h

/-- A GET or IN walk along a chain on which no object has the name declines. -/
theorem njs_object_property_query_loop_lacks (heap : List njs_heap_cell) (value : njs_value_t)
    (hv : njs_is_string value = false) (key : List Nat) :
    ∀ (n : Nat) (pq : njs_property_query_t) (q : Nat), pq.lhq_key = key →
      pq.query ≤ NJS_PROPERTY_QUERY_IN →
      njs_chain_lacks heap key n (some q) = true →
      ∃ pq1, njs_object_property_query_loop heap value n pq q = some (NXT_DECLINED, pq1) := by
  intro n
  induction n with
  | zero => intro pq q _ _ h; simp [njs_chain_lacks] at h
  | succ n ih =>
    intro pq q hk hq h
    simp only [njs_chain_lacks] at h
    cases ho : njs_object_at heap q with
    | none => simp [ho] at h
    | some obj =>
      simp only [ho, Bool.and_eq_true, Option.isNone_iff_eq_none] at h
      obtain ⟨⟨h1, h2⟩, h3⟩ := h
      have hq' : ¬ pq.query > NJS_PROPERTY_QUERY_IN := by omega
      have ht : njs_object_property_query_turn obj pq q =
          .next NXT_DECLINED { pq with prototype := q } := by
        simp [njs_object_property_query_turn, hk, h1, h2, hq']
      simp only [njs_object_property_query_loop, ho, ht]
      cases hp : obj.__proto__ with
      | none => exact ⟨{ pq with prototype := q }, by simp [hv]⟩
      | some proto =>
        simp only
        rw [hp] at h3
        exact ih _ proto (by simpa using hk) (by simpa using hq) h3

theorem njs_vmcode_property_in_object_path (host : njs_host_t) (sz : njs_vmcode_sizes)
    (vm : njs_vm_t) (object property name : njs_value_t) (p : Nat)
    (hpath : njs_object_path host object property) (hp : object.u = .object p)
    (hprim : njs_is_primitive property = true)
    (hname : host.njs_value_to_string property = some name)
    (hv : njs_is_string object = false) :
    njs_vmcode_property_in host sz vm object property =
      (njs_object_property_query vm
        (njs_property_query_named host (njs_property_query_init NJS_PROPERTY_QUERY_IN) name)
        object p).map
        (fun x => (sz.addr3,
          { vm with retval := if x.1 = NXT_OK then njs_value_true else njs_value_false })) := by
  unfold njs_vmcode_property_in
  rw [njs_property_query_object_path host vm _ object property name p hpath hp hprim hname]
  cases hw : njs_object_property_query vm
      (njs_property_query_named host (njs_property_query_init NJS_PROPERTY_QUERY_IN) name)
      object p with
  | none => rfl
  | some res =>
    obtain ⟨ret, pq1⟩ := res
    have hkeep := njs_object_property_query_loop_keeps vm.heap object hv _ _ _ _ _ hw
    rcases hkeep.1 with h | h
    · subst h; simp
    · subst h; simp [NXT_DECLINED, NXT_OK]

theorem njs_object_path_not_string (host : njs_host_t) (object property : njs_value_t)
    (hpath : njs_object_path host object property) : njs_is_string object = false := by
  unfold njs_is_string
  rcases hpath with h | h | h | ⟨h, _⟩ <;> simp [h]

/-- Claim C4 (amended): for an object with a prototype whose own table holds a Whiteout record for
the name, the walk skips the shared table of the object and continues at its prototype; when no
object from the prototype on has a record of the name, `njs_vmcode_property_in` gives `false`
and `njs_vmcode_property_get` gives `undefined`, whatever the shared table of the object holds;
when the own table of the prototype has a record of the name that is not a Whiteout, `in` gives
`true` and, for a Property or Method record, `get` gives the value of that record. -/
theorem njs_property_whiteout_continues (host : njs_host_t) (sz : njs_vmcode_sizes)
    (vm : njs_vm_t) (object property name : njs_value_t) (p q : Nat) (o : njs_object_t)
    (w : njs_object_prop_t) (n : Nat)
    (hpath : njs_object_path host object property)
    (hp : object.u = .object p)
    (hprim : njs_is_primitive property = true)
    (hname : host.njs_value_to_string property = some name)
    (ho : njs_object_at vm.heap p = some o)
    (hw : nxt_lvlhsh_find o.hash (njs_string_bytes name) = some w)
    (hwt : w.type = NJS_WHITEOUT)
    (hproto : o.__proto__ = some q) :
    (n < vm.heap.length → njs_chain_lacks vm.heap (njs_string_bytes name) n (some q) = true →
      njs_vmcode_property_in host sz vm object property =
        some (sz.addr3, { vm with retval := njs_value_false }) ∧
      njs_vmcode_property_get host sz vm object property =
        some (sz.prop_get, { vm with retval := njs_value_void })) ∧
    (∀ oq r, njs_object_at vm.heap q = some oq →
      nxt_lvlhsh_find oq.hash (njs_string_bytes name) = some r → r.type ≠ NJS_WHITEOUT →
      njs_vmcode_property_in host sz vm object property =
        some (sz.addr3, { vm with retval := njs_value_true }) ∧
      (r.type = NJS_PROPERTY ∨ r.type = NJS_METHOD →
        njs_vmcode_property_get host sz vm object property =
          some (sz.prop_get, { vm with retval := r.value }))) := by
  have hv := njs_object_path_not_string host object property hpath
  have hturn : ∀ pq : njs_property_query_t, pq.lhq_key = njs_string_bytes name →
      njs_object_property_query_turn o pq p =
        .next NXT_OK { pq with prototype := p, lhq_value := .prop p false } := by
    intro pq hk
    simp [njs_object_property_query_turn, hk, hw, hwt]
  have hstep : ∀ (m : Nat) (pq : njs_property_query_t), pq.lhq_key = njs_string_bytes name →
      njs_object_property_query_loop vm.heap object (m + 1) pq p =
        njs_object_property_query_loop vm.heap object m
          { pq with prototype := p, lhq_value := .prop p false } q := by
    intro m pq hk
    simp only [njs_object_property_query_loop, ho, hturn pq hk, hproto]
  constructor
  · intro hn hlacks
    obtain ⟨m, hm⟩ : ∃ m, vm.heap.length = m + 1 := ⟨vm.heap.length - 1, by omega⟩
    have hdecl : ∀ pq : njs_property_query_t, pq.lhq_key = njs_string_bytes name →
        pq.query ≤ NJS_PROPERTY_QUERY_IN →
        ∃ pq1, njs_object_property_query vm pq object p = some (NXT_DECLINED, pq1) := by
      intro pq hk hq
      unfold njs_object_property_query
      rw [hm, hstep m pq hk]
      obtain ⟨pq1, h1⟩ := njs_object_property_query_loop_lacks vm.heap object hv
        (njs_string_bytes name) n { pq with prototype := p, lhq_value := .prop p false } q
        (by simpa using hk) (by simpa using hq) hlacks
      exact ⟨pq1, njs_object_property_query_loop_mono _ object n m _ q _ (by omega) h1⟩
    constructor
    · rw [njs_vmcode_property_in_object_path host sz _ object property name p hpath hp hprim
        hname hv]
      obtain ⟨pq1, h1⟩ := hdecl
        (njs_property_query_named host (njs_property_query_init NJS_PROPERTY_QUERY_IN) name) rfl
        (by simp [njs_property_query_named, njs_property_query_init])
      rw [h1]
      simp [NXT_DECLINED, NXT_OK]
    · unfold njs_vmcode_property_get
      rw [njs_property_query_object_path host _ _ object property name p hpath hp hprim hname]
      obtain ⟨pq1, h1⟩ := hdecl
        (njs_property_query_named host (njs_property_query_init NJS_PROPERTY_QUERY_GET) name) rfl
        (by simp [njs_property_query_named, njs_property_query_init, NJS_PROPERTY_QUERY_GET])
      rw [h1]
      simp [NXT_DECLINED, NXT_OK]
  · intro oq r hoq hr hnw
    have hqp : q ≠ p := by
      intro h
      subst h
      rw [ho] at hoq
      cases hoq
      rw [hw] at hr
      cases hr
      exact hnw hwt
    have hlp := njs_object_at_length ho
    have hlq := njs_object_at_length hoq
    obtain ⟨m, hm⟩ : ∃ m, vm.heap.length = m + 2 := ⟨vm.heap.length - 2, by omega⟩
    have hfound : ∀ pq : njs_property_query_t, pq.lhq_key = njs_string_bytes name →
        njs_object_property_query vm pq object p =
          some (NXT_OK, { pq with prototype := q, lhq_value := .prop q false,
                                  shared := false }) := by
      intro pq hk
      unfold njs_object_property_query
      rw [hm, hstep (m + 1) pq hk]
      rw [njs_object_property_query_loop_own vm.heap object m _ q oq r hoq
        (by simpa [hk] using hr) hnw]
    have hqI := njs_property_query_object_path host vm
      (njs_property_query_init NJS_PROPERTY_QUERY_IN) object property name p hpath hp hprim hname
    have hqG := njs_property_query_object_path host vm
      (njs_property_query_init NJS_PROPERTY_QUERY_GET) object property name p hpath hp hprim hname
    rw [hfound _ rfl] at hqI hqG
    simp only [Option.map_some'] at hqI hqG
    refine ⟨njs_vmcode_property_in_found host sz vm object property _ hqI, ?_⟩
    intro hdata
    exact njs_vmcode_property_get_found host sz vm object property _ r hqG
      (by simp [njs_lhq_prop, njs_property_query_named, njs_prop_at, hoq, hr])
      (by rcases hdata with h | h
          · exact Or.inl h
          · exact Or.inr ⟨h, rfl⟩)

theorem njs_array_property_query_not_ok (vm vm1 : njs_vm_t) (pq pq1 : njs_property_query_t)
    (object : njs_value_t) (index : Int) :
    njs_array_property_query vm pq object index ≠ some (NXT_OK, vm1, pq1) := by
  unfold njs_array_property_query
  intro h
  split at h
  · split at h
    · simp at h
    · split at h
      · split at h
        · simp [NXT_DECLINED, NXT_OK] at h
        · split at h
          · split at h
            · simp [NXT_ERROR, NXT_OK] at h
            · simp [NJS_ARRAY_VALUE, NXT_OK] at h
          · simp [NJS_ARRAY_VALUE, NXT_OK] at h
      · simp [NJS_ARRAY_VALUE, NXT_OK] at h
  · simp at h

theorem njs_property_query_key_ok (host : njs_host_t) (vm vm1 : njs_vm_t)
    (pq0 pq : njs_property_query_t) (object property : njs_value_t) (hash : List Nat → Nat)
    (obj : Option Nat)
    (h : njs_property_query_key host vm pq0 object property hash obj = some (NXT_OK, vm1, pq)) :
    vm1 = vm ∧ ∃ start pqN, pqN.shared = pq0.shared ∧
      njs_object_property_query vm pqN object start = some (NXT_OK, pq) := by
  unfold njs_property_query_key at h
  cases hprim : njs_is_primitive property with
  | false => simp [hprim, NJS_TRAP_PROPERTY, NXT_OK] at h
  | true =>
    simp only [hprim, if_true] at h
    cases hname : host.njs_value_to_string property with
    | none => simp [hname, NXT_ERROR, NXT_OK] at h
    | some name =>
      simp only [hname] at h
      cases obj with
      | none => simp [NJS_EXTERNAL_VALUE, NXT_OK] at h
      | some start =>
        simp only at h
        cases hw : njs_object_property_query vm
            { pq0 with value := name, lhq_key := njs_string_bytes name,
                       lhq_key_hash := hash (njs_string_bytes name) } object start with
        | none => simp [hw] at h
        | some res =>
          obtain ⟨ret, pq2⟩ := res
          simp only [hw, Option.map_some', Option.some.injEq, Prod.mk.injEq] at h
          obtain ⟨h1, h2, h3⟩ := h
          subst h1 h3
          exact ⟨h2.symm, start,
            { pq0 with value := name, lhq_key := njs_string_bytes name,
                       lhq_key_hash := hash (njs_string_bytes name) }, rfl, hw⟩

/-- A query that ends with `NXT_OK` has ended in the object walk. -/
theorem njs_property_query_ok (host : njs_host_t) (vm vm1 : njs_vm_t)
    (pq0 pq : njs_property_query_t) (object property : njs_value_t)
    (h : njs_property_query host vm pq0 object property = some (NXT_OK, vm1, pq)) :
    vm1 = vm ∧ ∃ start pqN, pqN.shared = pq0.shared ∧
      njs_object_property_query vm pqN object start = some (NXT_OK, pq) := by
  unfold njs_property_query at h
  have hgen : (match njs_value_object object with
      | none => none
      | some p => njs_property_query_key host vm pq0 object property host.nxt_djb_hash (some p))
        = some (NXT_OK, vm1, pq) →
      vm1 = vm ∧ ∃ start pqN, pqN.shared = pq0.shared ∧
        njs_object_property_query vm pqN object start = some (NXT_OK, pq) := by
    intro hg
    cases hu : njs_value_object object with
    | none => simp [hu] at hg
    | some p =>
      simp only [hu] at hg
      exact njs_property_query_key_ok host vm vm1 pq0 pq object property _ _ hg
  cases ht : object.type <;> simp only [ht] at h
  case NJS_NULL => simp [NXT_ERROR, NXT_OK] at h
  case NJS_VOID => simp [NXT_ERROR, NXT_OK] at h
  case NJS_INVALID => simp [NXT_ERROR, NXT_OK] at h
  case NJS_BOOLEAN =>
    split at h
    · simp [NJS_PRIMITIVE_VALUE, NXT_OK] at h
    · exact njs_property_query_key_ok host vm vm1 pq0 pq object property _ _ h
  case NJS_NUMBER =>
    split at h
    · simp [NJS_PRIMITIVE_VALUE, NXT_OK] at h
    · exact njs_property_query_key_ok host vm vm1 pq0 pq object property _ _ h
  case NJS_STRING =>
    split at h
    · simp [NXT_DECLINED, NXT_OK] at h
    · exact njs_property_query_key_ok host vm vm1 pq0 pq object property _ _ h
  case NJS_NATIVE => exact njs_property_query_key_ok host vm vm1 pq0 pq object property _ _ h
  case NJS_EXTERNAL =>
    split at h
    · split at h
      · simp at h
      · exact njs_property_query_key_ok host vm vm1 pq0 pq object property _ _ h
    · simp at h
  case NJS_OBJECT => exact hgen h
  case NJS_FUNCTION => exact hgen h
  case NJS_REGEXP => exact hgen h
  case NJS_ARRAY =>
    split at h
    · split at h
      · split at h
        · exact absurd h (njs_array_property_query_not_ok _ _ _ _ _ _)
        · exact hgen h
      · simp [NJS_TRAP_PROPERTY, NXT_OK] at h
    · exact hgen h

theorem njs_object_property_query_turn_shared (obj : njs_object_t) (pq : njs_property_query_t)
    (q : Nat) (hs : pq.shared = false) :
    (∀ ret pq1, njs_object_property_query_turn obj pq q = .next ret pq1 → pq1.shared = false) ∧
    (∀ pq1, njs_object_property_query_turn obj pq q = .done NXT_OK pq1 → pq1.shared = true →
      pq1.prototype = q ∧ pq1.lhq_value = .prop q true ∧
      nxt_lvlhsh_find obj.hash pq.lhq_key = none ∧
      ∃ r, nxt_lvlhsh_find obj.shared_hash pq.lhq_key = some r) := by
  unfold njs_object_property_query_turn
  cases h1 : nxt_lvlhsh_find obj.hash pq.lhq_key with
  | some r =>
    by_cases hw : r.type = NJS_WHITEOUT
    · simp only [h1, hw, ne_eq, not_true_eq_false, if_false]
      constructor
      · intro ret pq1 h
        cases h
        exact hs
      · intro pq1 h
        cases h
    · simp only [h1, hw, ne_eq, not_false_eq_true, if_true]
      constructor
      · intro ret pq1 h
        cases h
      · intro pq1 h hsh
        cases h
        simp at hsh
  | none =>
    by_cases hq : pq.query > NJS_PROPERTY_QUERY_IN
    · simp only [h1, hq, if_true]
      constructor
      · intro ret pq1 h
        cases h
      · intro pq1 h
        simp [NXT_DECLINED, NXT_OK] at h
    · cases h2 : nxt_lvlhsh_find obj.shared_hash pq.lhq_key with
      | some r =>
        by_cases hw : pq.query = NJS_PROPERTY_QUERY_IN ∧ r.type = NJS_WHITEOUT
        · simp only [h1, h2, hq, hw, if_false, and_self, if_true]
          constructor
          · intro ret pq1 h
            cases h
          · intro pq1 h
            simp [NXT_DECLINED, NXT_OK] at h
        · simp only [h1, h2, hq, hw, if_false]
          constructor
          · intro ret pq1 h
            cases h
          · intro pq1 h _
            cases h
            simp
      | none =>
        simp only [h1, h2, hq, if_false]
        constructor
        · intro ret pq1 h
          cases h
          exact hs
        · intro pq1 h
          cases h

/-- A walk that ends with `NXT_OK` and `shared` set has found the record in the shared table of
the object `pq.prototype`, whose own table has no record of the name. -/
theorem njs_object_property_query_loop_shared (heap : List njs_heap_cell) (value : njs_value_t) :
    ∀ (fuel : Nat) (pqN : njs_property_query_t) (q : Nat) (pq : njs_property_query_t),
      pqN.shared = false →
      njs_object_property_query_loop heap value fuel pqN q = some (NXT_OK, pq) →
      pq.shared = true →
      ∃ oa r, njs_object_at heap pq.prototype = some oa ∧
        pq.lhq_value = .prop pq.prototype true ∧
        nxt_lvlhsh_find oa.hash pqN.lhq_key = none ∧
        nxt_lvlhsh_find oa.shared_hash pqN.lhq_key = some r ∧
        pq.lhq_key = pqN.lhq_key := by
  intro fuel
  induction fuel with
  | zero => intro pqN q pq _ h; simp [njs_object_property_query_loop] at h
  | succ n ih =>
    intro pqN q pq hs h hsh
    simp only [njs_object_property_query_loop] at h
    cases ho : njs_object_at heap q with
    | none => simp [ho] at h
    | some obj =>
      simp only [ho] at h
      have hts := njs_object_property_query_turn_shared obj pqN q hs
      have hkeep := njs_object_property_query_turn_keeps obj pqN q
      cases ht : njs_object_property_query_turn obj pqN q with
      | done r1 p1 =>
        simp only [ht, Option.some.injEq, Prod.mk.injEq] at h
        obtain ⟨h1, h2⟩ := h
        subst h1 h2
        obtain ⟨ha, hb, hc, r, hd⟩ := hts.2 _ ht hsh
        rw [ht] at hkeep
        rw [ha]
        exact ⟨obj, r, ho, by rw [hb], hc, hd, hkeep.2.1⟩
      | next r1 p1 =>
        simp only [ht] at h
        have hs1 := hts.1 _ _ ht
        rw [ht] at hkeep
        cases hp : obj.__proto__ with
        | none =>
          cases hv : njs_is_string value with
          | true => simp [hp, hv, NJS_STRING_VALUE, NXT_OK] at h
          | false =>
            simp only [hp, hv, Bool.false_eq_true, if_false, Option.some.injEq,
              Prod.mk.injEq] at h
            obtain ⟨_, h2⟩ := h
            subst h2
            rw [hs1] at hsh
            cases hsh
        | some proto =>
          simp only [hp] at h
          obtain ⟨oa, r, h1, h2, h3, h4, h5⟩ := ih p1 proto pq hs1 h hsh
          have hk : p1.lhq_key = pqN.lhq_key := hkeep.2.1
          rw [hk] at h3 h4 h5
          exact ⟨oa, r, h1, h2, h3, h4, h5⟩

theorem njs_object_at_append (heap : List njs_heap_cell) (c : njs_heap_cell) {a : Nat}
    {o : njs_object_t} (h : njs_object_at heap a = some o) :
    njs_object_at (heap ++ [c]) a = some o := by
  have hlt := njs_object_at_length h
  unfold njs_object_at at h ⊢
  rw [List.getElem?_append_left hlt]
  exact h

/-- Claim C6 (amended): when a GET query resolves to a Method record of a shared table, the table
is the shared table of the object `pq.prototype` at which the walk stopped and the own table of
that object has no record of the name; with three successful allocations
`njs_vmcode_property_get` appends a copy of the function descriptor to the heap, with the
function prototype as its prototype link, adds a copy of the record that points at it to the own
table of `pq.prototype`, the object in whose shared table the method was found, returns the
copied function in `vm.retval`, and changes nothing else. -/
theorem njs_property_get_private_copy (host : njs_host_t) (sz : njs_vmcode_sizes)
    (vm : njs_vm_t) (object property : njs_value_t) (pq : njs_property_query_t)
    (r : njs_object_prop_t) (fp : Nat) (f : njs_function_t) (rest : List Bool)
    (hq : njs_property_query host vm (njs_property_query_init NJS_PROPERTY_QUERY_GET) object
      property = some (NXT_OK, vm, pq))
    (hs : pq.shared = true)
    (hr : njs_lhq_prop vm.heap pq = some r)
    (hm : r.type = NJS_METHOD)
    (hfp : r.value.u = .object fp)
    (hf : njs_function_at vm.heap fp = some f)
    (hpool : vm.mem_cache_pool = true :: true :: true :: rest) :
    ∃ oa, njs_object_at vm.heap pq.prototype = some oa ∧
      nxt_lvlhsh_find oa.shared_hash pq.lhq_key = some r ∧
      nxt_lvlhsh_find oa.hash pq.lhq_key = none ∧
      njs_vmcode_property_get host sz vm object property =
        some (sz.prop_get,
          { vm with
            mem_cache_pool := rest,
            heap := njs_heap_set_header
              (vm.heap ++ [.function
                { f with object := { f.object with __proto__ := some NJS_PROTOTYPE_FUNCTION } }])
              pq.prototype
              { oa with hash := oa.hash ++
                  [{ r with value := { r.value with u := .object vm.heap.length } }] },
            retval := { r.value with u := .object vm.heap.length } }) := by
  obtain ⟨_, start, pqN, hsN, hw⟩ := njs_property_query_ok host vm vm _ pq object property hq
  obtain ⟨oa, r1, hoa, hlv, hown, hshared, hkey⟩ :=
    njs_object_property_query_loop_shared vm.heap object vm.heap.length pqN start pq
      (by simpa [njs_property_query_init] using hsN) hw hs
  rw [← hkey] at hown hshared
  have hr1 : r1 = r := by
    simp only [njs_lhq_prop, hlv, njs_prop_at, hoa, if_true, hshared, Option.some.injEq] at hr
    exact hr
  subst hr1
  refine ⟨oa, hoa, hshared, hown, ?_⟩
  have hnm := nxt_lvlhsh_find_name hshared
  have hnm2 : njs_string_bytes
      ({ r1 with value := { r1.value with u := .object vm.heap.length } } : njs_object_prop_t).name
      = pq.lhq_key := hnm
  have hfind := nxt_lvlhsh_find_append
    ({ r1 with value := { r1.value with u := .object vm.heap.length } } : njs_object_prop_t)
    hown hnm2
  have hoa1 := njs_object_at_append vm.heap
    (.function { f with object := { f.object with __proto__ := some NJS_PROTOTYPE_FUNCTION } })
    hoa
  unfold njs_vmcode_property_get
  rw [hq]
  simp only [if_true, hr, hm, hs, njs_function_private_copy, hpool, nxt_mem_cache_alloc,
    njs_value_object, hfp, hf, hoa1, nxt_lvlhsh_insert, hown, NXT_OK, ne_eq, not_true_eq_false,
    if_false]
  simp only [hm] at hfind
  simp only [njs_lhq_prop, njs_prop_at, njs_object_at_set_header_same _ hoa1,
    Bool.false_eq_true, if_false, hfind, hm]

theorem njs_double_to_int_ofInt (i : Nat) (hi : i < 2147483648) :
    njs_double_to_int (.fin (Rat.ofInt i)) = i := by
  simp only [njs_double_to_int, Rat.ofInt, Int.tdiv_one, Nat.cast_one]
  have h1 : (-2147483648 : Int) ≤ (i : Int) := by omega
  have h2 : (i : Int) < 2147483648 := by omega
  simp [h1, h2]

theorem njs_uint32_ofNat (i : Nat) (hi : i < 4294967296) : njs_uint32 (i : Int) = i := by
  unfold njs_uint32
  omega

theorem njs_uint32_succ (i : Nat) (hi : i < 2147483648) : njs_uint32 ((i : Int) + 1) = i + 1 := by
  unfold njs_uint32
  omega

theorem njs_array_at_length {heap : List njs_heap_cell} {p : Nat} {a : njs_array_t}
    (h : njs_array_at heap p = some a) : p < heap.length ∧ heap[p]? = some (.array a) := by
  unfold njs_array_at at h
  cases hg : heap[p]? with
  | none => simp [hg] at h
  | some c =>
    cases c <;> simp [hg] at h
    subst h
    exact ⟨(List.getElem?_eq_some_iff.mp hg).1, rfl⟩

theorem njs_array_at_set {heap : List njs_heap_cell} {p : Nat} (a1 : njs_array_t)
    (h : p < heap.length) : njs_array_at (heap.set p (.array a1)) p = some a1 := by
  unfold njs_array_at
  simp [h]

/-- The query of an array receiver with an index name is `njs_array_property_query`. -/
theorem njs_property_query_array_index (host : njs_host_t) (vm : njs_vm_t)
    (pq : njs_property_query_t) (object property : njs_value_t) (i : Nat)
    (ht : object.type = NJS_ARRAY)
    (hb : njs_is_null_or_void_or_boolean property = false)
    (hprim : njs_is_primitive property = true)
    (hnum : host.njs_value_to_number property = .fin (Rat.ofInt i))
    (hi : i < 2147483648) :
    njs_property_query host vm pq object property = njs_array_property_query vm pq object i := by
  unfold njs_property_query
  simp only [ht, hb, hprim, hnum, njs_double_to_int_ofInt i hi, Bool.not_false, if_true]
  have h1 : (0 : Int) ≤ (i : Int) := by omega
  simp [h1, njs_double_eq_int]

/-- Claim C8: for an Array receiver with `length ≤ size` and a property whose number is the
integer `i` with `0 ≤ i < 2^31`: when `i` is below the size or the reallocation succeeds,
`njs_vmcode_property_set` returns normally, slot `i` holds the value, the length is `i + 1` when
`i` was not below the length and is unchanged otherwise, `length ≤ size` still holds, and the
slots below the old length other than `i` and the named properties are kept; when `i` is not
below the length, get, in and delete return normally with `undefined`, `false` and `false` and
leave the heap, so the length, size and slots of the array, unchanged. -/
theorem njs_array_property_index (host : njs_host_t) (sz : njs_vmcode_sizes) (vm : njs_vm_t)
    (object property value : njs_value_t) (pa : Nat) (a : njs_array_t) (i : Nat)
    (ht : object.type = NJS_ARRAY)
    (hp : object.u = .object pa)
    (ha : njs_array_at vm.heap pa = some a)
    (hsize : a.size = a.start.length)
    (hlen : a.length ≤ a.size)
    (hb : njs_is_null_or_void_or_boolean property = false)
    (hprim : njs_is_primitive property = true)
    (hnum : host.njs_value_to_number property = .fin (Rat.ofInt i))
    (hi : i < 2147483648) :
    ((i < a.size ∨ ∃ rest, vm.mem_cache_pool = true :: rest) →
      ∃ vm1 a1, njs_vmcode_property_set host sz vm object property value =
          some (sz.prop_set, vm1) ∧
        njs_array_at vm1.heap pa = some a1 ∧
        a1.start[i]? = some value ∧
        a1.length = (if a.length ≤ i then i + 1 else a.length) ∧
        a1.length ≤ a1.size ∧ a1.size = a1.start.length ∧
        (∀ j, j < a.size → j ≠ i → a1.start[j]? = a.start[j]?) ∧
        a1.object = a.object) ∧
    (a.length ≤ i →
      njs_vmcode_property_get host sz vm object property =
        some (sz.prop_get, { vm with retval := njs_value_void }) ∧
      njs_vmcode_property_in host sz vm object property =
        some (sz.addr3, { vm with retval := njs_value_false }) ∧
      njs_vmcode_property_delete host sz vm object property =
        some (sz.addr3, { vm with retval := njs_value_false })) := by
  have hq : ∀ pq, njs_property_query host vm pq object property =
      njs_array_property_query vm pq object i :=
    fun pq => njs_property_query_array_index host vm pq object property i ht hb hprim hnum hi
  have hu := njs_uint32_ofNat i (by omega)
  have hu1 := njs_uint32_succ i hi
  obtain ⟨hpa, hcell⟩ := njs_array_at_length ha
  constructor
  · intro halloc
    unfold njs_vmcode_property_set
    rw [hq]
    unfold njs_array_property_query
    simp only [hp, ha, hu, hu1]
    by_cases h1 : a.length ≤ i
    · by_cases h2 : a.size ≤ i
      · -- the slots are reallocated
        rcases halloc with h3 | ⟨rest, hpool⟩
        · omega
        · have hge1 : i ≥ a.length := h1
          have hge2 : i ≥ a.size := h2
          simp only [hge1, hge2, if_true, NJS_PROPERTY_QUERY_SET, njs_property_query_init,
            ne_eq, not_true_eq_false, if_false, hpool, njs_array_realloc, nxt_mem_cache_alloc,
            NJS_ARRAY_VALUE, NXT_OK, NXT_DECLINED, NJS_PRIMITIVE_VALUE, NJS_STRING_VALUE,
            njs_slot_store, njs_array_at_set _ hpa]
          have hl : (List.take a.size a.start ++
              List.replicate (2 * (i + 1) - a.size) (njs_set_invalid njs_value_void)).length =
              2 * (i + 1) := by
            simp only [List.length_append, List.length_take, List.length_replicate]
            omega
          have hlt : i < (List.take a.size a.start ++
              List.replicate (2 * (i + 1) - a.size) (njs_set_invalid njs_value_void)).length := by
            omega
          simp only [hlt, if_true, List.set_set, reduceCtorEq, or_self, if_false,
            show ¬ ((3 : njs_ret_t) = 0) by decide, show ¬ ((3 : njs_ret_t) = -3) by decide,
            show ¬ ((3 : njs_ret_t) = 1) by decide, show ¬ ((3 : njs_ret_t) = 2) by decide]
          refine ⟨_, _, rfl, njs_array_at_set _ hpa, ?_, ?_, ?_, ?_, ?_, rfl⟩
          · exact List.getElem?_set_self hlt
          · simp [h1]
          · simp only; omega
          · simp only [List.length_set]; omega
          · intro j hj hji
            simp only
            rw [List.getElem?_set_ne (Ne.symm hji), List.getElem?_append_left (by
              simp only [List.length_take]; omega), List.getElem?_take_of_lt hj]
      · -- the index is below the size
        have hge1 : i ≥ a.length := h1
        have hlt2 : ¬ i ≥ a.size := h2
        simp only [hge1, hlt2, if_true, NJS_PROPERTY_QUERY_SET, njs_property_query_init,
          ne_eq, not_true_eq_false, if_false, NJS_ARRAY_VALUE, NXT_OK, NXT_DECLINED,
          NJS_PRIMITIVE_VALUE, NJS_STRING_VALUE, njs_slot_store, njs_array_at_set _ hpa]
        have hlt : i < a.start.length := by omega
        simp only [hlt, if_true, List.set_set, reduceCtorEq, or_self, if_false,
          show ¬ ((3 : njs_ret_t) = 0) by decide, show ¬ ((3 : njs_ret_t) = -3) by decide,
          show ¬ ((3 : njs_ret_t) = 1) by decide, show ¬ ((3 : njs_ret_t) = 2) by decide]
        refine ⟨_, _, rfl, njs_array_at_set _ hpa, ?_, ?_, ?_, ?_, ?_, rfl⟩
        · exact List.getElem?_set_self hlt
        · simp [h1]
        · simp only; omega
        · simp only [List.length_set]; omega
        · intro j hj hji
          simp only
          rw [List.getElem?_set_ne (Ne.symm hji)]
    · -- the index is below the length
      have hlt1 : ¬ i ≥ a.length := h1
      simp only [hlt1, if_false, NJS_ARRAY_VALUE, NXT_OK, NXT_DECLINED,
        NJS_PRIMITIVE_VALUE, NJS_STRING_VALUE, njs_slot_store, ha]
      have hlt : i < a.start.length := by omega
      simp only [hlt, if_true, reduceCtorEq, or_self, if_false,
        show ¬ ((3 : njs_ret_t) = 0) by decide, show ¬ ((3 : njs_ret_t) = -3) by decide,
        show ¬ ((3 : njs_ret_t) = 1) by decide, show ¬ ((3 : njs_ret_t) = 2) by decide]
      refine ⟨_, _, rfl, njs_array_at_set _ hpa, ?_, ?_, ?_, ?_, ?_, rfl⟩
      · exact List.getElem?_set_self hlt
      · simp [h1]
      · simp only; omega
      · simp only [List.length_set]; omega
      · intro j hj hji
        simp only
        rw [List.getElem?_set_ne (Ne.symm hji)]
  · intro h1
    have hge1 : i ≥ a.length := h1
    have hqd : ∀ pq : njs_property_query_t, pq.query ≠ NJS_PROPERTY_QUERY_SET →
        njs_property_query host vm pq object property = some (NXT_DECLINED, vm, pq) := by
      intro pq hne
      rw [hq]
      unfold njs_array_property_query
      simp only [hp, ha, hu, hge1, if_true, hne, ne_eq, not_false_eq_true]
    refine ⟨?_, ?_, ?_⟩
    · unfold njs_vmcode_property_get
      rw [hqd _ (by simp [njs_property_query_init, NJS_PROPERTY_QUERY_GET,
        NJS_PROPERTY_QUERY_SET])]
      simp [NXT_DECLINED, NXT_OK]
    · unfold njs_vmcode_property_in
      rw [hqd _ (by simp [njs_property_query_init, NJS_PROPERTY_QUERY_IN,
        NJS_PROPERTY_QUERY_SET])]
      simp [NXT_DECLINED, NXT_OK]
    · unfold njs_vmcode_property_delete
      rw [hqd _ (by simp [njs_property_query_init, NJS_PROPERTY_QUERY_DELETE,
        NJS_PROPERTY_QUERY_SET])]
      simp [NXT_DECLINED, NXT_OK]

theorem njs_int32_ofNat (k : Nat) (hk : k < 2147483648) : njs_int32 (k : Int) = k := by
  unfold njs_int32
  omega

/-- The array loop of the enumeration, started at index `k`: it stops at the first valid slot at
or after `k`, or runs to the end of the slots. -/
theorem njs_vmcode_property_each_loop_spec (a : njs_array_t) (hsize : a.size = a.start.length)
    (hmax : a.size < 2147483648) :
    ∀ (d k fuel : Nat), k + d = a.size → d < fuel →
      njs_vmcode_property_each_loop a fuel (k : Int) =
        match (List.range' k d).filter (njs_array_slot_valid a) with
        | [] => some ((a.size : Int), none)
        | j :: _ => some (((j + 1 : Nat) : Int), some j) := by
  intro d
  induction d with
  | zero =>
    intro k fuel hk hf
    obtain ⟨f1, rfl⟩ : ∃ f1, fuel = f1 + 1 := ⟨fuel - 1, by omega⟩
    have hu := njs_uint32_ofNat k (by omega)
    simp only [njs_vmcode_property_each_loop, hu, List.range'_zero, List.filter_nil]
    have : ¬ k < a.size := by omega
    simp [this]
    omega
  | succ d ih =>
    intro k fuel hk hf
    obtain ⟨f1, rfl⟩ : ∃ f1, fuel = f1 + 1 := ⟨fuel - 1, by omega⟩
    have hu := njs_uint32_ofNat k (by omega)
    have hlt : k < a.size := by omega
    have hk1 : njs_int32 ((k : Int) + 1) = ((k + 1 : Nat) : Int) := by
      have := njs_int32_ofNat (k + 1) (by omega)
      simpa using this
    simp only [njs_vmcode_property_each_loop, hu, hlt, if_true, List.range'_succ, hk1]
    have hin : k < a.start.length := by omega
    obtain ⟨v, hv⟩ : ∃ v, a.start[k]? = some v := ⟨a.start[k], List.getElem?_eq_getElem hin⟩
    simp only [hv]
    by_cases hval : njs_is_valid v = true
    · have hsv : njs_array_slot_valid a k = true := by simp [njs_array_slot_valid, hv, hval]
      simp [hval, List.filter, hsv]
    · have hsv : njs_array_slot_valid a k = false := by simp [njs_array_slot_valid, hv, hval]
      simp only [hval, Bool.false_eq_true, if_false, List.filter, hsv]
      exact ih (k + 1) f1 (by omega) (by omega)

theorem njs_filter_range_head (p : Nat → Bool) :
    ∀ (d k j : Nat) (tl : List Nat), (List.range' k d).filter p = j :: tl →
      k ≤ j ∧ j < k + d ∧ tl = (List.range' (j + 1) (k + d - (j + 1))).filter p := by
  intro d
  induction d with
  | zero => intro k j tl h; simp at h
  | succ d ih =>
    intro k j tl h
    rw [List.range'_succ] at h
    by_cases hp : p k = true
    · simp only [List.filter, hp] at h
      obtain ⟨h1, h2⟩ := List.cons.inj h
      subst h1
      refine ⟨le_refl _, by omega, ?_⟩
      rw [← h2]
      congr 2
      omega
    · have hp' : p k = false := by simpa using hp
      simp only [List.filter, hp'] at h
      obtain ⟨h1, h2, h3⟩ := ih (k + 1) j tl h
      refine ⟨by omega, by omega, ?_⟩
      rw [h3]
      congr 2
      omega

/-- The enumeration step in the table phase: the next record of the own table, or the end. -/
theorem njs_vmcode_property_each_table (host : njs_host_t) (sz : njs_vmcode_sizes)
    (vm : njs_vm_t) (offset : Int) (object each : njs_value_t) (pa d : Nat) (a : njs_array_t)
    (idx : Int) (l : Nat)
    (ht : object.type = NJS_ARRAY) (hp : object.u = .object pa) (he : each.u = .data d)
    (ha : njs_array_at vm.heap pa = some a)
    (hpe : vm.each[d]? = some (some ⟨idx, l⟩))
    (hidx : idx < 0) :
    njs_vmcode_property_each host sz vm offset object each =
      match a.object.hash[l]? with
      | some prop =>
        some (offset, { vm with each := vm.each.set d (some ⟨idx, l + 1⟩), retval := prop.name })
      | none =>
        some (sz.prop_each, { vm with each := vm.each.set d none, retval := njs_value_void }) := by
  have hobj : njs_is_object object = true := by simp [njs_is_object, ht]
  have hcell := (njs_array_at_length ha).2
  have hoa : njs_object_at vm.heap pa = some a.object := by
    simp [njs_object_at, hcell, njs_heap_cell.header]
  have hneg : ¬ (0 ≤ idx) := by omega
  unfold njs_vmcode_property_each
  simp only [hobj, if_true, he, hpe, njs_value_object, hp, hneg, if_false, hoa, nxt_lvlhsh_each]
  cases a.object.hash[l]? <;> rfl

/-- The enumeration step in the array phase at index `k`. -/
theorem njs_vmcode_property_each_array (host : njs_host_t) (sz : njs_vmcode_sizes)
    (vm : njs_vm_t) (offset : Int) (object each : njs_value_t) (pa d : Nat) (a : njs_array_t)
    (k dd l : Nat)
    (ht : object.type = NJS_ARRAY) (hp : object.u = .object pa) (he : each.u = .data d)
    (ha : njs_array_at vm.heap pa = some a)
    (hsize : a.size = a.start.length) (hmax : a.size < 2147483648)
    (hpe : vm.each[d]? = some (some ⟨(k : Int), l⟩))
    (hk : k + dd = a.size) :
    njs_vmcode_property_each host sz vm offset object each =
      match (List.range' k dd).filter (njs_array_slot_valid a) with
      | j :: _ =>
        some (offset, { vm with each := vm.each.set d (some ⟨((j + 1 : Nat) : Int), l⟩),
                                retval := njs_number_set j })
      | [] =>
        match a.object.hash[l]? with
        | some prop =>
          some (offset, { vm with each := vm.each.set d (some ⟨-1, l + 1⟩),
                                  retval := prop.name })
        | none =>
          some (sz.prop_each, { vm with each := vm.each.set d none,
                                        retval := njs_value_void }) := by
  have hobj : njs_is_object object = true := by simp [njs_is_object, ht]
  have hcell := (njs_array_at_length ha).2
  have hoa : njs_object_at vm.heap pa = some a.object := by
    simp [njs_object_at, hcell, njs_heap_cell.header]
  have hpos : (0 : Int) ≤ (k : Int) := by omega
  have hloop := njs_vmcode_property_each_loop_spec a hsize hmax dd k (a.size + 1) hk (by omega)
  unfold njs_vmcode_property_each
  simp only [hobj, if_true, he, hpe, njs_value_object, hp, hpos, ha, hloop, hoa, nxt_lvlhsh_each]
  cases hfl : (List.range' k dd).filter (njs_array_slot_valid a) with
  | nil =>
    simp only
    cases a.object.hash[l]? <;> rfl
  | cons j tl => rfl

theorem njs_each_set_get {each : List (Option njs_property_each_t)} {d : Nat}
    {x : Option njs_property_each_t} (y : Option njs_property_each_t)
    (h : each[d]? = some x) : (each.set d y)[d]? = some y := by
  have := (List.getElem?_eq_some_iff.mp h).1
  exact List.getElem?_set_self this

/-- The table phase of the enumeration hands out the names of the remaining records of the own
table and ends. -/
theorem njs_property_each_run_table (host : njs_host_t) (sz : njs_vmcode_sizes)
    (offset : Int) (object each : njs_value_t) (pa d : Nat) (a : njs_array_t)
    (heap : List njs_heap_cell)
    (ht : object.type = NJS_ARRAY) (hp : object.u = .object pa) (he : each.u = .data d)
    (ha : njs_array_at heap pa = some a)
    (hoff : offset ≠ sz.prop_each) :
    ∀ (fuel l : Nat) (vm : njs_vm_t) (idx : Int), vm.heap = heap → idx < 0 →
      vm.each[d]? = some (some ⟨idx, l⟩) → a.object.hash.length - l < fuel →
      ∃ vm2, njs_property_each_run host sz offset object each fuel vm =
          some ((a.object.hash.drop l).map (fun r => r.name), vm2) ∧
        vm2.retval = njs_value_void ∧ vm2.heap = heap ∧
        vm2.mem_cache_pool = vm.mem_cache_pool := by
  intro fuel
  induction fuel with
  | zero => intro l vm idx _ _ _ hf; omega
  | succ n ih =>
    intro l vm idx hheap hidx hpe hf
    have hstep := njs_vmcode_property_each_table host sz vm offset object each pa d a idx l ht hp
      he (by rw [hheap]; exact ha) hpe hidx
    simp only [njs_property_each_run, hstep]
    cases hl : a.object.hash[l]? with
    | none =>
      have hdrop : a.object.hash.drop l = [] := by
        apply List.drop_eq_nil_of_le
        exact List.getElem?_eq_none_iff.mp hl
      simp only [if_true, hdrop, List.map_nil]
      exact ⟨_, rfl, rfl, hheap, rfl⟩
    | some prop =>
      have hlt : l < a.object.hash.length := (List.getElem?_eq_some_iff.mp hl).1
      have hdrop : a.object.hash.drop l = prop :: a.object.hash.drop (l + 1) := by
        rw [List.drop_eq_getElem_cons hlt]
        congr 1
        have := List.getElem?_eq_getElem hlt
        rw [hl] at this
        exact (Option.some.inj this).symm
      obtain ⟨vm2, h1, h2, h3, h4⟩ := ih (l + 1)
        { vm with each := vm.each.set d (some ⟨idx, l + 1⟩), retval := prop.name } idx hheap
        hidx (njs_each_set_get _ hpe) (by omega)
      simp only [hoff, if_false, if_true, h1, hdrop, List.map_cons]
      exact ⟨vm2, rfl, h2, h3, h4⟩

/-- The array phase of the enumeration at index `k` hands out the indices of the valid slots
from `k` on, then the names of the own table, and ends. -/
theorem njs_property_each_run_array (host : njs_host_t) (sz : njs_vmcode_sizes)
    (offset : Int) (object each : njs_value_t) (pa d : Nat) (a : njs_array_t)
    (heap : List njs_heap_cell)
    (ht : object.type = NJS_ARRAY) (hp : object.u = .object pa) (he : each.u = .data d)
    (ha : njs_array_at heap pa = some a)
    (hsize : a.size = a.start.length) (hmax : a.size < 2147483648)
    (hoff : offset ≠ sz.prop_each) :
    ∀ (fuel k dd : Nat) (vm : njs_vm_t), vm.heap = heap → k + dd = a.size →
      vm.each[d]? = some (some ⟨(k : Int), 0⟩) →
      ((List.range' k dd).filter (njs_array_slot_valid a)).length + a.object.hash.length < fuel →
      ∃ vm2, njs_property_each_run host sz offset object each fuel vm =
          some (((List.range' k dd).filter (njs_array_slot_valid a)).map njs_number_set ++
            a.object.hash.map (fun r => r.name), vm2) ∧
        vm2.retval = njs_value_void ∧ vm2.heap = heap ∧
        vm2.mem_cache_pool = vm.mem_cache_pool := by
  intro fuel
  induction fuel with
  | zero => intro k dd vm _ _ _ hf; omega
  | succ n ih =>
    intro k dd vm hheap hk hpe hf
    have hstep := njs_vmcode_property_each_array host sz vm offset object each pa d a k dd 0 ht
      hp he (by rw [hheap]; exact ha) hsize hmax hpe hk
    simp only [njs_property_each_run, hstep]
    cases hfl : (List.range' k dd).filter (njs_array_slot_valid a) with
    | cons j tl =>
      obtain ⟨hj1, hj2, htl⟩ := njs_filter_range_head _ dd k j tl hfl
      rw [hfl] at hf
      obtain ⟨vm2, h1, h2, h3, h4⟩ := ih (j + 1) (k + dd - (j + 1))
        { vm with each := vm.each.set d (some ⟨((j + 1 : Nat) : Int), 0⟩),
                  retval := njs_number_set j } hheap (by omega) (njs_each_set_get _ hpe)
        (by rw [← htl]; simp only [List.length_cons] at hf; omega)
      rw [← htl] at h1
      simp only [hoff, if_false, if_true, h1, List.map_cons, List.cons_append]
      exact ⟨vm2, rfl, h2, h3, h4⟩
    | nil =>
      rw [hfl] at hf
      simp only [List.length_nil, Nat.zero_add] at hf
      simp only [List.map_nil, List.nil_append]
      cases hl : a.object.hash[0]? with
      | none =>
        have hnil : a.object.hash = [] := by
          have := List.getElem?_eq_none_iff.mp hl
          exact List.eq_nil_of_length_eq_zero (by omega)
        simp only [if_true, hnil, List.map_nil]
        exact ⟨_, rfl, rfl, hheap, rfl⟩
      | some prop =>
        have hlt : 0 < a.object.hash.length := (List.getElem?_eq_some_iff.mp hl).1
        obtain ⟨vm2, h1, h2, h3, h4⟩ := njs_property_each_run_table host sz offset object each
          pa d a heap ht hp he ha hoff n 1
          { vm with each := vm.each.set d (some ⟨-1, 0 + 1⟩), retval := prop.name } (-1) hheap
          (by omega) (njs_each_set_get _ hpe) (by omega)
        have hcons : a.object.hash = prop :: a.object.hash.drop 1 := by
          cases hh : a.object.hash with
          | nil => simp [hh] at hlt
          | cons x xs =>
            simp only [hh, List.getElem?_cons_zero, Option.some.injEq] at hl
            subst hl
            rfl
        simp only [hoff, if_false, if_true, h1]
        refine ⟨vm2, ?_, h2, h3, h4⟩
        rw [← List.map_cons (fun r : njs_object_prop_t => r.name), ← hcons]

/-- Claim C9: for an Array receiver of size below `2^31`, after a successful
`njs_vmcode_property_each_start` the successive results of `njs_vmcode_property_each` are the
indices of the valid slots, in strictly increasing order and each once, followed by the names of
the own table of the array; the run ends, within `size + number of names + 1` executions, with
`vm.retval` `undefined` and the fall-through advance, and the heap as it was. -/
theorem njs_array_property_each_indices (host : njs_host_t) (sz : njs_vmcode_sizes)
    (vm : njs_vm_t) (offset : Int) (object : njs_value_t) (pa : Nat) (a : njs_array_t)
    (rest : List Bool) (fuel : Nat)
    (ht : object.type = NJS_ARRAY) (hp : object.u = .object pa)
    (ha : njs_array_at vm.heap pa = some a)
    (hsize : a.size = a.start.length) (hmax : a.size < 2147483648)
    (hoff : offset ≠ sz.prop_each)
    (hpool : vm.mem_cache_pool = true :: rest)
    (hfuel : a.size + a.object.hash.length < fuel) :
    ∃ vm1 vm2,
      njs_vmcode_property_each_start host vm offset object = some (offset, vm1) ∧
      njs_property_each_run host sz offset object vm1.retval fuel vm1 =
        some (((List.range a.size).filter (njs_array_slot_valid a)).map njs_number_set ++
          a.object.hash.map (fun r => r.name), vm2) ∧
      vm2.retval = njs_value_void ∧ vm2.heap = vm.heap ∧
      List.Pairwise (fun i j => i < j) ((List.range a.size).filter (njs_array_slot_valid a)) ∧
      (∀ j, j ∈ (List.range a.size).filter (njs_array_slot_valid a) ↔
        j < a.size ∧ ∃ v, a.start[j]? = some v ∧ njs_is_valid v = true) := by
  have hobj : njs_is_object object = true := by simp [njs_is_object, ht]
  have harr : njs_is_array object = true := by simp [njs_is_array, ht]
  have hstart : njs_vmcode_property_each_start host vm offset object =
      some (offset,
        { vm with
          mem_cache_pool := rest,
          retval := { vm.retval with u := .data vm.each.length },
          each := vm.each ++ [some ⟨if a.size ≠ 0 then 0 else -1, 0⟩] }) := by
    unfold njs_vmcode_property_each_start
    simp only [hobj, if_true, hpool, nxt_mem_cache_alloc, harr, njs_value_object, hp, ha]
  have hpe : ∀ x : Option njs_property_each_t, (vm.each ++ [x])[vm.each.length]? = some x := by
    intro x
    simp
  have hlen : ((List.range a.size).filter (njs_array_slot_valid a)).length ≤ a.size := by
    have := List.length_filter_le (njs_array_slot_valid a) (List.range a.size)
    simpa using this
  have hpw : List.Pairwise (fun i j => i < j)
      ((List.range a.size).filter (njs_array_slot_valid a)) :=
    List.Pairwise.filter _ (List.pairwise_lt_range a.size)
  have hmem : ∀ j, j ∈ (List.range a.size).filter (njs_array_slot_valid a) ↔
      j < a.size ∧ ∃ v, a.start[j]? = some v ∧ njs_is_valid v = true := by
    intro j
    simp only [List.mem_filter, List.mem_range, njs_array_slot_valid]
    constructor
    · rintro ⟨h1, h2⟩
      refine ⟨h1, ?_⟩
      cases hv : a.start[j]? with
      | none => simp [hv] at h2
      | some v => exact ⟨v, rfl, by simpa [hv] using h2⟩
    · rintro ⟨h1, v, h2, h3⟩
      exact ⟨h1, by simp [h2, h3]⟩
  by_cases h0 : a.size = 0
  · obtain ⟨vm2, h1, h2, h3, _⟩ := njs_property_each_run_table host sz offset object
      { vm.retval with u := .data vm.each.length } pa vm.each.length a vm.heap ht hp rfl ha hoff
      fuel 0
      { vm with
        mem_cache_pool := rest,
        retval := { vm.retval with u := .data vm.each.length },
        each := vm.each ++ [some ⟨if a.size ≠ 0 then 0 else -1, 0⟩] } (-1) rfl (by omega)
      (by simp [h0]) (by omega)
    refine ⟨_, vm2, hstart, ?_, h2, h3, hpw, hmem⟩
    rw [List.drop_zero] at h1
    rw [h1]
    simp only [h0, List.range_zero, List.filter_nil, List.map_nil, List.nil_append]
  · obtain ⟨vm2, h1, h2, h3, _⟩ := njs_property_each_run_array host sz offset object
      { vm.retval with u := .data vm.each.length } pa vm.each.length a vm.heap ht hp rfl ha hsize
      hmax hoff fuel 0 a.size
      { vm with
        mem_cache_pool := rest,
        retval := { vm.retval with u := .data vm.each.length },
        each := vm.each ++ [some ⟨if a.size ≠ 0 then 0 else -1, 0⟩] } rfl (by omega)
      (by simp [h0]) (by rw [← List.range_eq_range']; omega)
    refine ⟨_, vm2, hstart, ?_, h2, h3, hpw, hmem⟩
    rw [List.range_eq_range']
    exact h1

set_option maxRecDepth 8000 in
/-- Instance of claim C7: `null.x` returns `NXT_ERROR` with the TypeError constant as
exception. -/
theorem njs_property_null_or_void_type_error_witness :
    njs_vmcode_property_get njs_example_host njs_example_sizes
      (njs_example_vm njs_example_heap_x []) njs_value_null (njs_string "x") =
      some (NXT_ERROR,
        { njs_example_vm njs_example_heap_x [] with
          exception := some njs_exception_type_error }) :=
  (njs_property_null_or_void_type_error njs_example_host njs_example_sizes
    (njs_example_vm njs_example_heap_x []) (njs_property_query_init NJS_PROPERTY_QUERY_GET)
    njs_value_null (njs_string "x") njs_value_void (Or.inl rfl)).2.1

set_option maxRecDepth 8000 in
/-- Counterexample to claim C1 as stated: on an object without prototype whose own table has a
Whiteout record for `x`, and on one whose own table has a NativeGetter record for `x`, the set of
`x` returns normally by writing the value into that record and leaving its kind, and the get of
`x` that follows does not yield the written value: it fails with `NXT_ERROR` in the first case
and calls the overwritten getter field in the second. -/
theorem njs_property_set_then_get_fails :
    njs_vmcode_property_set njs_example_host njs_example_sizes
      (njs_example_vm njs_example_heap_whiteout_end []) (njs_example_object 0) (njs_string "x")
      (njs_example_number 1) =
      some (njs_example_sizes.prop_set,
        njs_example_vm [.object ⟨[⟨njs_string "x", njs_example_number 1, NJS_WHITEOUT, false,
          false, false⟩], [], none⟩] []) ∧
    njs_vmcode_property_get njs_example_host njs_example_sizes
      (njs_example_vm [.object ⟨[⟨njs_string "x", njs_example_number 1, NJS_WHITEOUT, false,
          false, false⟩], [], none⟩] []) (njs_example_object 0) (njs_string "x") =
      some (NXT_ERROR,
        njs_example_vm [.object ⟨[⟨njs_string "x", njs_example_number 1, NJS_WHITEOUT, false,
          false, false⟩], [], none⟩] []) ∧
    njs_vmcode_property_set njs_example_host njs_example_sizes
      (njs_example_vm njs_example_heap_getter []) (njs_example_object 0) (njs_string "x")
      (njs_example_number 1) =
      some (njs_example_sizes.prop_set,
        njs_example_vm [.object ⟨[⟨njs_string "x", njs_example_number 1, NJS_NATIVE_GETTER,
          false, false, false⟩], [], none⟩] []) ∧
    njs_vmcode_property_get njs_example_host njs_example_sizes
      (njs_example_vm [.object ⟨[⟨njs_string "x", njs_example_number 1, NJS_NATIVE_GETTER,
          false, false, false⟩], [], none⟩] []) (njs_example_object 0) (njs_string "x") =
      none := by
  decide

set_option maxRecDepth 8000 in
/-- Instance of claim C1: after `o.x = 2` on the object `{x: 1}`, `"x" in o` is `true` and `o.x`
is `2`. -/
theorem njs_property_set_then_in_get_witness :
    njs_vmcode_property_in njs_example_host njs_example_sizes
      (njs_example_vm [.object ⟨[], [], none⟩,
        .object ⟨[njs_example_prop "x" (njs_example_number 2)], [], some 0⟩] [])
      (njs_example_object 1) (njs_string "x") =
      some (njs_example_sizes.addr3,
        { njs_example_vm [.object ⟨[], [], none⟩,
            .object ⟨[njs_example_prop "x" (njs_example_number 2)], [], some 0⟩] [] with
          retval := njs_value_true }) ∧
    njs_vmcode_property_get njs_example_host njs_example_sizes
      (njs_example_vm [.object ⟨[], [], none⟩,
        .object ⟨[njs_example_prop "x" (njs_example_number 2)], [], some 0⟩] [])
      (njs_example_object 1) (njs_string "x") =
      some (njs_example_sizes.prop_get,
        { njs_example_vm [.object ⟨[], [], none⟩,
            .object ⟨[njs_example_prop "x" (njs_example_number 2)], [], some 0⟩] [] with
          retval := njs_example_number 2 }) :=
  njs_property_set_then_in_get njs_example_host njs_example_sizes
    (njs_example_vm njs_example_heap_x []) _ (njs_example_object 1) (njs_string "x")
    (njs_example_number 2) rfl (by decide) (by decide)
    (by
      intro pq r h1 h2
      have hq : njs_property_query njs_example_host (njs_example_vm njs_example_heap_x [])
          (njs_property_query_init NJS_PROPERTY_QUERY_SET) (njs_example_object 1)
          (njs_string "x") =
          some (NXT_OK, njs_example_vm njs_example_heap_x [],
            ⟨[120], 0, .prop 1 false, njs_string "x", 1, 2, false⟩) := by decide
      rw [hq] at h1
      simp only [Option.some.injEq, Prod.mk.injEq, true_and] at h1
      subst h1
      have hr : njs_lhq_prop (njs_example_vm njs_example_heap_x []).heap
          ⟨[120], 0, .prop 1 false, njs_string "x", 1, 2, false⟩ =
          some (njs_example_prop "x" (njs_example_number 1)) := by decide
      rw [hr] at h2
      cases h2
      exact Or.inl rfl)

set_option maxRecDepth 8000 in
/-- Instance of claim C3: `delete o.x` on the object `{x: 1}` with a configurable `x` leaves the
own table empty and sets `vm.retval` to `true`. -/
theorem njs_property_delete_own_witness :
    njs_vmcode_property_delete njs_example_host njs_example_sizes
      (njs_example_vm njs_example_heap_x []) (njs_example_object 1) (njs_string "x") =
      some (njs_example_sizes.addr3,
        { njs_example_vm [.object ⟨[], [], none⟩, .object ⟨[], [], some 0⟩] [] with
          retval := njs_value_true }) := by
  have h := ((njs_property_delete_own njs_example_host njs_example_sizes
    (njs_example_vm njs_example_heap_x []) (njs_example_object 1) (njs_string "x")
    (njs_string "x") 1 ⟨[njs_example_prop "x" (njs_example_number 1)], [], some 0⟩
    (njs_example_prop "x" (njs_example_number 1)) (by decide) rfl (by decide) (by decide)
    (by decide) (by decide) (by decide)).1 (by decide)).1
  rw [h]
  decide

set_option maxRecDepth 8000 in
/-- Instance of claim C4: an object with a Whiteout for `x`, `x = 1` in its own shared table and
an empty prototype: `"x" in o` is `false` and `o.x` is `undefined`. -/
theorem njs_property_whiteout_continues_witness :
    njs_vmcode_property_in njs_example_host njs_example_sizes
      (njs_example_vm njs_example_heap_shadow []) (njs_example_object 1) (njs_string "x") =
      some (njs_example_sizes.addr3,
        { njs_example_vm njs_example_heap_shadow [] with retval := njs_value_false }) ∧
    njs_vmcode_property_get njs_example_host njs_example_sizes
      (njs_example_vm njs_example_heap_shadow []) (njs_example_object 1) (njs_string "x") =
      some (njs_example_sizes.prop_get,
        { njs_example_vm njs_example_heap_shadow [] with retval := njs_value_void }) :=
  (njs_property_whiteout_continues njs_example_host njs_example_sizes
    (njs_example_vm njs_example_heap_shadow []) (njs_example_object 1) (njs_string "x")
    (njs_string "x") 1 0
    ⟨[⟨njs_string "x", njs_value_void, NJS_WHITEOUT, false, false, false⟩],
      [njs_example_prop "x" (njs_example_number 1)], some 0⟩
    ⟨njs_string "x", njs_value_void, NJS_WHITEOUT, false, false, false⟩ 1
    (by decide) rfl (by decide) (by decide) (by decide) (by decide) rfl rfl).1
    (by decide) (by decide)

set_option maxRecDepth 8000 in
/-- Instance of claim C5: on an empty object whose prototype has `x = 1`, `o.x = 2` adds the own
record `x = 2` and keeps the prototype, and `delete o.x` changes no table. -/
theorem njs_property_set_delete_stop_at_receiver_witness :
    njs_vmcode_property_set njs_example_host njs_example_sizes
      (njs_example_vm njs_example_heap_inherit [true, true]) (njs_example_object 1)
      (njs_string "x") (njs_example_number 2) =
      some (njs_example_sizes.prop_set,
        njs_example_vm
          [.object ⟨[njs_example_prop "x" (njs_example_number 1)], [], none⟩,
           .object ⟨[njs_example_prop "x" (njs_example_number 2)], [], some 0⟩] []) ∧
    njs_vmcode_property_delete njs_example_host njs_example_sizes
      (njs_example_vm njs_example_heap_inherit [true, true]) (njs_example_object 1)
      (njs_string "x") =
      some (njs_example_sizes.addr3,
        { njs_example_vm njs_example_heap_inherit [true, true] with
          retval := njs_value_false }) := by
  have h := njs_property_set_delete_stop_at_receiver njs_example_host njs_example_sizes
    (njs_example_vm njs_example_heap_inherit [true, true]) (njs_example_object 1)
    (njs_string "x") (njs_example_number 2) (njs_string "x") 1 ⟨[], [], some 0⟩
    (Or.inl rfl) rfl (by decide) (by decide) (by decide) (by decide)
  refine ⟨?_, h.2.2⟩
  rw [h.2.1 [] rfl]
  decide

set_option maxRecDepth 8000 in
/-- Counterexample to claim C6 as stated: the receiver at address 1 is an empty object whose
prototype at address 0 has the method `m` in its shared table; after the get of `m` the own table
of the receiver is still empty and the own table of the prototype holds the copy. -/
theorem njs_property_get_private_copy_in_prototype :
    (njs_vmcode_property_get njs_example_host njs_example_sizes
      (njs_example_vm njs_example_heap_method [true, true, true]) (njs_example_object 1)
      (njs_string "m")).map
        (fun r => (r.1, r.2.retval, njs_object_at r.2.heap 1, njs_object_at r.2.heap 0)) =
      some (njs_example_sizes.prop_get, ⟨NJS_FUNCTION, true, .object 3⟩,
        some ⟨[], [], some 0⟩,
        some ⟨[⟨njs_string "m", ⟨NJS_FUNCTION, true, .object 3⟩, NJS_METHOD, false, true,
            true⟩],
          [⟨njs_string "m", ⟨NJS_FUNCTION, true, .object 2⟩, NJS_METHOD, false, true, true⟩],
          none⟩) := by
  decide

set_option maxRecDepth 8000 in
/-- Instance of claim C6: the get of the method `m`, found in the shared table of the prototype,
returns the copied function, which is the new heap cell. -/
theorem njs_property_get_private_copy_witness :
    (njs_vmcode_property_get njs_example_host njs_example_sizes
      (njs_example_vm njs_example_heap_method [true, true, true]) (njs_example_object 1)
      (njs_string "m")).map (fun r => (r.1, r.2.retval)) =
      some (njs_example_sizes.prop_get, ⟨NJS_FUNCTION, true, .object 3⟩) := by
  obtain ⟨oa, _, _, _, hget⟩ := njs_property_get_private_copy njs_example_host
    njs_example_sizes (njs_example_vm njs_example_heap_method [true, true, true])
    (njs_example_object 1) (njs_string "m")
    ⟨[109], 0, .prop 0 true, njs_string "m", 0, 0, true⟩
    ⟨njs_string "m", ⟨NJS_FUNCTION, true, .object 2⟩, NJS_METHOD, false, true, true⟩ 2
    ⟨⟨[], [], none⟩, true, 0, 7⟩ [] (by decide) rfl (by decide) rfl rfl (by decide) rfl
  rw [hget]
  rfl

set_option maxRecDepth 8000 in
/-- Instance of claim C8: `a[5] = 99` on the array `[10, 20, 30]` stores `99` in slot 5 and
makes the length 6. -/
theorem njs_array_property_index_witness :
    ∃ vm1 a1, njs_vmcode_property_set njs_example_host njs_example_sizes
        (njs_example_vm njs_example_heap_array []) (njs_example_array 0)
        (njs_example_number 5) (njs_example_number 99) =
        some (njs_example_sizes.prop_set, vm1) ∧
      njs_array_at vm1.heap 0 = some a1 ∧ a1.start[5]? = some (njs_example_number 99) ∧
      a1.length = 6 := by
  obtain ⟨vm1, a1, h1, h2, h3, h4, _⟩ := (njs_array_property_index njs_example_host
    njs_example_sizes (njs_example_vm njs_example_heap_array []) (njs_example_array 0)
    (njs_example_number 5) (njs_example_number 99) 0 njs_example_array_3 5 rfl rfl (by decide)
    (by decide) (by decide) (by decide) (by decide) (by decide) (by decide)).1
    (Or.inl (by decide))
  exact ⟨vm1, a1, h1, h2, h3, by rw [h4]; decide⟩

set_option maxRecDepth 8000 in
/-- Instance of claim C9: the iteration over `[10, 20, 30]` after `a[5] = 99` gives the indices
0, 1, 2, 5 in that order and ends with `undefined`. -/
theorem njs_array_property_each_indices_witness :
    ∃ vm1 vm2, njs_vmcode_property_each_start njs_example_host
        (njs_example_vm [.array njs_example_array_holes] [true]) (-48) (njs_example_array 0) =
        some (-48, vm1) ∧
      njs_property_each_run njs_example_host njs_example_sizes (-48) (njs_example_array 0)
        vm1.retval 9 vm1 =
        some ([njs_number_set 0, njs_number_set 1, njs_number_set 2, njs_number_set 5], vm2) ∧
      vm2.retval = njs_value_void := by
  obtain ⟨vm1, vm2, h1, h2, h3, _⟩ := njs_array_property_each_indices njs_example_host
    njs_example_sizes (njs_example_vm [.array njs_example_array_holes] [true]) (-48)
    (njs_example_array 0) 0 njs_example_array_holes [] 9 rfl rfl (by decide) (by decide)
    (by decide) (by decide) rfl (by decide)
  have hl : ((List.range njs_example_array_holes.size).filter
      (njs_array_slot_valid njs_example_array_holes)).map njs_number_set ++
      njs_example_array_holes.object.hash.map (fun r => r.name) =
      [njs_number_set 0, njs_number_set 1, njs_number_set 2, njs_number_set 5] := by decide
  rw [hl] at h2
  exact ⟨vm1, vm2, h1, h2, h3⟩

set_option maxRecDepth 8000 in
/-- Instance of claim C10: `delete o.x` on an empty object whose prototype has `x` sets
`vm.retval` to `false` and changes no table. -/
theorem njs_property_delete_absent_witness :
    njs_vmcode_property_delete njs_example_host njs_example_sizes
      (njs_example_vm njs_example_heap_inherit []) (njs_example_object 1) (njs_string "x") =
      some (njs_example_sizes.addr3,
        { njs_example_vm njs_example_heap_inherit [] with retval := njs_value_false }) :=
  njs_property_delete_absent njs_example_host njs_example_sizes
    (njs_example_vm njs_example_heap_inherit []) (njs_example_object 1) (njs_string "x")
    (njs_string "x") 1 ⟨[], [], some 0⟩ (by decide) rfl (by decide) (by decide) (by decide)
    (by decide)

set_option maxRecDepth 8000 in
/-- Counterexample to claim C10 as stated: `delete o.z` on the object `{x: 1}`, which has no `z`,
returns normally with `vm.retval` `false`, not `true`. -/
theorem njs_property_delete_absent_false :
    njs_vmcode_property_delete njs_example_host njs_example_sizes
      (njs_example_vm njs_example_heap_x []) (njs_example_object 1) (njs_string "z") =
      some (njs_example_sizes.addr3,
        { njs_example_vm njs_example_heap_x [] with retval := njs_value_false }) ∧
    njs_value_false ≠ njs_value_true := by
  decide

set_option maxRecDepth 8000 in
/-- Counterexample to claim C4 as stated: an object whose own table has a Whiteout record for `x`
and whose prototype has the own property `x = 1`: `"x" in o` is `true` and `o.x` is `1`. -/
theorem njs_property_whiteout_inherited :
    njs_vmcode_property_in njs_example_host njs_example_sizes
      (njs_example_vm njs_example_heap_whiteout []) (njs_example_object 1) (njs_string "x") =
      some (njs_example_sizes.addr3,
        { njs_example_vm njs_example_heap_whiteout [] with retval := njs_value_true }) ∧
    njs_vmcode_property_get njs_example_host njs_example_sizes
      (njs_example_vm njs_example_heap_whiteout []) (njs_example_object 1) (njs_string "x") =
      some (njs_example_sizes.prop_get,
        { njs_example_vm njs_example_heap_whiteout [] with retval := njs_example_number 1 }) := by
  decide

/-- Claim C11 (amended): for an Array receiver with `length ≤ size` and a property whose number
is the integer `i` with `0 ≤ i < 2^31`: when `i` is below the length,
`njs_vmcode_property_delete` returns normally with `vm.retval` `true`, the slot `i` gets the
Invalid tag and nothing else changes; when `i` is not below the length it returns normally with
`vm.retval` `false` and changes nothing else. -/
theorem njs_array_property_delete_index (host : njs_host_t) (sz : njs_vmcode_sizes)
    (vm : njs_vm_t) (object property : njs_value_t) (pa : Nat) (a : njs_array_t) (i : Nat)
    (ht : object.type = NJS_ARRAY)
    (hp : object.u = .object pa)
    (ha : njs_array_at vm.heap pa = some a)
    (hsize : a.size = a.start.length)
    (hlen : a.length ≤ a.size)
    (hb : njs_is_null_or_void_or_boolean property = false)
    (hprim : njs_is_primitive property = true)
    (hnum : host.njs_value_to_number property = .fin (Rat.ofInt i))
    (hi : i < 2147483648) :
    (i < a.length →
      ∃ v, a.start[i]? = some v ∧
        njs_vmcode_property_delete host sz vm object property =
          some (sz.addr3,
            { vm with
              heap := vm.heap.set pa (.array { a with start := a.start.set i (njs_set_invalid v) }),
              retval := njs_value_true }) ∧
        (njs_set_invalid v).type = NJS_INVALID) ∧
    (a.length ≤ i →
      njs_vmcode_property_delete host sz vm object property =
        some (sz.addr3, { vm with retval := njs_value_false })) := by
  have hq : ∀ pq, njs_property_query host vm pq object property =
      njs_array_property_query vm pq object i :=
    fun pq => njs_property_query_array_index host vm pq object property i ht hb hprim hnum hi
  have hu := njs_uint32_ofNat i (by omega)
  constructor
  · intro hlt
    have hin : i < a.start.length := by omega
    refine ⟨a.start[i], List.getElem?_eq_getElem hin, ?_, rfl⟩
    have hnl : ¬ i ≥ a.length := by omega
    unfold njs_vmcode_property_delete
    rw [hq]
    unfold njs_array_property_query
    simp only [hp, ha, hu, hnl, if_false]
    simp [NJS_ARRAY_VALUE, NXT_OK, NXT_DECLINED, NJS_PRIMITIVE_VALUE, NJS_STRING_VALUE,
      njs_slot_at, njs_slot_store, ha, hin]
  · intro h1
    have hge1 : i ≥ a.length := h1
    unfold njs_vmcode_property_delete
    rw [hq]
    unfold njs_array_property_query
    simp only [hp, ha, hu, hge1, if_true]
    simp [njs_property_query_init, NJS_PROPERTY_QUERY_DELETE, NJS_PROPERTY_QUERY_SET,
      NXT_DECLINED, NXT_OK]

set_option maxRecDepth 8000 in
/-- Instance of claim C11: `delete a[1]` on the array `[10, 20, 30]` makes the slot 1 Invalid
and sets `vm.retval` to `true`. -/
theorem njs_array_property_delete_index_witness :
    njs_vmcode_property_delete njs_example_host njs_example_sizes
      (njs_example_vm njs_example_heap_array []) (njs_example_array 0) (njs_example_number 1) =
      some (njs_example_sizes.addr3,
        { njs_example_vm
            [.array { njs_example_array_3 with
              start := njs_example_array_3.start.set 1
                (njs_set_invalid (njs_example_number 20)) }] [] with
          retval := njs_value_true }) := by
  obtain ⟨v, hv, hdel, _⟩ := (njs_array_property_delete_index njs_example_host
    njs_example_sizes (njs_example_vm njs_example_heap_array []) (njs_example_array 0)
    (njs_example_number 1) 0 njs_example_array_3 1 rfl rfl (by decide) (by decide) (by decide)
    (by decide) (by decide) (by decide) (by decide)).1 (by decide)
  have hv2 : njs_example_array_3.start[1]? = some (njs_example_number 20) := by decide
  rw [hv2] at hv
  cases hv
  rw [hdel]
  rfl

set_option maxRecDepth 8000 in
/-- Counterexample to claim C11 as stated: `delete a[5]` on the array `[10, 20, 30]` returns
normally with `vm.retval` `false`, not `true`. -/
theorem njs_array_property_delete_out_of_bounds :
    njs_vmcode_property_delete njs_example_host njs_example_sizes
      (njs_example_vm njs_example_heap_array []) (njs_example_array 0) (njs_example_number 5) =
      some (njs_example_sizes.addr3,
        { njs_example_vm njs_example_heap_array [] with retval := njs_value_false }) ∧
    njs_value_false ≠ njs_value_true := by
  decide

theorem njs_trunc_nonneg {q : ℚ} (h : 0 ≤ q) : njs_trunc q = ⌊q⌋ := by
  unfold njs_trunc
  rw [Rat.floor_def]
  have h1 : 0 ≤ q.num := Rat.num_nonneg.mpr h
  exact Int.tdiv_eq_ediv h1 (Int.ofNat_nonneg _)

theorem njs_trunc_neg (q : ℚ) : njs_trunc (-q) = - njs_trunc q := by
  unfold njs_trunc
  simp [Int.neg_tdiv]

theorem njs_trunc_nonpos {q : ℚ} (h : q ≤ 0) : njs_trunc q = ⌈q⌉ := by
  have h1 := njs_trunc_neg (-q)
  rw [neg_neg] at h1
  rw [h1, njs_trunc_nonneg (neg_nonneg.mpr h), Int.floor_neg, neg_neg]

/-- Truncation toward zero is the floor of a non-negative and the ceiling of a negative
number. -/
theorem njs_trunc_eq (q : ℚ) : njs_trunc q = if 0 ≤ q then ⌊q⌋ else ⌈q⌉ := by
  by_cases h : 0 ≤ q
  · simp [h, njs_trunc_nonneg h]
  · simp [h, njs_trunc_nonpos (le_of_lt (not_le.mp h))]

/-- Claim C20: for every finite number `q`, `njs_integer_value` is the truncation of `q` toward
zero modulo `2^32`, a value below `2^32`; for `0 ≤ q ≤ 2^53` it is computed by the direct cast
to `int64_t`, which is the floor of `q`, and for `q < 0` or `q > 2^53` through
`fmod(q, 2^32)`. -/
theorem njs_integer_value_trunc_mod (q : ℚ) :
    ((njs_integer_value (.fin q) : Nat) : Int) =
      (if 0 ≤ q then ⌊q⌋ else ⌈q⌉) % 4294967296 ∧
    njs_integer_value (.fin q) < 4294967296 ∧
    (0 ≤ q → q ≤ 9007199254740992 →
      njs_integer_value (.fin q) = njs_uint32 (njs_double_to_int64 (.fin q)) ∧
      njs_double_to_int64 (.fin q) = ⌊q⌋) ∧
    (q < 0 ∨ 9007199254740992 < q →
      njs_integer_value (.fin q) =
        njs_uint32 (njs_double_to_int64 (njs_fmod (.fin q) (.fin 4294967296)))) := by
  have hu : ∀ i : Int, ((njs_uint32 i : Nat) : Int) = i % 4294967296 := by
    intro i
    unfold njs_uint32
    omega
  have hlt : ∀ i : Int, njs_uint32 i < 4294967296 := by
    intro i
    unfold njs_uint32
    omega
  refine ⟨?_, ?_, ?_, ?_⟩
  · rw [← njs_trunc_eq]
    by_cases h0 : q < 0
    · -- the remainder path of a negative number
      have hcond : (njs_double_lt (.fin q) (.fin 0) ||
          njs_double_lt (.fin 9007199254740992) (.fin q)) = true := by
        simp [njs_double_lt, h0]
      simp only [njs_integer_value, hcond, if_true, njs_fmod,
        show ¬ ((4294967296 : ℚ) = 0) by norm_num, if_false, hu]
      set k := njs_trunc (q / 4294967296) with hk
      have hkc : k = ⌈q / 4294967296⌉ :=
        njs_trunc_nonpos (div_nonpos_of_nonpos_of_nonneg (le_of_lt h0) (by norm_num))
      have hr1 : q - (k : ℚ) * 4294967296 ≤ 0 := by
        have := Int.le_ceil (q / 4294967296)
        rw [← hkc] at this
        have h2 : q ≤ (k : ℚ) * 4294967296 := by
          rwa [div_le_iff₀ (by norm_num : (0 : ℚ) < 4294967296)] at this
        linarith
      have hr2 : -4294967296 < q - (k : ℚ) * 4294967296 := by
        have := Int.ceil_lt_add_one (q / 4294967296)
        rw [← hkc] at this
        have h2 : (k : ℚ) * 4294967296 < q + 4294967296 := by
          have h3 : (k : ℚ) - 1 < q / 4294967296 := by linarith
          rw [lt_div_iff₀ (by norm_num : (0 : ℚ) < 4294967296)] at h3
          linarith
        linarith
      have ht : njs_trunc (q - (k : ℚ) * 4294967296) = njs_trunc q - k * 4294967296 := by
        rw [njs_trunc_nonpos hr1, njs_trunc_nonpos (le_of_lt h0)]
        have : q - (k : ℚ) * 4294967296 = q - ((k * 4294967296 : Int) : ℚ) := by push_cast; ring
        rw [this, Int.ceil_sub_int]
      have hb1 : -4294967296 < njs_trunc (q - (k : ℚ) * 4294967296) := by
        rw [njs_trunc_nonpos hr1]
        have := Int.le_ceil (q - (k : ℚ) * 4294967296)
        have h4 : ((-4294967296 : Int) : ℚ) < ((⌈q - (k : ℚ) * 4294967296⌉ : Int) : ℚ) := by
          push_cast; linarith
        exact_mod_cast h4
      have hb2 : njs_trunc (q - (k : ℚ) * 4294967296) ≤ 0 := by
        rw [njs_trunc_nonpos hr1]
        exact Int.ceil_le.mpr (by simpa using hr1)
      have hin : -9223372036854775808 ≤ njs_trunc (q - (k : ℚ) * 4294967296) ∧
          njs_trunc (q - (k : ℚ) * 4294967296) < 9223372036854775808 := by omega
      simp only [njs_double_to_int64, hin, and_self, if_true]
      rw [ht]
      omega
    · by_cases h1 : 9007199254740992 < q
      · -- the remainder path of a large number
        have hq0 : 0 ≤ q := le_of_lt (lt_trans (by norm_num) h1)
        have hcond : (njs_double_lt (.fin q) (.fin 0) ||
            njs_double_lt (.fin 9007199254740992) (.fin q)) = true := by
          simp [njs_double_lt, h1]
        simp only [njs_integer_value, hcond, if_true, njs_fmod,
          show ¬ ((4294967296 : ℚ) = 0) by norm_num, if_false, hu]
        set k := njs_trunc (q / 4294967296) with hk
        have hkc : k = ⌊q / 4294967296⌋ :=
          njs_trunc_nonneg (div_nonneg hq0 (by norm_num))
        have hr1 : 0 ≤ q - (k : ℚ) * 4294967296 := by
          have := Int.floor_le (q / 4294967296)
          rw [← hkc] at this
          have h2 : (k : ℚ) * 4294967296 ≤ q := by
            rwa [le_div_iff₀ (by norm_num : (0 : ℚ) < 4294967296)] at this
          linarith
        have hr2 : q - (k : ℚ) * 4294967296 < 4294967296 := by
          have := Int.lt_floor_add_one (q / 4294967296)
          rw [← hkc] at this
          rw [div_lt_iff₀ (by norm_num : (0 : ℚ) < 4294967296)] at this
          linarith
        have ht : njs_trunc (q - (k : ℚ) * 4294967296) = njs_trunc q - k * 4294967296 := by
          rw [njs_trunc_nonneg hr1, njs_trunc_nonneg hq0]
          have : q - (k : ℚ) * 4294967296 = q - ((k * 4294967296 : Int) : ℚ) := by
            push_cast; ring
          rw [this, Int.floor_sub_int]
        have hb1 : 0 ≤ njs_trunc (q - (k : ℚ) * 4294967296) := by
          rw [njs_trunc_nonneg hr1]
          exact Int.floor_nonneg.mpr hr1
        have hb2 : njs_trunc (q - (k : ℚ) * 4294967296) < 4294967296 := by
          rw [njs_trunc_nonneg hr1]
          exact Int.floor_lt.mpr (by simpa using hr2)
        have hin : -9223372036854775808 ≤ njs_trunc (q - (k : ℚ) * 4294967296) ∧
            njs_trunc (q - (k : ℚ) * 4294967296) < 9223372036854775808 := by omega
        simp only [njs_double_to_int64, hin, and_self, if_true]
        rw [ht]
        omega
      · -- the direct cast
        have hq0 : 0 ≤ q := not_lt.mp h0
        have hq1 : q ≤ 9007199254740992 := not_lt.mp h1
        have hcond : (njs_double_lt (.fin q) (.fin 0) ||
            njs_double_lt (.fin 9007199254740992) (.fin q)) = false := by
          simp [njs_double_lt, h0, h1]
        simp only [njs_integer_value, hcond, Bool.false_eq_true, if_false, hu]
        have hb1 : 0 ≤ njs_trunc q := by
          rw [njs_trunc_nonneg hq0]
          exact Int.floor_nonneg.mpr hq0
        have hb2 : njs_trunc q ≤ 9007199254740992 := by
          rw [njs_trunc_nonneg hq0]
          have := Int.floor_le q
          have h4 : ((⌊q⌋ : Int) : ℚ) ≤ ((9007199254740992 : Int) : ℚ) := by
            push_cast; linarith
          exact_mod_cast h4
        have hin : -9223372036854775808 ≤ njs_trunc q ∧ njs_trunc q < 9223372036854775808 := by
          omega
        simp only [njs_double_to_int64, hin, and_self, if_true]
  · simp only [njs_integer_value]
    exact hlt _
  · intro hq0 hq1
    have hcond : (njs_double_lt (.fin q) (.fin 0) ||
        njs_double_lt (.fin 9007199254740992) (.fin q)) = false := by
      simp [njs_double_lt, not_lt.mpr hq0, not_lt.mpr hq1]
    refine ⟨by simp only [njs_integer_value, hcond, Bool.false_eq_true, if_false], ?_⟩
    have hb1 : 0 ≤ njs_trunc q := by
      rw [njs_trunc_nonneg hq0]
      exact Int.floor_nonneg.mpr hq0
    have hb2 : njs_trunc q ≤ 9007199254740992 := by
      rw [njs_trunc_nonneg hq0]
      have := Int.floor_le q
      have h4 : ((⌊q⌋ : Int) : ℚ) ≤ ((9007199254740992 : Int) : ℚ) := by
        push_cast; linarith
      exact_mod_cast h4
    have hin : -9223372036854775808 ≤ njs_trunc q ∧ njs_trunc q < 9223372036854775808 := by
      omega
    simp only [njs_double_to_int64, hin, and_self, if_true]
    exact njs_trunc_nonneg hq0
  · intro h
    have hcond : (njs_double_lt (.fin q) (.fin 0) ||
        njs_double_lt (.fin 9007199254740992) (.fin q)) = true := by
      rcases h with h | h <;> simp [njs_double_lt, h]
    simp only [njs_integer_value, hcond, if_true]

theorem njs_pool_ready_alloc {k : Nat} {pool : List Bool} (h : njs_pool_ready (k + 1) pool) :
    ∃ pool1, nxt_mem_cache_alloc pool = (true, pool1) ∧ njs_pool_ready k pool1 := by
  obtain ⟨n, rest, hn, rfl⟩ := h
  obtain ⟨m, rfl⟩ : ∃ m, n = m + 1 := ⟨n - 1, by omega⟩
  refine ⟨List.replicate m true ++ rest, ?_, m, rest, by omega, rfl⟩
  simp [nxt_mem_cache_alloc, List.replicate_succ]

theorem njs_pool_ready_mono {k : Nat} {pool : List Bool} (h : njs_pool_ready (k + 1) pool) :
    njs_pool_ready k pool := by
  obtain ⟨n, rest, hn, rfl⟩ := h
  exact ⟨n, rest, by omega, rfl⟩

/-- The addition of two Strings: the only outcomes are a failed allocation and the String of
the bytes of the first followed by the bytes of the second. -/
theorem njs_vmcode_addition_strings (lib : njs_lib_t) (sz : njs_vmcode_sizes) (vm : njs_vm_t)
    (val1 val2 : njs_value_t) (s1 s2 : njs_string_t)
    (h1 : val1.type = NJS_STRING) (h2 : val2.type = NJS_STRING)
    (hu1 : val1.u = .string s1) (hu2 : val2.u = .string s2) :
    (∀ value pool, njs_string_alloc vm.mem_cache_pool (s1.start ++ s2.start)
        (if (s1.length ≠ 0 ∨ s1.start.length = 0) ∧ (s2.length ≠ 0 ∨ s2.start.length = 0)
         then s1.length + s2.length else 0) = (some value, pool) →
      njs_vmcode_addition lib sz vm val1 val2 =
        some (sz.addr3, { vm with mem_cache_pool := pool, retval := value })) ∧
    (∀ pool, njs_string_alloc vm.mem_cache_pool (s1.start ++ s2.start)
        (if (s1.length ≠ 0 ∨ s1.start.length = 0) ∧ (s2.length ≠ 0 ∨ s2.start.length = 0)
         then s1.length + s2.length else 0) = (none, pool) →
      njs_vmcode_addition lib sz vm val1 val2 =
        some (NXT_ERROR, { vm with mem_cache_pool := pool })) := by
  constructor
  · intro value pool h
    unfold njs_vmcode_addition
    simp only [njs_is_numeric, njs_is_string, h1, h2, njs_string_prop, hu1, hu2, h]
    simp
  · intro pool h
    unfold njs_vmcode_addition
    simp only [njs_is_numeric, njs_is_string, h1, h2, njs_string_prop, hu1, hu2, h]
    simp

theorem njs_string_alloc_value {pool pool1 : List Bool} {bytes : List Nat} {length : Nat}
    {value : njs_value_t} (h : njs_string_alloc pool bytes length = (some value, pool1)) :
    value = ⟨NJS_STRING, decide (bytes.length ≠ 0), .string ⟨bytes, length⟩⟩ ∧
    (pool1 = pool ∨ nxt_mem_cache_alloc pool = (true, pool1)) := by
  unfold njs_string_alloc at h
  by_cases hs : bytes.length ≤ NJS_STRING_SHORT
  · simp only [hs, if_true, Prod.mk.injEq, Option.some.injEq] at h
    exact ⟨h.1.symm, Or.inl h.2.symm⟩
  · simp only [hs, if_false] at h
    cases ha : nxt_mem_cache_alloc pool with
    | mk b p =>
      cases b with
      | true =>
        simp only [ha, Prod.mk.injEq, Option.some.injEq] at h
        exact ⟨h.1.symm, Or.inr (by rw [h.2])⟩
      | false => simp [ha] at h

theorem njs_string_alloc_ready {k : Nat} {pool : List Bool} (bytes : List Nat) (length : Nat)
    (h : njs_pool_ready (k + 1) pool) :
    ∃ pool1, njs_string_alloc pool bytes length =
        (some ⟨NJS_STRING, decide (bytes.length ≠ 0), .string ⟨bytes, length⟩⟩, pool1) ∧
      njs_pool_ready k pool1 := by
  unfold njs_string_alloc
  by_cases hs : bytes.length ≤ NJS_STRING_SHORT
  · exact ⟨pool, by simp [hs], njs_pool_ready_mono h⟩
  · obtain ⟨pool1, ha, hr⟩ := njs_pool_ready_alloc h
    exact ⟨pool1, by simp [hs, ha], hr⟩

/-- The length field and the knowledge of the length after one concatenation. -/
theorem njs_string_length_known_concat (s1 s2 : njs_string_t) (truth : Bool) :
    njs_string_length_known ⟨NJS_STRING, truth, .string ⟨s1.start ++ s2.start,
      if (s1.length ≠ 0 ∨ s1.start.length = 0) ∧ (s2.length ≠ 0 ∨ s2.start.length = 0)
      then s1.length + s2.length else 0⟩⟩ =
    (decide (s1.length ≠ 0 ∨ s1.start.length = 0) &&
      decide (s2.length ≠ 0 ∨ s2.start.length = 0)) := by
  simp only [njs_string_length_known, njs_string_length, njs_string_bytes, List.length_append]
  by_cases k1 : s1.length ≠ 0 ∨ s1.start.length = 0
  · by_cases k2 : s2.length ≠ 0 ∨ s2.start.length = 0
    · simp only [k1, k2, and_self, if_true, decide_True, Bool.and_self, decide_eq_true_eq]
      omega
    · simp only [k1, k2, and_false, if_false, decide_True, decide_False, Bool.and_false,
        decide_eq_false_iff_not]
      omega
  · simp only [k1, false_and, if_false, decide_False, Bool.false_and, decide_eq_false_iff_not]
    omega

/-- The run of a sequence of concatenations with enough successful allocations. -/
theorem njs_string_concat_run_spec (lib : njs_lib_t) (sz : njs_vmcode_sizes) :
    ∀ (vals : List njs_value_t) (vm : njs_vm_t) (acc : njs_value_t),
      acc.type = NJS_STRING → njs_value_wf acc = true →
      (∀ v ∈ vals, v.type = NJS_STRING ∧ njs_value_wf v = true) →
      njs_pool_ready vals.length vm.mem_cache_pool →
      ∃ r vm1, njs_string_concat_run lib sz vm acc vals = some (some r, vm1) ∧
        r.type = NJS_STRING ∧ njs_value_wf r = true ∧
        njs_string_bytes r = njs_string_bytes acc ++ (vals.map njs_string_bytes).flatten ∧
        njs_string_length r =
          (if (acc :: vals).all njs_string_length_known
           then ((acc :: vals).map njs_string_length).sum else 0) := by
  intro vals
  induction vals with
  | nil =>
    intro vm acc ht hwf _ _
    refine ⟨acc, vm, rfl, ht, hwf, by simp, ?_⟩
    by_cases hk : njs_string_length_known acc = true
    · simp [hk]
    · simp only [List.all_cons, List.all_nil, Bool.and_true, hk, Bool.false_eq_true, if_false]
      simp only [njs_string_length_known, decide_eq_true_eq, not_or] at hk
      omega
  | cons val rest ih =>
    intro vm acc ht hwf hvals hpool
    obtain ⟨htv, hwfv⟩ := hvals val (List.mem_cons_self _ _)
    obtain ⟨s1, hu1⟩ : ∃ s1, acc.u = .string s1 := by
      cases hu : acc.u <;> simp [njs_value_wf, ht, hu] at hwf
      exact ⟨_, rfl⟩
    obtain ⟨s2, hu2⟩ : ∃ s2, val.u = .string s2 := by
      cases hu : val.u <;> simp [njs_value_wf, htv, hu] at hwfv
      exact ⟨_, rfl⟩
    obtain ⟨pool1, halloc, hready⟩ := njs_string_alloc_ready (s1.start ++ s2.start)
      (if (s1.length ≠ 0 ∨ s1.start.length = 0) ∧ (s2.length ≠ 0 ∨ s2.start.length = 0)
       then s1.length + s2.length else 0) hpool
    have hadd := (njs_vmcode_addition_strings lib sz vm acc val s1 s2 ht htv hu1 hu2).1 _ _ halloc
    obtain ⟨r, vm1, hrun, hrt, hrwf, hrb, hrl⟩ := ih
      { vm with mem_cache_pool := pool1,
                retval := ⟨NJS_STRING, decide ((s1.start ++ s2.start).length ≠ 0),
                  .string ⟨s1.start ++ s2.start,
                    if (s1.length ≠ 0 ∨ s1.start.length = 0) ∧
                       (s2.length ≠ 0 ∨ s2.start.length = 0)
                    then s1.length + s2.length else 0⟩⟩ }
      ⟨NJS_STRING, decide ((s1.start ++ s2.start).length ≠ 0),
        .string ⟨s1.start ++ s2.start,
          if (s1.length ≠ 0 ∨ s1.start.length = 0) ∧ (s2.length ≠ 0 ∨ s2.start.length = 0)
          then s1.length + s2.length else 0⟩⟩
      rfl rfl (fun v hv => hvals v (List.mem_cons_of_mem _ hv)) hready
    refine ⟨r, vm1, ?_, hrt, hrwf, ?_, ?_⟩
    · rw [njs_string_concat_run, hadd]
      simpa using hrun
    · rw [hrb]
      simp [njs_string_bytes, hu1, hu2]
    · rw [hrl]
      have hk := njs_string_length_known_concat s1 s2 (decide ((s1.start ++ s2.start).length ≠ 0))
      have hk1 : njs_string_length_known acc = decide (s1.length ≠ 0 ∨ s1.start.length = 0) := by
        simp [njs_string_length_known, njs_string_length, njs_string_bytes, hu1]
      have hk2 : njs_string_length_known val = decide (s2.length ≠ 0 ∨ s2.start.length = 0) := by
        simp [njs_string_length_known, njs_string_length, njs_string_bytes, hu2]
      have hl1 : njs_string_length acc = s1.length := by simp [njs_string_length, hu1]
      have hl2 : njs_string_length val = s2.length := by simp [njs_string_length, hu2]
      simp only [List.all_cons, hk, hk1, hk2, List.map_cons, List.sum_cons, hl1, hl2]
      by_cases k1 : s1.length ≠ 0 ∨ s1.start.length = 0
      · by_cases k2 : s2.length ≠ 0 ∨ s2.start.length = 0
        · simp only [k1, k2, decide_True, Bool.true_and, njs_string_length, and_self, if_true]
          by_cases hall : rest.all njs_string_length_known = true
          · simp only [hall, if_true]
            omega
          · simp [hall]
        · simp only [k1, k2, decide_True, decide_False, Bool.and_false, Bool.false_and,
            Bool.false_eq_true, if_false]
      · simp only [k1, decide_False, Bool.false_and, Bool.false_eq_true, if_false]

/-- Claim C12: for two String operands `njs_vmcode_addition` either fails in the allocation or
returns normally with a String in `vm.retval` whose bytes are the bytes of the first operand
followed by those of the second, and whose size is the sum of the two sizes; it returns
normally when the next allocation succeeds; and a sequence of Strings concatenated left to
right, with as many successful allocations as additions, ends with a String whose bytes are
the concatenation of the bytes of the inputs. -/
theorem njs_string_concat_bytes (lib : njs_lib_t) (sz : njs_vmcode_sizes) (vm : njs_vm_t)
    (val1 val2 : njs_value_t) (vals : List njs_value_t)
    (h1 : val1.type = NJS_STRING) (hw1 : njs_value_wf val1 = true)
    (h2 : val2.type = NJS_STRING) (hw2 : njs_value_wf val2 = true)
    (hvals : ∀ v ∈ vals, v.type = NJS_STRING ∧ njs_value_wf v = true) :
    ((∃ vm1, njs_vmcode_addition lib sz vm val1 val2 = some (NXT_ERROR, vm1)) ∨
      ∃ vm1, njs_vmcode_addition lib sz vm val1 val2 = some (sz.addr3, vm1) ∧
        vm1.retval.type = NJS_STRING ∧ njs_value_wf vm1.retval = true ∧
        njs_string_bytes vm1.retval = njs_string_bytes val1 ++ njs_string_bytes val2 ∧
        (njs_string_bytes vm1.retval).length =
          (njs_string_bytes val1).length + (njs_string_bytes val2).length) ∧
    (njs_pool_ready 1 vm.mem_cache_pool →
      ∃ vm1, njs_vmcode_addition lib sz vm val1 val2 = some (sz.addr3, vm1) ∧
        vm1.retval.type = NJS_STRING ∧ njs_value_wf vm1.retval = true ∧
        njs_string_bytes vm1.retval = njs_string_bytes val1 ++ njs_string_bytes val2 ∧
        (njs_string_bytes vm1.retval).length =
          (njs_string_bytes val1).length + (njs_string_bytes val2).length) ∧
    (njs_pool_ready (vals.length + 1) vm.mem_cache_pool →
      ∃ r vm1, njs_string_concat_run lib sz vm val1 (val2 :: vals) = some (some r, vm1) ∧
        r.type = NJS_STRING ∧
        njs_string_bytes r =
          njs_string_bytes val1 ++ njs_string_bytes val2 ++ (vals.map njs_string_bytes).flatten) := by
  obtain ⟨s1, hu1⟩ : ∃ s1, val1.u = .string s1 := by
    cases hu : val1.u <;> simp [njs_value_wf, h1, hu] at hw1
    exact ⟨_, rfl⟩
  obtain ⟨s2, hu2⟩ : ∃ s2, val2.u = .string s2 := by
    cases hu : val2.u <;> simp [njs_value_wf, h2, hu] at hw2
    exact ⟨_, rfl⟩
  have hadd := njs_vmcode_addition_strings lib sz vm val1 val2 s1 s2 h1 h2 hu1 hu2
  have hgood : ∀ value pool, njs_string_alloc vm.mem_cache_pool (s1.start ++ s2.start)
      (if (s1.length ≠ 0 ∨ s1.start.length = 0) ∧ (s2.length ≠ 0 ∨ s2.start.length = 0)
       then s1.length + s2.length else 0) = (some value, pool) →
      ∃ vm1, njs_vmcode_addition lib sz vm val1 val2 = some (sz.addr3, vm1) ∧
        vm1.retval.type = NJS_STRING ∧ njs_value_wf vm1.retval = true ∧
        njs_string_bytes vm1.retval = njs_string_bytes val1 ++ njs_string_bytes val2 ∧
        (njs_string_bytes vm1.retval).length =
          (njs_string_bytes val1).length + (njs_string_bytes val2).length := by
    intro value pool h
    refine ⟨_, hadd.1 value pool h, ?_⟩
    obtain ⟨hv, _⟩ := njs_string_alloc_value h
    subst hv
    simp [njs_value_wf, njs_string_bytes, hu1, hu2]
  refine ⟨?_, ?_, ?_⟩
  · cases ha : njs_string_alloc vm.mem_cache_pool (s1.start ++ s2.start)
        (if (s1.length ≠ 0 ∨ s1.start.length = 0) ∧ (s2.length ≠ 0 ∨ s2.start.length = 0)
         then s1.length + s2.length else 0) with
    | mk v pool =>
      cases v with
      | none => exact Or.inl ⟨_, hadd.2 pool ha⟩
      | some value => exact Or.inr (hgood value pool ha)
  · intro hpool
    obtain ⟨pool1, ha, _⟩ := njs_string_alloc_ready (s1.start ++ s2.start)
      (if (s1.length ≠ 0 ∨ s1.start.length = 0) ∧ (s2.length ≠ 0 ∨ s2.start.length = 0)
       then s1.length + s2.length else 0) hpool
    exact hgood _ _ ha
  · intro hpool
    obtain ⟨r, vm1, hrun, hrt, _, hrb, _⟩ := njs_string_concat_run_spec lib sz (val2 :: vals)
      vm val1 h1 hw1
      (by
        intro v hv
        rcases List.mem_cons.mp hv with rfl | hv
        · exact ⟨h2, hw2⟩
        · exact hvals v hv)
      hpool
    refine ⟨r, vm1, hrun, hrt, ?_⟩
    rw [hrb]
    simp

/-- Claim C13: a sequence of Strings concatenated left to right by `njs_vmcode_addition`, with
as many successful allocations as additions, ends with a String whose length field is the sum
of the length fields of the inputs when every input has a known length (a length field that is
not zero, or a size of zero), and 0 when an input has an unknown length. -/
theorem njs_string_concat_length (lib : njs_lib_t) (sz : njs_vmcode_sizes) (vm : njs_vm_t)
    (val1 : njs_value_t) (vals : List njs_value_t)
    (h1 : val1.type = NJS_STRING) (hw1 : njs_value_wf val1 = true)
    (hvals : ∀ v ∈ vals, v.type = NJS_STRING ∧ njs_value_wf v = true)
    (hpool : njs_pool_ready vals.length vm.mem_cache_pool) :
    ∃ r vm1, njs_string_concat_run lib sz vm val1 vals = some (some r, vm1) ∧
      r.type = NJS_STRING ∧
      ((∀ v ∈ val1 :: vals, njs_string_length_known v = true) →
        njs_string_length r = ((val1 :: vals).map njs_string_length).sum) ∧
      ((∃ v ∈ val1 :: vals, njs_string_length_known v = false) →
        njs_string_length r = 0) := by
  obtain ⟨r, vm1, hrun, hrt, _, _, hrl⟩ :=
    njs_string_concat_run_spec lib sz vals vm val1 h1 hw1 hvals hpool
  refine ⟨r, vm1, hrun, hrt, ?_, ?_⟩
  · intro hall
    have : (val1 :: vals).all njs_string_length_known = true := List.all_eq_true.mpr hall
    rw [hrl, if_pos this]
  · intro ⟨v, hv, hk⟩
    have : ¬ ((val1 :: vals).all njs_string_length_known = true) := by
      intro hall
      have := List.all_eq_true.mp hall v hv
      rw [hk] at this
      exact Bool.false_ne_true this
    rw [hrl, if_neg this]

theorem njs_value_wf_numeric {v : njs_value_t} (hw : njs_value_wf v = true)
    (hn : njs_is_numeric v = true) : ∃ a, v.u = .number a := by
  cases ht : v.type <;> cases hu : v.u <;>
    simp_all [njs_value_wf, njs_is_numeric]

theorem njs_value_wf_string {v : njs_value_t} (hw : njs_value_wf v = true)
    (hs : v.type = NJS_STRING) : ∃ s, v.u = .string s := by
  cases hu : v.u <;> simp_all [njs_value_wf]

/-- The common shape of the arithmetic operations: the trap exactly when an operand is not
numeric, and a Number otherwise. -/
theorem njs_vmcode_numbers_spec (sz : njs_vmcode_sizes) (vm : njs_vm_t)
    (val1 val2 : njs_value_t) (f : njs_double → njs_double → njs_value_t)
    (hf : ∀ a b, (f a b).type = NJS_NUMBER)
    (hw1 : njs_value_wf val1 = true) (hw2 : njs_value_wf val2 = true)
    (hsz : 0 ≤ sz.addr3) :
    ((∃ vm1, njs_vmcode_numbers sz vm val1 val2 f = some (NJS_TRAP_NUMBERS, vm1)) ↔
      ¬ (njs_is_numeric val1 = true ∧ njs_is_numeric val2 = true)) ∧
    (¬ (njs_is_numeric val1 = true ∧ njs_is_numeric val2 = true) →
      njs_vmcode_numbers sz vm val1 val2 f = some (NJS_TRAP_NUMBERS, vm)) ∧
    (njs_is_numeric val1 = true ∧ njs_is_numeric val2 = true →
      ∃ n, njs_vmcode_numbers sz vm val1 val2 f = some (sz.addr3, { vm with retval := n }) ∧
        n.type = NJS_NUMBER) := by
  have hne : sz.addr3 ≠ NJS_TRAP_NUMBERS := by
    have h : NJS_TRAP_NUMBERS = (-6 : Int) := by decide
    rw [h]
    omega
  by_cases hn : njs_is_numeric val1 = true ∧ njs_is_numeric val2 = true
  · obtain ⟨a, ha⟩ := njs_value_wf_numeric hw1 hn.1
    obtain ⟨b, hb⟩ := njs_value_wf_numeric hw2 hn.2
    have hv : njs_vmcode_numbers sz vm val1 val2 f =
        some (sz.addr3, { vm with retval := f a b }) := by
      simp [njs_vmcode_numbers, hn.1, hn.2, ha, hb]
    refine ⟨⟨?_, fun h => absurd hn h⟩, fun h => absurd hn h, fun _ => ⟨_, hv, hf a b⟩⟩
    rintro ⟨vm1, h⟩
    rw [hv] at h
    simp only [Option.some.injEq, Prod.mk.injEq] at h
    exact absurd h.1 hne
  · have hv : njs_vmcode_numbers sz vm val1 val2 f = some (NJS_TRAP_NUMBERS, vm) := by
      unfold njs_vmcode_numbers
      have : (njs_is_numeric val1 && njs_is_numeric val2) = false := by
        simpa [Bool.and_eq_true] using hn
      simp [this]
    exact ⟨⟨fun _ => hn, fun _ => ⟨vm, hv⟩⟩, fun _ => hv, fun h => absurd h hn⟩

/-- Claim C14: each of subtraction, multiplication, division, remainder, the three shifts and
bitwise and, xor and or returns `NJS_TRAP_NUMBERS`, with the state unchanged, exactly when an
operand is not numeric, and otherwise returns the advance of the instruction with a Number in
`vm.retval`; `njs_vmcode_addition` returns `NJS_TRAP_STRINGS`, with the state unchanged,
exactly when the operands are neither both numeric nor both Strings. -/
theorem njs_arithmetic_traps (lib : njs_lib_t) (sz : njs_vmcode_sizes) (vm : njs_vm_t)
    (val1 val2 : njs_value_t)
    (hw1 : njs_value_wf val1 = true) (hw2 : njs_value_wf val2 = true)
    (hsz : 0 ≤ sz.addr3) :
    (∀ op ∈ [njs_vmcode_substraction lib, njs_vmcode_multiplication lib,
        njs_vmcode_division lib, njs_vmcode_remainder, njs_vmcode_left_shift,
        njs_vmcode_right_shift, njs_vmcode_unsigned_right_shift, njs_vmcode_bitwise_and,
        njs_vmcode_bitwise_xor, njs_vmcode_bitwise_or],
      ((∃ vm1, op sz vm val1 val2 = some (NJS_TRAP_NUMBERS, vm1)) ↔
        ¬ (njs_is_numeric val1 = true ∧ njs_is_numeric val2 = true)) ∧
      (¬ (njs_is_numeric val1 = true ∧ njs_is_numeric val2 = true) →
        op sz vm val1 val2 = some (NJS_TRAP_NUMBERS, vm)) ∧
      (njs_is_numeric val1 = true ∧ njs_is_numeric val2 = true →
        ∃ n, op sz vm val1 val2 = some (sz.addr3, { vm with retval := n }) ∧
          n.type = NJS_NUMBER)) ∧
    ((∃ vm1, njs_vmcode_addition lib sz vm val1 val2 = some (NJS_TRAP_STRINGS, vm1)) ↔
      ¬ (njs_is_numeric val1 = true ∧ njs_is_numeric val2 = true) ∧
      ¬ (njs_is_string val1 = true ∧ njs_is_string val2 = true)) ∧
    (¬ (njs_is_numeric val1 = true ∧ njs_is_numeric val2 = true) →
      ¬ (njs_is_string val1 = true ∧ njs_is_string val2 = true) →
      njs_vmcode_addition lib sz vm val1 val2 = some (NJS_TRAP_STRINGS, vm)) := by
  refine ⟨?_, ?_, ?_⟩
  · intro op hop
    simp only [List.mem_cons, List.mem_singleton, List.mem_nil_iff, or_false] at hop
    rcases hop with rfl | rfl | rfl | rfl | rfl | rfl | rfl | rfl | rfl | rfl <;>
      exact njs_vmcode_numbers_spec sz vm val1 val2 _ (fun _ _ => rfl) hw1 hw2 hsz
  · have hne : sz.addr3 ≠ NJS_TRAP_STRINGS := by
      have h : NJS_TRAP_STRINGS = (-8 : Int) := by decide
      rw [h]
      omega
    have hne2 : NXT_ERROR ≠ NJS_TRAP_STRINGS := by decide
    by_cases hn : njs_is_numeric val1 = true ∧ njs_is_numeric val2 = true
    · obtain ⟨a, ha⟩ := njs_value_wf_numeric hw1 hn.1
      obtain ⟨b, hb⟩ := njs_value_wf_numeric hw2 hn.2
      have hv : njs_vmcode_addition lib sz vm val1 val2 =
          some (sz.addr3, { vm with retval := njs_number_set_double (lib.double_add a b) }) := by
        simp [njs_vmcode_addition, hn.1, hn.2, ha, hb]
      constructor
      · rintro ⟨vm1, h⟩
        rw [hv] at h
        simp only [Option.some.injEq, Prod.mk.injEq] at h
        exact absurd h.1 hne
      · intro h
        exact absurd hn h.1
    · by_cases hs : njs_is_string val1 = true ∧ njs_is_string val2 = true
      · have ht1 : val1.type = NJS_STRING := by simpa [njs_is_string] using hs.1
        have ht2 : val2.type = NJS_STRING := by simpa [njs_is_string] using hs.2
        obtain ⟨s1, hu1⟩ := njs_value_wf_string hw1 ht1
        obtain ⟨s2, hu2⟩ := njs_value_wf_string hw2 ht2
        have hadd := njs_vmcode_addition_strings lib sz vm val1 val2 s1 s2 ht1 ht2 hu1 hu2
        constructor
        · rintro ⟨vm1, h⟩
          cases ha : njs_string_alloc vm.mem_cache_pool (s1.start ++ s2.start)
              (if (s1.length ≠ 0 ∨ s1.start.length = 0) ∧ (s2.length ≠ 0 ∨ s2.start.length = 0)
               then s1.length + s2.length else 0) with
          | mk v pool =>
            cases v with
            | none =>
              rw [hadd.2 pool ha] at h
              simp only [Option.some.injEq, Prod.mk.injEq] at h
              exact absurd h.1 hne2
            | some value =>
              rw [hadd.1 value pool ha] at h
              simp only [Option.some.injEq, Prod.mk.injEq] at h
              exact absurd h.1 hne
        · intro h
          exact absurd hs h.2
      · have hv : njs_vmcode_addition lib sz vm val1 val2 = some (NJS_TRAP_STRINGS, vm) := by
          unfold njs_vmcode_addition
          have h1 : (njs_is_numeric val1 && njs_is_numeric val2) = false := by
            simpa [Bool.and_eq_true] using hn
          have h2 : (njs_is_string val1 && njs_is_string val2) = false := by
            simpa [Bool.and_eq_true] using hs
          simp [h1, h2]
        exact ⟨fun _ => ⟨hn, hs⟩, fun _ => ⟨vm, hv⟩⟩
  · intro hn hs
    unfold njs_vmcode_addition
    have h1 : (njs_is_numeric val1 && njs_is_numeric val2) = false := by
      simpa [Bool.and_eq_true] using hn
    have h2 : (njs_is_string val1 && njs_is_string val2) = false := by
      simpa [Bool.and_eq_true] using hs
    simp [h1, h2]

/-- Claim C17, the code at the failing input: with `null` as the second operand, `0 == null`
and `false == null` set `vm.retval` to `true` (and `0 != null` to `false`), while
`null == 0` sets it to `false`; and `"a" == null` returns `NJS_TRAP_NUMBERS`. -/
theorem njs_equal_null_second_operand (lib : njs_lib_t) (sz : njs_vmcode_sizes)
    (vm : njs_vm_t) :
    njs_vmcode_equal lib sz vm (njs_number_set_double (.fin 0)) njs_value_null =
      some (sz.addr3, { vm with retval := njs_value_true }) ∧
    njs_vmcode_not_equal lib sz vm (njs_number_set_double (.fin 0)) njs_value_null =
      some (sz.addr3, { vm with retval := njs_value_false }) ∧
    njs_vmcode_equal lib sz vm njs_value_false njs_value_null =
      some (sz.addr3, { vm with retval := njs_value_true }) ∧
    njs_vmcode_equal lib sz vm njs_value_null (njs_number_set_double (.fin 0)) =
      some (sz.addr3, { vm with retval := njs_value_false }) ∧
    njs_vmcode_equal lib sz vm (njs_string "a") njs_value_null =
      some (NJS_TRAP_NUMBERS, vm) := by
  refine ⟨?_, ?_, ?_, ?_, ?_⟩ <;>
    simp [njs_vmcode_equal, njs_vmcode_not_equal, njs_values_equal, njs_is_null_or_void,
      njs_is_numeric, njs_number_set_double, njs_value_null, njs_value_false, njs_double_eq,
      njs_string, njs_is_string, NJS_TRAP_NUMBERS, NJS_TRAP_PROPERTY]

/-- Claim C18: for every pair of values `njs_vmcode_strict_equal` and
`njs_vmcode_strict_not_equal` return the advance of the instruction, never a trap or an error
code, write the Boolean `true` or `false` to `vm.retval`, the one the negation of the other,
and values of different tags are not strictly equal. -/
theorem njs_strict_equal_never_traps (sz : njs_vmcode_sizes) (vm : njs_vm_t)
    (val1 val2 : njs_value_t)
    (hw1 : njs_value_wf val1 = true) (hw2 : njs_value_wf val2 = true) :
    ∃ eq : Bool, njs_values_strict_equal val1 val2 = some eq ∧
      njs_vmcode_strict_equal sz vm val1 val2 =
        some (sz.addr3, { vm with retval := if eq then njs_value_true else njs_value_false }) ∧
      njs_vmcode_strict_not_equal sz vm val1 val2 =
        some (sz.addr3, { vm with retval := if eq then njs_value_false else njs_value_true }) ∧
      (if eq then njs_value_true else njs_value_false).type = NJS_BOOLEAN ∧
      (if eq then njs_value_false else njs_value_true).type = NJS_BOOLEAN ∧
      (if eq then njs_value_true else njs_value_false) ≠
        (if eq then njs_value_false else njs_value_true) ∧
      (val1.type ≠ val2.type → eq = false) := by
  have hex : ∃ eq : Bool, njs_values_strict_equal val1 val2 = some eq ∧
      (val1.type ≠ val2.type → eq = false) := by
    unfold njs_values_strict_equal
    by_cases ht : val1.type = val2.type
    · simp only [ne_eq, ht, not_true_eq_false, if_false, false_implies, and_true]
      by_cases hn : njs_is_numeric val1 = true
      · have hn2 : njs_is_numeric val2 = true := by
          simpa [njs_is_numeric, ht] using hn
        obtain ⟨a, ha⟩ := njs_value_wf_numeric hw1 hn
        obtain ⟨b, hb⟩ := njs_value_wf_numeric hw2 hn2
        simp [hn, ha, hb]
      · by_cases hs : njs_is_string val1 = true
        · have hs1 : val1.type = NJS_STRING := by simpa [njs_is_string] using hs
          obtain ⟨s1, hu1⟩ := njs_value_wf_string hw1 hs1
          obtain ⟨s2, hu2⟩ := njs_value_wf_string hw2 (ht ▸ hs1)
          simp only [hn, Bool.false_eq_true, if_false, hs, if_true, hu1, hu2]
          by_cases h1 : s1.start.length ≠ s2.start.length
          · exact ⟨false, by simp [h1]⟩
          · by_cases h2 : s1.length ≠ s2.length
            · exact ⟨false, by simp [h1, h2]⟩
            · exact ⟨decide (s1.start = s2.start), by simp only [h1, h2, if_false]⟩
        · simp [hn, hs]
    · exact ⟨false, by simp [ht]⟩
  obtain ⟨eq, heq, hty⟩ := hex
  refine ⟨eq, heq, by simp [njs_vmcode_strict_equal, heq],
    by simp [njs_vmcode_strict_not_equal, heq], ?_, ?_, ?_, hty⟩ <;>
    cases eq <;> decide

/-- The result of `njs_values_compare` by the tags of the operands. -/
theorem njs_values_compare_spec (lib : njs_lib_t) (val1 val2 : njs_value_t)
    (hw1 : njs_value_wf val1 = true) (hw2 : njs_value_wf val2 = true) :
    (njs_is_numeric val1 = true → njs_is_numeric val2 = true →
      ∃ a b, val1.u = .number a ∧ val2.u = .number b ∧
        njs_values_compare lib val1 val2 =
          some (if njs_is_nan a || njs_is_nan b then -1
                else if njs_double_lt a b then 1 else 0)) ∧
    (njs_is_numeric val1 ≠ njs_is_numeric val2 →
      njs_values_compare lib val1 val2 = some NJS_TRAP_NUMBERS) ∧
    (njs_is_numeric val1 = false → njs_is_numeric val2 = false →
      njs_is_string val1 = true → njs_is_string val2 = true →
      njs_values_compare lib val1 val2 =
        some (if lib.njs_string_cmp val1 val2 < 0 then 1 else 0)) ∧
    (njs_is_numeric val1 = false → njs_is_numeric val2 = false →
      ¬ (njs_is_string val1 = true ∧ njs_is_string val2 = true) →
      njs_values_compare lib val1 val2 = some NJS_TRAP_STRINGS) := by
  refine ⟨?_, ?_, ?_, ?_⟩
  · intro h1 h2
    obtain ⟨a, ha⟩ := njs_value_wf_numeric hw1 h1
    obtain ⟨b, hb⟩ := njs_value_wf_numeric hw2 h2
    refine ⟨a, b, ha, hb, ?_⟩
    unfold njs_values_compare
    simp only [h1, h2, Bool.or_self, Bool.and_self, if_true, ha, hb]
    by_cases hn : (njs_is_nan a || njs_is_nan b) = true
    · simp [hn]
    · simp [hn]
  · intro hne
    unfold njs_values_compare
    cases h1 : njs_is_numeric val1 <;> cases h2 : njs_is_numeric val2 <;>
      simp_all
  · intro h1 h2 h3 h4
    unfold njs_values_compare
    simp [h1, h2, h3, h4]
  · intro h1 h2 h3
    unfold njs_values_compare
    have : (njs_is_string val1 && njs_is_string val2) = false := by
      simpa [Bool.and_eq_true] using h3
    simp [h1, h2, this]

/-- The traps of the two comparison operations that are not defined by a swap. -/
theorem njs_compare_op_traps (lib : njs_lib_t) (sz : njs_vmcode_sizes) (vm : njs_vm_t)
    (val1 val2 : njs_value_t)
    (hw1 : njs_value_wf val1 = true) (hw2 : njs_value_wf val2 = true)
    (hsz : 0 ≤ sz.addr3) :
    ∀ op ∈ [njs_vmcode_less lib, njs_vmcode_greater_or_equal lib],
      ((∃ vm1, op sz vm val1 val2 = some (NJS_TRAP_NUMBERS, vm1)) ↔
        njs_is_numeric val1 ≠ njs_is_numeric val2) ∧
      ((∃ vm1, op sz vm val1 val2 = some (NJS_TRAP_STRINGS, vm1)) ↔
        (njs_is_numeric val1 = false ∧ njs_is_numeric val2 = false ∧
          ¬ (njs_is_string val1 = true ∧ njs_is_string val2 = true))) := by
  have hspec := njs_values_compare_spec lib val1 val2 hw1 hw2
  have hN : NJS_TRAP_NUMBERS = (-6 : Int) := by decide
  have hS : NJS_TRAP_STRINGS = (-8 : Int) := by decide
  have key : ∀ (g : njs_ret_t → njs_value_t) (op : njs_vmcode_sizes → njs_vm_t →
      njs_value_t → njs_value_t → Option (njs_ret_t × njs_vm_t)),
      (∀ ret, njs_values_compare lib val1 val2 = some ret →
        op sz vm val1 val2 =
          if ret ≥ -1 then some (sz.addr3, { vm with retval := g ret }) else some (ret, vm)) →
      ((∃ vm1, op sz vm val1 val2 = some (NJS_TRAP_NUMBERS, vm1)) ↔
        njs_is_numeric val1 ≠ njs_is_numeric val2) ∧
      ((∃ vm1, op sz vm val1 val2 = some (NJS_TRAP_STRINGS, vm1)) ↔
        (njs_is_numeric val1 = false ∧ njs_is_numeric val2 = false ∧
          ¬ (njs_is_string val1 = true ∧ njs_is_string val2 = true))) := by
    intro g op hop
    have hge_str : ∀ c : Int, (if c < 0 then (1 : njs_ret_t) else 0) ≥ -1 := by
      intro c
      split <;> decide
    have hge_num : ∀ p q : Bool,
        (if p = true then (-1 : njs_ret_t) else if q = true then 1 else 0) ≥ -1 := by
      intro p q
      cases p <;> cases q <;> decide
    have hnormal : ∀ ret, njs_values_compare lib val1 val2 = some ret → ret ≥ -1 →
        (¬ ∃ vm1, op sz vm val1 val2 = some (NJS_TRAP_NUMBERS, vm1)) ∧
        (¬ ∃ vm1, op sz vm val1 val2 = some (NJS_TRAP_STRINGS, vm1)) := by
      intro ret hret hge
      rw [hop ret hret, if_pos hge, hN, hS]
      constructor <;>
      · rintro ⟨vm1, h⟩
        simp only [Option.some.injEq, Prod.mk.injEq] at h
        have h2 : sz.addr3 < (0 : Int) := by rw [h.1]; decide
        omega
    cases h1 : njs_is_numeric val1 <;> cases h2 : njs_is_numeric val2
    · by_cases hs : njs_is_string val1 = true ∧ njs_is_string val2 = true
      · have hc := hspec.2.2.1 h1 h2 hs.1 hs.2
        obtain ⟨hn1, hn2⟩ := hnormal _ hc (hge_str _)
        exact ⟨⟨fun h => absurd h hn1, fun h => absurd rfl h⟩,
          ⟨fun h => absurd h hn2, fun h => absurd hs h.2.2⟩⟩
      · have hc := hspec.2.2.2 h1 h2 hs
        have hv : op sz vm val1 val2 = some (NJS_TRAP_STRINGS, vm) := by
          rw [hop _ hc, hS, if_neg (by decide)]
        refine ⟨⟨?_, fun h => absurd rfl h⟩, ⟨fun _ => ⟨rfl, rfl, hs⟩, fun _ => ⟨vm, hv⟩⟩⟩
        rintro ⟨vm1, h⟩
        rw [hv, hN, hS] at h
        simp only [Option.some.injEq, Prod.mk.injEq] at h
        exact absurd h.1 (by decide)
    · have hc := hspec.2.1 (by simp [h1, h2])
      have hv : op sz vm val1 val2 = some (NJS_TRAP_NUMBERS, vm) := by
        rw [hop _ hc, hN, if_neg (by decide)]
      refine ⟨⟨fun _ => by simp, fun _ => ⟨vm, hv⟩⟩, ⟨?_, fun h => by simp at h⟩⟩
      rintro ⟨vm1, h⟩
      rw [hv, hN, hS] at h
      simp only [Option.some.injEq, Prod.mk.injEq] at h
      exact absurd h.1 (by decide)
    · have hc := hspec.2.1 (by simp [h1, h2])
      have hv : op sz vm val1 val2 = some (NJS_TRAP_NUMBERS, vm) := by
        rw [hop _ hc, hN, if_neg (by decide)]
      refine ⟨⟨fun _ => by simp, fun _ => ⟨vm, hv⟩⟩, ⟨?_, fun h => by simp at h⟩⟩
      rintro ⟨vm1, h⟩
      rw [hv, hN, hS] at h
      simp only [Option.some.injEq, Prod.mk.injEq] at h
      exact absurd h.1 (by decide)
    · obtain ⟨a, b, _, _, hc⟩ := hspec.1 h1 h2
      obtain ⟨hn1, hn2⟩ := hnormal _ hc (hge_num _ _)
      exact ⟨⟨fun h => absurd h hn1, fun h => absurd rfl h⟩,
        ⟨fun h => absurd h hn2, fun h => by simp at h⟩⟩
  intro op hop
  simp only [List.mem_cons, List.mem_singleton, List.mem_nil_iff, or_false] at hop
  rcases hop with rfl | rfl
  · exact key (fun ret => if ret > 0 then njs_value_true else njs_value_false) _
      (fun ret hret => by simp [njs_vmcode_less, hret])
  · exact key (fun ret => if ret = 0 then njs_value_true else njs_value_false) _
      (fun ret hret => by simp [njs_vmcode_greater_or_equal, hret])

/-- Claim C19: for numeric operands of which one carries NaN the four relational operations
return normally with `vm.retval` `false`; for numeric operands without NaN exactly one of
`a < b` and `a >= b` is `true`; a comparison returns `NJS_TRAP_NUMBERS` exactly when one
operand is numeric and the other is not, and `NJS_TRAP_STRINGS` exactly when neither is
numeric and they are not both Strings. -/
theorem njs_relational_compare (lib : njs_lib_t) (sz : njs_vmcode_sizes) (vm : njs_vm_t)
    (val1 val2 : njs_value_t)
    (hw1 : njs_value_wf val1 = true) (hw2 : njs_value_wf val2 = true)
    (hsz : 0 ≤ sz.addr3) :
    (∀ a b, njs_is_numeric val1 = true → njs_is_numeric val2 = true →
      val1.u = .number a → val2.u = .number b →
      (njs_is_nan a = true ∨ njs_is_nan b = true →
        ∀ op ∈ [njs_vmcode_less lib, njs_vmcode_greater lib, njs_vmcode_less_or_equal lib,
            njs_vmcode_greater_or_equal lib],
          op sz vm val1 val2 = some (sz.addr3, { vm with retval := njs_value_false })) ∧
      (njs_is_nan a = false → njs_is_nan b = false →
        njs_vmcode_less lib sz vm val1 val2 =
          some (sz.addr3,
            { vm with retval := (if njs_double_lt a b then njs_value_true else njs_value_false) }) ∧
        njs_vmcode_greater_or_equal lib sz vm val1 val2 =
          some (sz.addr3,
            { vm with retval := (if njs_double_lt a b then njs_value_false else njs_value_true) }))) ∧
    (∀ op ∈ [njs_vmcode_less lib, njs_vmcode_greater lib, njs_vmcode_less_or_equal lib,
        njs_vmcode_greater_or_equal lib],
      ((∃ vm1, op sz vm val1 val2 = some (NJS_TRAP_NUMBERS, vm1)) ↔
        njs_is_numeric val1 ≠ njs_is_numeric val2) ∧
      ((∃ vm1, op sz vm val1 val2 = some (NJS_TRAP_STRINGS, vm1)) ↔
        (njs_is_numeric val1 = false ∧ njs_is_numeric val2 = false ∧
          ¬ (njs_is_string val1 = true ∧ njs_is_string val2 = true)))) := by
  constructor
  · intro a b h1 h2 ha hb
    have hc : njs_values_compare lib val1 val2 =
        some (if njs_is_nan a || njs_is_nan b then -1
              else if njs_double_lt a b then 1 else 0) := by
      unfold njs_values_compare
      simp only [h1, h2, Bool.or_self, Bool.and_self, if_true, ha, hb]
      by_cases hn : (njs_is_nan a || njs_is_nan b) = true <;> simp [hn]
    have hc' : njs_values_compare lib val2 val1 =
        some (if njs_is_nan b || njs_is_nan a then -1
              else if njs_double_lt b a then 1 else 0) := by
      unfold njs_values_compare
      simp only [h1, h2, Bool.or_self, Bool.and_self, if_true, ha, hb]
      by_cases hn : (njs_is_nan b || njs_is_nan a) = true <;> simp [hn]
    constructor
    · intro hnan op hop
      have hn1 : (njs_is_nan a || njs_is_nan b) = true := by
        rcases hnan with h | h <;> simp [h]
      have hn2 : (njs_is_nan b || njs_is_nan a) = true := by
        rcases hnan with h | h <;> simp [h]
      rw [hn1] at hc
      rw [hn2] at hc'
      simp only [List.mem_cons, List.mem_singleton, List.mem_nil_iff, or_false] at hop
      rcases hop with rfl | rfl | rfl | rfl
      · simp [njs_vmcode_less, hc]
      · simp [njs_vmcode_greater, njs_vmcode_less, hc']
      · simp [njs_vmcode_less_or_equal, njs_vmcode_greater_or_equal, hc']
      · simp [njs_vmcode_greater_or_equal, hc]
    · intro hna hnb
      have hn1 : (njs_is_nan a || njs_is_nan b) = false := by simp [hna, hnb]
      rw [hn1] at hc
      constructor
      · cases hlt : njs_double_lt a b <;> simp [njs_vmcode_less, hc, hlt]
      · cases hlt : njs_double_lt a b <;> simp [njs_vmcode_greater_or_equal, hc, hlt]
  · intro op hop
    simp only [List.mem_cons, List.mem_singleton, List.mem_nil_iff, or_false] at hop
    have hsym : (njs_is_numeric val2 ≠ njs_is_numeric val1) ↔
        (njs_is_numeric val1 ≠ njs_is_numeric val2) := ⟨Ne.symm, Ne.symm⟩
    have hsym2 : (njs_is_numeric val2 = false ∧ njs_is_numeric val1 = false ∧
        ¬ (njs_is_string val2 = true ∧ njs_is_string val1 = true)) ↔
        (njs_is_numeric val1 = false ∧ njs_is_numeric val2 = false ∧
        ¬ (njs_is_string val1 = true ∧ njs_is_string val2 = true)) := by
      constructor
      · rintro ⟨h1, h2, h3⟩
        exact ⟨h2, h1, fun h => h3 ⟨h.2, h.1⟩⟩
      · rintro ⟨h1, h2, h3⟩
        exact ⟨h2, h1, fun h => h3 ⟨h.2, h.1⟩⟩
    rcases hop with rfl | rfl | rfl | rfl
    · exact njs_compare_op_traps lib sz vm val1 val2 hw1 hw2 hsz _ (by simp)
    · have h := njs_compare_op_traps lib sz vm val2 val1 hw2 hw1 hsz (njs_vmcode_less lib)
        (by simp)
      rw [hsym, hsym2] at h
      exact h
    · have h := njs_compare_op_traps lib sz vm val2 val1 hw2 hw1 hsz
        (njs_vmcode_greater_or_equal lib) (by simp)
      rw [hsym, hsym2] at h
      exact h
    · exact njs_compare_op_traps lib sz vm val1 val2 hw1 hw2 hsz _ (by simp)

/-- Claim C15 (amended): `njs_vmcode_addition` applied to a Number and an Object returns
`NJS_TRAP_STRINGS`; the conversion that the interpreter then runs turns the Number into its
String, looks up `toString` on the object first and, when that call returns a String, does not
call `valueOf`; the restarted addition returns normally with the String of the bytes of the
first String followed by those of the second. -/
theorem njs_addition_number_object (lib : njs_lib_t) (flib : njs_function_lib_t)
    (sz : njs_vmcode_sizes) (addr1 : Int) (vm vm0 vmA vmB : njs_vm_t)
    (val1 val2 s1 : njs_value_t) (p : Nat) (frame : njs_native_frame_t)
    (prop : njs_object_prop_t)
    (h1 : val1.type = NJS_NUMBER)
    (h2 : njs_is_object val2 = true) (hp : val2.u = .object p)
    (halloc : flib.njs_function_frame_alloc vm = (some frame, vm0))
    (hts : lib.njs_number_to_string vm0 val1 = (NXT_OK, vmA, s1))
    (hs1 : s1.type = NJS_STRING) (hw1 : njs_value_wf s1 = true)
    (hlook : njs_object_property vmA.heap ("toString".data.map Char.toNat) vmA.heap.length
      (some p) = some (some prop))
    (happly : flib.njs_function_apply { vmA with exception := some njs_exception_type_error }
      prop.value val2 = (NXT_OK, vmB))
    (hs2 : vmB.retval.type = NJS_STRING) (hw2 : njs_value_wf vmB.retval = true)
    (hpool : njs_pool_ready 1 vmB.mem_cache_pool) :
    njs_vmcode_addition lib sz vm val1 val2 = some (NJS_TRAP_STRINGS, vm) ∧
    ∃ vmC, njs_vmcode_interpreter_trap lib flib addr1 (njs_vmcode_addition lib sz) vm
        NJS_TRAP_STRINGS val1 val2 = some (sz.addr3, vmC, [1]) ∧
      vmC.retval.type = NJS_STRING ∧
      njs_string_bytes vmC.retval = njs_string_bytes s1 ++ njs_string_bytes vmB.retval := by
  have hn1 : njs_is_numeric val1 = true := by simp [njs_is_numeric, h1]
  have hprim1 : njs_is_primitive val1 = true := by simp [njs_is_primitive, h1]
  have hstr1 : njs_is_string val1 = false := by simp [njs_is_string, h1]
  have hn2 : njs_is_numeric val2 = false := by
    cases ht : val2.type <;> simp_all [njs_is_numeric, njs_is_object]
  have hprim2 : njs_is_primitive val2 = false := by
    cases ht : val2.type <;> simp_all [njs_is_primitive, njs_is_object]
  have hstr2 : njs_is_string val2 = false := by
    cases ht : val2.type <;> simp_all [njs_is_string, njs_is_object]
  have hprimS : njs_is_primitive vmB.retval = true := by simp [njs_is_primitive, hs2]
  have hstrS : njs_is_string vmB.retval = true := by simp [njs_is_string, hs2]
  constructor
  · simp [njs_vmcode_addition, hn1, hn2, hstr1]
  · obtain ⟨t1, ht1⟩ := njs_value_wf_string hw1 hs1
    obtain ⟨t2, ht2⟩ := njs_value_wf_string hw2 hs2
    obtain ⟨pool1, hal, _⟩ := njs_string_alloc_ready (t1.start ++ t2.start)
      (if (t1.length ≠ 0 ∨ t1.start.length = 0) ∧ (t2.length ≠ 0 ∨ t2.start.length = 0)
       then t1.length + t2.length else 0) hpool
    have hadd := (njs_vmcode_addition_strings lib sz
      { vmB with retval := njs_set_invalid vmB.retval } s1 vmB.retval t1 t2 hs1 hs2 ht1 ht2).1
      _ _ hal
    refine ⟨{ vmB with
        mem_cache_pool := pool1,
        retval := ⟨NJS_STRING, decide ((t1.start ++ t2.start).length ≠ 0),
          .string ⟨t1.start ++ t2.start,
            if (t1.length ≠ 0 ∨ t1.start.length = 0) ∧ (t2.length ≠ 0 ∨ t2.start.length = 0)
            then t1.length + t2.length else 0⟩⟩ }, ?_, rfl, ?_⟩
    rotate_left
    · simp [njs_string_bytes, ht1, ht2]
    · have hne : ¬ (NJS_TRAP_STRINGS = NJS_TRAP_NUMBER) := by decide
      have hidx : (NJS_TRAP_STRINGS - NJS_TRAP_LAST).toNat = 1 := by decide
      simp only [njs_vmcode_interpreter_trap, hne, if_false, true_or, or_true, if_true, hidx,
        njs_vm_trap, halloc, njs_vm_traps, njs_trap_strings, List.getElem?_cons_succ,
        List.getElem?_cons_zero, njs_vmcode_interpreter_code, njs_vmcode_string_primitive,
        njs_primitive_value, Nat.zero_add, hprim1, Bool.not_true, Bool.false_eq_true,
        show (1 : njs_ret_t) > 0 from by decide, hstr1, Bool.not_false, h1, hts,
        List.set_cons_succ, List.set_cons_zero, List.nil_append]
      simp only [List.getElem?_cons_succ, List.getElem?_cons_zero, hprim2, Bool.not_false,
        if_true, njs_is_valid, njs_set_invalid, ne_eq, not_true_eq_false, decide_False,
        njs_primitive_value_loop, h2, Bool.true_and, show decide (0 < 2) = true by decide,
        Nat.xor_zero, njs_primitive_value_names, njs_value_object, hp, hlook, happly, hprimS,
        List.set_cons_succ, List.set_cons_zero, show (1 : njs_ret_t) > 0 from by decide,
        hstrS, Bool.not_true, Bool.false_eq_true, if_false, List.nil_append,
        njs_vmcode_restart]
      simp only [njs_set_invalid] at hadd
      rw [hadd]

set_option maxRecDepth 20000 in
/-- Instance of claim C12: `"a" + "b" + "α"` has the four bytes 97, 98, 206, 177. -/
theorem njs_string_concat_bytes_witness :
    ∃ r vm1, njs_string_concat_run njs_example_lib njs_example_sizes
        (njs_example_vm [] [true, true]) (njs_string "a")
        [njs_string "b", njs_example_string_alpha] = some (some r, vm1) ∧
      r.type = NJS_STRING ∧ njs_string_bytes r = [97, 98, 206, 177] :=
  (njs_string_concat_bytes njs_example_lib njs_example_sizes (njs_example_vm [] [true, true])
    (njs_string "a") (njs_string "b") [njs_example_string_alpha] rfl rfl rfl rfl
    (by decide)).2.2 ⟨2, [], by decide, rfl⟩

set_option maxRecDepth 20000 in
/-- Instance of claim C13: `"a" + "b" + "α"` has the length 3, and a sequence with a String of
unknown length ends with the length field 0. -/
theorem njs_string_concat_length_witness :
    (∃ r vm1, njs_string_concat_run njs_example_lib njs_example_sizes
        (njs_example_vm [] [true, true]) (njs_string "a")
        [njs_string "b", njs_example_string_alpha] = some (some r, vm1) ∧
      njs_string_length r = 3) ∧
    (∃ r vm1, njs_string_concat_run njs_example_lib njs_example_sizes
        (njs_example_vm [] [true, true]) (njs_string "a")
        [njs_example_string_unknown, njs_string "b"] = some (some r, vm1) ∧
      njs_string_length r = 0) := by
  constructor
  · obtain ⟨r, vm1, hrun, _, hk, _⟩ := njs_string_concat_length njs_example_lib
      njs_example_sizes (njs_example_vm [] [true, true]) (njs_string "a")
      [njs_string "b", njs_example_string_alpha] rfl rfl (by decide) ⟨2, [], by decide, rfl⟩
    exact ⟨r, vm1, hrun, hk (by decide)⟩
  · obtain ⟨r, vm1, hrun, _, _, hu⟩ := njs_string_concat_length njs_example_lib
      njs_example_sizes (njs_example_vm [] [true, true]) (njs_string "a")
      [njs_example_string_unknown, njs_string "b"] rfl rfl (by decide) ⟨2, [], by decide, rfl⟩
    exact ⟨r, vm1, hrun, hu ⟨njs_example_string_unknown, by decide, by decide⟩⟩

set_option maxRecDepth 20000 in
/-- Instance of claim C14: `7 - o` for an object `o` returns `NJS_TRAP_NUMBERS` and `7 + o`
returns `NJS_TRAP_STRINGS`. -/
theorem njs_arithmetic_traps_witness :
    njs_vmcode_substraction njs_example_lib njs_example_sizes (njs_example_vm [] [])
      (njs_example_number 7) (njs_example_object 0) =
      some (NJS_TRAP_NUMBERS, njs_example_vm [] []) ∧
    njs_vmcode_addition njs_example_lib njs_example_sizes (njs_example_vm [] [])
      (njs_example_number 7) (njs_example_object 0) =
      some (NJS_TRAP_STRINGS, njs_example_vm [] []) :=
  have h := njs_arithmetic_traps njs_example_lib njs_example_sizes (njs_example_vm [] [])
    (njs_example_number 7) (njs_example_object 0) (by decide) (by decide) (by decide)
  ⟨(h.1 _ (List.mem_cons_self _ _)).2.1 (by decide), h.2.2 (by decide) (by decide)⟩

set_option maxRecDepth 20000 in
/-- Instance of claim C18: `1 === "1"` returns normally with `vm.retval` `false`. -/
theorem njs_strict_equal_never_traps_witness :
    njs_vmcode_strict_equal njs_example_sizes (njs_example_vm [] [])
      (njs_example_number 1) (njs_string "1") =
      some (njs_example_sizes.addr3, { njs_example_vm [] [] with retval := njs_value_false }) := by
  obtain ⟨eq, _, h, _, _, _, _, hne⟩ := njs_strict_equal_never_traps njs_example_sizes
    (njs_example_vm [] []) (njs_example_number 1) (njs_string "1") (by decide) (by decide)
  rw [hne (by decide)] at h
  exact h

set_option maxRecDepth 20000 in
/-- Instance of claim C19: `undefined < 1` and `undefined >= 1` are both `false`. -/
theorem njs_relational_compare_witness :
    njs_vmcode_less njs_example_lib njs_example_sizes (njs_example_vm [] []) njs_value_void
      (njs_example_number 1) =
      some (njs_example_sizes.addr3, { njs_example_vm [] [] with retval := njs_value_false }) ∧
    njs_vmcode_greater_or_equal njs_example_lib njs_example_sizes (njs_example_vm [] [])
      njs_value_void (njs_example_number 1) =
      some (njs_example_sizes.addr3, { njs_example_vm [] [] with retval := njs_value_false }) :=
  have h := ((njs_relational_compare njs_example_lib njs_example_sizes (njs_example_vm [] [])
    njs_value_void (njs_example_number 1) (by decide) (by decide) (by decide)).1
    .nan (.fin (Rat.ofInt 1)) (by decide) (by decide) rfl rfl).1 (Or.inl rfl)
  ⟨h _ (List.mem_cons_self _ _), h _ (by simp)⟩

/-- Instance of claim C20: the number 5/2 takes the direct cast, which gives its floor. -/
theorem njs_integer_value_trunc_mod_witness :
    njs_integer_value (.fin (5 / 2)) = njs_uint32 (njs_double_to_int64 (.fin (5 / 2))) ∧
    njs_double_to_int64 (.fin (5 / 2)) = ⌊(5 / 2 : ℚ)⌋ :=
  (njs_integer_value_trunc_mod (5 / 2)).2.2.1 (by norm_num) (by norm_num)

set_option maxRecDepth 20000 in
/-- Counterexample to claim C15 as stated: for the object
`{ valueOf: function() { return 7 } }` whose inherited `toString` returns a String,
`njs_vmcode_addition` of 1 and the object returns `NJS_TRAP_STRINGS`, the conversion calls
`toString` only (index 1 of `names`), and the result is the String `1[object Object]`, not the
Number 8. -/
theorem njs_addition_number_object_string :
    njs_vmcode_addition njs_example_lib njs_example_sizes
      (njs_example_vm njs_example_heap_value_of [true]) (njs_example_number 1)
      (njs_example_object 1) =
      some (NJS_TRAP_STRINGS, njs_example_vm njs_example_heap_value_of [true]) ∧
    (njs_vmcode_interpreter_trap njs_example_lib njs_example_function_lib 16
      (njs_vmcode_addition njs_example_lib njs_example_sizes)
      (njs_example_vm njs_example_heap_value_of [true]) NJS_TRAP_STRINGS
      (njs_example_number 1) (njs_example_object 1)).map
        (fun r => (r.1, r.2.1.retval, r.2.2)) =
      some (njs_example_sizes.addr3,
        ⟨NJS_STRING, true, .string ⟨"1[object Object]".data.map Char.toNat, 16⟩⟩, [1]) ∧
    (⟨NJS_STRING, true, .string ⟨"1[object Object]".data.map Char.toNat, 16⟩⟩ : njs_value_t) ≠
      njs_number_set_double (.fin 8) := by
  decide

set_option maxRecDepth 20000 in
/-- Instance of claim C15: for the object `{ valueOf: function() { return 7 } }` with the
inherited `toString`, `1 + o` is the String `1[object Object]`, and only `toString` is
called. -/
theorem njs_addition_number_object_witness :
    ∃ vmC, njs_vmcode_interpreter_trap njs_example_lib njs_example_function_lib 16
        (njs_vmcode_addition njs_example_lib njs_example_sizes)
        (njs_example_vm njs_example_heap_value_of [true]) NJS_TRAP_STRINGS
        (njs_example_number 1) (njs_example_object 1) =
        some (njs_example_sizes.addr3, vmC, [1]) ∧
      vmC.retval.type = NJS_STRING ∧
      njs_string_bytes vmC.retval =
        njs_string_bytes ⟨NJS_STRING, true, .string ⟨[49], 1⟩⟩ ++
          njs_string_bytes (njs_string "[object Object]") :=
  (njs_addition_number_object njs_example_lib njs_example_function_lib njs_example_sizes 16
    (njs_example_vm njs_example_heap_value_of [true])
    (njs_example_vm njs_example_heap_value_of [true])
    (njs_example_vm njs_example_heap_value_of [true])
    { njs_example_vm njs_example_heap_value_of [true] with
      exception := some njs_exception_type_error, retval := njs_string "[object Object]" }
    (njs_example_number 1) (njs_example_object 1) ⟨NJS_STRING, true, .string ⟨[49], 1⟩⟩ 1
    ⟨0, false, [njs_value_void, njs_value_void, njs_value_void]⟩
    ⟨njs_string "toString", ⟨NJS_FUNCTION, true, .object 2⟩, NJS_METHOD, false, true, true⟩
    rfl (by decide) rfl rfl (by decide) rfl (by decide) (by decide) (by decide) rfl
    (by decide) ⟨1, [], by decide, rfl⟩).2

theorem njs_integer_value_lt (num : njs_double) : njs_integer_value num < 4294967296 := by
  simp only [njs_integer_value, njs_uint32]
  omega

theorem njs_int32_range (i : Int) : -2147483648 ≤ njs_int32 i ∧ njs_int32 i < 2147483648 := by
  unfold njs_int32
  omega

theorem njs_int32_mod32 (u : Nat) : (njs_int32 (u : Int) % 32).toNat = u % 32 := by
  unfold njs_int32
  omega

/-- The integer conversion of a number that is an integer: the integer modulo 2^32. -/
theorem njs_integer_value_int (c : Int) :
    ((njs_integer_value (.fin (c : ℚ)) : Nat) : Int) = c % 4294967296 := by
  have hu : ∀ i : Int, ((njs_uint32 i : Nat) : Int) = i % 4294967296 := by
    intro i
    unfold njs_uint32
    omega
  have hti : ∀ i : Int, njs_trunc (i : ℚ) = i := by
    intro i
    simp [njs_trunc]
  have hmod : ∀ k : Int, (c - k * 4294967296) % 4294967296 = c % 4294967296 := by
    intro k
    omega
  have hr : ∀ k : Int, -4294967296 < c - k * 4294967296 → c - k * 4294967296 < 4294967296 →
      ((njs_uint32 (njs_double_to_int64 (.fin ((c : ℚ) - (k : ℚ) * 4294967296))) : Nat) : Int)
        = c % 4294967296 := by
    intro k h1 h2
    have hc : ((c : ℚ) - (k : ℚ) * 4294967296) = ((c - k * 4294967296 : Int) : ℚ) := by
      push_cast; ring
    have ht2 : njs_trunc ((c : ℚ) - (k : ℚ) * 4294967296) = c - k * 4294967296 := by
      rw [hc]
      exact hti _
    have hin : -9223372036854775808 ≤ c - k * 4294967296 ∧
        c - k * 4294967296 < 9223372036854775808 := by omega
    simp only [njs_double_to_int64, ht2, hin, and_self, if_true, hu]
    exact hmod k
  by_cases h0 : (c : ℚ) < 0
  · have hcond : (njs_double_lt (.fin (c : ℚ)) (.fin 0) ||
        njs_double_lt (.fin 9007199254740992) (.fin (c : ℚ))) = true := by
      simp [njs_double_lt, h0]
    simp only [njs_integer_value, hcond, if_true, njs_fmod,
      show ¬ ((4294967296 : ℚ) = 0) by norm_num, if_false]
    set k := njs_trunc ((c : ℚ) / 4294967296) with hk
    have hkc : k = ⌈(c : ℚ) / 4294967296⌉ :=
      njs_trunc_nonpos (div_nonpos_of_nonpos_of_nonneg (le_of_lt h0) (by norm_num))
    have hr1 : (c : ℚ) - (k : ℚ) * 4294967296 ≤ 0 := by
      have := Int.le_ceil ((c : ℚ) / 4294967296)
      rw [← hkc] at this
      have h2 : (c : ℚ) ≤ (k : ℚ) * 4294967296 := by
        rwa [div_le_iff₀ (by norm_num : (0 : ℚ) < 4294967296)] at this
      linarith
    have hr2 : -4294967296 < (c : ℚ) - (k : ℚ) * 4294967296 := by
      have := Int.ceil_lt_add_one ((c : ℚ) / 4294967296)
      rw [← hkc] at this
      have h3 : (k : ℚ) - 1 < (c : ℚ) / 4294967296 := by linarith
      rw [lt_div_iff₀ (by norm_num : (0 : ℚ) < 4294967296)] at h3
      linarith
    have hr1i : c - k * 4294967296 ≤ 0 := by exact_mod_cast hr1
    have hr2i : -4294967296 < c - k * 4294967296 := by exact_mod_cast hr2
    exact hr k hr2i (by omega)
  · by_cases h1 : 9007199254740992 < (c : ℚ)
    · have hq0 : 0 ≤ (c : ℚ) := le_of_lt (lt_trans (by norm_num) h1)
      have hcond : (njs_double_lt (.fin (c : ℚ)) (.fin 0) ||
          njs_double_lt (.fin 9007199254740992) (.fin (c : ℚ))) = true := by
        simp [njs_double_lt, h1]
      simp only [njs_integer_value, hcond, if_true, njs_fmod,
        show ¬ ((4294967296 : ℚ) = 0) by norm_num, if_false]
      set k := njs_trunc ((c : ℚ) / 4294967296) with hk
      have hkc : k = ⌊(c : ℚ) / 4294967296⌋ :=
        njs_trunc_nonneg (div_nonneg hq0 (by norm_num))
      have hr1 : 0 ≤ (c : ℚ) - (k : ℚ) * 4294967296 := by
        have := Int.floor_le ((c : ℚ) / 4294967296)
        rw [← hkc] at this
        have h2 : (k : ℚ) * 4294967296 ≤ (c : ℚ) := by
          rwa [le_div_iff₀ (by norm_num : (0 : ℚ) < 4294967296)] at this
        linarith
      have hr2 : (c : ℚ) - (k : ℚ) * 4294967296 < 4294967296 := by
        have := Int.lt_floor_add_one ((c : ℚ) / 4294967296)
        rw [← hkc] at this
        rw [div_lt_iff₀ (by norm_num : (0 : ℚ) < 4294967296)] at this
        linarith
      have hr1i : 0 ≤ c - k * 4294967296 := by exact_mod_cast hr1
      have hr2i : c - k * 4294967296 < 4294967296 := by exact_mod_cast hr2
      exact hr k (by omega) hr2i
    · have hcond : (njs_double_lt (.fin (c : ℚ)) (.fin 0) ||
          njs_double_lt (.fin 9007199254740992) (.fin (c : ℚ))) = false := by
        simp [njs_double_lt, h0, h1]
      have hc0 : (0 : Int) ≤ c := by
        have : (0 : ℚ) ≤ (c : ℚ) := not_lt.mp h0
        exact_mod_cast this
      have hc1 : c ≤ 9007199254740992 := by
        have : (c : ℚ) ≤ 9007199254740992 := not_lt.mp h1
        exact_mod_cast this
      have hin : -9223372036854775808 ≤ c ∧ c < 9223372036854775808 := by omega
      simp only [njs_integer_value, hcond, Bool.false_eq_true, if_false, njs_double_to_int64,
        hti, hin, and_self, if_true, hu]

/-- The three shift operations on two numeric operands with the numbers `a` and `b`. -/
theorem njs_vmcode_shift_eval (sz : njs_vmcode_sizes) (vm : njs_vm_t)
    (val1 val2 : njs_value_t) (a b : njs_double)
    (h1 : njs_is_numeric val1 = true) (h2 : njs_is_numeric val2 = true)
    (hu1 : val1.u = .number a) (hu2 : val2.u = .number b) :
    njs_vmcode_left_shift sz vm val1 val2 =
      some (sz.addr3, { vm with retval := (njs_number_set_int
        (njs_int32 (njs_int32 (njs_integer_value a) * 2 ^ (njs_integer_value b % 32)))) }) ∧
    njs_vmcode_right_shift sz vm val1 val2 =
      some (sz.addr3, { vm with retval := (njs_number_set_int
        (njs_int32 (njs_integer_value a) / 2 ^ (njs_integer_value b % 32))) }) ∧
    njs_vmcode_unsigned_right_shift sz vm val1 val2 =
      some (sz.addr3, { vm with retval := (njs_number_set_int
        ((njs_integer_value a / 2 ^ (njs_integer_value b % 32) : Nat) : Int)) }) := by
  refine ⟨?_, ?_, ?_⟩
  · simp [njs_vmcode_left_shift, njs_vmcode_numbers, h1, h2, hu1, hu2]
  · simp [njs_vmcode_right_shift, njs_vmcode_numbers, h1, h2, hu1, hu2]
  · simp only [njs_vmcode_unsigned_right_shift, njs_vmcode_numbers, h1, h2, hu1, hu2,
      Bool.and_self, if_true, njs_int32_mod32]

/-- Claim C21: for numeric operands the three shift operations return the advance of the
instruction with a Number in `vm.retval` that lies in `[-2^31, 2^31)` for the left shift and
the signed right shift and in `[0, 2^32)` for the unsigned right shift; two counts whose
integer conversions (`njs_integer_value`) agree in their low five bits give the same result,
and so do the integer counts `c` and `c + 32`. -/
theorem njs_shift_count_low_five_bits (sz : njs_vmcode_sizes) (vm : njs_vm_t)
    (val1 val2 val3 : njs_value_t) (a b b' : njs_double)
    (h1 : njs_is_numeric val1 = true) (h2 : njs_is_numeric val2 = true)
    (h3 : njs_is_numeric val3 = true)
    (hu1 : val1.u = .number a) (hu2 : val2.u = .number b) (hu3 : val3.u = .number b') :
    (∃ n : Int, njs_vmcode_left_shift sz vm val1 val2 =
        some (sz.addr3, { vm with retval := njs_number_set_int n }) ∧
      -2147483648 ≤ n ∧ n < 2147483648) ∧
    (∃ n : Int, njs_vmcode_right_shift sz vm val1 val2 =
        some (sz.addr3, { vm with retval := njs_number_set_int n }) ∧
      -2147483648 ≤ n ∧ n < 2147483648) ∧
    (∃ n : Int, njs_vmcode_unsigned_right_shift sz vm val1 val2 =
        some (sz.addr3, { vm with retval := njs_number_set_int n }) ∧
      0 ≤ n ∧ n < 4294967296) ∧
    (njs_integer_value b' % 32 = njs_integer_value b % 32 →
      njs_vmcode_left_shift sz vm val1 val3 = njs_vmcode_left_shift sz vm val1 val2 ∧
      njs_vmcode_right_shift sz vm val1 val3 = njs_vmcode_right_shift sz vm val1 val2 ∧
      njs_vmcode_unsigned_right_shift sz vm val1 val3 =
        njs_vmcode_unsigned_right_shift sz vm val1 val2) ∧
    (∀ c : Int, b = .fin (c : ℚ) → b' = .fin ((c + 32 : Int) : ℚ) →
      njs_vmcode_left_shift sz vm val1 val3 = njs_vmcode_left_shift sz vm val1 val2 ∧
      njs_vmcode_right_shift sz vm val1 val3 = njs_vmcode_right_shift sz vm val1 val2 ∧
      njs_vmcode_unsigned_right_shift sz vm val1 val3 =
        njs_vmcode_unsigned_right_shift sz vm val1 val2) := by
  obtain ⟨e1, e2, e3⟩ := njs_vmcode_shift_eval sz vm val1 val2 a b h1 h2 hu1 hu2
  obtain ⟨f1, f2, f3⟩ := njs_vmcode_shift_eval sz vm val1 val3 a b' h1 h3 hu1 hu3
  have hmask : njs_integer_value b' % 32 = njs_integer_value b % 32 →
      njs_vmcode_left_shift sz vm val1 val3 = njs_vmcode_left_shift sz vm val1 val2 ∧
      njs_vmcode_right_shift sz vm val1 val3 = njs_vmcode_right_shift sz vm val1 val2 ∧
      njs_vmcode_unsigned_right_shift sz vm val1 val3 =
        njs_vmcode_unsigned_right_shift sz vm val1 val2 := by
    intro h
    rw [e1, e2, e3, f1, f2, f3, h]
    exact ⟨rfl, rfl, rfl⟩
  have hpos : ∀ k : Nat, (0 : Int) < 2 ^ k := fun k => by positivity
  refine ⟨⟨_, e1, njs_int32_range _⟩, ⟨_, e2, ?_, ?_⟩, ⟨_, e3, ?_, ?_⟩, hmask, ?_⟩
  · have hr := (njs_int32_range (njs_integer_value a)).1
    have hp := hpos (njs_integer_value b % 32)
    rw [Int.le_ediv_iff_mul_le hp]
    generalize (2 : Int) ^ (njs_integer_value b % 32) = d at hp
    generalize njs_int32 (njs_integer_value a) = x at hr
    omega
  · have hr := (njs_int32_range (njs_integer_value a)).2
    have hp := hpos (njs_integer_value b % 32)
    apply Int.ediv_lt_of_lt_mul hp
    generalize (2 : Int) ^ (njs_integer_value b % 32) = d at hp
    generalize njs_int32 (njs_integer_value a) = x at hr
    omega
  · exact Int.ofNat_nonneg _
  · have hlt := njs_integer_value_lt a
    have hle := Nat.div_le_self (njs_integer_value a) (2 ^ (njs_integer_value b % 32))
    omega
  · intro c hb hb'
    apply hmask
    have i1 := njs_integer_value_int c
    have i2 := njs_integer_value_int (c + 32)
    rw [hb, hb']
    omega

set_option maxRecDepth 20000 in
/-- Instance of claim C21: `1 << 32`, `1 >> 32` and `1 >>> 32` are 1, as with the count 0. -/
theorem njs_shift_count_low_five_bits_witness :
    njs_vmcode_left_shift njs_example_sizes (njs_example_vm [] [])
      (njs_example_number 1) (njs_example_number 32) =
      some (40, { njs_example_vm [] [] with retval := njs_number_set_int 1 }) ∧
    njs_vmcode_right_shift njs_example_sizes (njs_example_vm [] [])
      (njs_example_number 1) (njs_example_number 32) =
      some (40, { njs_example_vm [] [] with retval := njs_number_set_int 1 }) ∧
    njs_vmcode_unsigned_right_shift njs_example_sizes (njs_example_vm [] [])
      (njs_example_number 1) (njs_example_number 32) =
      some (40, { njs_example_vm [] [] with retval := njs_number_set_int 1 }) := by
  have h := (njs_shift_count_low_five_bits njs_example_sizes (njs_example_vm [] [])
    (njs_example_number 1) (njs_example_number 0) (njs_example_number 32)
    (.fin (Rat.ofInt 1)) (.fin (Rat.ofInt 0)) (.fin (Rat.ofInt 32))
    rfl rfl rfl rfl rfl rfl).2.2.2.2 0 rfl rfl
  have e1 : njs_vmcode_left_shift njs_example_sizes (njs_example_vm [] [])
      (njs_example_number 1) (njs_example_number 0) =
      some (40, { njs_example_vm [] [] with retval := njs_number_set_int 1 }) := by decide
  have e2 : njs_vmcode_right_shift njs_example_sizes (njs_example_vm [] [])
      (njs_example_number 1) (njs_example_number 0) =
      some (40, { njs_example_vm [] [] with retval := njs_number_set_int 1 }) := by decide
  have e3 : njs_vmcode_unsigned_right_shift njs_example_sizes (njs_example_vm [] [])
      (njs_example_number 1) (njs_example_number 0) =
      some (40, { njs_example_vm [] [] with retval := njs_number_set_int 1 }) := by decide
  rw [e1, e2, e3] at h
  exact h

/-- Claim C24: for a numeric operand carrying the number `n`, `njs_vmcode_post_increment` sets
`vm.retval` to the Number `n` and stores the Number `n + 1` in the reference,
`njs_vmcode_post_decrement` sets `vm.retval` to the Number `n` and stores `n - 1`, and
`njs_vmcode_increment` and `njs_vmcode_decrement` set both the reference and `vm.retval` to
the updated Number; for an operand that is not numeric all four return `NJS_TRAP_INCDEC` and
leave the reference and `vm.retval` unchanged. -/
theorem njs_incdec_scalar (lib : njs_lib_t) (sz : njs_vmcode_sizes) (vm : njs_vm_t)
    (reference value : njs_value_t) :
    (∀ n, njs_is_numeric value = true → value.u = .number n →
      njs_vmcode_post_increment lib sz vm reference value =
        some (sz.addr3, { vm with retval := njs_number_set_double n },
          njs_number_set_double (lib.double_add n (.fin 1))) ∧
      njs_vmcode_post_decrement lib sz vm reference value =
        some (sz.addr3, { vm with retval := njs_number_set_double n },
          njs_number_set_double (lib.double_sub n (.fin 1))) ∧
      njs_vmcode_increment lib sz vm reference value =
        some (sz.addr3, { vm with retval := njs_number_set_double (lib.double_add n (.fin 1)) },
          njs_number_set_double (lib.double_add n (.fin 1))) ∧
      njs_vmcode_decrement lib sz vm reference value =
        some (sz.addr3, { vm with retval := njs_number_set_double (lib.double_sub n (.fin 1)) },
          njs_number_set_double (lib.double_sub n (.fin 1)))) ∧
    (njs_is_numeric value = false →
      njs_vmcode_post_increment lib sz vm reference value =
        some (NJS_TRAP_INCDEC, vm, reference) ∧
      njs_vmcode_post_decrement lib sz vm reference value =
        some (NJS_TRAP_INCDEC, vm, reference) ∧
      njs_vmcode_increment lib sz vm reference value = some (NJS_TRAP_INCDEC, vm, reference) ∧
      njs_vmcode_decrement lib sz vm reference value =
        some (NJS_TRAP_INCDEC, vm, reference)) := by
  constructor
  · intro n hn hu
    simp [njs_vmcode_post_increment, njs_vmcode_post_decrement, njs_vmcode_increment,
      njs_vmcode_decrement, hn, hu]
  · intro hn
    simp [njs_vmcode_post_increment, njs_vmcode_post_decrement, njs_vmcode_increment,
      njs_vmcode_decrement, hn]

set_option maxRecDepth 20000 in
/-- Instance of claim C24: the post-increment of 7 leaves 7 in `vm.retval` and 8 in the
reference, the decrement of 7 leaves 6 in both, and the increment of the String `"7"` returns
`NJS_TRAP_INCDEC`. -/
theorem njs_incdec_scalar_witness :
    njs_vmcode_post_increment njs_example_lib njs_example_sizes (njs_example_vm [] [])
      (njs_example_number 7) (njs_example_number 7) =
      some (40, { njs_example_vm [] [] with retval := njs_example_number 7 },
        njs_example_number 8) ∧
    njs_vmcode_decrement njs_example_lib njs_example_sizes (njs_example_vm [] [])
      (njs_example_number 7) (njs_example_number 7) =
      some (40, { njs_example_vm [] [] with retval := njs_example_number 6 },
        njs_example_number 6) ∧
    njs_vmcode_increment njs_example_lib njs_example_sizes (njs_example_vm [] [])
      (njs_string "7") (njs_string "7") =
      some (NJS_TRAP_INCDEC, njs_example_vm [] [], njs_string "7") := by
  have h := njs_incdec_scalar njs_example_lib njs_example_sizes (njs_example_vm [] [])
    (njs_example_number 7) (njs_example_number 7)
  have h2 := njs_incdec_scalar njs_example_lib njs_example_sizes (njs_example_vm [] [])
    (njs_string "7") (njs_string "7")
  obtain ⟨a, _, _, d⟩ := h.1 (.fin (Rat.ofInt 7)) (by decide) rfl
  refine ⟨?_, ?_, (h2.2 (by decide)).2.2.1⟩
  · rw [a]
    simp [njs_example_lib, njs_number_set_double, njs_example_number, njs_is_number_true,
      njs_example_sizes, Rat.ofInt_eq_cast]
    norm_num
  · rw [d]
    simp [njs_example_lib, njs_number_set_double, njs_example_number, njs_is_number_true,
      njs_example_sizes, Rat.ofInt_eq_cast]
    norm_num

/-- Every row of the table of `njs_vmcode_typeof` is a String. -/
theorem njs_vmcode_typeof_types_string (i : Nat) (h : i < 15) :
    ∃ r, njs_vmcode_typeof_types[i]? = some r ∧ r.type = NJS_STRING := by
  have h15 : ∀ j : Fin 15, ∃ r, njs_vmcode_typeof_types[j.val]? = some r ∧
      r.type = NJS_STRING := by
    intro j
    fin_cases j <;> exact ⟨_, rfl, rfl⟩
  exact h15 ⟨i, h⟩

/-- Claim C23: for every value `X` of any tag, `njs_vmcode_typeof` returns the advance of the
instruction with a String in `vm.retval`, and `njs_vmcode_typeof` of that String yields
`"string"`.  The numbers of the tags are a parameter: every tag has a row in the table and the
tag String has the row 4. -/
theorem njs_typeof_typeof_string (code : njs_value_type_t → Nat) (addr2 : Int)
    (vm : njs_vm_t) (value : njs_value_t)
    (hcode : ∀ t, code t < 15) (hstring : code NJS_STRING = 4) :
    ∃ r, njs_vmcode_typeof code addr2 vm value = some (addr2, { vm with retval := r }) ∧
      r.type = NJS_STRING ∧
      ∀ vm1, njs_vmcode_typeof code addr2 vm1 r =
        some (addr2, { vm1 with retval := njs_string_string }) := by
  obtain ⟨r, hr, ht⟩ := njs_vmcode_typeof_types_string (code value.type) (hcode value.type)
  refine ⟨r, ?_, ht, ?_⟩
  · simp only [njs_vmcode_typeof, hr]
  · intro vm1
    simp only [njs_vmcode_typeof, ht, hstring]
    rfl

set_option maxRecDepth 20000 in
/-- Instance of claim C23: `typeof 7` is a String and `typeof` of it is `"string"`. -/
theorem njs_typeof_typeof_string_witness :
    ∃ r, njs_vmcode_typeof njs_example_type_code 16 (njs_example_vm [] [])
        (njs_example_number 7) = some (16, { njs_example_vm [] [] with retval := r }) ∧
      r.type = NJS_STRING ∧
      ∀ vm1, njs_vmcode_typeof njs_example_type_code 16 vm1 r =
        some (16, { vm1 with retval := njs_string_string }) :=
  njs_typeof_typeof_string njs_example_type_code 16 (njs_example_vm [] [])
    (njs_example_number 7) (by intro t; cases t <;> decide) rfl

/-- Claim C25 (amended): in `njs_vmcode_interpreter` a return code `ret` with
`NJS_PASS <= ret < 0` is not a jump offset: the inner dispatch loop is left with `vm.current`
unchanged and the code is served as a trap or as `NXT_ERROR`, or returned to the embedder; a
return code that is not negative or is below `NJS_PASS` is added to `vm.current`, the result
slot of the instruction is written when it has one, and the dispatch goes on with the
instruction there without leaving the inner loop. -/
theorem njs_interpreter_pass_range (host : njs_vmcode_host_t)
    (code : Int → Option njs_vmcode_generic_t) (s s1 : njs_vm_state_t)
    (vmcode : njs_vmcode_generic_t) (ret : njs_ret_t)
    (hcode : code s.current = some vmcode)
    (hop : vmcode.operation s (njs_vmcode_interpreter_value1 host s vmcode)
      (njs_vmcode_interpreter_value2 host s vmcode) = some (ret, s1)) :
    (host.NJS_PASS ≤ ret → ret < 0 →
      njs_vmcode_interpreter_round host code s =
        some (.leave ret s1 (njs_vmcode_interpreter_value1 host s vmcode)
          (njs_vmcode_interpreter_value2 host s vmcode)) ∧
      njs_vmcode_interpreter_step host code s =
        njs_vmcode_interpreter_leave host ret s1 (njs_vmcode_interpreter_value1 host s vmcode)
          (njs_vmcode_interpreter_value2 host s vmcode) ∧
      (ret ≠ NXT_ERROR → ret ≠ NJS_TRAP_NUMBER → ret ≠ NJS_TRAP_NUMBERS →
        ret ≠ NJS_TRAP_STRINGS → ret ≠ NJS_TRAP_INCDEC → ret ≠ NJS_TRAP_PROPERTY →
        njs_vmcode_interpreter_step host code s = some (.returned ret s1))) ∧
    (ret < host.NJS_PASS ∨ 0 ≤ ret → vmcode.retval = false →
      njs_vmcode_interpreter_round host code s =
        some (.next { s1 with current := s1.current + ret }) ∧
      njs_vmcode_interpreter_step host code s =
        some (.again { s1 with current := s1.current + ret })) ∧
    (ret < host.NJS_PASS ∨ 0 ≤ ret → vmcode.retval = true →
      host.njs_vmcode_operand s1.scopes vmcode.operand1 < s1.values.length →
      njs_vmcode_interpreter_round host code s =
        some (.next { s1 with current := s1.current + ret,
                              values := s1.values.set
                                (host.njs_vmcode_operand s1.scopes vmcode.operand1)
                                s1.vm.retval }) ∧
      njs_vmcode_interpreter_step host code s =
        some (.again { s1 with current := s1.current + ret,
                               values := s1.values.set
                                 (host.njs_vmcode_operand s1.scopes vmcode.operand1)
                                 s1.vm.retval })) := by
  refine ⟨?_, ?_, ?_⟩
  · intro h1 h2
    have hr : njs_vmcode_interpreter_round host code s =
        some (.leave ret s1 (njs_vmcode_interpreter_value1 host s vmcode)
          (njs_vmcode_interpreter_value2 host s vmcode)) := by
      simp only [njs_vmcode_interpreter_round, hcode, hop]
      rw [if_pos ⟨h2, h1⟩]
    refine ⟨hr, ?_, ?_⟩
    · simp only [njs_vmcode_interpreter_step, hr]
    · intro e1 e2 e3 e4 e5 e6
      simp only [njs_vmcode_interpreter_step, hr, njs_vmcode_interpreter_leave, e1, e2, e3, e4,
        e5, e6, or_self, if_false]
  · intro h hv
    have hn : ¬ (ret < 0 ∧ host.NJS_PASS ≤ ret) := by
      rintro ⟨a, b⟩
      rcases h with h | h
      · exact absurd b (not_le.mpr h)
      · exact absurd a (not_lt.mpr h)
    have hr : njs_vmcode_interpreter_round host code s =
        some (.next { s1 with current := s1.current + ret }) := by
      simp only [njs_vmcode_interpreter_round, hcode, hop]
      rw [if_neg hn]
      simp [hv]
    exact ⟨hr, by simp only [njs_vmcode_interpreter_step, hr]⟩
  · intro h hv hlen
    have hn : ¬ (ret < 0 ∧ host.NJS_PASS ≤ ret) := by
      rintro ⟨a, b⟩
      rcases h with h | h
      · exact absurd b (not_le.mpr h)
      · exact absurd a (not_lt.mpr h)
    have hr : njs_vmcode_interpreter_round host code s =
        some (.next { s1 with current := s1.current + ret,
                              values := s1.values.set
                                (host.njs_vmcode_operand s1.scopes vmcode.operand1)
                                s1.vm.retval }) := by
      simp only [njs_vmcode_interpreter_round, hcode, hop]
      rw [if_neg hn]
      simp [hv, hlen]
    exact ⟨hr, by simp only [njs_vmcode_interpreter_step, hr]⟩

set_option maxRecDepth 20000 in
/-- Counterexample to claim C25 as stated: with `NJS_PASS` -10, the instruction
`njs_vmcode_throw` at the address 32 returns -1, a code with `NJS_PASS <= ret < 0`; the inner
loop is left with `vm.current` still 32, the round is not a continued dispatch, and the
interpreter returns `NXT_ERROR` to the embedder. -/
theorem njs_interpreter_error_code_leaves :
    njs_example_vmcode_host.NJS_PASS ≤ NXT_ERROR ∧ NXT_ERROR < 0 ∧
    njs_vmcode_throw njs_example_vmcode_host
      (njs_example_state 32 [njs_example_frame ⟨[], none⟩]) 3 =
      some (NXT_ERROR, { njs_example_state 32 [njs_example_frame ⟨[], none⟩] with
        vm := { njs_example_vm [] [true, true, true] with retval := njs_example_number 12 } }) ∧
    njs_vmcode_interpreter_round njs_example_vmcode_host njs_example_code_jump
      (njs_example_state 32 [njs_example_frame ⟨[], none⟩]) =
      some (.leave NXT_ERROR { njs_example_state 32 [njs_example_frame ⟨[], none⟩] with
        vm := { njs_example_vm [] [true, true, true] with retval := njs_example_number 12 } }
        none 3) ∧
    (∀ s2, njs_vmcode_interpreter_round njs_example_vmcode_host njs_example_code_jump
      (njs_example_state 32 [njs_example_frame ⟨[], none⟩]) ≠ some (.next s2)) ∧
    njs_vmcode_interpreter_step njs_example_vmcode_host njs_example_code_jump
      (njs_example_state 32 [njs_example_frame ⟨[], none⟩]) =
      some (.returned NXT_ERROR { njs_example_state 32 [njs_example_frame ⟨[], none⟩] with
        vm := { njs_example_vm [] [true, true, true] with
          retval := njs_example_number 12 } }) := by
  have hr : njs_vmcode_interpreter_round njs_example_vmcode_host njs_example_code_jump
      (njs_example_state 32 [njs_example_frame ⟨[], none⟩]) =
      some (.leave NXT_ERROR { njs_example_state 32 [njs_example_frame ⟨[], none⟩] with
        vm := { njs_example_vm [] [true, true, true] with retval := njs_example_number 12 } }
        none 3) := by decide
  refine ⟨by decide, by decide, by decide, hr, ?_, by decide⟩
  intro s2 h
  rw [hr] at h
  cases h

set_option maxRecDepth 20000 in
/-- Instance of claim C25 (amended): with `NJS_PASS` -10, a jump by -32 from the address 64
goes on at the address 32 within the inner loop, and the code -1 of a throw leaves the
loop. -/
theorem njs_interpreter_pass_range_witness :
    njs_vmcode_interpreter_step njs_example_vmcode_host njs_example_code_jump
      (njs_example_state 64 [njs_example_frame ⟨[], none⟩]) =
      some (.again (njs_example_state 32 [njs_example_frame ⟨[], none⟩])) ∧
    njs_vmcode_interpreter_round njs_example_vmcode_host njs_example_code_jump
      (njs_example_state 32 [njs_example_frame ⟨[], none⟩]) =
      some (.leave NXT_ERROR { njs_example_state 32 [njs_example_frame ⟨[], none⟩] with
        vm := { njs_example_vm [] [true, true, true] with retval := njs_example_number 12 } }
        none 3) :=
  ⟨((njs_interpreter_pass_range njs_example_vmcode_host njs_example_code_jump
      (njs_example_state 64 [njs_example_frame ⟨[], none⟩])
      (njs_example_state 64 [njs_example_frame ⟨[], none⟩])
      (njs_code_jump (-32)) (-32) rfl rfl).2.1 (Or.inl (by decide)) rfl).2,
   ((njs_interpreter_pass_range njs_example_vmcode_host njs_example_code_jump
      (njs_example_state 32 [njs_example_frame ⟨[], none⟩])
      { njs_example_state 32 [njs_example_frame ⟨[], none⟩] with
        vm := { njs_example_vm [] [true, true, true] with retval := njs_example_number 12 } }
      (njs_code_throw njs_example_vmcode_host 3) NXT_ERROR rfl (by decide)).1
      (by decide) (by decide)).1⟩

/-- One turn of the error loop at a frame without a handler that has a caller. -/
theorem njs_vmcode_interpreter_unwind_cons (f previous : njs_frame_t)
    (rest : List njs_frame_t) (scopes : njs_scopes_t) (hf : f.exception.catch_ = none) :
    njs_vmcode_interpreter_unwind (f :: previous :: rest) scopes =
      njs_vmcode_interpreter_unwind (previous :: rest)
        { scopes with NJS_SCOPE_CALLEE_ARGUMENTS := previous.arguments,
                      NJS_SCOPE_LOCAL := f.prev_local,
                      NJS_SCOPE_ARGUMENTS := f.prev_arguments } := by
  conv_lhs => rw [njs_vmcode_interpreter_unwind]
  simp only [hf]

/-- The search of the error loop over frames without a handler. -/
theorem njs_vmcode_interpreter_unwind_append (pre : List njs_frame_t) (frame : njs_frame_t)
    (post : List njs_frame_t) (hpre : ∀ f ∈ pre, f.exception.catch_ = none) :
    ∀ scopes, njs_vmcode_interpreter_unwind (pre ++ frame :: post) scopes =
      njs_vmcode_interpreter_unwind (frame :: post) (njs_unwind_scopes pre frame scopes) := by
  induction pre with
  | nil => intro scopes; rfl
  | cons f pre ih =>
    intro scopes
    have hf : f.exception.catch_ = none := hpre f (List.mem_cons_self _ _)
    have hrest : ∀ g ∈ pre, g.exception.catch_ = none :=
      fun g hg => hpre g (List.mem_cons_of_mem _ hg)
    cases pre with
    | nil =>
      exact njs_vmcode_interpreter_unwind_cons f frame post scopes hf
    | cons g pre1 =>
      have h1 : njs_vmcode_interpreter_unwind (f :: g :: pre1 ++ frame :: post) scopes =
          njs_vmcode_interpreter_unwind (g :: pre1 ++ frame :: post)
            { scopes with NJS_SCOPE_CALLEE_ARGUMENTS := g.arguments,
                          NJS_SCOPE_LOCAL := f.prev_local,
                          NJS_SCOPE_ARGUMENTS := f.prev_arguments } :=
        njs_vmcode_interpreter_unwind_cons f g (pre1 ++ frame :: post) scopes hf
      rw [h1, ih hrest]
      rfl

/-- Claim C26: on `NXT_ERROR` the interpreter, searching from `vm.frame` outwards along the
`previous` links, resumes at the catch address of the innermost frame that has a handler,
with that frame as `vm.frame` and the scope bases Local, Arguments and CalleeArguments
restored from the discarded frames (Local and Arguments as saved in the last discarded frame,
CalleeArguments the arguments base of the frame reached; Global is untouched); when no frame
of the chain has a handler it returns `NXT_ERROR` to the embedder from the outermost frame;
and the search gives a result for every finite chain that is not empty. -/
theorem njs_interpreter_error_unwind (host : njs_vmcode_host_t) (s : njs_vm_state_t)
    (value1 : Option Nat) (value2 : Int)
    (pre : List njs_frame_t) (frame : njs_frame_t) (post : List njs_frame_t)
    (hchain : s.frame = pre ++ frame :: post)
    (hpre : ∀ f ∈ pre, f.exception.catch_ = none) :
    (∀ c, frame.exception.catch_ = some c →
      njs_vmcode_interpreter_unwind s.frame s.scopes =
        some (some c, frame :: post, njs_unwind_scopes pre frame s.scopes) ∧
      njs_vmcode_interpreter_leave host NXT_ERROR s value1 value2 =
        some (.again { s with current := c, frame := frame :: post,
                              scopes := njs_unwind_scopes pre frame s.scopes })) ∧
    (frame.exception.catch_ = none → post = [] →
      njs_vmcode_interpreter_unwind s.frame s.scopes =
        some (none, [frame], njs_unwind_scopes pre frame s.scopes) ∧
      njs_vmcode_interpreter_leave host NXT_ERROR s value1 value2 =
        some (.returned NXT_ERROR { s with frame := [frame],
                                           scopes := njs_unwind_scopes pre frame s.scopes })) ∧
    (njs_unwind_scopes pre frame s.scopes).NJS_SCOPE_GLOBAL = s.scopes.NJS_SCOPE_GLOBAL ∧
    (∀ (chain : List njs_frame_t) (scopes : njs_scopes_t), chain ≠ [] →
      ∃ r, njs_vmcode_interpreter_unwind chain scopes = some r) := by
  have e1 : ¬ (NXT_ERROR = NJS_TRAP_NUMBER ∨ NXT_ERROR = NJS_TRAP_NUMBERS ∨
      NXT_ERROR = NJS_TRAP_STRINGS ∨ NXT_ERROR = NJS_TRAP_INCDEC ∨
      NXT_ERROR = NJS_TRAP_PROPERTY) := by decide
  have hun := njs_vmcode_interpreter_unwind_append pre frame post hpre s.scopes
  rw [← hchain] at hun
  refine ⟨?_, ?_, ?_, ?_⟩
  · intro c hc
    have h1 : njs_vmcode_interpreter_unwind s.frame s.scopes =
        some (some c, frame :: post, njs_unwind_scopes pre frame s.scopes) := by
      rw [hun]
      simp only [njs_vmcode_interpreter_unwind, hc]
    exact ⟨h1, by simp only [njs_vmcode_interpreter_leave, e1, if_false, if_true, h1]⟩
  · intro hc hpost
    have h1 : njs_vmcode_interpreter_unwind s.frame s.scopes =
        some (none, [frame], njs_unwind_scopes pre frame s.scopes) := by
      rw [hun, hpost]
      simp only [njs_vmcode_interpreter_unwind, hc]
    exact ⟨h1, by simp only [njs_vmcode_interpreter_leave, e1, if_false, if_true, h1]⟩
  · simp only [njs_unwind_scopes]
    cases pre.getLast? <;> rfl
  · intro chain
    induction chain with
    | nil => intro _ h; exact absurd rfl h
    | cons f chain ih =>
      intro scopes _
      cases hc : f.exception.catch_ with
      | some c =>
        exact ⟨(some c, f :: chain, scopes), by simp only [njs_vmcode_interpreter_unwind, hc]⟩
      | none =>
        cases chain with
        | nil =>
          exact ⟨(none, [f], scopes), by simp only [njs_vmcode_interpreter_unwind, hc]⟩
        | cons g rest =>
          rw [njs_vmcode_interpreter_unwind_cons f g rest scopes hc]
          exact ih _ (List.cons_ne_nil _ _)

set_option maxRecDepth 20000 in
/-- Instance of claim C26: from a chain of three frames of which the second has the catch
address 200 the interpreter resumes at 200 with the scope bases 16, 20 and 24, and from a
chain of two frames without a handler it returns `NXT_ERROR`. -/
theorem njs_interpreter_error_unwind_witness :
    njs_vmcode_interpreter_leave njs_example_vmcode_host NXT_ERROR
      (njs_example_state 32
        [⟨⟨[], none⟩, 4, 7, 100, 20, 24, false, false, false⟩,
         ⟨⟨[], some 200⟩, 16, 7, 300, 28, 32, false, false, false⟩,
         ⟨⟨[], some 400⟩, 36, 7, 500, 40, 44, false, false, false⟩]) none 3 =
      some (.again
        { njs_example_state 32 [] with
          current := 200,
          frame := [⟨⟨[], some 200⟩, 16, 7, 300, 28, 32, false, false, false⟩,
                    ⟨⟨[], some 400⟩, 36, 7, 500, 40, 44, false, false, false⟩],
          scopes := ⟨0, 16, 20, 24⟩ }) ∧
    njs_vmcode_interpreter_leave njs_example_vmcode_host NXT_ERROR
      (njs_example_state 32
        [⟨⟨[], none⟩, 4, 7, 100, 20, 24, false, false, false⟩,
         ⟨⟨[], none⟩, 16, 7, 300, 28, 32, false, false, false⟩]) none 3 =
      some (.returned NXT_ERROR
        { njs_example_state 32 [] with
          frame := [⟨⟨[], none⟩, 16, 7, 300, 28, 32, false, false, false⟩],
          scopes := ⟨0, 16, 20, 24⟩ }) :=
  ⟨((njs_interpreter_error_unwind njs_example_vmcode_host
      (njs_example_state 32
        [⟨⟨[], none⟩, 4, 7, 100, 20, 24, false, false, false⟩,
         ⟨⟨[], some 200⟩, 16, 7, 300, 28, 32, false, false, false⟩,
         ⟨⟨[], some 400⟩, 36, 7, 500, 40, 44, false, false, false⟩]) none 3
      [⟨⟨[], none⟩, 4, 7, 100, 20, 24, false, false, false⟩]
      ⟨⟨[], some 200⟩, 16, 7, 300, 28, 32, false, false, false⟩
      [⟨⟨[], some 400⟩, 36, 7, 500, 40, 44, false, false, false⟩]
      rfl (by decide)).1 200 rfl).2,
   ((njs_interpreter_error_unwind njs_example_vmcode_host
      (njs_example_state 32
        [⟨⟨[], none⟩, 4, 7, 100, 20, 24, false, false, false⟩,
         ⟨⟨[], none⟩, 16, 7, 300, 28, 32, false, false, false⟩]) none 3
      [⟨⟨[], none⟩, 4, 7, 100, 20, 24, false, false, false⟩]
      ⟨⟨[], none⟩, 16, 7, 300, 28, 32, false, false, false⟩
      []
      rfl (by decide)).2.1 rfl rfl).2⟩

theorem njs_exception_inv_start (c : Int) (e : njs_exception_t)
    (h : njs_exception_inv e = true) : njs_exception_inv (njs_exception_start c e) = true := by
  obtain ⟨next, catch0⟩ := e
  cases catch0 with
  | none =>
    simp only [njs_exception_inv, njs_exception_list_inv, Option.isSome_none, Bool.false_or,
      Bool.and_eq_true] at h
    simp only [njs_exception_start, Option.isSome_none, Bool.false_eq_true, if_false,
      njs_exception_inv, njs_exception_list_inv, Option.isSome_some, Bool.true_or,
      Bool.true_and]
    exact h.2
  | some a =>
    simp only [njs_exception_start, Option.isSome_some, if_true, njs_exception_inv,
      njs_exception_list_inv, Bool.true_or, Bool.true_and]
    exact h

theorem njs_exception_end_start (c : Int) (e : njs_exception_t)
    (h : njs_exception_inv e = true) : njs_exception_end (njs_exception_start c e) = e := by
  obtain ⟨next, catch0⟩ := e
  cases catch0 with
  | none =>
    simp only [njs_exception_inv, njs_exception_list_inv, Option.isSome_none, Bool.false_or,
      Bool.and_eq_true, List.isEmpty_iff] at h
    obtain ⟨h1, _⟩ := h
    subst h1
    rfl
  | some a => rfl

theorem njs_exception_inv_end (e : njs_exception_t)
    (h : njs_exception_inv e = true) : njs_exception_inv (njs_exception_end e) = true := by
  obtain ⟨next, catch0⟩ := e
  cases next with
  | nil => rfl
  | cons x next =>
    simp only [njs_exception_inv, njs_exception_list_inv, Bool.and_eq_true] at h
    simp only [njs_exception_end, njs_exception_inv, njs_exception_list_inv, Bool.and_eq_true]
    exact h.2

theorem njs_exception_inv_push (stack : List Int) (e : njs_exception_t)
    (h : njs_exception_inv e = true) : njs_exception_inv (njs_exception_push stack e) = true := by
  induction stack with
  | nil => exact h
  | cons c stack ih => exact njs_exception_inv_start c _ ih

theorem njs_exception_push_catch (c : Int) (stack : List Int) (e : njs_exception_t) :
    (njs_exception_push (c :: stack) e).catch_ = some c := by
  simp only [njs_exception_push, njs_exception_start]
  split <;> rfl

/-- The operation `njs_vmcode_try_end` on a state with a frame. -/
theorem njs_vmcode_try_end_spec (s : njs_vm_state_t) (frame : njs_frame_t)
    (previous : List njs_frame_t) (offset : Int) (hframe : s.frame = frame :: previous) :
    njs_vmcode_try_end s offset =
      some (offset, { s with frame :=
        { frame with exception := njs_exception_end frame.exception } :: previous }) := by
  cases hn : frame.exception.next <;>
    simp only [njs_vmcode_try_end, hframe, njs_exception_end, hn]

/-- A result of `njs_vmcode_try_start` other than the failed allocation. -/
theorem njs_vmcode_try_start_frame (host : njs_vmcode_host_t) (s s1 : njs_vm_state_t)
    (frame : njs_frame_t) (previous : List njs_frame_t) (value : Nat) (offset : Int)
    (ret : njs_ret_t) (hframe : s.frame = frame :: previous)
    (h : njs_vmcode_try_start host s value offset = some (ret, s1)) (hret : ret ≠ NXT_ERROR) :
    ret = (host.try_start_size : Int) ∧
    s1.frame = { frame with exception := (njs_exception_start (s.current + offset)
      frame.exception) } :: previous ∧
    s1.scopes = s.scopes ∧ s1.current = s.current ∧
    s1.values.length = s.values.length := by
  simp only [njs_vmcode_try_start, hframe] at h
  cases hc : frame.exception.catch_ with
  | none =>
    simp only [hc, Option.isSome_none, Bool.false_eq_true, if_false] at h
    cases hv : s.values[value]? with
    | none => simp [hv] at h
    | some v =>
      simp only [hv, Option.some.injEq, Prod.mk.injEq] at h
      obtain ⟨h1, h2⟩ := h
      subst h2
      refine ⟨h1.symm, ?_, rfl, rfl, by simp⟩
      simp [njs_exception_start, hc]
  | some a =>
    simp only [hc, Option.isSome_some, if_true] at h
    cases hp : nxt_mem_cache_alloc s.vm.mem_cache_pool with
    | mk b pool =>
      cases b with
      | false =>
        simp only [hp, Option.some.injEq, Prod.mk.injEq] at h
        exact absurd h.1.symm hret
      | true =>
        simp only [hp] at h
        cases hv : s.values[value]? with
        | none => simp [hv] at h
        | some v =>
          simp only [hv, Option.some.injEq, Prod.mk.injEq] at h
          obtain ⟨h1, h2⟩ := h
          subst h2
          refine ⟨h1.symm, ?_, rfl, rfl, by simp⟩
          simp [njs_exception_start, hc]

/-- The frame after any result of `njs_vmcode_try_start`. -/
theorem njs_vmcode_try_start_cases (host : njs_vmcode_host_t) (s s1 : njs_vm_state_t)
    (frame : njs_frame_t) (previous : List njs_frame_t) (value : Nat) (offset : Int)
    (ret : njs_ret_t) (hframe : s.frame = frame :: previous)
    (h : njs_vmcode_try_start host s value offset = some (ret, s1)) :
    s1.frame = frame :: previous ∨
    s1.frame = { frame with exception := (njs_exception_start (s.current + offset)
      frame.exception) } :: previous := by
  by_cases hret : ret = NXT_ERROR
  · left
    simp only [njs_vmcode_try_start, hframe] at h
    have hne : ((host.try_start_size : Nat) : Int) ≠ NXT_ERROR := by
      have h0 : (0 : Int) ≤ (host.try_start_size : Int) := Int.ofNat_nonneg _
      intro h1
      rw [h1] at h0
      exact absurd h0 (by decide)
    cases hc : frame.exception.catch_ with
    | none =>
      simp only [hc, Option.isSome_none, Bool.false_eq_true, if_false] at h
      cases hv : s.values[value]? with
      | none => simp [hv] at h
      | some v =>
        simp only [hv, Option.some.injEq, Prod.mk.injEq] at h
        exact absurd (h.1.trans hret) hne
    | some a =>
      simp only [hc, Option.isSome_some, if_true] at h
      cases hp : nxt_mem_cache_alloc s.vm.mem_cache_pool with
      | mk b pool =>
        cases b with
        | false =>
          simp only [hp, Option.some.injEq, Prod.mk.injEq] at h
          rw [← h.2]
        | true =>
          simp only [hp] at h
          cases hv : s.values[value]? with
          | none => simp [hv] at h
          | some v =>
            simp only [hv, Option.some.injEq, Prod.mk.injEq] at h
            exact absurd (h.1.trans hret) hne
  · right
    exact (njs_vmcode_try_start_frame host s s1 frame previous value offset ret hframe h hret).2.1

/-- The operation `njs_vmcode_try_start` succeeds when its tracking variable is a slot and
the pool serves the next allocation. -/
theorem njs_vmcode_try_start_ready (host : njs_vmcode_host_t) (s : njs_vm_state_t)
    (frame : njs_frame_t) (previous : List njs_frame_t) (value : Nat) (offset : Int) (k : Nat)
    (hframe : s.frame = frame :: previous) (hvalue : value < s.values.length)
    (hpool : njs_pool_ready (k + 1) s.vm.mem_cache_pool) :
    ∃ s1, njs_vmcode_try_start host s value offset = some ((host.try_start_size : Int), s1) ∧
      njs_pool_ready k s1.vm.mem_cache_pool := by
  obtain ⟨v, hv⟩ : ∃ v, s.values[value]? = some v :=
    ⟨s.values[value], List.getElem?_eq_getElem hvalue⟩
  cases hc : frame.exception.catch_ with
  | none =>
    refine ⟨{ s with vm := { s.vm with mem_cache_pool := s.vm.mem_cache_pool },
                     frame := { frame with exception :=
                       { frame.exception with catch_ := some (s.current + offset) } } :: previous,
                     values := s.values.set value (njs_set_invalid v) }, ?_, ?_⟩
    · simp only [njs_vmcode_try_start, hframe, hc, Option.isSome_none, Bool.false_eq_true,
        if_false, hv]
    · exact njs_pool_ready_mono hpool
  | some a =>
    obtain ⟨pool1, hp, hr⟩ := njs_pool_ready_alloc hpool
    refine ⟨{ s with vm := { s.vm with mem_cache_pool := pool1 },
                     frame := { frame with exception :=
                       { next := frame.exception.catch_ :: frame.exception.next,
                         catch_ := some (s.current + offset) } } :: previous,
                     values := s.values.set value (njs_set_invalid v) }, ?_, ?_⟩
    · simp only [njs_vmcode_try_start, hframe, hc, Option.isSome_some, if_true, hp, hv]
    · exact hr

/-- The handler list after a run of the two operations. -/
theorem njs_try_run_spec (host : njs_vmcode_host_t) (frame : njs_frame_t)
    (previous : List njs_frame_t) (e0 : njs_exception_t)
    (hinv : njs_exception_inv e0 = true) :
    ∀ (ops : List njs_try_op_t) (stack0 stack : List Int) (s s1 : njs_vm_state_t),
      s.frame = { frame with exception := njs_exception_push stack0 e0 } :: previous →
      njs_try_open ops stack0 = some stack → njs_try_run host ops s = some s1 →
      s1.frame = { frame with exception := njs_exception_push stack e0 } :: previous := by
  intro ops
  induction ops with
  | nil =>
    intro stack0 stack s s1 hframe hopen hrun
    simp only [njs_try_open, Option.some.injEq] at hopen
    simp only [njs_try_run, Option.some.injEq] at hrun
    rw [← hrun, ← hopen]
    exact hframe
  | cons op ops ih =>
    intro stack0 stack s s1 hframe hopen hrun
    cases op with
    | try_start current value offset =>
      simp only [njs_try_open] at hopen
      simp only [njs_try_run] at hrun
      cases hs : njs_vmcode_try_start host { s with current := current } value offset with
      | none => simp [hs] at hrun
      | some r =>
        obtain ⟨ret, s2⟩ := r
        simp only [hs] at hrun
        by_cases hret : ret = NXT_ERROR
        · simp [hret] at hrun
        · rw [if_neg hret] at hrun
          have h2 := (njs_vmcode_try_start_frame host { s with current := current } s2
            { frame with exception := njs_exception_push stack0 e0 } previous value offset ret
            hframe hs hret).2.1
          exact ih ((current + offset) :: stack0) stack s2 s1 h2 hopen hrun
    | try_end offset =>
      cases stack0 with
      | nil => simp [njs_try_open] at hopen
      | cons c stack1 =>
        simp only [njs_try_open] at hopen
        simp only [njs_try_run] at hrun
        rw [njs_vmcode_try_end_spec s _ previous offset hframe] at hrun
        simp only at hrun
        refine ih stack1 stack _ s1 ?_ hopen hrun
        have he : njs_exception_end (njs_exception_push (c :: stack1) e0) =
            njs_exception_push stack1 e0 :=
          njs_exception_end_start c _ (njs_exception_inv_push stack1 e0 hinv)
        simp only [he]

/-- A run of the two operations is defined when the pool serves an allocation for every
`njs_vmcode_try_start` and the tracking variables are slots. -/
theorem njs_try_run_ready (host : njs_vmcode_host_t) :
    ∀ (ops : List njs_try_op_t) (s : njs_vm_state_t) (frame : njs_frame_t)
      (previous : List njs_frame_t), s.frame = frame :: previous →
      njs_pool_ready (njs_try_starts ops) s.vm.mem_cache_pool →
      njs_try_values_ok s.values.length ops = true →
      ∃ s1, njs_try_run host ops s = some s1 := by
  intro ops
  induction ops with
  | nil => intro s _ _ _ _ _; exact ⟨s, rfl⟩
  | cons op ops ih =>
    intro s frame previous hframe hpool hval
    cases op with
    | try_start current value offset =>
      simp only [njs_try_values_ok, Bool.and_eq_true, decide_eq_true_eq] at hval
      simp only [njs_try_starts] at hpool
      obtain ⟨s2, hs, hr⟩ := njs_vmcode_try_start_ready host { s with current := current }
        frame previous value offset (njs_try_starts ops) hframe hval.1 hpool
      have hne : ((host.try_start_size : Nat) : Int) ≠ NXT_ERROR := by
        have h0 : (0 : Int) ≤ (host.try_start_size : Int) := Int.ofNat_nonneg _
        intro h1
        rw [h1] at h0
        exact absurd h0 (by decide)
      obtain ⟨_, hf2, _, _, hl2⟩ := njs_vmcode_try_start_frame host { s with current := current }
        s2 frame previous value offset _ hframe hs hne
      have hl : s2.values.length = s.values.length := hl2
      obtain ⟨s1, h1⟩ := ih s2 _ previous hf2 hr (by rw [hl]; exact hval.2)
      refine ⟨s1, ?_⟩
      simp only [njs_try_run, hs, if_neg hne]
      exact h1
    | try_end offset =>
      simp only [njs_try_values_ok] at hval
      simp only [njs_try_starts] at hpool
      obtain ⟨s1, h1⟩ := ih
        { s with frame := { frame with exception := njs_exception_end frame.exception } ::
          previous } _ previous rfl hpool hval
      refine ⟨s1, ?_⟩
      simp only [njs_try_run, njs_vmcode_try_end_spec s frame previous offset hframe]
      exact h1

/-- The frame after `njs_vmcode_catch`. -/
theorem njs_vmcode_catch_frame (host : njs_vmcode_host_t) (s s1 : njs_vm_state_t)
    (frame : njs_frame_t) (previous : List njs_frame_t) (exception : Nat) (offset : Int)
    (ret : njs_ret_t) (hframe : s.frame = frame :: previous)
    (h : njs_vmcode_catch host s exception offset = some (ret, s1)) :
    (offset = (host.catch_size : Int) ∧ ret = offset ∧
      s1.frame = { frame with exception := njs_exception_end frame.exception } :: previous) ∨
    (offset ≠ (host.catch_size : Int) ∧ ret = (host.catch_size : Int) ∧
      s1.frame = { frame with exception :=
        { frame.exception with catch_ := some (s.current + offset) } } :: previous) := by
  unfold njs_vmcode_catch at h
  by_cases hlen : exception < s.values.length
  · rw [if_pos hlen] at h
    by_cases hoff : offset = (host.catch_size : Int)
    · left
      simp only [hoff, if_true] at h
      rw [njs_vmcode_try_end_spec { s with values := s.values.set exception s.vm.retval }
        frame previous _ hframe] at h
      simp only [Option.some.injEq, Prod.mk.injEq] at h
      refine ⟨hoff, by rw [← h.1, hoff], ?_⟩
      rw [← h.2]
    · right
      simp only [hoff, if_false, hframe, Option.some.injEq, Prod.mk.injEq] at h
      refine ⟨hoff, h.1.symm, ?_⟩
      rw [← h.2]
  · rw [if_neg hlen] at h
    cases h

/-- Claim C27: for a frame whose handler list satisfies `catch = NULL implies next = NULL`,
the operations `njs_vmcode_try_start`, `njs_vmcode_try_end` and `njs_vmcode_catch` keep that
invariant; a `njs_vmcode_try_start` that does not fail sets the head catch address to its own
and the matching `njs_vmcode_try_end` restores the handler list exactly; after any sequence of
the two operations nested in LIFO order the handler list is the initial one below the open
blocks, so it is the initial one when every block is closed, and otherwise its head catch
address is that of the innermost open block; and such a sequence runs to its end when the
pool serves an allocation for every `njs_vmcode_try_start`. -/
theorem njs_try_handler_list (host : njs_vmcode_host_t) (s : njs_vm_state_t)
    (frame : njs_frame_t) (previous : List njs_frame_t)
    (hframe : s.frame = frame :: previous)
    (hinv : njs_exception_inv frame.exception = true) :
    (∀ value offset ret s1, njs_vmcode_try_start host s value offset = some (ret, s1) →
      ∃ frame1, s1.frame = frame1 :: previous ∧ njs_exception_inv frame1.exception = true) ∧
    (∀ offset ret s1, njs_vmcode_try_end s offset = some (ret, s1) →
      ∃ frame1, s1.frame = frame1 :: previous ∧ njs_exception_inv frame1.exception = true) ∧
    (∀ exception offset ret s1, njs_vmcode_catch host s exception offset = some (ret, s1) →
      ∃ frame1, s1.frame = frame1 :: previous ∧ njs_exception_inv frame1.exception = true) ∧
    (∀ value offset ret s1, njs_vmcode_try_start host s value offset = some (ret, s1) →
      ret ≠ NXT_ERROR →
      (∃ frame1, s1.frame = frame1 :: previous ∧
        frame1.exception.catch_ = some (s.current + offset)) ∧
      ∀ s2 offset2, s2.frame = s1.frame →
        njs_vmcode_try_end s2 offset2 = some (offset2, { s2 with frame := s.frame })) ∧
    (∀ ops stack s1, njs_try_open ops [] = some stack → njs_try_run host ops s = some s1 →
      s1.frame = { frame with exception := njs_exception_push stack frame.exception } ::
        previous ∧
      (stack = [] → s1.frame = s.frame) ∧
      (∀ c rest, stack = c :: rest →
        ∃ frame1, s1.frame = frame1 :: previous ∧ frame1.exception.catch_ = some c)) ∧
    (∀ ops, njs_pool_ready (njs_try_starts ops) s.vm.mem_cache_pool →
      njs_try_values_ok s.values.length ops = true →
      ∃ s1, njs_try_run host ops s = some s1) := by
  refine ⟨?_, ?_, ?_, ?_, ?_, ?_⟩
  · intro value offset ret s1 h
    rcases njs_vmcode_try_start_cases host s s1 frame previous value offset ret hframe h with
      h1 | h1
    · exact ⟨frame, h1, hinv⟩
    · exact ⟨_, h1, njs_exception_inv_start _ _ hinv⟩
  · intro offset ret s1 h
    rw [njs_vmcode_try_end_spec s frame previous offset hframe] at h
    simp only [Option.some.injEq, Prod.mk.injEq] at h
    exact ⟨_, by rw [← h.2], njs_exception_inv_end _ hinv⟩
  · intro exception offset ret s1 h
    rcases njs_vmcode_catch_frame host s s1 frame previous exception offset ret hframe h with
      ⟨_, _, h1⟩ | ⟨_, _, h1⟩
    · exact ⟨_, h1, njs_exception_inv_end _ hinv⟩
    · refine ⟨_, h1, ?_⟩
      simp only [njs_exception_inv, njs_exception_list_inv, Option.isSome_some, Bool.true_or,
        Bool.true_and]
      simp only [njs_exception_inv, njs_exception_list_inv, Bool.and_eq_true] at hinv
      exact hinv.2
  · intro value offset ret s1 h hret
    have h1 := (njs_vmcode_try_start_frame host s s1 frame previous value offset ret hframe h
      hret).2.1
    refine ⟨⟨_, h1, ?_⟩, ?_⟩
    · exact njs_exception_push_catch (s.current + offset) [] frame.exception
    · intro s2 offset2 h2
      rw [njs_vmcode_try_end_spec s2 _ previous offset2 (h2.trans h1)]
      simp only [njs_exception_end_start _ _ hinv, hframe]
  · intro ops stack s1 hopen hrun
    have h1 := njs_try_run_spec host frame previous frame.exception hinv ops [] stack s s1
      hframe hopen hrun
    refine ⟨h1, ?_, ?_⟩
    · intro h0
      rw [h1, h0, hframe]
      rfl
    · intro c rest hc
      refine ⟨_, h1, ?_⟩
      rw [hc]
      exact njs_exception_push_catch c rest frame.exception
  · intro ops hpool hval
    exact njs_try_run_ready host ops s frame previous hframe hpool hval

set_option maxRecDepth 20000 in
/-- Instance of claim C27: two nested `try` blocks opened and closed in LIFO order leave the
empty handler list of the frame as it was, and between them the head catch address is 74,
that of the inner block. -/
theorem njs_try_handler_list_witness :
    (∃ s1, njs_try_run njs_example_vmcode_host
        [.try_start 0 12 100, .try_start 24 13 50, .try_end 8, .try_end 8]
        (njs_example_state 0 [njs_example_frame ⟨[], none⟩]) = some s1 ∧
      s1.frame = [njs_example_frame ⟨[], none⟩]) ∧
    (∃ s1, njs_try_run njs_example_vmcode_host [.try_start 0 12 100, .try_start 24 13 50]
        (njs_example_state 0 [njs_example_frame ⟨[], none⟩]) = some s1 ∧
      ∃ frame1, s1.frame = [frame1] ∧ frame1.exception.catch_ = some 74) := by
  have h := njs_try_handler_list njs_example_vmcode_host
    (njs_example_state 0 [njs_example_frame ⟨[], none⟩]) (njs_example_frame ⟨[], none⟩) []
    rfl (by decide)
  constructor
  · obtain ⟨s1, hrun⟩ := h.2.2.2.2.2
      [.try_start 0 12 100, .try_start 24 13 50, .try_end 8, .try_end 8]
      ⟨3, [], by decide, rfl⟩ (by decide)
    exact ⟨s1, hrun, (h.2.2.2.2.1 _ [] s1 (by decide) hrun).2.1 rfl⟩
  · obtain ⟨s1, hrun⟩ := h.2.2.2.2.2 [.try_start 0 12 100, .try_start 24 13 50]
      ⟨3, [], by decide, rfl⟩ (by decide)
    exact ⟨s1, hrun, (h.2.2.2.2.1 _ [74, 100] s1 (by decide) hrun).2.2 74 [100] rfl⟩

/-- A round of the inner loop that is left. -/
theorem njs_vmcode_interpreter_round_leave (host : njs_vmcode_host_t)
    (code : Int → Option njs_vmcode_generic_t) (s s1 : njs_vm_state_t)
    (vmcode : njs_vmcode_generic_t) (ret : njs_ret_t)
    (hcode : code s.current = some vmcode)
    (hop : vmcode.operation s (njs_vmcode_interpreter_value1 host s vmcode)
      (njs_vmcode_interpreter_value2 host s vmcode) = some (ret, s1))
    (h1 : host.NJS_PASS ≤ ret) (h2 : ret < 0) :
    njs_vmcode_interpreter_step host code s =
      njs_vmcode_interpreter_leave host ret s1 (njs_vmcode_interpreter_value1 host s vmcode)
        (njs_vmcode_interpreter_value2 host s vmcode) := by
  have hr : njs_vmcode_interpreter_round host code s =
      some (.leave ret s1 (njs_vmcode_interpreter_value1 host s vmcode)
        (njs_vmcode_interpreter_value2 host s vmcode)) := by
    simp only [njs_vmcode_interpreter_round, hcode, hop]
    rw [if_pos ⟨h2, h1⟩]
  simp only [njs_vmcode_interpreter_step, hr]

/-- A round of the inner loop that goes on, for an instruction without a result slot. -/
theorem njs_vmcode_interpreter_round_next (host : njs_vmcode_host_t)
    (code : Int → Option njs_vmcode_generic_t) (s s1 : njs_vm_state_t)
    (vmcode : njs_vmcode_generic_t) (ret : njs_ret_t)
    (hcode : code s.current = some vmcode)
    (hop : vmcode.operation s (njs_vmcode_interpreter_value1 host s vmcode)
      (njs_vmcode_interpreter_value2 host s vmcode) = some (ret, s1))
    (h : 0 ≤ ret) (hv : vmcode.retval = false) :
    njs_vmcode_interpreter_step host code s =
      some (.again { s1 with current := s1.current + ret }) := by
  have hn : ¬ (ret < 0 ∧ host.NJS_PASS ≤ ret) := fun ⟨a, _⟩ => absurd a (not_lt.mpr h)
  have hr : njs_vmcode_interpreter_round host code s =
      some (.next { s1 with current := s1.current + ret }) := by
    simp only [njs_vmcode_interpreter_round, hcode, hop]
    rw [if_neg hn]
    simp [hv]
  simp only [njs_vmcode_interpreter_step, hr]

/-- The error loop at a frame that has a handler. -/
theorem njs_vmcode_interpreter_leave_catch (host : njs_vmcode_host_t) (s : njs_vm_state_t)
    (value1 : Option Nat) (value2 : Int) (frame : njs_frame_t) (previous : List njs_frame_t)
    (c : Int) (hframe : s.frame = frame :: previous) (hc : frame.exception.catch_ = some c) :
    njs_vmcode_interpreter_leave host NXT_ERROR s value1 value2 =
      some (.again { s with current := c }) := by
  have e1 : ¬ (NXT_ERROR = NJS_TRAP_NUMBER ∨ NXT_ERROR = NJS_TRAP_NUMBERS ∨
      NXT_ERROR = NJS_TRAP_STRINGS ∨ NXT_ERROR = NJS_TRAP_INCDEC ∨
      NXT_ERROR = NJS_TRAP_PROPERTY) := by decide
  simp only [njs_vmcode_interpreter_leave, e1, if_false, if_true, hframe,
    njs_vmcode_interpreter_unwind, hc]

/-- The instruction `njs_vmcode_throw` or `njs_vmcode_finally` with a valid value in a frame
that has a handler: the interpreter goes on at the catch address with the value in
`vm->retval`. -/
theorem njs_vmcode_interpreter_step_raise (host : njs_vmcode_host_t)
    (code : Int → Option njs_vmcode_generic_t) (s : njs_vm_state_t) (retval : Int)
    (value : njs_value_t) (frame : njs_frame_t) (previous : List njs_frame_t) (c : Int)
    (hpass : host.NJS_PASS ≤ NXT_ERROR)
    (hcode : code s.current = some (njs_code_throw host retval) ∨
      (code s.current = some (njs_code_finally host retval) ∧ njs_is_valid value = true))
    (hvalue : s.values[host.njs_vmcode_operand s.scopes retval]? = some value)
    (hframe : s.frame = frame :: previous) (hc : frame.exception.catch_ = some c) :
    njs_vmcode_interpreter_step host code s =
      some (.again { s with vm := { s.vm with retval := value }, current := c }) := by
  rcases hcode with hcode | ⟨hcode, hvalid⟩
  · rw [njs_vmcode_interpreter_round_leave host code s
      { s with vm := { s.vm with retval := value } } _ NXT_ERROR hcode
      (by simp only [njs_code_throw, njs_vmcode_interpreter_value2, njs_vmcode_throw, hvalue])
      hpass (by decide)]
    exact njs_vmcode_interpreter_leave_catch host _ _ _ frame previous c hframe hc
  · rw [njs_vmcode_interpreter_round_leave host code s
      { s with vm := { s.vm with retval := value } } _ NXT_ERROR hcode
      (by simp [njs_code_finally, njs_vmcode_interpreter_value2, njs_vmcode_finally, hvalue,
        hvalid])
      hpass (by decide)]
    exact njs_vmcode_interpreter_leave_catch host _ _ _ frame previous c hframe hc

/-- The instruction `njs_vmcode_catch`: the value of `vm->retval` is stored in the exception
variable and the interpreter goes on behind the instruction. -/
theorem njs_vmcode_interpreter_step_catch (host : njs_vmcode_host_t)
    (code : Int → Option njs_vmcode_generic_t) (s : njs_vm_state_t) (exception offset : Int)
    (frame : njs_frame_t) (previous : List njs_frame_t)
    (hcode : code s.current = some (njs_code_catch host exception offset))
    (hslot : host.njs_vmcode_operand s.scopes exception < s.values.length)
    (hframe : s.frame = frame :: previous) :
    ∃ s1, njs_vmcode_interpreter_step host code s = some (.again s1) ∧
      s1.values = s.values.set (host.njs_vmcode_operand s.scopes exception) s.vm.retval ∧
      s1.vm = s.vm ∧ s1.scopes = s.scopes ∧ s1.current = s.current + (host.catch_size : Int) ∧
      (offset = (host.catch_size : Int) →
        s1.frame = { frame with exception := njs_exception_end frame.exception } :: previous) ∧
      (offset ≠ (host.catch_size : Int) →
        s1.frame = { frame with exception :=
          { frame.exception with catch_ := some (s.current + offset) } } :: previous) := by
  have h0 : (0 : Int) ≤ (host.catch_size : Int) := Int.ofNat_nonneg _
  by_cases hoff : offset = (host.catch_size : Int)
  · refine ⟨_, njs_vmcode_interpreter_round_next host code s
      { s with values := s.values.set (host.njs_vmcode_operand s.scopes exception) s.vm.retval,
               frame := { frame with exception := njs_exception_end frame.exception } ::
                 previous }
      _ offset hcode ?_ (by rw [hoff]; exact h0) rfl, rfl, rfl, rfl, ?_, fun _ => rfl,
      fun h => absurd hoff h⟩
    · simp only [njs_code_catch, njs_vmcode_interpreter_value1, njs_vmcode_interpreter_value2,
        njs_vmcode_catch, hslot, if_true, hoff]
      exact njs_vmcode_try_end_spec
        { s with values := (s.values.set (host.njs_vmcode_operand s.scopes exception)
          s.vm.retval) } frame previous _ hframe
    · show s.current + offset = s.current + (host.catch_size : Int)
      rw [hoff]
  · refine ⟨_, njs_vmcode_interpreter_round_next host code s
      { s with values := s.values.set (host.njs_vmcode_operand s.scopes exception) s.vm.retval,
               frame := { frame with exception :=
                 { frame.exception with catch_ := some (s.current + offset) } } :: previous }
      _ (host.catch_size : Int) hcode ?_ h0 rfl, rfl, rfl, rfl, rfl, fun h => absurd h hoff,
      fun _ => rfl⟩
    simp only [njs_code_catch, njs_vmcode_interpreter_value1, njs_vmcode_interpreter_value2,
      njs_vmcode_catch, hslot, if_true, hoff, if_false, hframe]

/-- Two instructions of a run. -/
theorem njs_vmcode_interpreter_steps_two (host : njs_vmcode_host_t)
    (code : Int → Option njs_vmcode_generic_t) (s s1 s2 : njs_vm_state_t)
    (h1 : njs_vmcode_interpreter_step host code s = some (.again s1))
    (h2 : njs_vmcode_interpreter_step host code s1 = some (.again s2)) :
    njs_vmcode_interpreter_steps host code 2 s = some (.again s2) := by
  simp only [njs_vmcode_interpreter_steps, h1, h2]

/-- Claim C28: `njs_vmcode_finally` returns `NXT_ERROR` exactly when its tracking variable is
valid, and then `vm.retval` is the value of the variable; when the variable is Invalid it
returns the advance of the instruction and changes nothing.  Hence a valid value `V` thrown by
`njs_vmcode_throw` inside a `try` block that has only a `finally` block is stored in the
tracking variable by the `njs_vmcode_catch` at the start of the `finally` block, which also
removes the block; and when the `finally` block has left the variable and the enclosing
handler in place, `njs_vmcode_finally` raises `V` again, the interpreter resumes at the
enclosing `njs_vmcode_catch`, and `V` is stored in the catch variable. -/
theorem njs_finally_rethrow (host : njs_vmcode_host_t)
    (code : Int → Option njs_vmcode_generic_t) :
    (∀ (s : njs_vm_state_t) (retval : Int) (value : njs_value_t),
      s.values[host.njs_vmcode_operand s.scopes retval]? = some value →
      (njs_is_valid value = true →
        njs_vmcode_finally host s retval =
          some (NXT_ERROR, { s with vm := { s.vm with retval := value } })) ∧
      (njs_is_valid value = false →
        njs_vmcode_finally host s retval = some ((host.finally_size : Int), s)) ∧
      ((∃ s1, njs_vmcode_finally host s retval = some (NXT_ERROR, s1)) ↔
        njs_is_valid value = true)) ∧
    (∀ (s : njs_vm_state_t) (thrown tracking exception offset : Int) (value : njs_value_t)
      (frame : njs_frame_t) (previous : List njs_frame_t) (inner outer : Int)
      (rest : List (Option Int)),
      host.NJS_PASS ≤ NXT_ERROR → njs_is_valid value = true →
      code s.current = some (njs_code_throw host thrown) →
      s.values[host.njs_vmcode_operand s.scopes thrown]? = some value →
      s.frame = frame :: previous → frame.exception = ⟨some outer :: rest, some inner⟩ →
      code inner = some (njs_code_catch host tracking (host.catch_size : Int)) →
      code outer = some (njs_code_catch host exception offset) →
      host.njs_vmcode_operand s.scopes tracking < s.values.length →
      ∃ s2, njs_vmcode_interpreter_steps host code 2 s = some (.again s2) ∧
        s2.values = s.values.set (host.njs_vmcode_operand s.scopes tracking) value ∧
        s2.values[host.njs_vmcode_operand s.scopes tracking]? = some value ∧
        s2.current = inner + (host.catch_size : Int) ∧ s2.scopes = s.scopes ∧
        s2.frame = { frame with exception := ⟨rest, some outer⟩ } :: previous ∧
        ∀ (s3 : njs_vm_state_t) (frame3 : njs_frame_t) (previous3 : List njs_frame_t),
          code s3.current = some (njs_code_finally host tracking) →
          s3.values[host.njs_vmcode_operand s3.scopes tracking]? = some value →
          s3.frame = frame3 :: previous3 → frame3.exception.catch_ = some outer →
          host.njs_vmcode_operand s3.scopes exception < s3.values.length →
          ∃ s5, njs_vmcode_interpreter_steps host code 2 s3 = some (.again s5) ∧
            s5.values[host.njs_vmcode_operand s3.scopes exception]? = some value ∧
            s5.vm.retval = value) := by
  constructor
  · intro s retval value hvalue
    have h1 : njs_is_valid value = true →
        njs_vmcode_finally host s retval =
          some (NXT_ERROR, { s with vm := { s.vm with retval := value } }) := by
      intro hv
      simp [njs_vmcode_finally, hvalue, hv]
    have h2 : njs_is_valid value = false →
        njs_vmcode_finally host s retval = some ((host.finally_size : Int), s) := by
      intro hv
      simp [njs_vmcode_finally, hvalue, hv]
    refine ⟨h1, h2, ?_, fun hv => ⟨_, h1 hv⟩⟩
    rintro ⟨s1, hs1⟩
    cases hv : njs_is_valid value with
    | true => rfl
    | false =>
      rw [h2 hv] at hs1
      simp only [Option.some.injEq, Prod.mk.injEq] at hs1
      have h0 : (0 : Int) ≤ (host.finally_size : Int) := Int.ofNat_nonneg _
      rw [hs1.1] at h0
      exact absurd h0 (by decide)
  · intro s thrown tracking exception offset value frame previous inner outer rest hpass
      hvalid hthrow hvalue hframe hexc hinner houter hslot
    have hc : frame.exception.catch_ = some inner := by rw [hexc]
    have st1 := njs_vmcode_interpreter_step_raise host code s thrown value frame previous inner
      hpass (Or.inl hthrow) hvalue hframe hc
    obtain ⟨s2, st2, hval2, hvm2, hsc2, hcur2, hfr2, _⟩ :=
      njs_vmcode_interpreter_step_catch host code
        { s with vm := { s.vm with retval := value }, current := inner } tracking
        (host.catch_size : Int) frame previous hinner hslot hframe
    have hfr : s2.frame = { frame with exception := ⟨rest, some outer⟩ } :: previous := by
      rw [hfr2 rfl, hexc]
      rfl
    have hval : s2.values = s.values.set (host.njs_vmcode_operand s.scopes tracking) value :=
      hval2
    refine ⟨s2, njs_vmcode_interpreter_steps_two host code s _ s2 st1 st2, hval, ?_, hcur2,
      hsc2, hfr, ?_⟩
    · rw [hval]
      simp [hslot]
    · intro s3 frame3 previous3 hfin hvalue3 hframe3 hc3 hslot3
      have st3 := njs_vmcode_interpreter_step_raise host code s3 tracking value frame3 previous3
        outer hpass (Or.inr ⟨hfin, hvalid⟩) hvalue3 hframe3 hc3
      obtain ⟨s5, st5, hval5, hvm5, _, _, _, _⟩ :=
        njs_vmcode_interpreter_step_catch host code
          { s3 with vm := { s3.vm with retval := value }, current := outer } exception
          offset frame3 previous3 houter hslot3 hframe3
      refine ⟨s5, njs_vmcode_interpreter_steps_two host code s3 _ s5 st3 st5, ?_, ?_⟩
      · rw [hval5]
        simp [hslot3]
      · rw [hvm5]

set_option maxRecDepth 20000 in
/-- Instance of claim C28: in the code of `try { try { throw v } finally { } } catch (e) { }`
with `v` the number 12, the two instructions from the throw store 12 in the tracking variable
(the slot 15), and the next two store it in `e` (the slot 13). -/
theorem njs_finally_rethrow_witness :
    ∃ s2 s5, njs_vmcode_interpreter_steps njs_example_vmcode_host njs_example_code_finally 2
        (njs_example_state 48 [njs_example_frame ⟨[some 104], some 56⟩]) = some (.again s2) ∧
      s2.values[15]? = some (njs_example_number 12) ∧
      njs_vmcode_interpreter_steps njs_example_vmcode_host njs_example_code_finally 2 s2 =
        some (.again s5) ∧
      s5.values[13]? = some (njs_example_number 12) := by
  obtain ⟨s2, h1, hval, hx, hcur, hsc, hfr, hb⟩ :=
    (njs_finally_rethrow njs_example_vmcode_host njs_example_code_finally).2
      (njs_example_state 48 [njs_example_frame ⟨[some 104], some 56⟩]) 3 15 7 24
      (njs_example_number 12) (njs_example_frame ⟨[some 104], some 56⟩) [] 56 104 []
      (by decide) (by decide) rfl (by decide) rfl rfl rfl rfl (by decide)
  have hlen : s2.values.length = 16 := by
    rw [hval, List.length_set]
    decide
  obtain ⟨s5, h5, hv5, _⟩ := hb s2 _ [] (by rw [hcur]; rfl) (by rw [hsc]; exact hx) hfr rfl
    (by rw [hsc, hlen]; decide)
  refine ⟨s2, s5, h1, hx, h5, ?_⟩
  rw [hsc] at hv5
  exact hv5

set_option maxRecDepth 20000 in
/-- The run of the example program `try { try { throw v } finally { } } catch (e) { }`: the
interpreter returns `NXT_DONE` after seven instructions, and then the catch variable `e` (the
slot 13) and `vm->retval` hold the thrown value, the number 12. -/
theorem njs_example_code_finally_run :
    (njs_vmcode_interpreter njs_example_vmcode_host njs_example_code_finally 7
      (njs_example_state 0 [njs_example_frame ⟨[], none⟩])).map
        (fun r => (r.1, r.2.vm.retval, r.2.values[13]?, r.2.frame, r.2.current)) =
      some (NXT_DONE, njs_example_number 12, some (njs_example_number 12),
        [njs_example_frame ⟨[], none⟩], 128) := by decide

/-- The result of `njs_vmcode_return` when the value that is copied is the slot `src`. -/
theorem njs_vmcode_return_spec (host : njs_vmcode_host_t) (s : njs_vm_state_t) (retval : Int)
    (frame previous caller : njs_frame_t) (rest chain : List njs_frame_t)
    (v0 v : njs_value_t) (src : Nat)
    (hframe : s.frame = frame :: previous :: rest)
    (hcaller : (if previous.skip then rest else previous :: rest) = caller :: chain)
    (h0 : s.values[host.njs_vmcode_operand s.scopes retval]? = some v0)
    (hsrc : src = if frame.ctor && !njs_is_object v0 then s.scopes.NJS_SCOPE_ARGUMENTS
      else host.njs_vmcode_operand s.scopes retval)
    (hv : s.values[src]? = some v)
    (hdst : host.njs_vmcode_operand
      { s.scopes with NJS_SCOPE_CALLEE_ARGUMENTS := caller.arguments,
                      NJS_SCOPE_LOCAL := frame.prev_local,
                      NJS_SCOPE_ARGUMENTS := frame.prev_arguments } frame.retval
      < s.values.length) :
    njs_vmcode_return host s retval =
      some (0, { s with
        frame := caller :: chain,
        scopes := { s.scopes with NJS_SCOPE_CALLEE_ARGUMENTS := caller.arguments,
                                  NJS_SCOPE_LOCAL := frame.prev_local,
                                  NJS_SCOPE_ARGUMENTS := frame.prev_arguments },
        values := s.values.set (host.njs_vmcode_operand
          { s.scopes with NJS_SCOPE_CALLEE_ARGUMENTS := caller.arguments,
                          NJS_SCOPE_LOCAL := frame.prev_local,
                          NJS_SCOPE_ARGUMENTS := frame.prev_arguments } frame.retval) v,
        current := frame.return_address }) := by
  simp only [njs_vmcode_return, hframe, h0]
  cases hc : frame.ctor <;> cases ho : njs_is_object v0 <;>
    simp only [hc, ho, Bool.not_true, Bool.not_false, Bool.and_true, Bool.and_false,
      Bool.false_and, Bool.true_and, Bool.false_eq_true, if_false, if_true] at hsrc ⊢ <;>
    subst hsrc <;>
    simp only [hcaller, hv, hdst, if_true]

/-- Claim C29: `njs_vmcode_return` from a frame returns 0 with the scope bases Local and
Arguments set to `prev_local` and `prev_arguments` of the returning frame, CalleeArguments set
to the arguments base of the frame that becomes current, and Global untouched; `vm.frame` is
the caller frame, which is the frame before the previous one when the previous frame is marked
`skip`; `vm.current` is the return address; and the returned value is copied to the slot of
the destination index of the frame, decoded with the restored scope bases. -/
theorem njs_return_restores_caller (host : njs_vmcode_host_t) (s : njs_vm_state_t)
    (retval : Int) (frame previous caller : njs_frame_t) (rest chain : List njs_frame_t)
    (v0 : njs_value_t)
    (hframe : s.frame = frame :: previous :: rest)
    (hcaller : (if previous.skip then rest else previous :: rest) = caller :: chain)
    (h0 : s.values[host.njs_vmcode_operand s.scopes retval]? = some v0)
    (hthis : frame.ctor = true → njs_is_object v0 = false →
      s.scopes.NJS_SCOPE_ARGUMENTS < s.values.length)
    (hdst : host.njs_vmcode_operand (njs_return_scopes s.scopes frame caller) frame.retval
      < s.values.length) :
    ∃ s1 v, njs_vmcode_return host s retval = some (0, s1) ∧
      s1.scopes = njs_return_scopes s.scopes frame caller ∧
      s1.scopes.NJS_SCOPE_LOCAL = frame.prev_local ∧
      s1.scopes.NJS_SCOPE_ARGUMENTS = frame.prev_arguments ∧
      s1.scopes.NJS_SCOPE_CALLEE_ARGUMENTS = caller.arguments ∧
      s1.scopes.NJS_SCOPE_GLOBAL = s.scopes.NJS_SCOPE_GLOBAL ∧
      s1.frame = caller :: chain ∧
      (previous.skip = false → caller :: chain = previous :: rest) ∧
      (previous.skip = true → caller :: chain = rest) ∧
      s1.current = frame.return_address ∧
      s1.values = s.values.set (host.njs_vmcode_operand s1.scopes frame.retval) v ∧
      (frame.ctor = false → v = v0) ∧
      s1.vm = s.vm := by
  have hsrc : (if frame.ctor && !njs_is_object v0 then s.scopes.NJS_SCOPE_ARGUMENTS
      else host.njs_vmcode_operand s.scopes retval) < s.values.length := by
    by_cases hc : (frame.ctor && !njs_is_object v0) = true
    · rw [if_pos hc]
      simp only [Bool.and_eq_true, Bool.not_eq_true'] at hc
      exact hthis hc.1 hc.2
    · rw [if_neg hc]
      by_contra hlt
      rw [List.getElem?_eq_none (not_lt.mp hlt)] at h0
      cases h0
  obtain ⟨v, hv⟩ : ∃ v, s.values[if frame.ctor && !njs_is_object v0 then
      s.scopes.NJS_SCOPE_ARGUMENTS else host.njs_vmcode_operand s.scopes retval]? = some v :=
    ⟨_, List.getElem?_eq_getElem hsrc⟩
  have hret := njs_vmcode_return_spec host s retval frame previous caller rest chain v0 v _
    hframe hcaller h0 rfl hv hdst
  refine ⟨_, v, hret, rfl, rfl, rfl, rfl, rfl, rfl, ?_, ?_, rfl, rfl, ?_, rfl⟩
  · intro hs
    rw [← hcaller]
    simp [hs]
  · intro hs
    rw [← hcaller]
    simp [hs]
  · intro hc
    simp only [hc, Bool.false_and, Bool.false_eq_true, if_false] at hv
    rw [h0] at hv
    exact (Option.some.inj hv).symm

/-- Claim C30: for a frame marked `ctor` the value that `njs_vmcode_return` copies to the
destination is the returned value when it is an object, and otherwise the slot 0 of the scope
Arguments (the implicit `this`); for a frame not marked `ctor` it is always the returned
value. -/
theorem njs_return_ctor_value (host : njs_vmcode_host_t) (s : njs_vm_state_t)
    (retval : Int) (frame previous caller : njs_frame_t) (rest chain : List njs_frame_t)
    (v0 this : njs_value_t)
    (hframe : s.frame = frame :: previous :: rest)
    (hcaller : (if previous.skip then rest else previous :: rest) = caller :: chain)
    (h0 : s.values[host.njs_vmcode_operand s.scopes retval]? = some v0)
    (hthis : s.values[s.scopes.NJS_SCOPE_ARGUMENTS]? = some this)
    (hdst : host.njs_vmcode_operand (njs_return_scopes s.scopes frame caller) frame.retval
      < s.values.length) :
    ∃ s1, njs_vmcode_return host s retval = some (0, s1) ∧
      (frame.ctor = true → njs_is_object v0 = true →
        s1.values = s.values.set (host.njs_vmcode_operand s1.scopes frame.retval) v0 ∧
        s1.values[host.njs_vmcode_operand s1.scopes frame.retval]? = some v0) ∧
      (frame.ctor = true → njs_is_object v0 = false →
        s1.values = s.values.set (host.njs_vmcode_operand s1.scopes frame.retval) this ∧
        s1.values[host.njs_vmcode_operand s1.scopes frame.retval]? = some this) ∧
      (frame.ctor = false →
        s1.values = s.values.set (host.njs_vmcode_operand s1.scopes frame.retval) v0 ∧
        s1.values[host.njs_vmcode_operand s1.scopes frame.retval]? = some v0) := by
  have hget : ∀ v, (s.values.set
      (host.njs_vmcode_operand (njs_return_scopes s.scopes frame caller) frame.retval) v)[
      host.njs_vmcode_operand (njs_return_scopes s.scopes frame caller) frame.retval]? =
      some v := by
    intro v
    simp [hdst]
  cases hc : frame.ctor with
  | false =>
    have hret := njs_vmcode_return_spec host s retval frame previous caller rest chain v0 v0
      (host.njs_vmcode_operand s.scopes retval) hframe hcaller h0 (by simp [hc]) h0 hdst
    refine ⟨_, hret, ?_, ?_, ?_⟩
    · intro h; cases h
    · intro h; cases h
    · intro _; exact ⟨rfl, hget v0⟩
  | true =>
    cases ho : njs_is_object v0 with
    | true =>
      have hret := njs_vmcode_return_spec host s retval frame previous caller rest chain v0 v0
        (host.njs_vmcode_operand s.scopes retval) hframe hcaller h0 (by simp [hc, ho]) h0 hdst
      refine ⟨_, hret, ?_, ?_, ?_⟩
      · intro _ _; exact ⟨rfl, hget v0⟩
      · intro _ h; cases h
      · intro h; cases h
    | false =>
      have hret := njs_vmcode_return_spec host s retval frame previous caller rest chain v0
        this s.scopes.NJS_SCOPE_ARGUMENTS hframe hcaller h0 (by simp [hc, ho]) hthis hdst
      refine ⟨_, hret, ?_, ?_, ?_⟩
      · intro _ h; cases h
      · intro _ _; exact ⟨rfl, hget this⟩
      · intro h; cases h

set_option maxRecDepth 20000 in
/-- Instance of claim C29: a return over a frame marked `skip` makes the third frame of the
chain current, sets the scope bases to 0, 1, 2 and 5 and `vm.current` to 100, and stores the
returned number 12 in the slot 6. -/
theorem njs_return_restores_caller_witness :
    ∃ s1, njs_vmcode_return njs_example_vmcode_host
        (njs_example_state 64
          [⟨⟨[], none⟩, 4, 7, 100, 2, 5, false, false, false⟩,
           ⟨⟨[], none⟩, 9, 7, 300, 8, 12, true, true, false⟩,
           ⟨⟨[], none⟩, 1, 7, 500, 8, 12, false, false, false⟩]) 3 = some (0, s1) ∧
      s1.scopes = ⟨0, 1, 2, 5⟩ ∧
      s1.frame = [⟨⟨[], none⟩, 1, 7, 500, 8, 12, false, false, false⟩] ∧
      s1.current = 100 ∧
      s1.values[6]? = some (njs_example_number 12) := by
  obtain ⟨s1, v, h1, h2, _, _, _, _, h3, _, _, h4, h5, h6, _⟩ :=
    njs_return_restores_caller njs_example_vmcode_host
      (njs_example_state 64
        [⟨⟨[], none⟩, 4, 7, 100, 2, 5, false, false, false⟩,
         ⟨⟨[], none⟩, 9, 7, 300, 8, 12, true, true, false⟩,
         ⟨⟨[], none⟩, 1, 7, 500, 8, 12, false, false, false⟩]) 3
      ⟨⟨[], none⟩, 4, 7, 100, 2, 5, false, false, false⟩
      ⟨⟨[], none⟩, 9, 7, 300, 8, 12, true, true, false⟩
      ⟨⟨[], none⟩, 1, 7, 500, 8, 12, false, false, false⟩
      [⟨⟨[], none⟩, 1, 7, 500, 8, 12, false, false, false⟩] []
      (njs_example_number 12) rfl rfl (by decide) (by decide) (by decide)
  refine ⟨s1, h1, h2, h3, h4, ?_⟩
  rw [h5, h2, h6 rfl]
  decide

set_option maxRecDepth 20000 in
/-- Instance of claim C30: a constructor frame that returns the number 12 gives its caller
the slot 0 of the scope Arguments, the number 8. -/
theorem njs_return_ctor_value_witness :
    ∃ s1, njs_vmcode_return njs_example_vmcode_host
        (njs_example_state 64
          [⟨⟨[], none⟩, 4, 7, 100, 2, 5, false, false, true⟩,
           ⟨⟨[], none⟩, 1, 7, 500, 8, 12, false, false, false⟩]) 3 = some (0, s1) ∧
      s1.values[njs_example_vmcode_host.njs_vmcode_operand s1.scopes 7]? =
        some (njs_example_number 8) := by
  obtain ⟨s1, h1, _, h2, _⟩ :=
    njs_return_ctor_value njs_example_vmcode_host
      (njs_example_state 64
        [⟨⟨[], none⟩, 4, 7, 100, 2, 5, false, false, true⟩,
         ⟨⟨[], none⟩, 1, 7, 500, 8, 12, false, false, false⟩]) 3
      ⟨⟨[], none⟩, 4, 7, 100, 2, 5, false, false, true⟩
      ⟨⟨[], none⟩, 1, 7, 500, 8, 12, false, false, false⟩
      ⟨⟨[], none⟩, 1, 7, 500, 8, 12, false, false, false⟩
      [] [] (njs_example_number 12) (njs_example_number 8) rfl rfl (by decide) (by decide)
      (by decide)
  exact ⟨s1, h1, (h2 rfl (by decide)).2⟩

theorem njs_retain_pow_le {bits : Nat} (h16 : 16 ≤ bits) : 65536 ≤ 2 ^ bits := by
  have h := Nat.pow_le_pow_right (show 0 < 2 by decide) h16
  simpa using h

/-- The two functions on a String with a record. -/
theorem njs_value_retain_string (bits : Nat) (value : njs_value_t) (external0 c : Nat)
    (hs : value.type = NJS_STRING) (he : external0 ≠ 0xff) :
    njs_value_retain bits value external0 c =
      (if c ≠ 0xffff then (c + 1) % 2 ^ bits else c) ∧
    njs_value_release bits value external0 c =
      (if c ≠ 0xffff then (c + 2 ^ bits - 1) % 2 ^ bits else c) := by
  simp only [njs_value_retain, njs_value_release, hs, he, if_true, ne_eq, not_false_eq_true,
    and_self]

/-- Claim C32: for a String whose sentinel is not `0xff`, `njs_value_retain` and
`njs_value_release` leave a retain count of `0xffff` as it is, so every sequence of the two
calls from `0xffff` ends at `0xffff`; a count below `0xffff` is incremented by one, and a
count that is not zero never becomes zero by a retain; for a value that is no String or whose
sentinel is `0xff` both calls change nothing.  The field `retain` has at least 16 bits. -/
theorem njs_retain_saturates (bits : Nat) (value : njs_value_t) (external0 : Nat)
    (h16 : 16 ≤ bits) :
    (value.type = NJS_STRING → external0 ≠ 0xff →
      njs_value_retain bits value external0 0xffff = 0xffff ∧
      njs_value_release bits value external0 0xffff = 0xffff ∧
      (∀ c, c < 0xffff → njs_value_retain bits value external0 c = c + 1) ∧
      (∀ c, c ≤ 0xffff → c ≤ njs_value_retain bits value external0 c ∧
        njs_value_retain bits value external0 c ≤ 0xffff ∧
        (c ≠ 0 → njs_value_retain bits value external0 c ≠ 0)) ∧
      (∀ calls, njs_value_retain_run bits value external0 calls 0xffff = 0xffff)) ∧
    (value.type ≠ NJS_STRING ∨ external0 = 0xff →
      ∀ c, njs_value_retain bits value external0 c = c ∧
        njs_value_release bits value external0 c = c) := by
  have hp := njs_retain_pow_le h16
  constructor
  · intro hs he
    have hr : ∀ c, c < 0xffff → njs_value_retain bits value external0 c = c + 1 := by
      intro c hc
      rw [(njs_value_retain_string bits value external0 c hs he).1,
        if_pos (Nat.ne_of_lt hc)]
      exact Nat.mod_eq_of_lt (by omega)
    have h1 : njs_value_retain bits value external0 0xffff = 0xffff := by
      rw [(njs_value_retain_string bits value external0 0xffff hs he).1]
      simp
    have h2 : njs_value_release bits value external0 0xffff = 0xffff := by
      rw [(njs_value_retain_string bits value external0 0xffff hs he).2]
      simp
    refine ⟨h1, h2, hr, ?_, ?_⟩
    · intro c hc
      rcases Nat.lt_or_ge c 0xffff with h | h
      · rw [hr c h]
        omega
      · have hc2 : c = 0xffff := by omega
        rw [hc2, h1]
        omega
    · intro calls
      induction calls with
      | nil => rfl
      | cons b calls ih =>
        cases b
        · simp only [njs_value_retain_run, h2]
          exact ih
        · simp only [njs_value_retain_run, h1]
          exact ih
  · intro h c
    rcases h with h | h
    · simp [njs_value_retain, njs_value_release, h]
    · simp [njs_value_retain, njs_value_release, h]

set_option maxRecDepth 20000 in
/-- Instance of claim C32: with a field of 16 bits a retain takes `0xfffe` to `0xffff`, a
further retain leaves `0xffff`, and so does a sequence of releases and retains. -/
theorem njs_retain_saturates_witness :
    njs_value_retain 16 njs_example_long_string 0 0xfffe = 0xffff ∧
    njs_value_retain 16 njs_example_long_string 0 0xffff = 0xffff ∧
    njs_value_retain_run 16 njs_example_long_string 0 [false, true, true, false] 0xffff =
      0xffff :=
  have h := (njs_retain_saturates 16 njs_example_long_string 0 (by decide)).1 rfl (by decide)
  ⟨h.2.2.1 0xfffe (by decide), h.1, h.2.2.2.2 _⟩

/-- Claim C37 (amended): for a String whose sentinel is not `0xff` and every retain count `c`
from 0 to `0xffff` other than `0xfffe`, `njs_value_retain` followed by `njs_value_release`
leaves the count `c`; from `0xfffe` the retain reaches `0xffff`, which the release leaves;
and `njs_value_release` takes a count `c` with `0 < c < 0xffff` to `c - 1`, which is not
`0xffff`. -/
theorem njs_release_undoes_retain (bits : Nat) (value : njs_value_t) (external0 : Nat)
    (h16 : 16 ≤ bits) (hs : value.type = NJS_STRING) (he : external0 ≠ 0xff) :
    (∀ c, c ≤ 0xffff → c ≠ 0xfffe →
      njs_value_release bits value external0 (njs_value_retain bits value external0 c) = c) ∧
    njs_value_release bits value external0 (njs_value_retain bits value external0 0xfffe) =
      0xffff ∧
    (∀ c, 0 < c → c < 0xffff →
      njs_value_release bits value external0 c = c - 1 ∧
      njs_value_release bits value external0 c ≠ 0xffff) := by
  have hp := njs_retain_pow_le h16
  have hrel : ∀ c, 0 < c → c < 0xffff →
      njs_value_release bits value external0 c = c - 1 := by
    intro c h0 hc
    rw [(njs_value_retain_string bits value external0 c hs he).2, if_pos (Nat.ne_of_lt hc)]
    have e : c + 2 ^ bits - 1 = (c - 1) + 2 ^ bits := by omega
    rw [e, Nat.add_mod_right]
    exact Nat.mod_eq_of_lt (by omega)
  have hret : ∀ c, c < 0xffff → njs_value_retain bits value external0 c = c + 1 := by
    intro c hc
    rw [(njs_value_retain_string bits value external0 c hs he).1, if_pos (Nat.ne_of_lt hc)]
    exact Nat.mod_eq_of_lt (by omega)
  have hsat : njs_value_release bits value external0 0xffff = 0xffff := by
    rw [(njs_value_retain_string bits value external0 0xffff hs he).2]
    simp
  refine ⟨?_, ?_, ?_⟩
  · intro c hc hne
    rcases Nat.lt_or_ge c 0xffff with h | h
    · rw [hret c h, hrel (c + 1) (by omega) (by omega)]
      omega
    · have hc2 : c = 0xffff := by omega
      rw [hc2, (njs_value_retain_string bits value external0 0xffff hs he).1]
      simpa using hsat
  · rw [hret 0xfffe (by decide)]
    exact hsat
  · intro c h0 hc
    rw [hrel c h0 hc]
    exact ⟨rfl, by omega⟩

set_option maxRecDepth 20000 in
/-- Instance of claim C37: with a field of 16 bits, a retain and a release take the count 7
back to 7, and a release takes 7 to 6. -/
theorem njs_release_undoes_retain_witness :
    njs_value_release 16 njs_example_long_string 0
      (njs_value_retain 16 njs_example_long_string 0 7) = 7 ∧
    njs_value_release 16 njs_example_long_string 0 7 = 6 :=
  have h := njs_release_undoes_retain 16 njs_example_long_string 0 (by decide) rfl (by decide)
  ⟨h.1 7 (by decide) (by decide), (h.2.2 7 (by decide) (by decide)).1⟩

set_option maxRecDepth 20000 in
/-- Counterexample to claim C37 as stated: from the count `0xfffe` a retain followed by a
release leaves `0xffff`, with a field of 16 bits and with one of 32 bits; and with a field of
16 bits a release of the count 0 gives `0xffff`. -/
theorem njs_release_after_saturating_retain :
    njs_example_long_string.type = NJS_STRING ∧
    njs_value_retain 16 njs_example_long_string 0 0xfffe = 0xffff ∧
    njs_value_release 16 njs_example_long_string 0
      (njs_value_retain 16 njs_example_long_string 0 0xfffe) = 0xffff ∧
    njs_value_release 16 njs_example_long_string 0
      (njs_value_retain 16 njs_example_long_string 0 0xfffe) ≠ 0xfffe ∧
    njs_value_release 32 njs_example_long_string 0
      (njs_value_retain 32 njs_example_long_string 0 0xfffe) ≠ 0xfffe ∧
    njs_value_release 16 njs_example_long_string 0 0 = 0xffff := by
  refine ⟨rfl, by decide, by decide, by decide, by decide, by decide⟩

/-- Claim C35, the code at the failing input: `njs_values_equal` gives 0 for `null` and the
number 0 and 1 for the number 0 and `null`, 0 for `null` and `false` and 1 for `false` and
`null`, and 0 for `undefined` and a String but `NJS_TRAP_NUMBERS` for the String and
`undefined`. -/
theorem njs_values_equal_null_order (lib : njs_lib_t) :
    njs_values_equal lib njs_value_null njs_value_zero = some 0 ∧
    njs_values_equal lib njs_value_zero njs_value_null = some 1 ∧
    njs_values_equal lib njs_value_null njs_value_false = some 0 ∧
    njs_values_equal lib njs_value_false njs_value_null = some 1 ∧
    njs_values_equal lib njs_value_void (njs_string "a") = some 0 ∧
    njs_values_equal lib (njs_string "a") njs_value_void = some NJS_TRAP_NUMBERS := by
  refine ⟨?_, ?_, ?_, ?_, ?_, ?_⟩ <;>
    simp [njs_values_equal, njs_is_null_or_void, njs_is_numeric, njs_value_zero,
      njs_value_null, njs_value_false, njs_value_void, njs_double_eq, njs_string,
      njs_is_string, NJS_TRAP_NUMBERS, NJS_TRAP_PROPERTY]

/-- The test of a flag against the union of the flags of the letters seen. -/
theorem njs_regexp_flags_union_land (c : njs_regexp_flags_consts)
    (hc : njs_regexp_flags_consts_ok c) (seen : List Nat) :
    (njs_regexp_flags_union c seen &&& c.NJS_REGEXP_GLOBAL ≠ 0 ↔ 103 ∈ seen) ∧
    (njs_regexp_flags_union c seen &&& c.NJS_REGEXP_IGNORE_CASE ≠ 0 ↔ 105 ∈ seen) ∧
    (njs_regexp_flags_union c seen &&& c.NJS_REGEXP_MULTILINE ≠ 0 ↔ 109 ∈ seen) := by
  obtain ⟨_, _, hg, hi, hm, hgi, hgm, him⟩ := hc
  have hig : c.NJS_REGEXP_IGNORE_CASE &&& c.NJS_REGEXP_GLOBAL = 0 := by
    rw [Nat.land_comm]; exact hgi
  have hmg : c.NJS_REGEXP_MULTILINE &&& c.NJS_REGEXP_GLOBAL = 0 := by
    rw [Nat.land_comm]; exact hgm
  have hmi : c.NJS_REGEXP_MULTILINE &&& c.NJS_REGEXP_IGNORE_CASE = 0 := by
    rw [Nat.land_comm]; exact him
  have hdr : ∀ a b d : Nat, (a ||| b) &&& d = (a &&& d) ||| (b &&& d) := by
    intro a b d
    rw [Nat.land_comm, Nat.and_or_distrib_left, Nat.land_comm d a, Nat.land_comm d b]
  unfold njs_regexp_flags_union
  by_cases h1 : 103 ∈ seen <;> by_cases h2 : 105 ∈ seen <;> by_cases h3 : 109 ∈ seen <;>
    simp [h1, h2, h3, hdr, hg, hi, hm, hgi, hgm, him, hig, hmg, hmi]

/-- The union of the flags after one more letter. -/
theorem njs_regexp_flags_union_append (c : njs_regexp_flags_consts) (seen : List Nat) :
    (103 ∉ seen → njs_regexp_flags_union c (seen ++ [103]) =
      njs_regexp_flags_union c seen ||| c.NJS_REGEXP_GLOBAL) ∧
    (105 ∉ seen → njs_regexp_flags_union c (seen ++ [105]) =
      njs_regexp_flags_union c seen ||| c.NJS_REGEXP_IGNORE_CASE) ∧
    (109 ∉ seen → njs_regexp_flags_union c (seen ++ [109]) =
      njs_regexp_flags_union c seen ||| c.NJS_REGEXP_MULTILINE) := by
  have hlc : ∀ a b d : Nat, a ||| (b ||| d) = b ||| (a ||| d) := by
    intro a b d
    rw [← Nat.lor_assoc, Nat.lor_comm a b, Nat.lor_assoc]
  unfold njs_regexp_flags_union
  refine ⟨?_, ?_, ?_⟩ <;> intro h <;>
    by_cases h1 : 103 ∈ seen <;> by_cases h2 : 105 ∈ seen <;> by_cases h3 : 109 ∈ seen <;>
    simp_all [Nat.lor_comm, Nat.lor_assoc, hlc]

theorem njs_regexp_flags_valid_append (seen : List Nat) (b : Nat)
    (hv : njs_regexp_flags_valid seen) (hb : b = 103 ∨ b = 105 ∨ b = 109) (hn : b ∉ seen) :
    njs_regexp_flags_valid (seen ++ [b]) := by
  refine ⟨?_, ?_⟩
  · intro x hx
    rcases List.mem_append.mp hx with h | h
    · exact hv.1 x h
    · rw [List.mem_singleton.mp h]; exact hb
  · rw [List.nodup_append]
    refine ⟨hv.2, List.nodup_singleton b, ?_⟩
    intro x hx hx2
    rw [List.mem_singleton.mp hx2] at hx
    exact hn hx

/-- The loop of `njs_regexp_flags` from the union of the flags of letters seen. -/
theorem njs_regexp_flags_loop_spec (c : njs_regexp_flags_consts)
    (hc : njs_regexp_flags_consts_ok c) :
    ∀ (rest seen : List Nat) (p : Nat), njs_regexp_flags_valid seen →
      (njs_regexp_flags_valid (seen ++ rest.takeWhile (fun b => decide (97 ≤ b ∧ b ≤ 122))) →
        njs_regexp_flags_loop c rest p (njs_regexp_flags_union c seen) =
          (((njs_regexp_flags_union c
              (seen ++ rest.takeWhile (fun b => decide (97 ≤ b ∧ b ≤ 122))) : Nat) : Int),
            p + (rest.takeWhile (fun b => decide (97 ≤ b ∧ b ≤ 122))).length)) ∧
      (¬ njs_regexp_flags_valid
          (seen ++ rest.takeWhile (fun b => decide (97 ≤ b ∧ b ≤ 122))) →
        (njs_regexp_flags_loop c rest p (njs_regexp_flags_union c seen)).1 =
          c.NJS_REGEXP_INVALID_FLAG) := by
  intro rest
  induction rest with
  | nil =>
    intro seen p hv
    refine ⟨fun _ => ?_, fun h => ?_⟩
    · simp [njs_regexp_flags_loop]
    · simp only [List.takeWhile_nil, List.append_nil] at h
      exact absurd hv h
  | cons b rest ih =>
    intro seen p hv
    have hland := njs_regexp_flags_union_land c hc seen
    have happ := njs_regexp_flags_union_append c seen
    -- a letter g, i or m
    have hletter : ∀ flag : Nat, (b = 103 ∨ b = 105 ∨ b = 109) →
        (njs_regexp_flags_union c seen &&& flag ≠ 0 ↔ b ∈ seen) →
        (b ∉ seen → njs_regexp_flags_union c (seen ++ [b]) =
          njs_regexp_flags_union c seen ||| flag) →
        njs_regexp_flags_loop c (b :: rest) p (njs_regexp_flags_union c seen) =
          (if njs_regexp_flags_union c seen &&& flag ≠ 0 then
            (c.NJS_REGEXP_INVALID_FLAG, p + 1)
          else njs_regexp_flags_loop c rest (p + 1) (njs_regexp_flags_union c seen ||| flag)) →
        (njs_regexp_flags_valid
            (seen ++ (b :: rest).takeWhile (fun b => decide (97 ≤ b ∧ b ≤ 122))) →
          njs_regexp_flags_loop c (b :: rest) p (njs_regexp_flags_union c seen) =
            (((njs_regexp_flags_union c
                (seen ++ (b :: rest).takeWhile (fun b => decide (97 ≤ b ∧ b ≤ 122))) : Nat) : Int),
              p + ((b :: rest).takeWhile (fun b => decide (97 ≤ b ∧ b ≤ 122))).length)) ∧
        (¬ njs_regexp_flags_valid
            (seen ++ (b :: rest).takeWhile (fun b => decide (97 ≤ b ∧ b ≤ 122))) →
          (njs_regexp_flags_loop c (b :: rest) p (njs_regexp_flags_union c seen)).1 =
            c.NJS_REGEXP_INVALID_FLAG) := by
      intro flag hb hmem hun hloop
      have hlc : decide (97 ≤ b ∧ b ≤ 122) = true := by
        rcases hb with h | h | h <;> rw [h] <;> decide
      have htw : (b :: rest).takeWhile (fun b => decide (97 ≤ b ∧ b ≤ 122)) =
          b :: rest.takeWhile (fun b => decide (97 ≤ b ∧ b ≤ 122)) := by
        rw [List.takeWhile_cons, hlc]
        rfl
      have hsplit : seen ++ b :: rest.takeWhile (fun b => decide (97 ≤ b ∧ b ≤ 122)) =
          (seen ++ [b]) ++ rest.takeWhile (fun b => decide (97 ≤ b ∧ b ≤ 122)) := by
        simp
      rw [htw, hsplit, hloop]
      by_cases hin : b ∈ seen
      · rw [if_pos (hmem.mpr hin)]
        refine ⟨fun hval => ?_, fun _ => rfl⟩
        exfalso
        have hnd := hval.2
        rw [List.append_assoc, List.nodup_append] at hnd
        exact hnd.2.2 hin (List.mem_append_left _ (List.mem_singleton_self b))
      · have hz : ¬ (njs_regexp_flags_union c seen &&& flag ≠ 0) := fun h => hin (hmem.mp h)
        rw [if_neg hz, ← hun hin]
        obtain ⟨i1, i2⟩ := ih (seen ++ [b]) (p + 1)
          (njs_regexp_flags_valid_append seen b hv hb hin)
        refine ⟨fun hval => ?_, i2⟩
        rw [i1 hval, List.length_cons]
        congr 1
        omega
    by_cases h103 : b = 103
    · refine hletter c.NJS_REGEXP_GLOBAL (Or.inl h103) (by rw [h103]; exact hland.1)
        (by rw [h103]; exact happ.1) ?_
      simp [njs_regexp_flags_loop, h103]
    · by_cases h105 : b = 105
      · refine hletter c.NJS_REGEXP_IGNORE_CASE (Or.inr (Or.inl h105))
          (by rw [h105]; exact hland.2.1) (by rw [h105]; exact happ.2.1) ?_
        simp [njs_regexp_flags_loop, h105]
      · by_cases h109 : b = 109
        · refine hletter c.NJS_REGEXP_MULTILINE (Or.inr (Or.inr h109))
            (by rw [h109]; exact hland.2.2) (by rw [h109]; exact happ.2.2) ?_
          simp [njs_regexp_flags_loop, h109]
        · -- another byte
          have hl : njs_regexp_flags_loop c (b :: rest) p (njs_regexp_flags_union c seen) =
              (if 97 ≤ b ∧ b ≤ 122 then (c.NJS_REGEXP_INVALID_FLAG, p + 1)
               else (((njs_regexp_flags_union c seen : Nat) : Int), p)) := by
            simp [njs_regexp_flags_loop, h103, h105, h109]
          rw [hl]
          by_cases hlc : 97 ≤ b ∧ b ≤ 122
          · rw [if_pos hlc]
            refine ⟨fun hval => ?_, fun _ => rfl⟩
            exfalso
            have hb := hval.1 b (List.mem_append_right _ (by
              rw [List.takeWhile_cons, decide_eq_true hlc]
              exact List.mem_cons_self _ _))
            rcases hb with h | h | h
            · exact h103 h
            · exact h105 h
            · exact h109 h
          · rw [if_neg hlc]
            have htw : (b :: rest).takeWhile (fun b => decide (97 ≤ b ∧ b ≤ 122)) = [] := by
              rw [List.takeWhile_cons, decide_eq_false hlc]
              rfl
            rw [htw, List.append_nil]
            exact ⟨fun _ => rfl, fun h => absurd hv h⟩

theorem njs_regexp_flags_union_perm (c : njs_regexp_flags_consts) (l1 l2 : List Nat)
    (h : List.Perm l1 l2) : njs_regexp_flags_union c l1 = njs_regexp_flags_union c l2 := by
  simp only [njs_regexp_flags_union, h.mem_iff]

theorem njs_regexp_flags_valid_nil : njs_regexp_flags_valid [] :=
  ⟨fun _ h => absurd h (List.not_mem_nil _), List.nodup_nil⟩

theorem njs_regexp_flags_union_nil (c : njs_regexp_flags_consts) :
    njs_regexp_flags_union c [] = 0 := by
  simp [njs_regexp_flags_union]

theorem njs_regexp_flags_spec (c : njs_regexp_flags_consts)
    (hc : njs_regexp_flags_consts_ok c) (text : List Nat) (start : Nat) :
    (njs_regexp_flags_valid (njs_regexp_flags_letters text start) →
      njs_regexp_flags c text start =
        (((njs_regexp_flags_union c (njs_regexp_flags_letters text start) : Nat) : Int),
          start + (njs_regexp_flags_letters text start).length)) ∧
    (¬ njs_regexp_flags_valid (njs_regexp_flags_letters text start) →
      (njs_regexp_flags c text start).1 = c.NJS_REGEXP_INVALID_FLAG) := by
  have h := njs_regexp_flags_loop_spec c hc (text.drop start) [] start
    njs_regexp_flags_valid_nil
  rw [njs_regexp_flags_union_nil, List.nil_append] at h
  rw [njs_regexp_flags, hc.2.1]
  exact h

theorem njs_regexp_flags_letters_zero (string : List Nat) :
    njs_regexp_flags_valid string → njs_regexp_flags_letters string 0 = string := by
  intro hv
  rw [njs_regexp_flags_letters, List.drop_zero, List.takeWhile_eq_self_iff]
  intro b hb
  rcases hv.1 b hb with h | h | h <;> rw [h] <;> decide

theorem njs_regexp_flags_letters_full (string : List Nat)
    (h : (njs_regexp_flags_letters string 0).length = string.length) :
    njs_regexp_flags_letters string 0 = string := by
  rw [njs_regexp_flags_letters, List.drop_zero] at h ⊢
  have hp := List.takeWhile_prefix (fun b => decide (97 ≤ b ∧ b ≤ 122)) (l := string)
  exact hp.eq_of_length h

theorem njs_regexp_constructor_flags_spec (c : njs_regexp_flags_consts)
    (hc : njs_regexp_flags_consts_ok c) (string : List Nat) :
    (njs_regexp_flags_valid string →
      njs_regexp_constructor_flags c string =
        .flags ((njs_regexp_flags_union c string : Nat) : Int)) ∧
    (¬ njs_regexp_flags_valid string →
      njs_regexp_constructor_flags c string = .syntax_error) := by
  have hs := njs_regexp_flags_spec c hc string 0
  constructor
  · intro hv
    have hl := njs_regexp_flags_letters_zero string hv
    rw [hl] at hs
    have h1 := hs.1 hv
    simp only [njs_regexp_constructor_flags, h1]
    have hnn : ¬ (((njs_regexp_flags_union c string : Nat) : Int) < 0) := by omega
    simp [hnn]
  · intro hv
    by_cases hl : njs_regexp_flags_valid (njs_regexp_flags_letters string 0)
    · have h1 := hs.1 hl
      have hne : (njs_regexp_flags_letters string 0).length ≠ string.length := by
        intro h
        rw [njs_regexp_flags_letters_full string h] at hl
        exact hv hl
      simp only [njs_regexp_constructor_flags, h1]
      simp [hne]
    · have h1 := hs.2 hl
      have hneg := hc.1
      simp only [njs_regexp_constructor_flags]
      rw [← h1] at hneg
      simp [hneg]

theorem njs_takeWhile_stop (p : Nat → Bool) :
    ∀ (l : List Nat) (b : Nat), l[(l.takeWhile p).length]? = some b → p b = false := by
  intro l
  induction l with
  | nil => intro b hb; simp at hb
  | cons a l ih =>
    intro b hb
    cases hp : p a with
    | true =>
      rw [List.takeWhile_cons, hp] at hb
      simp only [if_true, List.length_cons, List.getElem?_cons_succ] at hb
      exact ih b hb
    | false =>
      rw [List.takeWhile_cons, hp] at hb
      simp at hb
      rw [← hb]; exact hp

theorem njs_regexp_flags_letters_stop (text : List Nat) (start : Nat) :
    (∀ b ∈ njs_regexp_flags_letters text start, 97 ≤ b ∧ b ≤ 122) ∧
    (∀ b, text[start + (njs_regexp_flags_letters text start).length]? = some b →
      ¬ (97 ≤ b ∧ b ≤ 122)) := by
  constructor
  · intro b hb
    have := List.mem_takeWhile_imp hb
    simpa using this
  · intro b hb
    rw [njs_regexp_flags_letters] at hb
    rw [← List.getElem?_drop] at hb
    have := njs_takeWhile_stop (fun b => decide (97 ≤ b ∧ b ≤ 122)) (text.drop start) b hb
    simpa using this

/-- Claim C38: with the letters scanned being the bytes from `*start` up to the first byte
outside `a` to `z`, `njs_regexp_flags` returns `NJS_REGEXP_INVALID_FLAG` exactly when these
letters hold a letter other than `g`, `i`, `m` or one of them twice; otherwise it returns the
union of the flags of the letters and sets `*start` behind them, at a byte outside `a` to `z`
or at the end; the value returned is the same for texts whose letters are permutations of
each other; and the constructor gives the syntax error exactly when the string is not made
of the letters `g`, `i`, `m` without repetition, and passes on the union of their flags
otherwise.  The constants of `njs_regexp_flags_t` are parameters: the invalid code is
negative and the three flags are distinct bits. -/
theorem njs_regexp_flags_accepts (c : njs_regexp_flags_consts)
    (hc : njs_regexp_flags_consts_ok c) (text : List Nat) (start : Nat) :
    ((njs_regexp_flags c text start).1 = c.NJS_REGEXP_INVALID_FLAG ↔
      ¬ njs_regexp_flags_valid (njs_regexp_flags_letters text start)) ∧
    (njs_regexp_flags_valid (njs_regexp_flags_letters text start) →
      njs_regexp_flags c text start =
        (((njs_regexp_flags_union c (njs_regexp_flags_letters text start) : Nat) : Int),
          start + (njs_regexp_flags_letters text start).length)) ∧
    (∀ b ∈ njs_regexp_flags_letters text start, 97 ≤ b ∧ b ≤ 122) ∧
    (∀ b, text[start + (njs_regexp_flags_letters text start).length]? = some b →
      ¬ (97 ≤ b ∧ b ≤ 122)) ∧
    (∀ (text2 : List Nat) (start2 : Nat),
      List.Perm (njs_regexp_flags_letters text2 start2) (njs_regexp_flags_letters text start) →
      (njs_regexp_flags c text2 start2).1 = (njs_regexp_flags c text start).1) ∧
    (∀ string : List Nat,
      (njs_regexp_constructor_flags c string = .syntax_error ↔
        ¬ ((∀ b ∈ string, b = 103 ∨ b = 105 ∨ b = 109) ∧ string.Nodup)) ∧
      ((∀ b ∈ string, b = 103 ∨ b = 105 ∨ b = 109) ∧ string.Nodup →
        njs_regexp_constructor_flags c string =
          .flags ((njs_regexp_flags_union c string : Nat) : Int))) := by
  have hs := njs_regexp_flags_spec c hc text start
  have hstop := njs_regexp_flags_letters_stop text start
  refine ⟨⟨fun h hv => ?_, hs.2⟩, hs.1, hstop.1, hstop.2, ?_, ?_⟩
  · have h1 := hs.1 hv
    rw [h1] at h
    have hneg := hc.1
    rw [← h] at hneg
    simp only at hneg
    omega
  · intro text2 start2 hperm
    have hs2 := njs_regexp_flags_spec c hc text2 start2
    by_cases hv : njs_regexp_flags_valid (njs_regexp_flags_letters text start)
    · have hv2 : njs_regexp_flags_valid (njs_regexp_flags_letters text2 start2) :=
        ⟨fun b hb => hv.1 b (hperm.mem_iff.mp hb), hperm.nodup_iff.mpr hv.2⟩
      rw [hs.1 hv, hs2.1 hv2, njs_regexp_flags_union_perm c _ _ hperm]
    · have hv2 : ¬ njs_regexp_flags_valid (njs_regexp_flags_letters text2 start2) :=
        fun h2 => hv ⟨fun b hb => h2.1 b (hperm.mem_iff.mpr hb), hperm.nodup_iff.mp h2.2⟩
      rw [hs.2 hv, hs2.2 hv2]
  · intro string
    have hcs := njs_regexp_constructor_flags_spec c hc string
    refine ⟨⟨fun h hv => ?_, hcs.2⟩, hcs.1⟩
    have h1 := hcs.1 hv
    rw [h1] at h
    cases h

/-- Instance of claim C38: `mg` and `gm` both give the flags 5 and stop at the index 3, `gig`
and `gx` are invalid, and the constructor accepts `mig` and rejects `gG` and `ii`. -/
theorem njs_regexp_flags_accepts_witness :
    njs_regexp_flags_consts_ok njs_example_regexp_flags_consts ∧
    njs_regexp_flags njs_example_regexp_flags_consts [47, 109, 103, 41, 105] 1 = (5, 3) ∧
    njs_regexp_flags njs_example_regexp_flags_consts [47, 103, 109, 41, 105] 1 = (5, 3) ∧
    njs_regexp_flags njs_example_regexp_flags_consts [103, 105, 103] 0 = (-1, 3) ∧
    njs_regexp_flags njs_example_regexp_flags_consts [103, 120, 59] 0 = (-1, 2) ∧
    njs_regexp_constructor_flags njs_example_regexp_flags_consts [109, 105, 103] = .flags 7 ∧
    njs_regexp_constructor_flags njs_example_regexp_flags_consts [103, 71] = .syntax_error ∧
    njs_regexp_constructor_flags njs_example_regexp_flags_consts [105, 105] = .syntax_error ∧
    ((njs_regexp_flags njs_example_regexp_flags_consts [47, 109, 103, 41, 105] 1).1 =
        njs_example_regexp_flags_consts.NJS_REGEXP_INVALID_FLAG ↔
      ¬ njs_regexp_flags_valid (njs_regexp_flags_letters [47, 109, 103, 41, 105] 1)) :=
  ⟨by decide, by decide, by decide, by decide, by decide, by decide, by decide, by decide,
    (njs_regexp_flags_accepts njs_example_regexp_flags_consts (by decide)
      [47, 109, 103, 41, 105] 1).1⟩

theorem njs_drop_cons (text : List Nat) (p b : Nat) (r : List Nat)
    (h : text.drop p = b :: r) :
    p < text.length ∧ text[p]? = some b ∧ text.drop (p + 1) = r := by
  have hlt : p < text.length := by
    by_contra hge
    rw [List.drop_of_length_le (by omega)] at h
    cases h
  refine ⟨hlt, ?_, ?_⟩
  · have := @List.getElem?_drop _ text p 0
    rw [h] at this
    simpa using this.symm
  · rw [← List.drop_drop, h]
    rfl

theorem njs_drop_nil (text : List Nat) (p : Nat) (h : text.drop p = []) :
    ¬ p < text.length := by
  intro hlt
  have := List.length_drop p text
  rw [h] at this
  simp at this
  omega

theorem njs_regexp_lone_brackets_open (in_ : Bool) (r : List Nat) :
    njs_regexp_lone_brackets in_ (91 :: r) = njs_regexp_lone_brackets true r := by
  cases r <;> simp [njs_regexp_lone_brackets]

theorem njs_regexp_lone_brackets_close (in_ : Bool) (r : List Nat) :
    njs_regexp_lone_brackets in_ (93 :: r) =
      (if in_ then 0 else 1) + njs_regexp_lone_brackets false r := by
  cases r <;> simp [njs_regexp_lone_brackets]

theorem njs_regexp_lone_brackets_last (in_ : Bool) :
    njs_regexp_lone_brackets in_ [92] = 0 := by
  simp [njs_regexp_lone_brackets]

theorem njs_regexp_lone_brackets_escaped (in_ : Bool) (b2 : Nat) (r : List Nat) :
    njs_regexp_lone_brackets in_ (92 :: b2 :: r) = njs_regexp_lone_brackets in_ r := by
  simp [njs_regexp_lone_brackets]

theorem njs_regexp_lone_brackets_other (in_ : Bool) (b : Nat) (r : List Nat)
    (h91 : b ≠ 91) (h93 : b ≠ 93) (h92 : b ≠ 92) :
    njs_regexp_lone_brackets in_ (b :: r) = njs_regexp_lone_brackets in_ r := by
  cases r <;> simp [njs_regexp_lone_brackets, h91, h93, h92]

theorem njs_regexp_escape_text_open (in_ : Bool) (r : List Nat) :
    njs_regexp_escape_text in_ (91 :: r) = 91 :: njs_regexp_escape_text true r := by
  cases r <;> simp [njs_regexp_escape_text]

theorem njs_regexp_escape_text_close (in_ : Bool) (r : List Nat) :
    njs_regexp_escape_text in_ (93 :: r) =
      (if in_ then [93] else [92, 93]) ++ njs_regexp_escape_text false r := by
  cases r <;> simp [njs_regexp_escape_text]

theorem njs_regexp_escape_text_last (in_ : Bool) :
    njs_regexp_escape_text in_ [92] = [92] := by
  simp [njs_regexp_escape_text]

theorem njs_regexp_escape_text_escaped_zero (in_ : Bool) (r : List Nat) :
    njs_regexp_escape_text in_ (92 :: 0 :: r) =
      92 :: 92 :: 117 :: 48 :: 48 :: 48 :: 48 :: njs_regexp_escape_text in_ r := by
  simp [njs_regexp_escape_text]

theorem njs_regexp_escape_text_escaped (in_ : Bool) (b2 : Nat) (r : List Nat) (h : b2 ≠ 0) :
    njs_regexp_escape_text in_ (92 :: b2 :: r) = 92 :: b2 :: njs_regexp_escape_text in_ r := by
  simp [njs_regexp_escape_text, h]

theorem njs_regexp_escape_text_zero (in_ : Bool) (r : List Nat) :
    njs_regexp_escape_text in_ (0 :: r) =
      92 :: 117 :: 48 :: 48 :: 48 :: 48 :: njs_regexp_escape_text in_ r := by
  cases r <;> simp [njs_regexp_escape_text]

theorem njs_regexp_escape_text_other (in_ : Bool) (b : Nat) (r : List Nat)
    (h91 : b ≠ 91) (h93 : b ≠ 93) (h92 : b ≠ 92) (h0 : b ≠ 0) :
    njs_regexp_escape_text in_ (b :: r) = b :: njs_regexp_escape_text in_ r := by
  cases r <;> simp [njs_regexp_escape_text, h91, h93, h92, h0]

/-- The counting loop gives the number of the lone brackets and of the zero bytes. -/
theorem njs_regexp_escape_count_spec (text : List Nat) :
    ∀ (n : Nat) (rest : List Nat), rest.length ≤ n →
      ∀ (p : Nat) (in_ : Bool) (brackets zeros fuel : Nat),
        text.drop p = rest → rest.length < fuel →
        njs_regexp_escape_count text fuel p in_ brackets zeros =
          some (brackets + njs_regexp_lone_brackets in_ rest, zeros + rest.count 0) := by
  intro n
  induction n with
  | zero =>
    intro rest hn p in_ brackets zeros fuel hd hf
    have hr : rest = [] := List.length_eq_zero.mp (by omega)
    subst hr
    obtain ⟨f, rfl⟩ : ∃ f, fuel = f + 1 := ⟨fuel - 1, by simp at hf; omega⟩
    simp [njs_regexp_escape_count, njs_drop_nil text p hd, njs_regexp_lone_brackets]
  | succ n ih =>
    intro rest hn p in_ brackets zeros fuel hd hf
    obtain ⟨f, rfl⟩ : ∃ f, fuel = f + 1 := ⟨fuel - 1, by omega⟩
    cases rest with
    | nil =>
      simp [njs_regexp_escape_count, njs_drop_nil text p hd, njs_regexp_lone_brackets]
    | cons b r =>
      obtain ⟨hlt, hget, hdrop⟩ := njs_drop_cons text p b r hd
      simp only [List.length_cons] at hn hf
      have ih1 := fun i br z => ih r (by omega) (p + 1) i br z f hdrop (by omega)
      by_cases h91 : b = 91
      · subst h91
        simp [njs_regexp_escape_count, hlt, hget, ih1, njs_regexp_lone_brackets_open]
      · by_cases h93 : b = 93
        · subst h93
          cases in_ <;>
            simp [njs_regexp_escape_count, hlt, hget, ih1, njs_regexp_lone_brackets_close,
              Nat.add_assoc]
        · by_cases h92 : b = 92
          · subst h92
            cases r with
            | nil =>
              have hlen : p + 1 = text.length := by
                have := njs_drop_nil text (p + 1) hdrop
                omega
              have hd2 : text.drop (p + 1 + 1) = [] :=
                List.drop_of_length_le (by omega)
              have ih2 := ih [] (by simp) (p + 1 + 1) in_ brackets zeros f hd2
                (by simp at hf ⊢; omega)
              simp only [njs_regexp_escape_count, hlt, hget, hlen, if_true,
                njs_regexp_lone_brackets_last]
              rw [hlen] at ih2
              simpa [njs_regexp_lone_brackets] using ih2
            | cons b2 r2 =>
              obtain ⟨hlt2, hget2, hdrop2⟩ := njs_drop_cons text (p + 1) b2 r2 hdrop
              simp only [List.length_cons] at hn hf
              have ih2 := fun z => ih r2 (by omega) (p + 1 + 1) in_ brackets z f hdrop2
                (by omega)
              have hne : p + 1 ≠ text.length := by omega
              by_cases hz : b2 = 0
              · subst hz
                simp [njs_regexp_escape_count, hlt, hget, hget2, hne, ih2,
                  njs_regexp_lone_brackets_escaped]
                omega
              · simp [njs_regexp_escape_count, hlt, hget, hget2, hne, ih2, hz,
                  njs_regexp_lone_brackets_escaped, List.count_cons, Ne.symm hz]
          · by_cases h0 : b = 0
            · subst h0
              simp [njs_regexp_escape_count, hlt, hget, ih1,
                njs_regexp_lone_brackets_other]
              omega
            · simp [njs_regexp_escape_count, hlt, hget, ih1,
                njs_regexp_lone_brackets_other, h91, h93, h92, h0, List.count_cons, Ne.symm h0]

/-- Induction along the scan of `njs_regexp_escape`: over a bracket, a backslash with the byte
behind it, or another byte. -/
theorem njs_regexp_escape_induction (P : Bool → List Nat → Prop)
    (hnil : ∀ i, P i [])
    (hopen : ∀ i r, P true r → P i (91 :: r))
    (hclose : ∀ i r, P false r → P i (93 :: r))
    (hlast : ∀ i, P i [92])
    (hesc : ∀ i b2 r, P i r → P i (92 :: b2 :: r))
    (hother : ∀ i b r, b ≠ 91 → b ≠ 93 → b ≠ 92 → P i r → P i (b :: r)) :
    ∀ (i : Bool) (r : List Nat), P i r := by
  have h : ∀ (n : Nat) (r : List Nat), r.length ≤ n → ∀ i, P i r := by
    intro n
    induction n with
    | zero =>
      intro r hr i
      have : r = [] := List.length_eq_zero.mp (by omega)
      subst this
      exact hnil i
    | succ n ih =>
      intro r hr i
      cases r with
      | nil => exact hnil i
      | cons b r =>
        simp only [List.length_cons] at hr
        by_cases h91 : b = 91
        · subst h91; exact hopen i r (ih r (by omega) true)
        · by_cases h93 : b = 93
          · subst h93; exact hclose i r (ih r (by omega) false)
          · by_cases h92 : b = 92
            · subst h92
              cases r with
              | nil => exact hlast i
              | cons b2 r2 =>
                simp only [List.length_cons] at hr
                exact hesc i b2 r2 (ih r2 (by omega) i)
            · exact hother i b r h91 h93 h92 (ih r (by omega) i)
  intro i r
  exact h r.length r (Nat.le_refl _) i

theorem njs_regexp_escape_text_length (i : Bool) (r : List Nat) :
    (njs_regexp_escape_text i r).length =
      r.length + njs_regexp_lone_brackets i r + 5 * r.count 0 := by
  revert i r
  apply njs_regexp_escape_induction
  · intro i; simp [njs_regexp_escape_text, njs_regexp_lone_brackets]
  · intro i r ih
    simp [njs_regexp_escape_text_open, njs_regexp_lone_brackets_open, ih]
    omega
  · intro i r ih
    cases i <;>
      simp [njs_regexp_escape_text_close, njs_regexp_lone_brackets_close, ih] <;> omega
  · intro i; simp [njs_regexp_escape_text_last, njs_regexp_lone_brackets_last]
  · intro i b2 r ih
    by_cases hz : b2 = 0
    · subst hz
      simp [njs_regexp_escape_text_escaped_zero, njs_regexp_lone_brackets_escaped, ih]
      omega
    · simp [njs_regexp_escape_text_escaped, hz, njs_regexp_lone_brackets_escaped, ih,
        List.count_cons, Ne.symm hz]
      omega
  · intro i b r h91 h93 h92 ih
    by_cases hz : b = 0
    · subst hz
      simp [njs_regexp_escape_text_zero, njs_regexp_lone_brackets_other, ih]
      omega
    · simp [njs_regexp_escape_text_other, h91, h93, h92, hz, njs_regexp_lone_brackets_other,
        ih, List.count_cons, Ne.symm hz]
      omega

theorem njs_regexp_escape_text_no_zero (i : Bool) (r : List Nat) :
    0 ∉ njs_regexp_escape_text i r := by
  revert i r
  apply njs_regexp_escape_induction
  · intro i; simp [njs_regexp_escape_text]
  · intro i r ih
    simp [njs_regexp_escape_text_open, ih]
  · intro i r ih
    cases i <;> simp [njs_regexp_escape_text_close, ih]
  · intro i; simp [njs_regexp_escape_text_last]
  · intro i b2 r ih
    by_cases hz : b2 = 0
    · subst hz
      simp [njs_regexp_escape_text_escaped_zero, ih]
    · simp [njs_regexp_escape_text_escaped, hz, ih, Ne.symm hz]
  · intro i b r h91 h93 h92 ih
    by_cases hz : b = 0
    · subst hz
      simp [njs_regexp_escape_text_zero, ih]
    · simp [njs_regexp_escape_text_other, h91, h93, h92, hz, ih, Ne.symm hz]

theorem njs_regexp_escape_text_same (i : Bool) (r : List Nat) :
    njs_regexp_lone_brackets i r = 0 → r.count 0 = 0 → njs_regexp_escape_text i r = r := by
  revert i r
  apply njs_regexp_escape_induction
  · intro i _ _; simp [njs_regexp_escape_text]
  · intro i r ih hb hz
    rw [njs_regexp_lone_brackets_open] at hb
    rw [njs_regexp_escape_text_open, ih hb (by simpa using hz)]
  · intro i r ih hb hz
    rw [njs_regexp_lone_brackets_close] at hb
    cases i
    · simp at hb
    · rw [njs_regexp_escape_text_close, ih (by simpa using hb) (by simpa using hz)]
      rfl
  · intro i _ _; simp [njs_regexp_escape_text_last]
  · intro i b2 r ih hb hz
    rw [njs_regexp_lone_brackets_escaped] at hb
    have hb2 : b2 ≠ 0 := by
      intro h; subst h; simp at hz
    have hz2 : r.count 0 = 0 := by
      simpa [List.count_cons, Ne.symm hb2] using hz
    rw [njs_regexp_escape_text_escaped i b2 r hb2, ih hb hz2]
  · intro i b r h91 h93 h92 ih hb hz
    rw [njs_regexp_lone_brackets_other i b r h91 h93 h92] at hb
    have hb0 : b ≠ 0 := by
      intro h; subst h; simp at hz
    have hz2 : r.count 0 = 0 := by
      simpa [List.count_cons, Ne.symm hb0] using hz
    rw [njs_regexp_escape_text_other i b r h91 h93 h92 hb0, ih hb hz2]

theorem njs_regexp_escape_put_ok (cap : Nat) (dst bytes : List Nat)
    (h : dst.length + bytes.length ≤ cap) :
    njs_regexp_escape_put cap dst bytes = some (dst ++ bytes) := by
  simp [njs_regexp_escape_put, h]

/-- The copying loop writes the escaped text when the allocation has room for it. -/
theorem njs_regexp_escape_copy_spec (text : List Nat) (cap : Nat) :
    ∀ (in_ : Bool) (rest : List Nat) (p : Nat) (dst : List Nat) (fuel : Nat),
      text.drop p = rest → rest.length < fuel →
      dst.length + (njs_regexp_escape_text in_ rest).length ≤ cap →
      njs_regexp_escape_copy text cap fuel p in_ dst =
        some (dst ++ njs_regexp_escape_text in_ rest) := by
  apply njs_regexp_escape_induction
  · intro i p dst fuel hd hf _
    obtain ⟨f, rfl⟩ : ∃ f, fuel = f + 1 := ⟨fuel - 1, by simp at hf; omega⟩
    simp [njs_regexp_escape_copy, njs_drop_nil text p hd, njs_regexp_escape_text]
  · intro i r ih p dst fuel hd hf hcap
    obtain ⟨f, rfl⟩ : ∃ f, fuel = f + 1 := ⟨fuel - 1, by omega⟩
    obtain ⟨hlt, hget, hdrop⟩ := njs_drop_cons text p 91 r hd
    rw [njs_regexp_escape_text_open] at hcap ⊢
    simp only [List.length_cons] at hcap hf
    have hput := njs_regexp_escape_put_ok cap dst [91] (by simp; omega)
    have := ih (p + 1) (dst ++ [91]) f hdrop (by omega) (by simp; omega)
    simp [njs_regexp_escape_copy, hlt, hget, hput]
    simpa using this
  · intro i r ih p dst fuel hd hf hcap
    obtain ⟨f, rfl⟩ : ∃ f, fuel = f + 1 := ⟨fuel - 1, by omega⟩
    obtain ⟨hlt, hget, hdrop⟩ := njs_drop_cons text p 93 r hd
    rw [njs_regexp_escape_text_close] at hcap ⊢
    simp only [List.length_cons] at hf
    cases i
    · simp only [Bool.false_eq_true, if_false, List.length_append, List.length_cons,
        List.length_nil] at hcap
      have hput1 := njs_regexp_escape_put_ok cap dst [92] (by simp; omega)
      have hput2 := njs_regexp_escape_put_ok cap (dst ++ [92]) [93] (by simp; omega)
      have := ih (p + 1) (dst ++ [92] ++ [93]) f hdrop (by omega) (by simp; omega)
      simp [njs_regexp_escape_copy, hlt, hget, hput1, hput2]
      simpa using this
    · simp only [if_true, List.length_append, List.length_cons, List.length_nil] at hcap
      have hput2 := njs_regexp_escape_put_ok cap dst [93] (by simp; omega)
      have := ih (p + 1) (dst ++ [93]) f hdrop (by omega) (by simp; omega)
      simp [njs_regexp_escape_copy, hlt, hget, hput2]
      simpa using this
  · intro i p dst fuel hd hf hcap
    obtain ⟨f, rfl⟩ : ∃ f, fuel = f + 1 := ⟨fuel - 1, by omega⟩
    obtain ⟨hlt, hget, hdrop⟩ := njs_drop_cons text p 92 [] hd
    have hlen : p + 1 = text.length := by
      have := njs_drop_nil text (p + 1) hdrop
      omega
    rw [njs_regexp_escape_text_last] at hcap ⊢
    have hput := njs_regexp_escape_put_ok cap dst [92] (by simpa using hcap)
    simp [njs_regexp_escape_copy, hlt, hget, hput, hlen]
  · intro i b2 r ih p dst fuel hd hf hcap
    obtain ⟨f, rfl⟩ : ∃ f, fuel = f + 1 := ⟨fuel - 1, by omega⟩
    obtain ⟨hlt, hget, hdrop⟩ := njs_drop_cons text p 92 (b2 :: r) hd
    obtain ⟨hlt2, hget2, hdrop2⟩ := njs_drop_cons text (p + 1) b2 r hdrop
    have hne : p + 1 ≠ text.length := by omega
    simp only [List.length_cons] at hf
    by_cases hz : b2 = 0
    · subst hz
      rw [njs_regexp_escape_text_escaped_zero] at hcap ⊢
      simp only [List.length_cons] at hcap
      have hput1 := njs_regexp_escape_put_ok cap dst [92] (by simp; omega)
      have hput2 := njs_regexp_escape_put_ok cap (dst ++ [92]) [92, 117, 48, 48, 48, 48]
        (by simp; omega)
      have := ih (p + 1 + 1) (dst ++ [92] ++ [92, 117, 48, 48, 48, 48]) f hdrop2 (by omega)
        (by simp; omega)
      simp [njs_regexp_escape_copy, hlt, hget, hget2, hne, hput1, hput2]
      simpa using this
    · rw [njs_regexp_escape_text_escaped i b2 r hz] at hcap ⊢
      simp only [List.length_cons] at hcap
      have hput1 := njs_regexp_escape_put_ok cap dst [92] (by simp; omega)
      have hput2 := njs_regexp_escape_put_ok cap (dst ++ [92]) [b2] (by simp; omega)
      have := ih (p + 1 + 1) (dst ++ [92] ++ [b2]) f hdrop2 (by omega) (by simp; omega)
      simp [njs_regexp_escape_copy, hlt, hget, hget2, hne, hz, hput1, hput2]
      simpa using this
  · intro i b r h91 h93 h92 ih p dst fuel hd hf hcap
    obtain ⟨f, rfl⟩ : ∃ f, fuel = f + 1 := ⟨fuel - 1, by omega⟩
    obtain ⟨hlt, hget, hdrop⟩ := njs_drop_cons text p b r hd
    simp only [List.length_cons] at hf
    by_cases hz : b = 0
    · subst hz
      rw [njs_regexp_escape_text_zero] at hcap ⊢
      simp only [List.length_cons] at hcap
      have hput := njs_regexp_escape_put_ok cap dst [92, 117, 48, 48, 48, 48]
        (by simp; omega)
      have := ih (p + 1) (dst ++ [92, 117, 48, 48, 48, 48]) f hdrop (by omega)
        (by simp; omega)
      simp [njs_regexp_escape_copy, hlt, hget, hput]
      simpa using this
    · rw [njs_regexp_escape_text_other i b r h91 h93 h92 hz] at hcap ⊢
      simp only [List.length_cons] at hcap
      have hput := njs_regexp_escape_put_ok cap dst [b] (by simp; omega)
      have := ih (p + 1) (dst ++ [b]) f hdrop (by omega) (by simp; omega)
      simp [njs_regexp_escape_copy, hlt, hget, h91, h93, h92, hz, hput]
      simpa using this

/-- The function `njs_regexp_escape` in terms of the escaped text, when the size of the
allocation does not wrap. -/
theorem njs_regexp_escape_spec (bits : Nat) (alloc : Bool) (fuel : Nat) (text : List Nat)
    (hbits : text.length + njs_regexp_lone_brackets false text + 6 * text.count 0 < 2 ^ bits)
    (hfuel : text.length < fuel) :
    njs_regexp_escape bits alloc fuel text =
      some (if njs_regexp_lone_brackets false text = 0 ∧ text.count 0 = 0 then
          ⟨.NJS_OK, none, false, .input, text.length⟩
        else if alloc = false then
          ⟨.NJS_ERROR, some (text.length + njs_regexp_lone_brackets false text +
              6 * text.count 0), true, .null,
            text.length + njs_regexp_lone_brackets false text + 6 * text.count 0⟩
        else
          ⟨.NJS_OK, some (text.length + njs_regexp_lone_brackets false text +
              6 * text.count 0), false, .allocated (njs_regexp_escape_text false text),
            (njs_regexp_escape_text false text).length⟩) := by
  have hcount := njs_regexp_escape_count_spec text text.length text (Nat.le_refl _) 0 false 0 0
    fuel (List.drop_zero text) hfuel
  simp only [Nat.zero_add] at hcount
  have hz6 : (text.count 0 * 6) % 2 ^ bits = text.count 0 * 6 :=
    Nat.mod_eq_of_lt (by omega)
  have hlen : (text.length + njs_regexp_lone_brackets false text + text.count 0 * 6) % 2 ^ bits
      = text.length + njs_regexp_lone_brackets false text + 6 * text.count 0 := by
    rw [Nat.mod_eq_of_lt (by omega)]
    omega
  have hcopy := njs_regexp_escape_copy_spec text
    (text.length + njs_regexp_lone_brackets false text + 6 * text.count 0) false text 0 []
    fuel (List.drop_zero text) hfuel
    (by rw [njs_regexp_escape_text_length]; simp only [List.length_nil]; omega)
  simp only [njs_regexp_escape, hcount, hz6, hlen]
  by_cases h0 : njs_regexp_lone_brackets false text = 0 ∧ text.count 0 = 0
  · simp only [h0, and_self, if_true]
  · rw [if_neg h0, if_neg h0]
    cases alloc
    · simp
    · simp [hcopy]

/-- Claim C39: `njs_regexp_escape` returns, and when it returns `NJS_OK` the text is the
escaped text of the description and its length is that of the escaped text; it returns
`NJS_OK` unless the allocation is needed and fails, and then `NJS_ERROR` with the memory
error; the escaped text has no zero byte; and a text without a zero byte and without a lone
`]` is left as it is, with the same start and length and no allocation.  The size of the
allocation fits `size_t`. -/
theorem njs_regexp_escape_text_returned (bits : Nat) (alloc : Bool) (fuel : Nat)
    (text : List Nat)
    (hbits : text.length + njs_regexp_lone_brackets false text + 6 * text.count 0 < 2 ^ bits)
    (hfuel : text.length < fuel) :
    ∃ r : njs_regexp_escape_t, njs_regexp_escape bits alloc fuel text = some r ∧
      (r.ret = .NJS_OK →
        njs_regexp_escape_bytes text r = some (njs_regexp_escape_text false text) ∧
        r.length = (njs_regexp_escape_text false text).length) ∧
      (r.ret = .NJS_OK ↔
        alloc = true ∨ (njs_regexp_lone_brackets false text = 0 ∧ text.count 0 = 0)) ∧
      (r.ret = .NJS_ERROR → r.memory_error = true) ∧
      0 ∉ njs_regexp_escape_text false text ∧
      (njs_regexp_lone_brackets false text = 0 ∧ text.count 0 = 0 →
        r = ⟨.NJS_OK, none, false, .input, text.length⟩ ∧
        njs_regexp_escape_text false text = text) := by
  have hspec := njs_regexp_escape_spec bits alloc fuel text hbits hfuel
  refine ⟨_, hspec, ?_, ?_, ?_, njs_regexp_escape_text_no_zero false text, ?_⟩
  · intro hret
    by_cases h0 : njs_regexp_lone_brackets false text = 0 ∧ text.count 0 = 0
    · have hsame := njs_regexp_escape_text_same false text h0.1 h0.2
      simp only [h0, and_self, if_true, njs_regexp_escape_bytes, hsame, List.take_length]
    · cases alloc
      · simp [h0] at hret
      · simp [h0, njs_regexp_escape_bytes]
  · by_cases h0 : njs_regexp_lone_brackets false text = 0 ∧ text.count 0 = 0
    · simp [h0]
    · cases alloc <;> simp [h0]
  · by_cases h0 : njs_regexp_lone_brackets false text = 0 ∧ text.count 0 = 0
    · simp [h0]
    · cases alloc <;> simp [h0]
  · intro h0
    simp only [h0, and_self, if_true, true_and]
    exact njs_regexp_escape_text_same false text h0.1 h0.2

set_option maxRecDepth 20000 in
/-- Instance of claim C39: the text `a][]]` followed by an escaped `]` and a zero byte is
escaped into 15 bytes in an allocation of 16, a backslash with a zero byte becomes 7 bytes, a
text without a lone bracket is unchanged, and a failed allocation gives `NJS_ERROR`. -/
theorem njs_regexp_escape_text_returned_witness :
    njs_regexp_escape 64 true 9 [97, 93, 91, 93, 93, 92, 93, 0] =
      some ⟨.NJS_OK, some 16, false,
        .allocated [97, 92, 93, 91, 93, 92, 93, 92, 93, 92, 117, 48, 48, 48, 48], 15⟩ ∧
    njs_regexp_escape 64 true 3 [92, 0] =
      some ⟨.NJS_OK, some 8, false, .allocated [92, 92, 117, 48, 48, 48, 48], 7⟩ ∧
    njs_regexp_escape 64 true 5 [91, 93, 92, 93] =
      some ⟨.NJS_OK, none, false, .input, 4⟩ ∧
    njs_regexp_escape 64 false 2 [93] = some ⟨.NJS_ERROR, some 2, true, .null, 2⟩ ∧
    ∃ r : njs_regexp_escape_t,
      njs_regexp_escape 64 true 9 [97, 93, 91, 93, 93, 92, 93, 0] = some r ∧
      (r.ret = .NJS_OK →
        njs_regexp_escape_bytes [97, 93, 91, 93, 93, 92, 93, 0] r =
          some (njs_regexp_escape_text false [97, 93, 91, 93, 93, 92, 93, 0]) ∧
        r.length = (njs_regexp_escape_text false [97, 93, 91, 93, 93, 92, 93, 0]).length) ∧
      (r.ret = .NJS_OK ↔
        true = true ∨ (njs_regexp_lone_brackets false [97, 93, 91, 93, 93, 92, 93, 0] = 0 ∧
          [97, 93, 91, 93, 93, 92, 93, 0].count 0 = 0)) ∧
      (r.ret = .NJS_ERROR → r.memory_error = true) ∧
      0 ∉ njs_regexp_escape_text false [97, 93, 91, 93, 93, 92, 93, 0] ∧
      (njs_regexp_lone_brackets false [97, 93, 91, 93, 93, 92, 93, 0] = 0 ∧
          [97, 93, 91, 93, 93, 92, 93, 0].count 0 = 0 →
        r = ⟨.NJS_OK, none, false, .input, [97, 93, 91, 93, 93, 92, 93, 0].length⟩ ∧
        njs_regexp_escape_text false [97, 93, 91, 93, 93, 92, 93, 0] =
          [97, 93, 91, 93, 93, 92, 93, 0]) :=
  ⟨by decide, by decide, by decide, by decide,
    njs_regexp_escape_text_returned 64 true 9 [97, 93, 91, 93, 93, 92, 93, 0]
      (by decide) (by decide)⟩

/-- Claim C40: the counting loop of `njs_regexp_escape` ends and gives the number of the lone
`]` and of the zero bytes without reading behind the end; the size of the allocation is the
length of the text plus the number of the lone brackets plus six times the number of the zero
bytes; the copying loop ends without reading behind the end and without writing behind the
allocation, and writes the length plus the lone brackets plus five times the zero bytes, so
`text->length` is at most the size of the allocation.  The size of the allocation fits
`size_t`. -/
theorem njs_regexp_escape_passes_agree (bits : Nat) (fuel : Nat) (text : List Nat)
    (hbits : text.length + njs_regexp_lone_brackets false text + 6 * text.count 0 < 2 ^ bits)
    (hfuel : text.length < fuel) :
    njs_regexp_escape_count text fuel 0 false 0 0 =
      some (njs_regexp_lone_brackets false text, text.count 0) ∧
    (text.length + njs_regexp_lone_brackets false text + (text.count 0 * 6) % 2 ^ bits)
        % 2 ^ bits =
      text.length + njs_regexp_lone_brackets false text + 6 * text.count 0 ∧
    (∃ dst : List Nat,
      njs_regexp_escape_copy text
          (text.length + njs_regexp_lone_brackets false text + 6 * text.count 0)
          fuel 0 false [] = some dst ∧
        dst.length = text.length + njs_regexp_lone_brackets false text + 5 * text.count 0 ∧
        dst.length ≤ text.length + njs_regexp_lone_brackets false text + 6 * text.count 0) ∧
    (∀ alloc : Bool, ∃ r : njs_regexp_escape_t,
      njs_regexp_escape bits alloc fuel text = some r ∧
      (∀ n, r.alloc = some n →
        n = text.length + njs_regexp_lone_brackets false text + 6 * text.count 0 ∧
        r.length ≤ n)) := by
  have hcount := njs_regexp_escape_count_spec text text.length text (Nat.le_refl _) 0 false 0 0
    fuel (List.drop_zero text) hfuel
  simp only [Nat.zero_add] at hcount
  have hlenE := njs_regexp_escape_text_length false text
  have hcopy := njs_regexp_escape_copy_spec text
    (text.length + njs_regexp_lone_brackets false text + 6 * text.count 0) false text 0 []
    fuel (List.drop_zero text) hfuel
    (by rw [hlenE]; simp only [List.length_nil]; omega)
  refine ⟨hcount, ?_, ⟨_, hcopy, ?_, ?_⟩, ?_⟩
  · rw [Nat.mod_eq_of_lt (a := text.count 0 * 6) (by omega), Nat.mod_eq_of_lt (by omega)]
    omega
  · simp only [List.nil_append]; exact hlenE
  · simp only [List.nil_append]; omega
  · intro alloc
    refine ⟨_, njs_regexp_escape_spec bits alloc fuel text hbits hfuel, ?_⟩
    intro n hn
    by_cases h0 : njs_regexp_lone_brackets false text = 0 ∧ text.count 0 = 0
    · simp [h0] at hn
    · cases alloc
      · simp only [h0, if_false, if_true, Option.some.injEq] at hn
        subst hn
        simp [h0]
      · simp only [h0, if_false, Bool.true_eq_false, Option.some.injEq] at hn
        subst hn
        simp only [h0, if_false, Bool.true_eq_false, true_and]
        omega

set_option maxRecDepth 20000 in
/-- Instance of claim C40: for the text of a `]`, a zero byte, a backslash, a zero byte and a
last backslash the counting loop gives one bracket and two zero bytes, the copying loop
writes 16 bytes into the allocation of 18, and with an allocation of 15 bytes a write would
be behind the allocation. -/
theorem njs_regexp_escape_passes_agree_witness :
    njs_regexp_escape_count [93, 0, 92, 0, 92] 6 0 false 0 0 = some (1, 2) ∧
    njs_regexp_escape_copy [93, 0, 92, 0, 92] 18 6 0 false [] =
      some [92, 93, 92, 117, 48, 48, 48, 48, 92, 92, 117, 48, 48, 48, 48, 92] ∧
    njs_regexp_escape_copy [93, 0, 92, 0, 92] 15 6 0 false [] = none ∧
    (∃ dst : List Nat,
      njs_regexp_escape_copy [93, 0, 92, 0, 92]
          ([93, 0, 92, 0, 92].length + njs_regexp_lone_brackets false [93, 0, 92, 0, 92] +
            6 * [93, 0, 92, 0, 92].count 0)
          6 0 false [] = some dst ∧
        dst.length = [93, 0, 92, 0, 92].length +
          njs_regexp_lone_brackets false [93, 0, 92, 0, 92] + 5 * [93, 0, 92, 0, 92].count 0 ∧
        dst.length ≤ [93, 0, 92, 0, 92].length +
          njs_regexp_lone_brackets false [93, 0, 92, 0, 92] + 6 * [93, 0, 92, 0, 92].count 0) :=
  ⟨by decide, by decide, by decide,
    (njs_regexp_escape_passes_agree 64 6 [93, 0, 92, 0, 92] (by decide) (by decide)).2.2.1⟩

set_option maxRecDepth 20000 in
/-- Claim C36, the code at the failing input: for the String receiver `abc` and a name that the
own table of the String prototype lacks, `njs_property_query` with the purpose Set returns
`NXT_DECLINED`, and `njs_vmcode_property_set` goes on to insert through
`object->data.u.object`, which a String does not have; for a name that the String prototype
has, the query returns `NXT_OK` and the operation stores the value in the record of the
prototype; for a Number receiver the operation changes nothing. -/
theorem njs_property_set_string_receiver :
    (njs_property_query njs_example_host
        (njs_example_vm njs_example_heap_string_prototype [true, true])
        (njs_property_query_init NJS_PROPERTY_QUERY_SET)
        (njs_string "abc") (njs_string "foo")).map (fun r => r.1) = some NXT_DECLINED ∧
    njs_value_object (njs_string "abc") = none ∧
    njs_vmcode_property_set njs_example_host njs_example_sizes
        (njs_example_vm njs_example_heap_string_prototype [true, true])
        (njs_string "abc") (njs_string "foo") (njs_example_number 7) = none ∧
    (njs_property_query njs_example_host
        (njs_example_vm njs_example_heap_string_prototype [true, true])
        (njs_property_query_init NJS_PROPERTY_QUERY_SET)
        (njs_string "abc") (njs_string "x")).map (fun r => r.1) = some NXT_OK ∧
    njs_vmcode_property_set njs_example_host njs_example_sizes
        (njs_example_vm njs_example_heap_string_prototype [true, true])
        (njs_string "abc") (njs_string "x") (njs_example_number 7) =
      some (njs_example_sizes.prop_set,
        njs_example_vm njs_example_heap_string_prototype_set [true, true]) ∧
    njs_vmcode_property_set njs_example_host njs_example_sizes
        (njs_example_vm njs_example_heap_string_prototype [true, true])
        (njs_example_number 5) (njs_string "x") (njs_example_number 7) =
      some (njs_example_sizes.prop_set,
        njs_example_vm njs_example_heap_string_prototype [true, true]) := by
  refine ⟨by decide, by decide, by decide, by decide, by decide, by decide⟩

/-- The function `njs_vmcode_restart` stores `vm.retval` in the slot of the first operand of
the restarted instruction whether or not the instruction has a result, and leaves the code
pointer at the saved address. -/
theorem njs_vmcode_restart_state_writes (host : njs_vmcode_host_t)
    (code : Int → Option njs_vmcode_generic_t) (s s1 : njs_vm_state_t)
    (trap : njs_trap_frame_t) (ret : njs_ret_t)
    (h : njs_vmcode_restart_state host code s trap = some (ret, s1)) :
    ∃ vmcode, code trap.restart = some vmcode ∧
      s1.values[host.njs_vmcode_operand s1.scopes vmcode.operand1]? = some s1.vm.retval := by
  unfold njs_vmcode_restart_state at h
  split at h
  · rename_i previous chain hf
    simp only at h
    split at h
    · cases h
    · rename_i vmcode hcode
      refine ⟨vmcode, hcode, ?_⟩
      split at h
      · cases h
      · rename_i value1 hv
        split at h
        · cases h
        · rename_i ret2 s2 hop
          split at h
          · rename_i hlt
            simp only [Option.some.injEq, Prod.mk.injEq] at h
            obtain ⟨_, hs⟩ := h
            subst hs
            simp only
            rw [List.getElem?_set_self hlt]
          · cases h
  · cases h

set_option maxRecDepth 20000 in
/-- Claim C33, the code at the failing input: the instruction at the address 64 is the property
set `o[k] = v`, which has no result; after its trap, `njs_vmcode_restart` restores
`vm.current` to 64, runs the operation on the slots of the frame of the trap, so that the
object gets the property `k = 1`, and then stores `vm.retval`, the String `k`, in the slot of
the first operand, which held the value 1 of `v`. -/
theorem njs_restart_overwrites_value_slot :
    (njs_example_code_property_set 64).map (fun vmcode => vmcode.retval) = some false ∧
    njs_example_state_restart.values[1]? = some (njs_example_number 1) ∧
    (njs_vmcode_restart_state njs_example_vmcode_host njs_example_code_property_set
        njs_example_state_restart ⟨64, false, 13⟩).map
      (fun r => (r.1, r.2.current, r.2.values[1]?, r.2.vm.retval, r.2.vm.heap)) =
      some (40, 64, some (njs_string "k"), njs_string "k",
        [.object ⟨[njs_example_prop "k" (njs_example_number 1)], [], none⟩]) := by
  refine ⟨by decide, by decide, by decide⟩

/-- An outcome that is no trap: the operation does not return, or its code is no trap
code. -/
theorem njs_no_trap_none :
    ∀ r : njs_ret_t × njs_vm_t, (none : Option (njs_ret_t × njs_vm_t)) = some r →
      njs_is_trap r.1 = false := by
  intro r h; cases h

theorem njs_no_trap_some (c : njs_ret_t) (vm : njs_vm_t) (hc : njs_is_trap c = false) :
    ∀ r : njs_ret_t × njs_vm_t, some (c, vm) = some r → njs_is_trap r.1 = false := by
  intro r h
  simp only [Option.some.injEq] at h
  rw [← h]; exact hc

theorem njs_is_trap_small (c : njs_ret_t) (h : -4 ≤ c) : njs_is_trap c = false := by
  simp only [njs_is_trap, decide_eq_false_iff_not]
  rintro (h1 | h1 | h1 | h1 | h1) <;>
  · rw [h1] at h
    exact absurd h (by decide)

theorem njs_is_trap_nonneg (c : njs_ret_t) (h : 0 ≤ c) : njs_is_trap c = false :=
  njs_is_trap_small c (Int.le_trans (by decide) h)

theorem njs_object_property_query_loop_codes (heap : List njs_heap_cell) (value : njs_value_t) :
    ∀ (fuel : Nat) (pq : njs_property_query_t) (q : Nat) (ret : njs_ret_t)
      (pq1 : njs_property_query_t),
      njs_object_property_query_loop heap value fuel pq q = some (ret, pq1) →
      ret = NXT_OK ∨ ret = NXT_DECLINED ∨ ret = NJS_STRING_VALUE := by
  intro fuel
  induction fuel with
  | zero => intro pq q ret pq1 h; simp [njs_object_property_query_loop] at h
  | succ n ih =>
    intro pq q ret pq1 h
    simp only [njs_object_property_query_loop] at h
    cases ho : njs_object_at heap q with
    | none => rw [ho] at h; cases h
    | some obj =>
      rw [ho] at h
      simp only at h
      have hk := (njs_object_property_query_turn_keeps obj pq q).1
      cases ht : njs_object_property_query_turn obj pq q with
      | done r p =>
        rw [ht] at h hk
        simp only [Option.some.injEq, Prod.mk.injEq] at h
        simp only [njs_walk_t.ret] at hk
        rw [← h.1]
        rcases hk with hk | hk
        · exact Or.inl hk
        · exact Or.inr (Or.inl hk)
      | next r p =>
        rw [ht] at h hk
        simp only at h
        simp only [njs_walk_t.ret] at hk
        cases hp : obj.__proto__ with
        | some proto =>
          rw [hp] at h
          exact ih p proto ret pq1 h
        | none =>
          rw [hp] at h
          simp only at h
          split at h
          · simp only [Option.some.injEq, Prod.mk.injEq] at h
            exact Or.inr (Or.inr h.1.symm)
          · simp only [Option.some.injEq, Prod.mk.injEq] at h
            rw [← h.1]
            rcases hk with hk | hk
            · exact Or.inl hk
            · exact Or.inr (Or.inl hk)

theorem njs_property_query_key_no_trap (host : njs_host_t) (vm vm1 : njs_vm_t)
    (pq pq1 : njs_property_query_t) (object property : njs_value_t) (hash : List Nat → Nat)
    (obj : Option Nat) (ret : njs_ret_t)
    (hp : njs_is_primitive property = true)
    (h : njs_property_query_key host vm pq object property hash obj = some (ret, vm1, pq1)) :
    njs_is_trap ret = false := by
  unfold njs_property_query_key at h
  rw [if_pos hp] at h
  cases hn : host.njs_value_to_string property with
  | none =>
    rw [hn] at h
    simp only [Option.some.injEq, Prod.mk.injEq] at h
    rw [← h.1]; decide
  | some name =>
    rw [hn] at h
    simp only at h
    cases obj with
    | none =>
      simp only [Option.some.injEq, Prod.mk.injEq] at h
      rw [← h.1]; decide
    | some o =>
      simp only at h
      unfold njs_object_property_query at h
      cases hl : njs_object_property_query_loop vm.heap object vm.heap.length
          { pq with value := name, lhq_key := njs_string_bytes name,
                    lhq_key_hash := hash (njs_string_bytes name) } o with
      | none => rw [hl] at h; cases h
      | some r =>
        obtain ⟨r1, r2⟩ := r
        rw [hl] at h
        simp only [Option.map_some', Option.some.injEq, Prod.mk.injEq] at h
        rw [← h.1]
        rcases njs_object_property_query_loop_codes _ _ _ _ _ _ _ hl with hc | hc | hc <;>
          rw [hc] <;> decide

theorem njs_array_property_query_no_trap (vm vm1 : njs_vm_t) (pq pq1 : njs_property_query_t)
    (object : njs_value_t) (index : Int) (ret : njs_ret_t)
    (h : njs_array_property_query vm pq object index = some (ret, vm1, pq1)) :
    njs_is_trap ret = false := by
  unfold njs_array_property_query at h
  repeat' split at h
  all_goals
    cases h
    try decide

/-- With a primitive property name `njs_property_query` returns no trap code. -/
theorem njs_property_query_no_trap (host : njs_host_t) (vm vm1 : njs_vm_t)
    (pq pq1 : njs_property_query_t) (object property : njs_value_t) (ret : njs_ret_t)
    (hp : njs_is_primitive property = true)
    (h : njs_property_query host vm pq object property = some (ret, vm1, pq1)) :
    njs_is_trap ret = false := by
  unfold njs_property_query at h
  simp only [hp, if_true] at h
  repeat' split at h
  all_goals first
    | exact njs_property_query_key_no_trap host vm vm1 pq pq1 object property _ _ ret hp h
    | exact njs_array_property_query_no_trap vm vm1 pq pq1 object _ ret h
    | (cases h; try decide)

theorem nxt_lvlhsh_insert_no_trap (pool : List Bool) (h : nxt_lvlhsh_t) (key : List Nat)
    (prop : njs_object_prop_t) :
    njs_is_trap (nxt_lvlhsh_insert pool h key prop).1 = false := by
  unfold nxt_lvlhsh_insert
  repeat' split
  all_goals
    dsimp only
    decide

theorem njs_function_private_copy_no_trap (vm : njs_vm_t) (pq : njs_property_query_t) :
    ∀ r, njs_function_private_copy vm pq = some r → njs_is_trap r.1 = false := by
  unfold njs_function_private_copy
  intro r h
  split at h
  · cases h; dsimp only; decide
  · split at h
    · cases h
    · split at h
      · cases h; dsimp only; decide
      · split at h
        · cases h
        · split at h
          · cases h
          · dsimp only at h
            split at h
            · cases h
            · cases h
              exact nxt_lvlhsh_insert_no_trap _ _ _ _

theorem njs_vmcode_property_get_no_trap (host : njs_host_t) (sz : njs_vmcode_sizes)
    (vm : njs_vm_t) (object property : njs_value_t)
    (hh : njs_host_no_trap host) (hsz : 0 ≤ sz.prop_get)
    (hp : njs_is_primitive property = true) :
    ∀ r, njs_vmcode_property_get host sz vm object property = some r →
      njs_is_trap r.1 = false := by
  have hs := njs_is_trap_nonneg sz.prop_get hsz
  unfold njs_vmcode_property_get
  cases hq : njs_property_query host vm (njs_property_query_init NJS_PROPERTY_QUERY_GET)
      object property with
  | none => intro r h; cases h
  | some q =>
    obtain ⟨ret, vm1, pq1⟩ := q
    have hnt := njs_property_query_no_trap host vm vm1 _ pq1 object property ret hp hq
    simp only
    repeat' split
    all_goals
      intro r h
      first
        | (cases h; done)
        | (cases h
           dsimp only
           first
             | exact hs
             | exact hnt
             | decide
             | exact hh.1 _ _ _
             | exact hh.2.2.1 _ _ _
             | exact njs_function_private_copy_no_trap _ _ _ (by assumption))

theorem njs_vmcode_property_set_no_trap (host : njs_host_t) (sz : njs_vmcode_sizes)
    (vm : njs_vm_t) (object property value : njs_value_t)
    (hh : njs_host_no_trap host) (hsz : 0 ≤ sz.prop_set)
    (hp : njs_is_primitive property = true) :
    ∀ r, njs_vmcode_property_set host sz vm object property value = some r →
      njs_is_trap r.1 = false := by
  have hs := njs_is_trap_nonneg sz.prop_set hsz
  unfold njs_vmcode_property_set
  cases hq : njs_property_query host vm (njs_property_query_init NJS_PROPERTY_QUERY_SET)
      object property with
  | none => intro r h; cases h
  | some q =>
    obtain ⟨ret, vm1, pq1⟩ := q
    have hnt := njs_property_query_no_trap host vm vm1 _ pq1 object property ret hp hq
    simp only
    repeat' split
    all_goals
      intro r h
      first
        | (cases h; done)
        | (cases h
           dsimp only
           first
             | exact hs
             | exact hnt
             | decide
             | exact hh.1 _ _ _
             | exact hh.2.1 _
             | exact hh.2.2.1 _ _ _
             | exact hh.2.2.2.1 _ _ _ _
             | exact hh.2.2.2.2 _ _ _ _
             | exact nxt_lvlhsh_insert_no_trap _ _ _ _)

theorem njs_vmcode_property_in_no_trap (host : njs_host_t) (sz : njs_vmcode_sizes)
    (vm : njs_vm_t) (object property : njs_value_t)
    (hh : njs_host_no_trap host) (hsz : 0 ≤ sz.addr3)
    (hp : njs_is_primitive property = true) :
    ∀ r, njs_vmcode_property_in host sz vm object property = some r →
      njs_is_trap r.1 = false := by
  have hs := njs_is_trap_nonneg sz.addr3 hsz
  unfold njs_vmcode_property_in
  cases hq : njs_property_query host vm (njs_property_query_init NJS_PROPERTY_QUERY_IN)
      object property with
  | none => intro r h; cases h
  | some q =>
    obtain ⟨ret, vm1, pq1⟩ := q
    have hnt := njs_property_query_no_trap host vm vm1 _ pq1 object property ret hp hq
    simp only
    repeat' split
    all_goals
      intro r h
      first
        | (cases h; done)
        | (cases h
           dsimp only
           first
             | exact hs
             | exact hnt
             | decide
             | exact hh.1 _ _ _
             | exact hh.2.1 _
             | exact hh.2.2.1 _ _ _
             | exact hh.2.2.2.1 _ _ _ _
             | exact hh.2.2.2.2 _ _ _ _)

theorem njs_vmcode_property_delete_no_trap (host : njs_host_t) (sz : njs_vmcode_sizes)
    (vm : njs_vm_t) (object property : njs_value_t)
    (hh : njs_host_no_trap host) (hsz : 0 ≤ sz.addr3)
    (hp : njs_is_primitive property = true) :
    ∀ r, njs_vmcode_property_delete host sz vm object property = some r →
      njs_is_trap r.1 = false := by
  have hs := njs_is_trap_nonneg sz.addr3 hsz
  unfold njs_vmcode_property_delete
  cases hq : njs_property_query host vm (njs_property_query_init NJS_PROPERTY_QUERY_DELETE)
      object property with
  | none => intro r h; cases h
  | some q =>
    obtain ⟨ret, vm1, pq1⟩ := q
    have hnt := njs_property_query_no_trap host vm vm1 _ pq1 object property ret hp hq
    simp only
    repeat' split
    all_goals
      intro r h
      first
        | (cases h; done)
        | (cases h
           dsimp only
           first
             | exact hs
             | exact hnt
             | decide
             | exact hh.1 _ _ _
             | exact hh.2.1 _
             | exact hh.2.2.1 _ _ _
             | exact hh.2.2.2.1 _ _ _ _
             | exact hh.2.2.2.2 _ _ _ _)

/-- The loop of `njs_primitive_value` changes no slot of the frame. -/
theorem njs_primitive_value_loop_values (lib : njs_function_lib_t) (value : njs_value_t) :
    ∀ (fuel : Nat) (vm : njs_vm_t) (frame : njs_native_frame_t) (hint : Nat) (calls : List Nat),
      (∀ ret vm1 frame1 calls1,
        njs_primitive_value_loop lib value fuel vm frame hint calls =
          some (.ret ret vm1 frame1 calls1) → frame1.values = frame.values) ∧
      (∀ vm1 frame1 calls1,
        njs_primitive_value_loop lib value fuel vm frame hint calls =
          some (.brk vm1 frame1 calls1) →
        frame1.values = frame.values ∧ njs_is_primitive vm1.retval = true) := by
  intro fuel
  induction fuel with
  | zero =>
    intro vm frame hint calls
    constructor
    · intro ret vm1 frame1 calls1 h; simp [njs_primitive_value_loop] at h
    · intro vm1 frame1 calls1 h; simp [njs_primitive_value_loop] at h
  | succ n ih =>
    intro vm frame hint calls
    simp only [njs_primitive_value_loop]
    constructor
    · intro ret vm1 frame1 calls1 h
      repeat' split at h
      all_goals first
        | (cases h; done)
        | (cases h; rfl)
        | exact ((ih _ _ _ _).1 ret vm1 frame1 calls1 h).trans rfl
    · intro vm1 frame1 calls1 h
      repeat' split at h
      all_goals first
        | (cases h; done)
        | (cases h; exact ⟨rfl, by assumption⟩)
        | exact ⟨((ih _ _ _ _).2 vm1 frame1 calls1 h).1.trans rfl,
            ((ih _ _ _ _).2 vm1 frame1 calls1 h).2⟩

/-- The function `njs_primitive_value` changes only the slot of its operand and the slot 0. -/
theorem njs_primitive_value_slots (lib : njs_function_lib_t) (vm vm1 : njs_vm_t)
    (frame frame1 : njs_native_frame_t) (k hint : Nat) (ret : njs_ret_t) (calls : List Nat)
    (h : njs_primitive_value lib vm frame k hint = some (ret, vm1, frame1, calls)) :
    ∀ j, j ≠ k → j ≠ 0 → frame1.values[j]? = frame.values[j]? := by
  intro j hjk hj0
  unfold njs_primitive_value at h
  split at h
  · rename_i value retval hv hr
    split at h
    · split at h
      · cases hl : njs_primitive_value_loop lib value 3 vm frame hint [] with
        | none => rw [hl] at h; cases h
        | some res =>
          rw [hl] at h
          cases res with
          | ret r2 vm2 frame2 calls2 =>
            simp only [Option.some.injEq, Prod.mk.injEq] at h
            obtain ⟨_, _, hf, _⟩ := h
            rw [← hf, (njs_primitive_value_loop_values lib value 3 vm frame hint []).1 _ _ _ _ hl]
          | brk vm2 frame2 calls2 =>
            simp only [Option.some.injEq, Prod.mk.injEq] at h
            obtain ⟨_, _, hf, _⟩ := h
            rw [← hf]
            simp only
            rw [List.getElem?_set_ne (Ne.symm hjk),
              ((njs_primitive_value_loop_values lib value 3 vm frame hint []).2 _ _ _ hl).1]
      · simp only [Option.some.injEq, Prod.mk.injEq] at h
        obtain ⟨_, _, hf, _⟩ := h
        rw [← hf]
        simp only
        rw [List.getElem?_set_ne (Ne.symm hj0), List.getElem?_set_ne (Ne.symm hjk)]
    · simp only [Option.some.injEq, Prod.mk.injEq] at h
      obtain ⟨_, _, hf, _⟩ := h
      rw [← hf]
  · cases h

/-- After `njs_vmcode_number_primitive` has returned the size of its instruction, the slot of
its operand is numeric and the other slots but the slot 0 are as before. -/
theorem njs_vmcode_number_primitive_done (lib : njs_lib_t) (flib : njs_function_lib_t)
    (addr1 : Int) (vm vm1 : njs_vm_t) (frame frame1 : njs_native_frame_t) (narg : Nat)
    (calls : List Nat) (ha : 0 < addr1)
    (h : njs_vmcode_number_primitive lib flib addr1 vm frame narg =
      some (addr1, vm1, frame1, calls)) :
    (∃ v, frame1.values[narg + 1]? = some v ∧ njs_is_numeric v = true) ∧
    ∀ j, j ≠ narg + 1 → j ≠ 0 → frame1.values[j]? = frame.values[j]? := by
  unfold njs_vmcode_number_primitive at h
  cases hp : njs_primitive_value flib vm frame (narg + 1) 0 with
  | none => rw [hp] at h; cases h
  | some res =>
    obtain ⟨ret, vm2, frame2, calls2⟩ := res
    have hslots := njs_primitive_value_slots flib vm vm2 frame frame2 (narg + 1) 0 ret calls2 hp
    rw [hp] at h
    simp only at h
    split at h
    · cases hv : frame2.values[narg + 1]? with
      | none => rw [hv] at h; cases h
      | some value =>
        rw [hv] at h
        simp only at h
        have hlt : narg + 1 < frame2.values.length := by
          by_contra hge
          rw [List.getElem?_eq_none (Nat.le_of_not_lt hge)] at hv
          cases hv
        split at h
        · simp only [Option.some.injEq, Prod.mk.injEq] at h
          obtain ⟨_, _, hf, _⟩ := h
          rw [← hf]
          simp only
          refine ⟨⟨_, List.getElem?_set_self hlt, rfl⟩, ?_⟩
          intro j hj hj0
          rw [List.getElem?_set_ne (Ne.symm hj)]
          exact hslots j hj hj0
        · rename_i hnum
          simp only [Option.some.injEq, Prod.mk.injEq] at h
          obtain ⟨_, _, hf, _⟩ := h
          rw [← hf]
          refine ⟨⟨value, hv, by simpa using hnum⟩, hslots⟩
    · rename_i hret
      simp only [Option.some.injEq, Prod.mk.injEq] at h
      rw [h.1] at hret
      exact absurd ha hret

/-- After `njs_vmcode_string_primitive` has returned the size of its instruction, the slot of
its operand is a String and the other slots but the slot 0 are as before. -/
theorem njs_vmcode_string_primitive_done (lib : njs_lib_t) (flib : njs_function_lib_t)
    (addr1 : Int) (vm vm1 : njs_vm_t) (frame frame1 : njs_native_frame_t) (narg : Nat)
    (calls : List Nat) (ha : 0 < addr1)
    (hlib : ∀ vm v, (lib.njs_number_to_string vm v).1 = NXT_OK →
      njs_is_string (lib.njs_number_to_string vm v).2.2 = true)
    (h : njs_vmcode_string_primitive lib flib addr1 vm frame narg =
      some (addr1, vm1, frame1, calls)) :
    (∃ v, frame1.values[narg + 1]? = some v ∧ njs_is_string v = true) ∧
    ∀ j, j ≠ narg + 1 → j ≠ 0 → frame1.values[j]? = frame.values[j]? := by
  have hne : NXT_ERROR ≠ addr1 := by
    intro he
    rw [← he] at ha
    exact absurd ha (by decide)
  unfold njs_vmcode_string_primitive at h
  cases hp : njs_primitive_value flib vm frame (narg + 1) 1 with
  | none => rw [hp] at h; cases h
  | some res =>
    obtain ⟨ret, vm2, frame2, calls2⟩ := res
    have hslots := njs_primitive_value_slots flib vm vm2 frame frame2 (narg + 1) 1 ret calls2 hp
    rw [hp] at h
    simp only at h
    split at h
    · cases hv : frame2.values[narg + 1]? with
      | none => rw [hv] at h; cases h
      | some value =>
        rw [hv] at h
        simp only at h
        have hlt : narg + 1 < frame2.values.length := by
          by_contra hge
          rw [List.getElem?_eq_none (Nat.le_of_not_lt hge)] at hv
          cases hv
        have hset : ∀ (s : njs_value_t), njs_is_string s = true →
            (∃ v, (frame2.values.set (narg + 1) s)[narg + 1]? = some v ∧
              njs_is_string v = true) ∧
            ∀ j, j ≠ narg + 1 → j ≠ 0 →
              (frame2.values.set (narg + 1) s)[j]? = frame.values[j]? := by
          intro s hs
          refine ⟨⟨s, List.getElem?_set_self hlt, hs⟩, ?_⟩
          intro j hj hj0
          rw [List.getElem?_set_ne (Ne.symm hj)]
          exact hslots j hj hj0
        split at h
        · split at h
          · simp only [Option.some.injEq, Prod.mk.injEq] at h
            obtain ⟨_, _, hf, _⟩ := h
            rw [← hf]
            exact hset njs_string_null (by decide)
          · simp only [Option.some.injEq, Prod.mk.injEq] at h
            obtain ⟨_, _, hf, _⟩ := h
            rw [← hf]
            exact hset njs_string_void (by decide)
          · simp only [Option.some.injEq, Prod.mk.injEq] at h
            obtain ⟨_, _, hf, _⟩ := h
            rw [← hf]
            refine hset _ ?_
            split <;> decide
          · have hl := hlib vm2 value
            split at h
            · rename_i hok
              simp only [Option.some.injEq, Prod.mk.injEq] at h
              obtain ⟨_, _, hf, _⟩ := h
              rw [← hf]
              exact hset _ (hl hok)
            · simp only [Option.some.injEq, Prod.mk.injEq] at h
              exact absurd h.1 hne
          · simp only [Option.some.injEq, Prod.mk.injEq] at h
            exact absurd h.1 hne
        · rename_i hstr
          simp only [Option.some.injEq, Prod.mk.injEq] at h
          obtain ⟨_, _, hf, _⟩ := h
          rw [← hf]
          refine ⟨⟨value, hv, by simpa using hstr⟩, hslots⟩
    · rename_i hret
      simp only [Option.some.injEq, Prod.mk.injEq] at h
      rw [h.1] at hret
      exact absurd ha hret

theorem njs_vmcode_numbers_no_trap (sz : njs_vmcode_sizes) (vm : njs_vm_t)
    (val1 val2 : njs_value_t) (f : njs_double → njs_double → njs_value_t)
    (hsz : 0 ≤ sz.addr3) (h1 : njs_is_numeric val1 = true) (h2 : njs_is_numeric val2 = true) :
    ∀ r, njs_vmcode_numbers sz vm val1 val2 f = some r → njs_is_trap r.1 = false := by
  have hs := njs_is_trap_nonneg sz.addr3 hsz
  unfold njs_vmcode_numbers
  simp only [h1, h2, Bool.and_self, if_true]
  repeat' split
  all_goals
    intro r h
    first
      | (cases h; done)
      | (cases h; exact hs)

theorem njs_vmcode_addition_no_trap (lib : njs_lib_t) (sz : njs_vmcode_sizes) (vm : njs_vm_t)
    (val1 val2 : njs_value_t) (hsz : 0 ≤ sz.addr3)
    (h12 : (njs_is_numeric val1 = true ∧ njs_is_numeric val2 = true) ∨
      (njs_is_string val1 = true ∧ njs_is_string val2 = true)) :
    ∀ r, njs_vmcode_addition lib sz vm val1 val2 = some r → njs_is_trap r.1 = false := by
  have hs := njs_is_trap_nonneg sz.addr3 hsz
  unfold njs_vmcode_addition
  by_cases hn : (njs_is_numeric val1 && njs_is_numeric val2) = true
  · simp only [hn, if_true]
    repeat' split
    all_goals
      intro r h
      first
        | (cases h; done)
        | (cases h; exact hs)
  · have hstr : (njs_is_string val1 && njs_is_string val2) = true := by
      rcases h12 with h | h
      · exact absurd (by simp [h.1, h.2]) hn
      · simp [h.1, h.2]
    simp only [hn, hstr, if_true, if_false, Bool.false_eq_true]
    repeat' split
    all_goals
      intro r h
      first
        | (cases h; done)
        | (cases h; exact hs)
        | (cases h; dsimp only; decide)

theorem njs_values_equal_no_trap (lib : njs_lib_t) (val1 val2 : njs_value_t)
    (h1 : njs_is_numeric val1 = true) (h2 : njs_is_numeric val2 = true) :
    ∀ ret, njs_values_equal lib val1 val2 = some ret → 0 ≤ ret := by
  unfold njs_values_equal
  simp only [h1, h2, Bool.and_self, if_true]
  repeat' split
  all_goals
    intro r h
    first
      | (cases h; done)
      | (cases h; decide)

theorem njs_vmcode_equal_no_trap (lib : njs_lib_t) (sz : njs_vmcode_sizes) (vm : njs_vm_t)
    (val1 val2 : njs_value_t) (hsz : 0 ≤ sz.addr3)
    (h1 : njs_is_numeric val1 = true) (h2 : njs_is_numeric val2 = true) :
    (∀ r, njs_vmcode_equal lib sz vm val1 val2 = some r → njs_is_trap r.1 = false) ∧
    (∀ r, njs_vmcode_not_equal lib sz vm val1 val2 = some r → njs_is_trap r.1 = false) := by
  have hs := njs_is_trap_nonneg sz.addr3 hsz
  have he := njs_values_equal_no_trap lib val1 val2 h1 h2
  unfold njs_vmcode_equal njs_vmcode_not_equal
  cases hv : njs_values_equal lib val1 val2 with
  | none => exact ⟨fun r h => (by cases h), fun r h => (by cases h)⟩
  | some ret =>
    have hge : ret ≥ 0 := he ret hv
    simp only [hge, if_true]
    exact ⟨fun r h => (by cases h; exact hs), fun r h => (by cases h; exact hs)⟩

theorem njs_values_compare_no_trap (lib : njs_lib_t) (val1 val2 : njs_value_t)
    (h12 : (njs_is_numeric val1 = true ∧ njs_is_numeric val2 = true) ∨
      (njs_is_string val1 = true ∧ njs_is_string val2 = true)) :
    ∀ ret, njs_values_compare lib val1 val2 = some ret → -1 ≤ ret := by
  unfold njs_values_compare
  rcases h12 with h | h
  · simp only [h.1, h.2, Bool.or_self, Bool.and_self, if_true]
    repeat' split
    all_goals
      intro r h
      first
        | (cases h; done)
        | (cases h; decide)
  · have n1 : njs_is_numeric val1 = false := by
      have := h.1
      simp only [njs_is_string, decide_eq_true_eq] at this
      simp [njs_is_numeric, this]
    have n2 : njs_is_numeric val2 = false := by
      have := h.2
      simp only [njs_is_string, decide_eq_true_eq] at this
      simp [njs_is_numeric, this]
    simp only [n1, n2, h.1, h.2, Bool.or_self, Bool.and_self, if_true, if_false,
      Bool.false_eq_true]
    repeat' split
    all_goals
      intro r h
      first
        | (cases h; done)
        | (cases h; decide)

theorem njs_vmcode_compare_no_trap (lib : njs_lib_t) (sz : njs_vmcode_sizes) (vm : njs_vm_t)
    (val1 val2 : njs_value_t) (hsz : 0 ≤ sz.addr3)
    (h12 : (njs_is_numeric val1 = true ∧ njs_is_numeric val2 = true) ∨
      (njs_is_string val1 = true ∧ njs_is_string val2 = true)) :
    (∀ r, njs_vmcode_less lib sz vm val1 val2 = some r → njs_is_trap r.1 = false) ∧
    (∀ r, njs_vmcode_greater lib sz vm val1 val2 = some r → njs_is_trap r.1 = false) ∧
    (∀ r, njs_vmcode_greater_or_equal lib sz vm val1 val2 = some r →
      njs_is_trap r.1 = false) ∧
    (∀ r, njs_vmcode_less_or_equal lib sz vm val1 val2 = some r →
      njs_is_trap r.1 = false) := by
  have hs := njs_is_trap_nonneg sz.addr3 hsz
  have h21 : (njs_is_numeric val2 = true ∧ njs_is_numeric val1 = true) ∨
      (njs_is_string val2 = true ∧ njs_is_string val1 = true) := by
    rcases h12 with h | h
    · exact Or.inl ⟨h.2, h.1⟩
    · exact Or.inr ⟨h.2, h.1⟩
  have key : ∀ (a b : njs_value_t),
      ((njs_is_numeric a = true ∧ njs_is_numeric b = true) ∨
        (njs_is_string a = true ∧ njs_is_string b = true)) →
      (∀ r, njs_vmcode_less lib sz vm a b = some r → njs_is_trap r.1 = false) ∧
      (∀ r, njs_vmcode_greater_or_equal lib sz vm a b = some r →
        njs_is_trap r.1 = false) := by
    intro a b hab
    have hc := njs_values_compare_no_trap lib a b hab
    unfold njs_vmcode_less njs_vmcode_greater_or_equal
    cases hv : njs_values_compare lib a b with
    | none => exact ⟨fun r h => (by cases h), fun r h => (by cases h)⟩
    | some ret =>
      have hge : ret ≥ -1 := hc ret hv
      simp only [hge, if_true]
      exact ⟨fun r h => (by cases h; exact hs), fun r h => (by cases h; exact hs)⟩
  exact ⟨(key val1 val2 h12).1, (key val2 val1 h21).1, (key val1 val2 h12).2,
    (key val2 val1 h21).2⟩

theorem njs_vmcode_unary_no_trap (addr2 : Int) (vm : njs_vm_t) (value invld : njs_value_t)
    (ha : 0 ≤ addr2) (h1 : njs_is_numeric value = true) :
    (∀ r, njs_vmcode_unary_plus addr2 vm value invld = some r → njs_is_trap r.1 = false) ∧
    (∀ r, njs_vmcode_unary_negation addr2 vm value invld = some r →
      njs_is_trap r.1 = false) ∧
    (∀ r, njs_vmcode_bitwise_not addr2 vm value invld = some r →
      njs_is_trap r.1 = false) := by
  have hs := njs_is_trap_nonneg addr2 ha
  unfold njs_vmcode_unary_plus njs_vmcode_unary_negation njs_vmcode_bitwise_not
  simp only [h1, if_true]
  refine ⟨?_, ?_, ?_⟩ <;>
  · split
    · intro r h; cases h; exact hs
    · intro r h; cases h

theorem njs_vmcode_incdec_no_trap (lib : njs_lib_t) (sz : njs_vmcode_sizes) (vm : njs_vm_t)
    (reference value : njs_value_t) (hsz : 0 ≤ sz.addr3)
    (h1 : njs_is_numeric value = true) :
    (∀ r, njs_vmcode_increment lib sz vm reference value = some r →
      njs_is_trap r.1 = false) ∧
    (∀ r, njs_vmcode_decrement lib sz vm reference value = some r →
      njs_is_trap r.1 = false) ∧
    (∀ r, njs_vmcode_post_increment lib sz vm reference value = some r →
      njs_is_trap r.1 = false) ∧
    (∀ r, njs_vmcode_post_decrement lib sz vm reference value = some r →
      njs_is_trap r.1 = false) := by
  have hs := njs_is_trap_nonneg sz.addr3 hsz
  unfold njs_vmcode_increment njs_vmcode_decrement njs_vmcode_post_increment
    njs_vmcode_post_decrement
  simp only [h1, if_true]
  refine ⟨?_, ?_, ?_, ?_⟩ <;>
  · split
    · intro r h; cases h; exact hs
    · intro r h; cases h

theorem njs_vmcode_restart_no_trap
    (op : njs_vm_t → njs_value_t → njs_value_t → Option (njs_ret_t × njs_vm_t))
    (vm : njs_vm_t) (frame : njs_native_frame_t) (v1 v2 : njs_value_t)
    (h1 : frame.values[1]? = some v1) (h2 : frame.values[2]? = some v2)
    (hop : ∀ r, op vm v1 v2 = some r → njs_is_trap r.1 = false) :
    njs_vmcode_restart op vm frame = op vm v1 v2 ∧
    ∀ r, njs_vmcode_restart op vm frame = some r → njs_is_trap r.1 = false := by
  have : njs_vmcode_restart op vm frame = op vm v1 v2 := by
    simp only [njs_vmcode_restart, h1, h2]
  exact ⟨this, fun r h => hop r (this ▸ h)⟩

theorem njs_trap_numbers_operations_no_trap (lib : njs_lib_t) (sz : njs_vmcode_sizes)
    (vm : njs_vm_t) (v1 v2 : njs_value_t) (hsz : 0 ≤ sz.addr3)
    (h1 : njs_is_numeric v1 = true) (h2 : njs_is_numeric v2 = true) :
    ∀ op ∈ njs_trap_numbers_operations lib sz,
      ∀ r, op vm v1 v2 = some r → njs_is_trap r.1 = false := by
  intro op hop
  have hnum := fun f => njs_vmcode_numbers_no_trap sz vm v1 v2 f hsz h1 h2
  have heq := njs_vmcode_equal_no_trap lib sz vm v1 v2 hsz h1 h2
  have hcmp := njs_vmcode_compare_no_trap lib sz vm v1 v2 hsz (Or.inl ⟨h1, h2⟩)
  simp only [njs_trap_numbers_operations, List.mem_cons, List.mem_singleton,
    List.mem_nil_iff, or_false] at hop
  rcases hop with rfl | rfl | rfl | rfl | rfl | rfl | rfl | rfl | rfl | rfl | rfl | rfl |
    rfl | rfl | rfl | rfl
  · exact hnum _
  · exact hnum _
  · exact hnum _
  · exact hnum _
  · exact hnum _
  · exact hnum _
  · exact hnum _
  · exact hnum _
  · exact hnum _
  · exact hnum _
  · exact heq.1
  · exact heq.2
  · exact hcmp.1
  · exact hcmp.2.1
  · exact hcmp.2.2.1
  · exact hcmp.2.2.2

theorem njs_trap_strings_operations_no_trap (lib : njs_lib_t) (sz : njs_vmcode_sizes)
    (vm : njs_vm_t) (v1 v2 : njs_value_t) (hsz : 0 ≤ sz.addr3)
    (h1 : njs_is_string v1 = true) (h2 : njs_is_string v2 = true) :
    ∀ op ∈ njs_trap_strings_operations lib sz,
      ∀ r, op vm v1 v2 = some r → njs_is_trap r.1 = false := by
  intro op hop
  have hadd := njs_vmcode_addition_no_trap lib sz vm v1 v2 hsz (Or.inr ⟨h1, h2⟩)
  have hcmp := njs_vmcode_compare_no_trap lib sz vm v1 v2 hsz (Or.inr ⟨h1, h2⟩)
  simp only [njs_trap_strings_operations, List.mem_cons, List.mem_singleton,
    List.mem_nil_iff, or_false] at hop
  rcases hop with rfl | rfl | rfl | rfl | rfl
  · exact hadd
  · exact hcmp.1
  · exact hcmp.2.1
  · exact hcmp.2.2.1
  · exact hcmp.2.2.2

theorem njs_trap_number_operations_no_trap (addr2 : Int) (vm : njs_vm_t)
    (v1 v2 : njs_value_t) (ha : 0 ≤ addr2) (h1 : njs_is_numeric v1 = true) :
    ∀ op ∈ njs_trap_number_operations addr2,
      ∀ r, op vm v1 v2 = some r → njs_is_trap r.1 = false := by
  intro op hop
  have hun := njs_vmcode_unary_no_trap addr2 vm v1 v2 ha h1
  simp only [njs_trap_number_operations, List.mem_cons, List.mem_singleton,
    List.mem_nil_iff, or_false] at hop
  rcases hop with rfl | rfl | rfl
  · exact hun.1
  · exact hun.2.1
  · exact hun.2.2

theorem njs_trap_incdec_operations_no_trap (lib : njs_lib_t) (sz : njs_vmcode_sizes)
    (vm : njs_vm_t) (v1 v2 : njs_value_t) (hsz : 0 ≤ sz.addr3)
    (h2 : njs_is_numeric v2 = true) :
    ∀ op ∈ njs_trap_incdec_operations lib sz,
      ∀ r, op vm v1 v2 = some r → njs_is_trap r.1 = false := by
  intro op hop
  have hid := njs_vmcode_incdec_no_trap lib sz vm v1 v2 hsz h2
  have key : ∀ (o : Option (njs_ret_t × njs_vm_t × njs_value_t)),
      (∀ r, o = some r → njs_is_trap r.1 = false) →
      ∀ r, o.map (fun r => (r.1, r.2.1)) = some r → njs_is_trap r.1 = false := by
    intro o ho r h
    cases o with
    | none => cases h
    | some x =>
      simp only [Option.map_some', Option.some.injEq] at h
      rw [← h]
      exact ho x rfl
  simp only [njs_trap_incdec_operations, List.mem_cons, List.mem_singleton,
    List.mem_nil_iff, or_false] at hop
  rcases hop with rfl | rfl | rfl | rfl
  · exact key _ hid.1
  · exact key _ hid.2.1
  · exact key _ hid.2.2.1
  · exact key _ hid.2.2.2

theorem njs_trap_property_operations_no_trap (host : njs_host_t) (sz : njs_vmcode_sizes)
    (value : njs_value_t) (vm : njs_vm_t) (v1 v2 : njs_value_t)
    (hh : njs_host_no_trap host)
    (hsz : 0 ≤ sz.prop_get ∧ 0 ≤ sz.prop_set ∧ 0 ≤ sz.addr3)
    (h2 : njs_is_string v2 = true) :
    ∀ op ∈ njs_trap_property_operations host sz value,
      ∀ r, op vm v1 v2 = some r → njs_is_trap r.1 = false := by
  intro op hop
  have hp : njs_is_primitive v2 = true := by
    simp only [njs_is_string, decide_eq_true_eq] at h2
    simp [njs_is_primitive, h2]
  simp only [njs_trap_property_operations, List.mem_cons, List.mem_singleton,
    List.mem_nil_iff, or_false] at hop
  rcases hop with rfl | rfl | rfl | rfl
  · exact njs_vmcode_property_get_no_trap host sz vm v1 v2 hh hsz.1 hp
  · exact njs_vmcode_property_set_no_trap host sz vm v1 v2 value hh hsz.2.1 hp
  · exact njs_vmcode_property_in_no_trap host sz vm v1 v2 hh hsz.2.2 hp
  · exact njs_vmcode_property_delete_no_trap host sz vm v1 v2 hh hsz.2.2 hp

theorem njs_vmcode_restart_slots
    (op : njs_vm_t → njs_value_t → njs_value_t → Option (njs_ret_t × njs_vm_t))
    (vm : njs_vm_t) (frame : njs_native_frame_t) (r : njs_ret_t × njs_vm_t)
    (h : njs_vmcode_restart op vm frame = some r) :
    ∃ v1 v2, frame.values[1]? = some v1 ∧ frame.values[2]? = some v2 ∧
      op vm v1 v2 = some r := by
  unfold njs_vmcode_restart at h
  split at h
  · rename_i v1 v2 h1 h2
    exact ⟨v1, v2, h1, h2, h⟩
  · cases h

theorem njs_vmcode_interpreter_code_restart (lib : njs_lib_t) (flib : njs_function_lib_t)
    (addr1 : Int)
    (op : njs_vm_t → njs_value_t → njs_value_t → Option (njs_ret_t × njs_vm_t))
    (vm : njs_vm_t) (frame : njs_native_frame_t) (calls : List Nat) :
    njs_vmcode_interpreter_code lib flib addr1 op [.restart] vm frame calls =
      (njs_vmcode_restart op vm frame).map (fun r => (r.1, r.2, calls)) := by
  simp only [njs_vmcode_interpreter_code]
  cases njs_vmcode_restart op vm frame with
  | none => rfl
  | some r => rfl

theorem njs_vmcode_interpreter_code_number (lib : njs_lib_t) (flib : njs_function_lib_t)
    (addr1 : Int)
    (op : njs_vm_t → njs_value_t → njs_value_t → Option (njs_ret_t × njs_vm_t))
    (rest : List njs_trap_code_t) (vm vm1 : njs_vm_t) (frame frame1 : njs_native_frame_t)
    (index : Nat) (calls c : List Nat)
    (h : njs_vmcode_number_primitive lib flib addr1 vm frame index =
      some (addr1, vm1, frame1, c)) :
    njs_vmcode_interpreter_code lib flib addr1 op (.number_primitive index :: rest) vm frame
        calls =
      njs_vmcode_interpreter_code lib flib addr1 op rest vm1 frame1 (calls ++ c) := by
  simp only [njs_vmcode_interpreter_code, h, if_true]

theorem njs_vmcode_interpreter_code_string (lib : njs_lib_t) (flib : njs_function_lib_t)
    (addr1 : Int)
    (op : njs_vm_t → njs_value_t → njs_value_t → Option (njs_ret_t × njs_vm_t))
    (rest : List njs_trap_code_t) (vm vm1 : njs_vm_t) (frame frame1 : njs_native_frame_t)
    (index : Nat) (calls c : List Nat)
    (h : njs_vmcode_string_primitive lib flib addr1 vm frame index =
      some (addr1, vm1, frame1, c)) :
    njs_vmcode_interpreter_code lib flib addr1 op (.string_primitive index :: rest) vm frame
        calls =
      njs_vmcode_interpreter_code lib flib addr1 op rest vm1 frame1 (calls ++ c) := by
  simp only [njs_vmcode_interpreter_code, h, if_true]

/-- Claim C34: the rows of `njs_vm_traps` select, for each trap, the conversions named below;
when they have returned the size of their instruction, the slots converted are numeric
(`njs_vmcode_number_primitive`) or Strings (`njs_vmcode_string_primitive`), the run of the
micro-program is the call of `njs_vmcode_restart`, and the operation that it executes again
returns no trap code: after both conversions for every operation that returns
`NJS_TRAP_NUMBERS` or `NJS_TRAP_STRINGS`, after the conversion of the slot 1 for those that
return `NJS_TRAP_NUMBER`, after the conversion of the slot 2, the scalar, for those that
return `NJS_TRAP_INCDEC`, and after the conversion of the slot 2, the property name, for
those that return `NJS_TRAP_PROPERTY`.  The sizes of the instructions are not negative, the
callbacks of the host return no trap code, and `njs_number_to_string` gives a String when it
returns `NXT_OK`. -/
theorem njs_no_second_trap (lib : njs_lib_t) (flib : njs_function_lib_t) (host : njs_host_t)
    (sz : njs_vmcode_sizes) (addr1 addr2 : Int) (value : njs_value_t)
    (hsz : njs_sizes_ok sz addr1 addr2) (hh : njs_host_no_trap host)
    (hlib : ∀ vm v, (lib.njs_number_to_string vm v).1 = NXT_OK →
      njs_is_string (lib.njs_number_to_string vm v).2.2 = true) :
    (njs_vm_traps[(NJS_TRAP_PROPERTY - NJS_TRAP_LAST).toNat]? =
        some (njs_trap_strings.drop 1, false) ∧
      njs_vm_traps[(NJS_TRAP_STRINGS - NJS_TRAP_LAST).toNat]? = some (njs_trap_strings, false) ∧
      njs_vm_traps[(NJS_TRAP_INCDEC - NJS_TRAP_LAST).toNat]? =
        some (njs_trap_numbers.drop 1, true) ∧
      njs_vm_traps[(NJS_TRAP_NUMBERS - NJS_TRAP_LAST).toNat]? = some (njs_trap_numbers, false) ∧
      njs_vm_traps[(NJS_TRAP_NUMBER - NJS_TRAP_LAST).toNat]? = some (njs_trap_number, false)) ∧
    (∀ op ∈ njs_trap_numbers_operations lib sz,
      ∀ (vm vm1 vm2 : njs_vm_t) (frame frame1 frame2 : njs_native_frame_t) (c1 c2 : List Nat),
      njs_vmcode_number_primitive lib flib addr1 vm frame 0 = some (addr1, vm1, frame1, c1) →
      njs_vmcode_number_primitive lib flib addr1 vm1 frame1 1 = some (addr1, vm2, frame2, c2) →
      (∃ v1 v2, frame2.values[1]? = some v1 ∧ frame2.values[2]? = some v2 ∧
        njs_is_numeric v1 = true ∧ njs_is_numeric v2 = true) ∧
      njs_vmcode_interpreter_code lib flib addr1 op njs_trap_numbers vm frame [] =
        (njs_vmcode_restart op vm2 frame2).map (fun r => (r.1, r.2, [] ++ c1 ++ c2)) ∧
      ∀ r, njs_vmcode_restart op vm2 frame2 = some r → njs_is_trap r.1 = false) ∧
    (∀ op ∈ njs_trap_strings_operations lib sz,
      ∀ (vm vm1 vm2 : njs_vm_t) (frame frame1 frame2 : njs_native_frame_t) (c1 c2 : List Nat),
      njs_vmcode_string_primitive lib flib addr1 vm frame 0 = some (addr1, vm1, frame1, c1) →
      njs_vmcode_string_primitive lib flib addr1 vm1 frame1 1 = some (addr1, vm2, frame2, c2) →
      (∃ v1 v2, frame2.values[1]? = some v1 ∧ frame2.values[2]? = some v2 ∧
        njs_is_string v1 = true ∧ njs_is_string v2 = true) ∧
      njs_vmcode_interpreter_code lib flib addr1 op njs_trap_strings vm frame [] =
        (njs_vmcode_restart op vm2 frame2).map (fun r => (r.1, r.2, [] ++ c1 ++ c2)) ∧
      ∀ r, njs_vmcode_restart op vm2 frame2 = some r → njs_is_trap r.1 = false) ∧
    (∀ op ∈ njs_trap_number_operations addr2,
      ∀ (vm vm1 : njs_vm_t) (frame frame1 : njs_native_frame_t) (c1 : List Nat),
      njs_vmcode_number_primitive lib flib addr1 vm frame 0 = some (addr1, vm1, frame1, c1) →
      (∃ v1, frame1.values[1]? = some v1 ∧ njs_is_numeric v1 = true) ∧
      njs_vmcode_interpreter_code lib flib addr1 op njs_trap_number vm frame [] =
        (njs_vmcode_restart op vm1 frame1).map (fun r => (r.1, r.2, [] ++ c1)) ∧
      ∀ r, njs_vmcode_restart op vm1 frame1 = some r → njs_is_trap r.1 = false) ∧
    (∀ op ∈ njs_trap_incdec_operations lib sz,
      ∀ (vm vm1 : njs_vm_t) (frame frame1 : njs_native_frame_t) (c1 : List Nat),
      njs_vmcode_number_primitive lib flib addr1 vm frame 1 = some (addr1, vm1, frame1, c1) →
      (∃ v2, frame1.values[2]? = some v2 ∧ njs_is_numeric v2 = true) ∧
      njs_vmcode_interpreter_code lib flib addr1 op (njs_trap_numbers.drop 1) vm frame [] =
        (njs_vmcode_restart op vm1 frame1).map (fun r => (r.1, r.2, [] ++ c1)) ∧
      ∀ r, njs_vmcode_restart op vm1 frame1 = some r → njs_is_trap r.1 = false) ∧
    (∀ op ∈ njs_trap_property_operations host sz value,
      ∀ (vm vm1 : njs_vm_t) (frame frame1 : njs_native_frame_t) (c1 : List Nat),
      njs_vmcode_string_primitive lib flib addr1 vm frame 1 = some (addr1, vm1, frame1, c1) →
      (∃ v2, frame1.values[2]? = some v2 ∧ njs_is_string v2 = true) ∧
      njs_vmcode_interpreter_code lib flib addr1 op (njs_trap_strings.drop 1) vm frame [] =
        (njs_vmcode_restart op vm1 frame1).map (fun r => (r.1, r.2, [] ++ c1)) ∧
      ∀ r, njs_vmcode_restart op vm1 frame1 = some r → njs_is_trap r.1 = false) := by
  obtain ⟨hget, hset, h3, _, ha1, ha2⟩ := hsz
  refine ⟨⟨by decide, by decide, by decide, by decide, by decide⟩, ?_, ?_, ?_, ?_, ?_⟩
  · intro op hop vm vm1 vm2 frame frame1 frame2 c1 c2 h1 h2
    obtain ⟨⟨v1, hv1, hn1⟩, _⟩ :=
      njs_vmcode_number_primitive_done lib flib addr1 vm vm1 frame frame1 0 c1 ha1 h1
    obtain ⟨⟨v2, hv2, hn2⟩, hkeep⟩ :=
      njs_vmcode_number_primitive_done lib flib addr1 vm1 vm2 frame1 frame2 1 c2 ha1 h2
    have hv1' : frame2.values[1]? = some v1 := by
      rw [hkeep 1 (by decide) (by decide)]; exact hv1
    refine ⟨⟨v1, v2, hv1', hv2, hn1, hn2⟩, ?_, ?_⟩
    · rw [njs_trap_numbers,
        njs_vmcode_interpreter_code_number lib flib addr1 op _ vm vm1 frame frame1 0 [] c1 h1,
        njs_vmcode_interpreter_code_number lib flib addr1 op _ vm1 vm2 frame1 frame2 1 _ c2 h2,
        njs_vmcode_interpreter_code_restart]
    · exact (njs_vmcode_restart_no_trap op vm2 frame2 v1 v2 hv1' hv2
        (njs_trap_numbers_operations_no_trap lib sz vm2 v1 v2 h3 hn1 hn2 op hop)).2
  · intro op hop vm vm1 vm2 frame frame1 frame2 c1 c2 h1 h2
    obtain ⟨⟨v1, hv1, hn1⟩, _⟩ :=
      njs_vmcode_string_primitive_done lib flib addr1 vm vm1 frame frame1 0 c1 ha1 hlib h1
    obtain ⟨⟨v2, hv2, hn2⟩, hkeep⟩ :=
      njs_vmcode_string_primitive_done lib flib addr1 vm1 vm2 frame1 frame2 1 c2 ha1 hlib h2
    have hv1' : frame2.values[1]? = some v1 := by
      rw [hkeep 1 (by decide) (by decide)]; exact hv1
    refine ⟨⟨v1, v2, hv1', hv2, hn1, hn2⟩, ?_, ?_⟩
    · rw [njs_trap_strings,
        njs_vmcode_interpreter_code_string lib flib addr1 op _ vm vm1 frame frame1 0 [] c1 h1,
        njs_vmcode_interpreter_code_string lib flib addr1 op _ vm1 vm2 frame1 frame2 1 _ c2 h2,
        njs_vmcode_interpreter_code_restart]
    · exact (njs_vmcode_restart_no_trap op vm2 frame2 v1 v2 hv1' hv2
        (njs_trap_strings_operations_no_trap lib sz vm2 v1 v2 h3 hn1 hn2 op hop)).2
  · intro op hop vm vm1 frame frame1 c1 h1
    obtain ⟨⟨v1, hv1, hn1⟩, _⟩ :=
      njs_vmcode_number_primitive_done lib flib addr1 vm vm1 frame frame1 0 c1 ha1 h1
    refine ⟨⟨v1, hv1, hn1⟩, ?_, ?_⟩
    · rw [njs_trap_number,
        njs_vmcode_interpreter_code_number lib flib addr1 op _ vm vm1 frame frame1 0 [] c1 h1,
        njs_vmcode_interpreter_code_restart]
    · intro r hr
      obtain ⟨w1, w2, hw1, _, hopr⟩ := njs_vmcode_restart_slots op vm1 frame1 r hr
      rw [hv1] at hw1
      cases hw1
      exact njs_trap_number_operations_no_trap addr2 vm1 v1 w2 ha2 hn1 op hop r hopr
  · intro op hop vm vm1 frame frame1 c1 h1
    obtain ⟨⟨v2, hv2, hn2⟩, _⟩ :=
      njs_vmcode_number_primitive_done lib flib addr1 vm vm1 frame frame1 1 c1 ha1 h1
    refine ⟨⟨v2, hv2, hn2⟩, ?_, ?_⟩
    · have hd : njs_trap_numbers.drop 1 = [.number_primitive 1, .restart] := rfl
      rw [hd,
        njs_vmcode_interpreter_code_number lib flib addr1 op _ vm vm1 frame frame1 1 [] c1 h1,
        njs_vmcode_interpreter_code_restart]
    · intro r hr
      obtain ⟨w1, w2, _, hw2, hopr⟩ := njs_vmcode_restart_slots op vm1 frame1 r hr
      rw [hv2] at hw2
      cases hw2
      exact njs_trap_incdec_operations_no_trap lib sz vm1 w1 v2 h3 hn2 op hop r hopr
  · intro op hop vm vm1 frame frame1 c1 h1
    obtain ⟨⟨v2, hv2, hn2⟩, _⟩ :=
      njs_vmcode_string_primitive_done lib flib addr1 vm vm1 frame frame1 1 c1 ha1 hlib h1
    refine ⟨⟨v2, hv2, hn2⟩, ?_, ?_⟩
    · have hd : njs_trap_strings.drop 1 = [.string_primitive 1, .restart] := rfl
      rw [hd,
        njs_vmcode_interpreter_code_string lib flib addr1 op _ vm vm1 frame frame1 1 [] c1 h1,
        njs_vmcode_interpreter_code_restart]
    · intro r hr
      obtain ⟨w1, w2, _, hw2, hopr⟩ := njs_vmcode_restart_slots op vm1 frame1 r hr
      rw [hv2] at hw2
      cases hw2
      exact njs_trap_property_operations_no_trap host sz value vm1 w1 v2 hh
        ⟨hget, hset, h3⟩ hn2 op hop r hopr

theorem njs_example_lib_number_to_string (vm : njs_vm_t) (v : njs_value_t)
    (h : (njs_example_lib.njs_number_to_string vm v).1 = NXT_OK) :
    njs_is_string (njs_example_lib.njs_number_to_string vm v).2.2 = true := by
  simp only [njs_example_lib] at h ⊢
  split at h
  · split at h
    · rename_i hu hq
      simp only [hu, hq, and_self, if_true]
      rfl
    · exact absurd h (by dsimp only; decide)
  · exact absurd h (by dsimp only; decide)

theorem njs_example_host_no_trap : njs_host_no_trap njs_example_host :=
  ⟨fun _ _ _ => rfl, fun _ => rfl, fun _ _ _ => rfl, fun _ _ _ _ => rfl, fun _ _ _ _ => rfl⟩

set_option maxRecDepth 20000 in
/-- Instance of claim C34: the subtraction of the String `a` and the number 3 returns
`NJS_TRAP_NUMBERS`; the two conversions make the slot 1 the number NaN and leave the number
3, and the subtraction executed again returns the size of the instruction. -/
theorem njs_no_second_trap_witness :
    njs_sizes_ok njs_example_sizes 16 24 ∧
    njs_host_no_trap njs_example_host ∧
    njs_vmcode_substraction njs_example_lib njs_example_sizes (njs_example_vm [] [])
        (njs_string "a") (njs_example_number 3) =
      some (NJS_TRAP_NUMBERS, njs_example_vm [] []) ∧
    njs_vmcode_number_primitive njs_example_lib njs_example_function_lib 16
        (njs_example_vm [] [])
        ⟨0, false, [njs_set_invalid njs_value_void, njs_string "a", njs_example_number 3]⟩ 0 =
      some (16, njs_example_vm [] [],
        ⟨0, false, [njs_set_invalid njs_value_void, njs_number_set_double .nan,
          njs_example_number 3]⟩, []) ∧
    njs_vmcode_number_primitive njs_example_lib njs_example_function_lib 16
        (njs_example_vm [] [])
        ⟨0, false, [njs_set_invalid njs_value_void, njs_number_set_double .nan,
          njs_example_number 3]⟩ 1 =
      some (16, njs_example_vm [] [],
        ⟨0, false, [njs_set_invalid njs_value_void, njs_number_set_double .nan,
          njs_example_number 3]⟩, []) ∧
    njs_vmcode_restart (njs_vmcode_substraction njs_example_lib njs_example_sizes)
        (njs_example_vm [] [])
        ⟨0, false, [njs_set_invalid njs_value_void, njs_number_set_double .nan,
          njs_example_number 3]⟩ =
      some (40, { njs_example_vm [] [] with retval := njs_number_set_double .nan }) ∧
    ∀ r, njs_vmcode_restart (njs_vmcode_substraction njs_example_lib njs_example_sizes)
        (njs_example_vm [] [])
        ⟨0, false, [njs_set_invalid njs_value_void, njs_number_set_double .nan,
          njs_example_number 3]⟩ = some r → njs_is_trap r.1 = false :=
  ⟨by decide, njs_example_host_no_trap, by decide, by decide, by decide, by decide,
    ((njs_no_second_trap njs_example_lib njs_example_function_lib njs_example_host
        njs_example_sizes 16 24 njs_value_void (by decide) njs_example_host_no_trap
        njs_example_lib_number_to_string).2.1
      (njs_vmcode_substraction njs_example_lib njs_example_sizes) (List.mem_cons_self _ _)
      (njs_example_vm [] []) (njs_example_vm [] []) (njs_example_vm [] [])
      ⟨0, false, [njs_set_invalid njs_value_void, njs_string "a", njs_example_number 3]⟩
      ⟨0, false, [njs_set_invalid njs_value_void, njs_number_set_double .nan,
        njs_example_number 3]⟩
      ⟨0, false, [njs_set_invalid njs_value_void, njs_number_set_double .nan,
        njs_example_number 3]⟩
      [] [] (by decide) (by decide)).2.2⟩

end Njs
